import Mathlib

/-! # Pendulum C extensions: calendar helpers and ISO 8601 parser

Shallow embedding of

* `pendulum/_extensions/_helpers.c`  (calendar arithmetic, `timestamp`, `local_time`,
  `precise_diff`), and
* `pendulum/parsing/_iso8601.c`      (`_parse_iso8601_datetime`, `_parse_iso8601_duration`,
  `parse_iso8601`).

Conventions of the embedding.

* A C `int` / `int32_t` value is an `Int`; every arithmetic expression whose C evaluation can
  leave the 32-bit range is reduced with `wrap32` (two's complement, the behaviour of the
  compiled extension).  Because `+`, `-` and `*` commute with reduction modulo `2^32`, one
  `wrap32` around a polynomial expression equals wrapping after each operation; operands of
  `/`, `%` and of comparisons are always wrapped values.  `int64_t` uses `wrap64`.
* C `/` and `%` truncate toward zero: `cdiv`, `cmod`.
* A C truth value is the `Int` 0 or 1.
* A C string is the `List Char` of its bytes before the terminating NUL (ASCII text, one
  byte per character); reading at the end of the list yields the NUL character.
-/

namespace Pendulum

/-! ## Machine integers -/

/-- Two's-complement reduction to the range of a 32-bit `int`. -/
def wrap32 (x : Int) : Int := (x + 2147483648) % 4294967296 - 2147483648

/-- Two's-complement reduction to the range of an `int64_t`. -/
def wrap64 (x : Int) : Int :=
  (x + 9223372036854775808) % 18446744073709551616 - 9223372036854775808

/-- C integer division: truncation toward zero. -/
def cdiv (a b : Int) : Int := Int.tdiv a b

/-- C remainder: sign of the dividend. -/
def cmod (a b : Int) : Int := Int.tmod a b

/-- C truth value of a proposition. -/
def cbool (p : Prop) [Decidable p] : Int := if p then 1 else 0

/-! ## Constants and tables (identical in both C files) -/

def EPOCH_YEAR : Int := 1970
def DAYS_PER_N_YEAR : Int := 365
def DAYS_PER_L_YEAR : Int := 366
def USECS_PER_SEC : Int := 1000000
def SECS_PER_MIN : Int := 60
def SECS_PER_HOUR : Int := 60 * SECS_PER_MIN
def SECS_PER_DAY : Int := SECS_PER_HOUR * 24
def DAYS_PER_400_YEARS : Int := 146097
def SECS_PER_400_YEARS : Int := DAYS_PER_400_YEARS * SECS_PER_DAY

/-- Read entry `i` of row `leap` of a two-row table; rows other than 0 and 1 and columns
outside the row are never read by the code and give 0 here. -/
def table2 (row0 row1 : List Int) (leap i : Int) : Int :=
  if i < 0 then 0
  else if leap = 0 then row0.getD i.toNat 0
  else if leap = 1 then row1.getD i.toNat 0
  else 0

/-- Seconds in an aligned 100-year chunk: not starting / starting with a leap year. -/
def SECS_PER_100_YEARS (leap : Int) : Int :=
  table2 [(76 * DAYS_PER_N_YEAR + 24 * DAYS_PER_L_YEAR) * SECS_PER_DAY]
         [(75 * DAYS_PER_N_YEAR + 25 * DAYS_PER_L_YEAR) * SECS_PER_DAY] leap 0

/-- Seconds in an aligned 4-year chunk: not starting / starting with a leap year. -/
def SECS_PER_4_YEARS (leap : Int) : Int :=
  table2 [(4 * DAYS_PER_N_YEAR + 0 * DAYS_PER_L_YEAR) * SECS_PER_DAY]
         [(3 * DAYS_PER_N_YEAR + 1 * DAYS_PER_L_YEAR) * SECS_PER_DAY] leap 0

/-- Seconds in a non-leap / leap year. -/
def SECS_PER_YEAR (leap : Int) : Int :=
  table2 [DAYS_PER_N_YEAR * SECS_PER_DAY] [DAYS_PER_L_YEAR * SECS_PER_DAY] leap 0

/-- Month lengths in non-leap and leap years (1-based months, entry 0 is -1). -/
def DAYS_PER_MONTHS (leap month : Int) : Int :=
  table2 [-1, 31, 28, 31, 30, 31, 30, 31, 31, 30, 31, 30, 31]
         [-1, 31, 29, 31, 30, 31, 30, 31, 31, 30, 31, 30, 31] leap month

/-- Day offsets of the beginning of each 1-based month in non-leap and leap years. -/
def MONTHS_OFFSETS (leap month : Int) : Int :=
  table2 [-1, 0, 31, 59, 90, 120, 151, 181, 212, 243, 273, 304, 334, 365]
         [-1, 0, 31, 60, 91, 121, 152, 182, 213, 244, 274, 305, 335, 366] leap month

def DAY_OF_WEEK_TABLE (i : Int) : Int :=
  if i < 0 then 0 else ([0, 3, 2, 5, 0, 3, 5, 1, 4, 6, 2, 4] : List Int).getD i.toNat 0

/-! ## Calendar helpers of `_helpers.c` -/

/-- C function `int _p(int y)`. -/
def _p (y : Int) : Int := wrap32 (y + cdiv y 4 - cdiv y 100 + cdiv y 400)

/-- C function `int _is_leap(int year)`. -/
def _is_leap (year : Int) : Int :=
  cbool (cmod year 4 = 0 ∧ (cmod year 100 ≠ 0 ∨ cmod year 400 = 0))

/-- C function `int _is_long_year(int year)`. -/
def _is_long_year (year : Int) : Int :=
  cbool (cmod (_p year) 7 = 4 ∨ cmod (_p (wrap32 (year - 1))) 7 = 3)

/-- C function `int _week_day(int year, int month, int day)`. -/
def _week_day (year month day : Int) : Int :=
  let y := wrap32 (year - cbool (month < 3))
  let w := cmod (wrap32 (_p y + DAY_OF_WEEK_TABLE (wrap32 (month - 1)) + day)) 7
  if w = 0 then 7 else w

/-- C function `int _days_in_year(int year)`. -/
def _days_in_year (year : Int) : Int :=
  if _is_leap year ≠ 0 then DAYS_PER_L_YEAR else DAYS_PER_N_YEAR

/-- C function `int _day_number(int year, int month, int day)`.  After `% 12` the month lies in
`-11 .. 11`, so `month * 306 + 5` cannot overflow. -/
def _day_number (year month day : Int) : Int :=
  let month := cmod (wrap32 (month + 9)) 12
  let year := wrap32 (year - cdiv month 10)
  wrap32 (365 * year + cdiv year 4 - cdiv year 100 + cdiv year 400
          + cdiv (month * 306 + 5) 10 + (day - 1))

/-! ## Calendar helpers of `_iso8601.c` -/

/-- C function `int p(int y)`. -/
def p (y : Int) : Int := wrap32 (y + cdiv y 4 - cdiv y 100 + cdiv y 400)

/-- C function `int is_leap(int year)`. -/
def is_leap (year : Int) : Int :=
  cbool (cmod year 4 = 0 ∧ (cmod year 100 ≠ 0 ∨ cmod year 400 = 0))

/-- C function `int week_day(int year, int month, int day)`. -/
def week_day (year month day : Int) : Int :=
  let y := wrap32 (year - cbool (month < 3))
  let w := cmod (wrap32 (p y + DAY_OF_WEEK_TABLE (wrap32 (month - 1)) + day)) 7
  if w = 0 then 7 else w

/-- C function `int days_in_year(int year)`. -/
def days_in_year (year : Int) : Int :=
  if is_leap year ≠ 0 then DAYS_PER_L_YEAR else DAYS_PER_N_YEAR

/-- C function `int is_long_year(int year)`. -/
def is_long_year (year : Int) : Int :=
  cbool (cmod (p year) 7 = 4 ∨ cmod (p (wrap32 (year - 1))) 7 = 3)

/-! ## Specification-level predicates -/

/-- A proleptic Gregorian date accepted by the helpers: month in 1..12 and day in
1..`DAYS_PER_MONTHS[_is_leap(year)][month]`. -/
def ValidDate (year month day : Int) : Prop :=
  1 ≤ month ∧ month ≤ 12 ∧ 1 ≤ day ∧ day ≤ DAYS_PER_MONTHS (_is_leap year) month

instance (y m d : Int) : Decidable (ValidDate y m d) := by
  unfold ValidDate; infer_instance

/-- Lexicographic (calendar) order on year, month, day. -/
def DateLt (y1 m1 d1 y2 m2 d2 : Int) : Prop :=
  y1 < y2 ∨ (y1 = y2 ∧ (m1 < m2 ∨ (m1 = m2 ∧ d1 < d2)))

instance (y1 m1 d1 y2 m2 d2 : Int) : Decidable (DateLt y1 m1 d1 y2 m2 d2) := by
  unfold DateLt; infer_instance

/-- Specification-level day number in exact integer arithmetic (no machine integers): the
days from 1 March of year 0 to a proleptic Gregorian date, by the March-based formula that
`_day_number` evaluates in `int`, here with unbounded integers. -/
def exact_day_number (year month day : Int) : Int :=
  let m := (month + 9) % 12
  let y := year - m / 10
  365 * y + y / 4 - y / 100 + y / 400 + (m * 306 + 5) / 10 + (day - 1)

/-- Specification-level ISO weekday (Monday = 1 .. Sunday = 7) of a date, from its exact day
number. -/
def exact_week_day (year month day : Int) : Int :=
  (exact_day_number year month day + 2) % 7 + 1

/-- Specification-level exact day number of the Monday that starts ISO week 1 of `year`: the
Monday of the week that contains 4 January. -/
def exact_iso_week1_monday (year : Int) : Int :=
  exact_day_number year 1 4 - (exact_week_day year 1 4 - 1)


/-! ## `timestamp` and `local_time` (`_helpers.c`) -/

/-- A `char *`: the address it holds and the NUL-terminated text stored there. -/
structure CharPtr where
  addr : Nat
  text : List Char
  deriving DecidableEq, Repr

/-- The string literal `""`. -/
def emptyLiteral : CharPtr := ⟨0, []⟩

/-- What the code reads from a `tzinfo` object: the UTF-8 buffer of its `name` attribute,
else of its `zone` attribute (`none` when it has neither), and `utcoffset(dt)` reduced to
`days * SECS_PER_DAY + seconds` as in `_get_offset`. -/
structure TzInfo where
  name : Option CharPtr
  utcoffset : Int
  deriving DecidableEq, Repr

/-- A Python `date` or `datetime` object as seen through the `PyDateTime_*` accessors.
`is_datetime` is `PyDateTime_Check`; the time fields and `tzinfo` are read only from
date-times; `tzinfo = none` is `Py_None` (`hastzinfo = 0`). -/
structure PyDate where
  year : Int
  month : Int
  day : Int
  is_datetime : Bool
  hour : Int
  minute : Int
  second : Int
  microsecond : Int
  tzinfo : Option TzInfo
  deriving DecidableEq, Repr

/-- A Python `date(year, month, day)`. -/
def PyDate.date (y m d : Int) : PyDate := ⟨y, m, d, false, 0, 0, 0, 0, none⟩

/-- A Python `datetime(year, month, day, hour, minute, second, microsecond, tzinfo)`. -/
def PyDate.datetime (y m d h mi s us : Int) (tz : Option TzInfo) : PyDate :=
  ⟨y, m, d, true, h, mi, s, us, tz⟩

/-- C function `int _get_offset(PyObject *dt)`. -/
def _get_offset (dt : PyDate) : Int :=
  match dt.tzinfo with
  | some tz => tz.utcoffset
  | none => 0

/-- C function `int _has_tzinfo(PyObject *dt)`. -/
def _has_tzinfo (dt : PyDate) : Bool := dt.tzinfo.isSome

/-- C function `char *_get_tz_name(PyObject *dt)`. -/
def _get_tz_name (dt : PyDate) : CharPtr :=
  match dt.tzinfo with
  | some tz => match tz.name with
    | some nm => nm
    | none => emptyLiteral
  | none => emptyLiteral

/-- C function `PyObject *timestamp(PyObject *self, PyObject *args)`: the `int64_t result`.  The first
assignment is evaluated in `int`; `floor((double)(year - 1968) / 4)` is the floor quotient,
the two following quotients are C integer divisions. -/
def timestamp (dt : PyDate) : Int :=
  let year := dt.year
  let month := dt.month
  let day := dt.day
  let hour := dt.hour
  let minute := dt.minute
  let second := dt.second
  let result := wrap32 ((year - 1970) * 365 + MONTHS_OFFSETS 0 month)
  let result := wrap64 (result + wrap32 ((wrap32 (year - 1968)) / 4))
  let result := wrap64 (result - cdiv (wrap32 (year - 1900)) 100)
  let result := wrap64 (result + cdiv (wrap32 (year - 1600)) 400)
  let result := if _is_leap year ≠ 0 ∧ month < 3 then wrap64 (result - 1) else result
  let result := wrap64 (result + wrap32 (day - 1))
  let result := wrap64 (result * 24)
  let result := wrap64 (result + hour)
  let result := wrap64 (result * 60)
  let result := wrap64 (result + minute)
  let result := wrap64 (result * 60)
  let result := wrap64 (result + second)
  result

/-- The tuple built by `local_time`. -/
structure LocalTime where
  year : Int
  month : Int
  day : Int
  hour : Int
  minute : Int
  second : Int
  microsecond : Int
  deriving DecidableEq, Repr

/-- The loop `while (seconds >= sec_per_100years) { ... }` of `local_time`, on
`(seconds, year, leap_year)`; `none` when the fuel runs out. -/
def loop_100_years : Nat → Int → Int → Int → Option (Int × Int × Int)
  | 0, _, _, _ => none
  | n + 1, seconds, year, leap_year =>
    if seconds ≥ SECS_PER_100_YEARS leap_year then
      loop_100_years n (wrap64 (seconds - SECS_PER_100_YEARS leap_year)) (wrap32 (year + 100)) 0
    else some (seconds, year, leap_year)

/-- The loop `while (seconds >= sec_per_4years) { ... }` of `local_time`. -/
def loop_4_years : Nat → Int → Int → Int → Option (Int × Int × Int)
  | 0, _, _, _ => none
  | n + 1, seconds, year, leap_year =>
    if seconds ≥ SECS_PER_4_YEARS leap_year then
      loop_4_years n (wrap64 (seconds - SECS_PER_4_YEARS leap_year)) (wrap32 (year + 4)) 1
    else some (seconds, year, leap_year)

/-- The loop `while (seconds >= sec_per_year) { ... }` of `local_time`. -/
def loop_1_year : Nat → Int → Int → Int → Option (Int × Int × Int)
  | 0, _, _, _ => none
  | n + 1, seconds, year, leap_year =>
    if seconds ≥ SECS_PER_YEAR leap_year then
      loop_1_year n (wrap64 (seconds - SECS_PER_YEAR leap_year)) (wrap32 (year + 1)) 0
    else some (seconds, year, leap_year)

/-- The loop `while (month != TM_JANUARY + 1) { ... }` of `local_time`, on `(month, day)`; the
recursion is on the distance of `month` from January. -/
def loop_month (leap_year : Int) : Nat → Int → Int → Int × Int
  | 0, month, day => (month, day)
  | n + 1, month, day =>
    if month ≠ 1 then
      let month_offset := MONTHS_OFFSETS leap_year month
      if day > month_offset then (month, wrap32 (day - month_offset))
      else loop_month leap_year n (wrap32 (month - 1)) day
    else (month, day)

/-- Fuel given to each `while` loop of `local_time`; the loops run at most 3, 24 and 3
times because `seconds` is below `SECS_PER_400_YEARS` when they start. -/
def LOOP_FUEL : Nat := 32

/-- The start of `local_time`, up to the alignment on a 400-year period: from the `double`
argument `unix_time` (a rational number, used only through `(int64_t)floor(unix_time)`) and
the offset to `(seconds, year)` as they stand before the century loop. -/
def align_400_years (unix_time : ℚ) (utc_offset : Int) : Int × Int :=
  let year : Int := EPOCH_YEAR
  let seconds : Int := wrap64 ⌊unix_time⌋
  let year := if seconds ≥ 0 then year + 30 else year - 370
  let seconds :=
    if seconds ≥ 0 then wrap64 (seconds - 10957 * SECS_PER_DAY)
    else wrap64 (seconds + (146097 - 10957) * SECS_PER_DAY)
  let seconds := wrap64 (seconds + utc_offset)
  let year := wrap32 (year + 400 * cdiv seconds SECS_PER_400_YEARS)
  let seconds := cmod seconds SECS_PER_400_YEARS
  let year := if seconds < 0 then wrap32 (year - 400) else year
  let seconds := if seconds < 0 then seconds + SECS_PER_400_YEARS else seconds
  (seconds, year)

/-- The end of `local_time`, after the year loops (`// Handle months and days`,
`// Handle hours, minutes and seconds`): the tuple returned. -/
def civil_fields (seconds year leap_year microsecond : Int) : LocalTime :=
  let day := wrap32 (cdiv seconds SECS_PER_DAY + 1)
  let seconds := cmod seconds SECS_PER_DAY
  let md := loop_month leap_year 12 12 day
  let hour := wrap32 (cdiv seconds SECS_PER_HOUR)
  let seconds := cmod seconds SECS_PER_HOUR
  let minute := wrap32 (cdiv seconds SECS_PER_MIN)
  let second := wrap32 (cmod seconds SECS_PER_MIN)
  ⟨year, md.1, md.2, hour, minute, second, microsecond⟩

/-- C function `PyObject *local_time(PyObject *self, PyObject *args)`: `none` only if a `while` loop
runs out of fuel. -/
def local_time (unix_time : ℚ) (utc_offset microsecond : Int) : Option LocalTime :=
  let a := align_400_years unix_time utc_offset
  match loop_100_years LOOP_FUEL a.1 a.2 1 with
  | none => none
  | some (seconds, year, leap_year) =>
  match loop_4_years LOOP_FUEL seconds year leap_year with
  | none => none
  | some (seconds, year, leap_year) =>
  match loop_1_year LOOP_FUEL seconds year leap_year with
  | none => none
  | some (seconds, year, leap_year) =>
  some (civil_fields seconds year leap_year microsecond)

/-! ## `precise_diff` (`_helpers.c`) -/

/-- The `Diff` object built by `new_diff`. -/
structure Diff where
  years : Int
  months : Int
  days : Int
  hours : Int
  minutes : Int
  seconds : Int
  microseconds : Int
  total_days : Int
  deriving DecidableEq, Repr

/-- The offset normalisation block of `precise_diff` (the same statements are written once
for `dt1` and once for `dt2`): from `(hour, minute, second, day, offset)` to the new
`(hour, minute, second, day)`. -/
def normalize_offset (hour minute second day offset : Int) : Int × Int × Int × Int :=
  let hour := hour - cdiv offset SECS_PER_HOUR
  let offset := cmod offset SECS_PER_HOUR
  let minute := minute - cdiv offset SECS_PER_MIN
  let offset := cmod offset SECS_PER_MIN
  let second := second - offset
  let minute := if second < 0 then minute - 1 else if second > 60 then minute + 1 else minute
  let second := if second < 0 then second + 60 else if second > 60 then second - 60 else second
  let hour := if minute < 0 then hour - 1 else if minute > 60 then hour + 1 else hour
  let minute := if minute < 0 then minute + 60 else if minute > 60 then minute - 60 else minute
  let day := if hour < 0 then day - 1 else if hour > 24 then day + 1 else day
  let hour := if hour < 0 then hour + 24 else if hour > 24 then hour - 24 else hour
  (hour, minute, second, day)

/-- The calendar resolution of a negative day difference in `precise_diff`
(`if (day_diff < 0) { ... }`): from `(day_diff, month_diff)` to their new values. -/
def resolve_days (dt1_day dt2_year dt2_month day_diff month_diff : Int) : Int × Int :=
  if day_diff < 0 then
    let year := if dt2_month = 1 then dt2_year - 1 else dt2_year
    let month := if dt2_month = 1 then 12 else dt2_month - 1
    let leap := _is_leap year
    let days_in_last_month := DAYS_PER_MONTHS leap month
    let days_in_month := DAYS_PER_MONTHS (_is_leap dt2_year) dt2_month
    let r : Int × Int :=
      if day_diff < days_in_month - days_in_last_month then
        if days_in_last_month < dt1_day then (day_diff + dt1_day, month_diff)
        else (day_diff + days_in_last_month, month_diff)
      else if day_diff = days_in_month - days_in_last_month then (0, month_diff + 1)
      else (day_diff + days_in_last_month, month_diff)
    (r.1, r.2 - 1)
  else (day_diff, month_diff)

/-- C function `PyObject *precise_diff(PyObject *self, PyObject *args)`.  The fields of valid Python
dates are small, so no `int` expression here can leave the 32-bit range. -/
def precise_diff (dt1 dt2 : PyDate) : Diff :=
  let sign : Int := 1
  let dt1_year := dt1.year
  let dt2_year := dt2.year
  let dt1_month := dt1.month
  let dt2_month := dt2.month
  let dt1_day := dt1.day
  let dt2_day := dt2.day
  let dt1_is_datetime := dt1.is_datetime
  let dt2_is_datetime := dt2.is_datetime
  let total_days := _day_number dt2_year dt2_month dt2_day - _day_number dt1_year dt1_month dt1_day
  -- if (dt1_is_datetime && dt2_is_datetime) { ... }
  let both := dt1_is_datetime && dt2_is_datetime
  let tz1 := if both && _has_tzinfo dt1 then _get_tz_name dt1 else emptyLiteral
  let dt1_offset := if both && _has_tzinfo dt1 then _get_offset dt1 else 0
  let tz2 := if both && _has_tzinfo dt2 then _get_tz_name dt2 else emptyLiteral
  let dt2_offset := if both && _has_tzinfo dt2 then _get_offset dt2 else 0
  -- in_same_tz = tz1 == tz2 && strncmp(tz1, "", 1)
  let in_same_tz : Bool := both && (tz1.addr == tz2.addr && tz1.text.head? != none)
  -- if (dt1_is_datetime) { ... }
  let n1 : Int × Int × Int × Int :=
    if dt1_is_datetime then
      if (!in_same_tz && dt1_offset != 0) || total_days == 0 then
        normalize_offset dt1.hour dt1.minute dt1.second dt1_day dt1_offset
      else (dt1.hour, dt1.minute, dt1.second, dt1_day)
    else (0, 0, 0, dt1_day)
  let dt1_hour := n1.1
  let dt1_minute := n1.2.1
  let dt1_second := n1.2.2.1
  let dt1_day := n1.2.2.2
  let dt1_microsecond := if dt1_is_datetime then dt1.microsecond else 0
  let dt1_total_seconds :=
    if dt1_is_datetime then dt1_hour * SECS_PER_HOUR + dt1_minute * SECS_PER_MIN + dt1_second
    else 0
  -- if (dt2_is_datetime) { ... }
  let n2 : Int × Int × Int × Int :=
    if dt2_is_datetime then
      if (!in_same_tz && dt2_offset != 0) || total_days == 0 then
        normalize_offset dt2.hour dt2.minute dt2.second dt2_day dt2_offset
      else (dt2.hour, dt2.minute, dt2.second, dt2_day)
    else (0, 0, 0, dt2_day)
  let dt2_hour := n2.1
  let dt2_minute := n2.2.1
  let dt2_second := n2.2.2.1
  let dt2_day := n2.2.2.2
  let dt2_microsecond := if dt2_is_datetime then dt2.microsecond else 0
  let dt2_total_seconds :=
    if dt2_is_datetime then dt2_hour * SECS_PER_HOUR + dt2_minute * SECS_PER_MIN + dt2_second
    else 0
  let dt1_gt_dt2 : Bool :=
    decide (dt1_year > dt2_year
      ∨ (dt1_year = dt2_year ∧ dt1_month > dt2_month)
      ∨ (dt1_year = dt2_year ∧ dt1_month = dt2_month ∧ dt1_day > dt2_day)
      ∨ (dt1_year = dt2_year ∧ dt1_month = dt2_month ∧ dt1_day = dt2_day
          ∧ dt1_total_seconds > dt2_total_seconds)
      ∨ (dt1_year = dt2_year ∧ dt1_month = dt2_month ∧ dt1_day = dt2_day
          ∧ dt1_total_seconds = dt2_total_seconds ∧ dt1_microsecond > dt2_microsecond))
  -- if (dt1_gt_dt2) { swap; sign = -1; re-read the properties }
  let a := if dt1_gt_dt2 then dt2 else dt1
  let b := if dt1_gt_dt2 then dt1 else dt2
  let sign := if dt1_gt_dt2 then -1 else sign
  let dt1_year := if dt1_gt_dt2 then a.year else dt1_year
  let dt2_year := if dt1_gt_dt2 then b.year else dt2_year
  let dt1_month := if dt1_gt_dt2 then a.month else dt1_month
  let dt2_month := if dt1_gt_dt2 then b.month else dt2_month
  let dt1_day := if dt1_gt_dt2 then a.day else dt1_day
  let dt2_day := if dt1_gt_dt2 then b.day else dt2_day
  let s1 := dt1_gt_dt2 && dt2_is_datetime
  let s2 := dt1_gt_dt2 && dt1_is_datetime
  let new_dt1_hour := if s1 then a.hour else dt1_hour
  let new_dt1_minute := if s1 then a.minute else dt1_minute
  let new_dt1_second := if s1 then a.second else dt1_second
  let new_dt1_microsecond := if s1 then a.microsecond else dt1_microsecond
  let new_dt2_hour := if s2 then b.hour else dt2_hour
  let new_dt2_minute := if s2 then b.minute else dt2_minute
  let new_dt2_second := if s2 then b.second else dt2_second
  let new_dt2_microsecond := if s2 then b.microsecond else dt2_microsecond
  let total_days :=
    if dt1_gt_dt2 then
      _day_number dt2_year dt2_month dt2_day - _day_number dt1_year dt1_month dt1_day
    else total_days
  let year_diff := dt2_year - dt1_year
  let month_diff := dt2_month - dt1_month
  let day_diff := dt2_day - dt1_day
  let hour_diff := new_dt2_hour - new_dt1_hour
  let minute_diff := new_dt2_minute - new_dt1_minute
  let second_diff := new_dt2_second - new_dt1_second
  let microsecond_diff := new_dt2_microsecond - new_dt1_microsecond
  let second_diff := if microsecond_diff < 0 then second_diff - 1 else second_diff
  let microsecond_diff :=
    if microsecond_diff < 0 then microsecond_diff + 1000000 else microsecond_diff
  let minute_diff := if second_diff < 0 then minute_diff - 1 else minute_diff
  let second_diff := if second_diff < 0 then second_diff + 60 else second_diff
  let hour_diff := if minute_diff < 0 then hour_diff - 1 else hour_diff
  let minute_diff := if minute_diff < 0 then minute_diff + 60 else minute_diff
  let day_diff := if hour_diff < 0 then day_diff - 1 else day_diff
  let hour_diff := if hour_diff < 0 then hour_diff + 24 else hour_diff
  let dm := resolve_days dt1_day dt2_year dt2_month day_diff month_diff
  let day_diff := dm.1
  let month_diff := dm.2
  let year_diff := if month_diff < 0 then year_diff - 1 else year_diff
  let month_diff := if month_diff < 0 then month_diff + 12 else month_diff
  ⟨year_diff * sign, month_diff * sign, day_diff * sign, hour_diff * sign,
   minute_diff * sign, second_diff * sign, microsecond_diff * sign, total_days * sign⟩


/-! ## ISO 8601 parser (`_iso8601.c`): data -/

def PARSER_INVALID_ISO8601 : Int := 0
def PARSER_INVALID_DATE : Int := 1
def PARSER_INVALID_TIME : Int := 2
def PARSER_INVALID_WEEK_DATE : Int := 3
def PARSER_INVALID_WEEK_NUMBER : Int := 4
def PARSER_INVALID_WEEKDAY_NUMBER : Int := 5
def PARSER_INVALID_ORDINAL_DAY_FOR_YEAR : Int := 6
def PARSER_INVALID_MONTH_OR_DAY : Int := 7
def PARSER_INVALID_MONTH : Int := 8
def PARSER_INVALID_DAY_FOR_MONTH : Int := 9
def PARSER_INVALID_HOUR : Int := 10
def PARSER_INVALID_MINUTE : Int := 11
def PARSER_INVALID_SECOND : Int := 12
def PARSER_INVALID_SUBSECOND : Int := 13
def PARSER_INVALID_TZ_OFFSET : Int := 14
def PARSER_INVALID_DURATION : Int := 15
def PARSER_INVALID_DURATION_FLOAT_YEAR_MONTH_NOT_SUPPORTED : Int := 16

/-- The `Parsed` struct. `tzname` is `none` for `NULL`. -/
structure Parsed where
  is_date : Int
  is_time : Int
  is_datetime : Int
  is_duration : Int
  is_period : Int
  ambiguous : Int
  year : Int
  month : Int
  day : Int
  hour : Int
  minute : Int
  second : Int
  microsecond : Int
  offset : Int
  has_offset : Int
  tzname : Option String
  years : Int
  months : Int
  weeks : Int
  days : Int
  hours : Int
  minutes : Int
  seconds : Int
  microseconds : Int
  error : Int

/-- C function `Parsed* new_parsed()`. -/
def new_parsed : Parsed :=
  { is_date := 0, is_time := 0, is_datetime := 0, is_duration := 0, is_period := 0,
    ambiguous := 0, year := 0, month := 1, day := 1, hour := 0, minute := 0, second := 0,
    microsecond := 0, offset := 0, has_offset := 0, tzname := none,
    years := 0, months := 0, weeks := 0, days := 0, hours := 0, minutes := 0, seconds := 0,
    microseconds := 0, error := -1 }

/-- The NUL character that terminates a C string. -/
def NUL : Char := Char.ofNat 0

/-- The read `*c`: the character under the cursor, NUL at the end of the text. -/
def peek : List Char → Char
  | [] => NUL
  | c :: _ => c

/-- The test `*c >= '0' && *c <= '9'`. -/
def is_digit (c : Char) : Bool := decide ('0' ≤ c ∧ c ≤ '9')

/-- The expression `10 * acc + *c - '0'`, evaluated in `int`. -/
def accumulate (acc : Int) (c : Char) : Int := wrap32 (10 * acc + (c.toNat : Int) - 48)

/-- Ten to the power `k`, for the calls `pow(10, k)`. -/
def pow10 (k : Int) : Int := 10 ^ k.toNat

/-- The subsecond scaling `time / pow(10, i - 6)` (when `i > 6`) or `time * pow(10, 6 - i)`
converted to `int`.  The operands are integers below `2^31` in magnitude, so the `double`
product is exact and the `double` quotient truncates to the integer quotient. -/
def scale_to_micro (value digits : Int) : Int :=
  if digits > 6 then cdiv value (pow10 (digits - 6)) else value * pow10 (6 - digits)

/-! ## `_parse_iso8601_datetime` -/

/-- The loop `for (i = 0; i < 4; i++)` that reads the year: from the cursor and the year
read so far to the year and the cursor after it. -/
def scan_year : Nat → List Char → Int → Except Int (Int × List Char)
  | 0, c, year => .ok (year, c)
  | n + 1, c, year =>
    if is_digit (peek c) then scan_year n c.tail (accumulate year (peek c))
    else .error PARSER_INVALID_ISO8601

/-- The `while` loop of the week-date branch, on `(week, separators, i)`; it returns them
with the cursor where the loop stopped.  Characters other than `-` are accumulated without
a digit test. -/
def scan_week : List Char → Int → Int → Int → Int × Int × Int × List Char
  | [], week, separators, i => (week, separators, i, [])
  | ch :: cs, week, separators, i =>
    if ch = NUL ∨ ch = ' ' ∨ ch = 'T' then (week, separators, i, ch :: cs)
    else if ch = '-' then scan_week cs week (separators + 1) i
    else scan_week cs (accumulate week ch) separators (i + 1)

/-- The `while` loop that reads the month/day digits, on `(monthday, separators, i)`. -/
def scan_monthday : List Char → Int → Int → Int → Except Int (Int × Int × Int × List Char)
  | [], monthday, separators, i => .ok (monthday, separators, i, [])
  | ch :: cs, monthday, separators, i =>
    if ch = NUL ∨ ch = ' ' ∨ ch = 'T' then .ok (monthday, separators, i, ch :: cs)
    else if ch = '-' then scan_monthday cs monthday (separators + 1) i
    else if ¬ is_digit ch then .error PARSER_INVALID_DATE
    else scan_monthday cs (accumulate monthday ch) separators (i + 1)

/-- The `while` loop that reads the time digits, on `(time, separators, i)`. -/
def scan_time : List Char → Int → Int → Int → Except Int (Int × Int × Int × List Char)
  | [], time, separators, i => .ok (time, separators, i, [])
  | ch :: cs, time, separators, i =>
    if ch = NUL ∨ ch = '.' ∨ ch = ',' ∨ ch = 'Z' ∨ ch = '+' ∨ ch = '-' then
      .ok (time, separators, i, ch :: cs)
    else if ch = ':' then scan_time cs time (separators + 1) i
    else if ¬ is_digit ch then .error PARSER_INVALID_TIME
    else scan_time cs (accumulate time ch) separators (i + 1)

/-- The `while` loop that reads the subsecond digits, on `(time, i)`. -/
def scan_subsecond : List Char → Int → Int → Except Int (Int × Int × List Char)
  | [], time, i => .ok (time, i, [])
  | ch :: cs, time, i =>
    if ch = NUL ∨ ch = 'Z' ∨ ch = '+' ∨ ch = '-' then .ok (time, i, ch :: cs)
    else if ¬ is_digit ch then .error PARSER_INVALID_SUBSECOND
    else scan_subsecond cs (accumulate time ch) (i + 1)

/-- The `while (*c != '\0')` loop that reads the offset digits, on `(time, separators, i)`. -/
def scan_tz : List Char → Int → Int → Int → Except Int (Int × Int × Int × List Char)
  | [], time, separators, i => .ok (time, separators, i, [])
  | ch :: cs, time, separators, i =>
    if ch = NUL then .ok (time, separators, i, ch :: cs)
    else if ch = ':' then scan_tz cs time (separators + 1) i
    else if ¬ is_digit ch then .error PARSER_INVALID_TZ_OFFSET
    else scan_tz cs (accumulate time ch) separators (i + 1)

/-- The loop `for (j = 1; j < 14; j++)` that maps an ordinal day to `(day, month)`;
`none` when no `j` matches (the fields are then left unchanged). -/
def ordinal_to_day_month (leap ordinal : Int) : Nat → Int → Option (Int × Int)
  | 0, _ => none
  | n + 1, j =>
    if ordinal ≤ MONTHS_OFFSETS leap j then
      some (wrap32 (ordinal - MONTHS_OFFSETS leap (j - 1)), j - 1)
    else ordinal_to_day_month leap ordinal n (j + 1)

/-- Store the result of the ordinal loop in `parsed->day` and `parsed->month`. -/
def set_day_month (parsed : Parsed) (leap ordinal : Int) : Parsed :=
  match ordinal_to_day_month leap ordinal 13 1 with
  | some (day, month) => { parsed with day := day, month := month }
  | none => parsed

/-- Local variables of `_parse_iso8601_datetime` that are live after the date section. -/
structure DateScan where
  parsed : Parsed
  c : List Char
  leap : Int
  separators : Int
  monthday : Int
  week : Int

/-- The week-date branch (`if (*c == 'W') { ... }`), entered with the cursor on `W`. -/
def week_branch (parsed : Parsed) (c : List Char) (leap separators : Int) :
    Except Int DateScan :=
  let c := c.tail
  let r := scan_week c 0 separators 0
  let week := r.1
  let separators := r.2.1
  let i := r.2.2.1
  let c := r.2.2.2
  if i ≠ 2 ∧ i ≠ 3 then .error PARSER_INVALID_WEEK_DATE
  else if i = 3 ∧ ¬ (separators = 0 ∨ separators = 2) then .error PARSER_INVALID_WEEK_DATE
  else
    let weekday := if i = 3 then cmod week 10 else 1
    let week := if i = 3 then cdiv week 10 else week
    if week > 53 ∨ (week > 52 ∧ is_long_year parsed.year = 0) then
      .error PARSER_INVALID_WEEK_NUMBER
    else if weekday > 7 then .error PARSER_INVALID_WEEKDAY_NUMBER
    else
      let ordinal := wrap32 (week * 7 + weekday - (week_day parsed.year 1 4 + 3))
      let prev := decide (ordinal < 1)
      let ordinal := if prev then wrap32 (ordinal + days_in_year (wrap32 (parsed.year - 1)))
                     else ordinal
      let parsed : Parsed :=
        if prev then { parsed with year := wrap32 (parsed.year - 1) } else parsed
      let leap := if prev then is_leap parsed.year else leap
      let next := decide (ordinal > days_in_year parsed.year)
      let ordinal := if next then wrap32 (ordinal - days_in_year parsed.year) else ordinal
      let parsed : Parsed :=
        if next then { parsed with year := wrap32 (parsed.year + 1) } else parsed
      let leap := if next then is_leap parsed.year else leap
      let parsed := set_day_month parsed leap ordinal
      .ok ⟨parsed, c, leap, separators, 0, week⟩

/-- The calendar/ordinal branch (`else { ... }`). -/
def calendar_branch (parsed : Parsed) (c : List Char) (leap separators : Int) :
    Except Int DateScan :=
  match scan_monthday c 0 separators 0 with
  | .error e => .error e
  | .ok (monthday, separators, i, c) =>
    if i = 0 then .ok ⟨parsed, c, leap, separators, monthday, 0⟩
    else if i = 2 then
      if separators = 0 then
        .ok ⟨{ parsed with ambiguous := 1, month := monthday }, c, leap, separators, monthday, 0⟩
      else if separators > 1 then .error PARSER_INVALID_DATE
      else .ok ⟨{ parsed with month := monthday }, c, leap, separators, monthday, 0⟩
    else if i = 3 then
      if separators > 1 then .error PARSER_INVALID_DATE
      else if monthday < 1 ∨ monthday > MONTHS_OFFSETS leap 13 then
        .error PARSER_INVALID_ORDINAL_DAY_FOR_YEAR
      else .ok ⟨set_day_month parsed leap monthday, c, leap, separators, monthday, 0⟩
    else if i = 4 then
      .ok ⟨{ parsed with month := cdiv monthday 100, day := cmod monthday 100 },
           c, leap, separators, monthday, 0⟩
    else .error PARSER_INVALID_MONTH_OR_DAY

/-- The date section of `_parse_iso8601_datetime`, up to and including the checks on
month and day. -/
def date_section (str : List Char) (parsed : Parsed) : Except Int DateScan :=
  let parsed : Parsed := { parsed with is_date := 1 }
  match scan_year 4 str parsed.year with
  | .error e => .error e
  | .ok (year, c) =>
    let parsed : Parsed := { parsed with year := year }
    let leap := is_leap parsed.year
    let separators : Int := if peek c = '-' then 1 else 0
    let c := if peek c = '-' then c.tail else c
    match (if peek c = 'W' then week_branch parsed c leap separators
           else calendar_branch parsed c leap separators) with
    | .error e => .error e
    | .ok d =>
      if d.separators ≠ 0 ∧ d.monthday = 0 ∧ d.week = 0 then .error PARSER_INVALID_DATE
      else if d.parsed.month > 12 then .error PARSER_INVALID_MONTH
      else if d.parsed.day > DAYS_PER_MONTHS d.leap d.parsed.month then
        .error PARSER_INVALID_DAY_FOR_MONTH
      else .ok d

/-- The timezone part of the time section (`// Timezone`). -/
def tz_section (parsed : Parsed) (c : List Char) : Except Int (Parsed × List Char) :=
  if peek c = 'Z' then
    .ok ({ parsed with has_offset := 1, tzname := some "UTC" }, c.tail)
  else if peek c = '+' ∨ peek c = '-' then
    let tz_sign : Int := if peek c = '-' then -1 else 1
    let parsed : Parsed := { parsed with has_offset := 1 }
    let c := c.tail
    match scan_tz c 0 0 0 with
    | .error e => .error e
    | .ok (time, separators, i, c) =>
      if i = 2 then
        if separators ≠ 0 then .error PARSER_INVALID_TZ_OFFSET
        else .ok ({ parsed with offset := wrap32 (tz_sign * (time * 3600)) }, c)
      else if i = 4 then
        if separators > 1 then .error PARSER_INVALID_TZ_OFFSET
        else .ok ({ parsed with
                    offset := wrap32 (tz_sign * (cdiv time 100 * 3600 + cmod time 100 * 60)) }, c)
      else .error PARSER_INVALID_TZ_OFFSET
  else .ok (parsed, c)

/-- The time section (`if (*c == 'T' || *c == ' ') { ... }`), entered with the cursor on
the `T` or the space. -/
def time_section (parsed : Parsed) (c : List Char) : Except Int (Parsed × List Char) :=
  if parsed.ambiguous ≠ 0 then .error PARSER_INVALID_DATE
  else
    let parsed : Parsed := { parsed with is_datetime := 1, is_date := 0 }
    let c := c.tail
    match scan_time c 0 0 0 with
    | .error e => .error e
    | .ok (time, separators, i, c) =>
      if i ≠ 2 ∧ i ≠ 4 ∧ i ≠ 6 then .error PARSER_INVALID_TIME
      else if i = 2 ∧ separators > 0 then .error PARSER_INVALID_TIME
      else if i = 4 ∧ separators > 1 then .error PARSER_INVALID_TIME
      else if i = 6 ∧ ¬ (separators = 0 ∨ separators = 2) then .error PARSER_INVALID_TIME
      else
        let parsed : Parsed :=
          if i = 2 then { parsed with hour := time }
          else if i = 4 then { parsed with hour := cdiv time 100, minute := cmod time 100 }
          else { parsed with hour := cdiv time 10000, minute := cmod (cdiv time 100) 100,
                             second := cmod time 100 }
        if parsed.hour > 23 then .error PARSER_INVALID_HOUR
        else if parsed.minute > 59 then .error PARSER_INVALID_MINUTE
        else if parsed.second > 59 then .error PARSER_INVALID_SECOND
        else
          let sub : Except Int (Parsed × List Char) :=
            if peek c = '.' ∨ peek c = ',' then
              match scan_subsecond c.tail 0 0 with
              | .error e => .error e
              | .ok (time, i, c) =>
                .ok ({ parsed with microsecond := scale_to_micro time i }, c)
            else .ok (parsed, c)
          match sub with
          | .error e => .error e
          | .ok (parsed, c) => tz_section parsed c

/-- C function `Parsed* _parse_iso8601_datetime(char *str, Parsed *parsed)`: `.error e` stands for
`parsed->error = e; return NULL`. -/
def _parse_iso8601_datetime (str : List Char) (parsed : Parsed) : Except Int Parsed :=
  match date_section str parsed with
  | .error e => .error e
  | .ok d =>
    match (if peek d.c = 'T' ∨ peek d.c = ' ' then time_section d.parsed d.c
           else .ok (d.parsed, d.c)) with
    | .error e => .error e
    | .ok (parsed, c) =>
      if peek c ≠ NUL then .error PARSER_INVALID_ISO8601 else .ok parsed


/-! ## `_parse_iso8601_duration` -/

/-- Number of binary digits of `n`. -/
def bit_length (n : Nat) : Nat := if n = 0 then 0 else Nat.log2 n + 1

/-- Round `n` to `prec` significant binary digits, to nearest with ties to even: the IEEE 754
rounding of a value `n * 2^e` to a format with a `prec`-bit significand, as the multiple of
`2^e` it returns (no overflow or underflow occurs for the values met here). -/
def round_sig (prec n : Nat) : Nat :=
  let b := bit_length n
  if b ≤ prec then n
  else
    let s := b - prec
    let q := n / 2 ^ s
    let r := n % 2 ^ s
    let half := 2 ^ (s - 1)
    (if half < r ∨ (r = half ∧ q % 2 = 1) then q + 1 else q) * 2 ^ s

/-- Conversion of an integral `double` value to `int`; a value outside the `int` range
gives the x86 "integer indefinite" value (the conversion is undefined in ISO C). -/
def double_to_int (x : Int) : Int :=
  if -2147483648 ≤ x ∧ x ≤ 2147483647 then x else -2147483648

/-- The conversion `(int)(fraction * 2.4)`: the `double` nearest to 2.4 is `5404319552844595 * 2^-51`;
the product is rounded to 53 bits and truncated toward zero. -/
def times_2_4 (fraction : Int) : Int :=
  let n := round_sig 53 (fraction.natAbs * 5404319552844595)
  let t : Int := ((n / 2 ^ 51 : Nat) : Int)
  double_to_int (if fraction < 0 then -t else t)

/-- The value `float days = fraction * 0.7`, as a multiple of `2^-53` (magnitude only): the `double`
nearest to 0.7 is `6305039478318694 * 2^-53`; the product is rounded to `double` and then
to `float` (24 bits). -/
def week_days_float (fraction : Int) : Nat :=
  round_sig 24 (round_sig 53 (fraction.natAbs * 6305039478318694))

/-- The value `(int) days` for the week fraction. -/
def week_days (fraction : Int) : Int :=
  let t : Int := ((week_days_float fraction / 2 ^ 53 : Nat) : Int)
  double_to_int (if fraction < 0 then -t else t)

/-- The value `(int) ((days - (int) days) * 24)` for the week fraction, in `float` arithmetic: the
subtraction is exact, the product is rounded to 24 bits. -/
def week_hours (fraction : Int) : Int :=
  let frac := week_days_float fraction % 2 ^ 53
  let t : Int := ((round_sig 24 (frac * 24) / 2 ^ 53 : Nat) : Int)
  if fraction < 0 then -t else t

/-- Local variables of `_parse_iso8601_duration` together with the result struct. -/
structure DurationScan where
  parsed : Parsed
  value : Int
  grabbed : Int
  in_time : Int
  in_fraction : Int
  fraction_length : Int
  has_fractional : Int
  fraction : Int
  has_ymd : Int
  has_week : Int
  has_year : Int
  has_month : Int
  has_day : Int
  has_hour : Int
  has_minute : Int
  has_second : Int

/-- The local variables at the start of `_parse_iso8601_duration`, after
`parsed->is_duration = 1`. -/
def duration_init (parsed : Parsed) : DurationScan :=
  { parsed := { parsed with is_duration := 1 },
    value := 0, grabbed := 0, in_time := 0, in_fraction := 0, fraction_length := 0,
    has_fractional := 0, fraction := 0, has_ymd := 0, has_week := 0, has_year := 0,
    has_month := 0, has_day := 0, has_hour := 0, has_minute := 0, has_second := 0 }

/-- The four assignments `grabbed = 0; value = 0; fraction = 0; in_fraction = 0;` that end
every unit designator case. -/
def reset_number (s : DurationScan) : DurationScan :=
  { s with grabbed := 0, value := 0, fraction := 0, in_fraction := 0 }

/-- One iteration of the `for (; *c != '\0'; c++) switch (*c)` loop. -/
def duration_step (s : DurationScan) (ch : Char) : Except Int DurationScan :=
  if ch = 'Y' then
    if s.grabbed = 0 ∨ s.in_time ≠ 0 ∨ s.has_week ≠ 0 ∨ s.has_ymd ≠ 0 then
      .error PARSER_INVALID_DURATION
    else if s.fraction ≠ 0 then
      .error PARSER_INVALID_DURATION_FLOAT_YEAR_MONTH_NOT_SUPPORTED
    else
      let s : DurationScan := { s with parsed := { s.parsed with years := s.value } }
      .ok { reset_number s with has_ymd := 1, has_year := 1 }
  else if ch = 'M' then
    if s.grabbed = 0 ∨ s.has_week ≠ 0 then .error PARSER_INVALID_DURATION
    else if s.in_time ≠ 0 then
      if s.has_second ≠ 0 then .error PARSER_INVALID_DURATION
      else if s.has_fractional ≠ 0 then .error PARSER_INVALID_DURATION
      else
        let parsed : Parsed := { s.parsed with minutes := s.value }
        let parsed : Parsed :=
          if s.fraction ≠ 0 then { parsed with seconds := wrap32 (s.fraction * 6) } else parsed
        let has_fractional := if s.fraction ≠ 0 then 1 else s.has_fractional
        let s : DurationScan :=
          { s with parsed := parsed, has_fractional := has_fractional, has_minute := 1 }
        .ok (reset_number s)
    else
      if s.fraction ≠ 0 then .error PARSER_INVALID_DURATION_FLOAT_YEAR_MONTH_NOT_SUPPORTED
      else if s.has_month ≠ 0 ∨ s.has_day ≠ 0 then .error PARSER_INVALID_DURATION
      else
        let s : DurationScan :=
          { s with parsed := { s.parsed with months := s.value }, has_ymd := 1, has_month := 1 }
        .ok (reset_number s)
  else if ch = 'D' then
    if s.grabbed = 0 ∨ s.in_time ≠ 0 ∨ s.has_week ≠ 0 then .error PARSER_INVALID_DURATION
    else if s.has_day ≠ 0 then .error PARSER_INVALID_DURATION
    else
      let parsed : Parsed := { s.parsed with days := s.value }
      let parsed : Parsed :=
        if s.fraction ≠ 0 then { parsed with hours := times_2_4 s.fraction } else parsed
      let has_fractional := if s.fraction ≠ 0 then 1 else s.has_fractional
      let s : DurationScan := { s with parsed := parsed, has_fractional := has_fractional }
      .ok { reset_number s with has_ymd := 1, has_day := 1 }
  else if ch = 'T' then
    if s.grabbed ≠ 0 then .error PARSER_INVALID_DURATION
    else .ok { s with in_time := 1 }
  else if ch = 'H' then
    if s.grabbed = 0 ∨ s.in_time = 0 ∨ s.has_week ≠ 0 then .error PARSER_INVALID_DURATION
    else if s.has_hour ≠ 0 ∨ s.has_second ≠ 0 ∨ s.has_minute ≠ 0 then
      .error PARSER_INVALID_DURATION
    else if s.has_fractional ≠ 0 then .error PARSER_INVALID_DURATION
    else
      let parsed : Parsed := { s.parsed with hours := s.value }
      let parsed : Parsed :=
        if s.fraction ≠ 0 then { parsed with minutes := wrap32 (s.fraction * 6) } else parsed
      let has_fractional := if s.fraction ≠ 0 then 1 else s.has_fractional
      let s : DurationScan := { s with parsed := parsed, has_fractional := has_fractional }
      .ok { reset_number s with has_hour := 1 }
  else if ch = 'S' then
    if s.grabbed = 0 ∨ s.in_time = 0 ∨ s.has_week ≠ 0 then .error PARSER_INVALID_DURATION
    else if s.has_second ≠ 0 then .error PARSER_INVALID_DURATION
    else if s.has_fractional ≠ 0 then .error PARSER_INVALID_DURATION
    else
      let parsed : Parsed := { s.parsed with seconds := s.value }
      let parsed : Parsed :=
        if s.fraction ≠ 0 then
          { parsed with microseconds := scale_to_micro s.fraction s.fraction_length }
        else parsed
      let has_fractional := if s.fraction ≠ 0 then 1 else s.has_fractional
      let s : DurationScan := { s with parsed := parsed, has_fractional := has_fractional }
      .ok { reset_number s with has_second := 1 }
  else if ch = 'W' then
    if s.grabbed = 0 ∨ s.in_time ≠ 0 ∨ s.has_ymd ≠ 0 then .error PARSER_INVALID_DURATION
    else
      let parsed : Parsed := { s.parsed with weeks := s.value }
      let parsed : Parsed :=
        if s.fraction ≠ 0 then
          { parsed with hours := week_hours s.fraction, days := week_days s.fraction }
        else parsed
      let s : DurationScan := { s with parsed := parsed }
      .ok { reset_number s with has_week := 1 }
  else if ch = '.' ∨ ch = ',' then
    if s.grabbed = 0 ∨ s.has_fractional ≠ 0 then .error PARSER_INVALID_DURATION
    else .ok { s with in_fraction := 1 }
  else if is_digit ch then
    if s.in_fraction ≠ 0 then
      .ok { s with fraction := accumulate s.fraction ch,
                   fraction_length := s.fraction_length + 1 }
    else .ok { s with value := accumulate s.value ch, grabbed := 1 }
  else .error PARSER_INVALID_DURATION

/-- The `for (; *c != '\0'; c++)` loop. -/
def duration_loop : List Char → DurationScan → Except Int DurationScan
  | [], s => .ok s
  | ch :: cs, s =>
    if ch = NUL then .ok s
    else
      match duration_step s ch with
      | .error e => .error e
      | .ok s => duration_loop cs s

/-- C function `Parsed* _parse_iso8601_duration(char *str, Parsed *parsed)`; the first character (the
`P`) is skipped without being looked at. -/
def _parse_iso8601_duration (str : List Char) (parsed : Parsed) : Except Int Parsed :=
  match duration_loop str.tail (duration_init parsed) with
  | .error e => .error e
  | .ok s => .ok s.parsed


/-! ## `parse_iso8601` -/

/-- The `FixedOffset` object built by `new_fixed_offset(offset, name)`; `tzname = none` is a
`NULL` name. -/
structure FixedOffset where
  offset : Int
  tzname : Option String
  deriving DecidableEq, Repr

/-- The Python object returned by `parse_iso8601`.  The cases `time`, `date` and `datetime`
stand for the objects built by the CPython constructors `Time_FromTime`, `Date_FromDate` and
`DateTime_FromDateAndTime` from arguments that they have accepted; `tzinfo = none` is
Python's `None`.  The case `duration` is the extension's own `Duration` object built by
`new_duration`. -/
inductive PyResult where
  | time (hour minute second microsecond : Int)
  | date (year month day : Int)
  | datetime (year month day hour minute second microsecond : Int) (tzinfo : Option FixedOffset)
  | duration (years months weeks days hours minutes seconds microseconds : Int)
  deriving DecidableEq, Repr

/-- How `parse_iso8601` fails: with a `ValueError` whose message is `PARSER_ERRORS[code]`, by
returning `NULL` with no exception set, or with the `ValueError` of a CPython constructor that
refuses its arguments (for instance `hour must be in 0..23` or `year 0 is out of range`);
the constructor returns `NULL` and `parse_iso8601` returns that. -/
inductive PyFailure where
  | ValueError (code : Int)
  | null
  | ConstructorError
  deriving DecidableEq, Repr

/-- The argument check of the CPython constructors of `date` and `datetime`
(`check_date_args` of the host runtime; the runtime is not part of the extension, its check
is the documented one): `MINYEAR = 1 <= year <= MAXYEAR = 9999`, `1 <= month <= 12` and
`1 <= day <=` the length of the month in the proleptic Gregorian calendar, which is
`DAYS_PER_MONTHS[_is_leap(year)][month]`. -/
def check_date_args (year month day : Int) : Prop :=
  1 ≤ year ∧ year ≤ 9999 ∧ ValidDate year month day

instance (y m d : Int) : Decidable (check_date_args y m d) := by
  unfold check_date_args; infer_instance

/-- The argument check of the CPython constructors of `time` and `datetime`
(`check_time_args` of the host runtime): `0 <= hour <= 23`, `0 <= minute <= 59`,
`0 <= second <= 59`, `0 <= microsecond <= 999999`. -/
def check_time_args (hour minute second microsecond : Int) : Prop :=
  0 ≤ hour ∧ hour ≤ 23 ∧ 0 ≤ minute ∧ minute ≤ 59 ∧
  0 ≤ second ∧ second ≤ 59 ∧ 0 ≤ microsecond ∧ microsecond ≤ 999999

instance (h m s us : Int) : Decidable (check_time_args h m s us) := by
  unfold check_time_args; infer_instance

/-- The call `PyDateTimeAPI->Time_FromTime(hour, minute, second, usecond, None, TimeType)`:
the `time` object, or `NULL` when the arguments are out of range. -/
def Time_FromTime (hour minute second usecond : Int) : Except PyFailure PyResult :=
  if check_time_args hour minute second usecond then .ok (.time hour minute second usecond)
  else .error .ConstructorError

/-- The call `PyDateTimeAPI->Date_FromDate(year, month, day, DateType)`: the `date` object, or
`NULL` when the arguments are out of range. -/
def Date_FromDate (year month day : Int) : Except PyFailure PyResult :=
  if check_date_args year month day then .ok (.date year month day)
  else .error .ConstructorError

/-- The call `PyDateTimeAPI->DateTime_FromDateAndTime(year, ..., usecond, tzinfo,
DateTimeType)`: the `datetime` object, or `NULL` when the arguments are out of range.  The
`tzinfo` passed is `None` or a `FixedOffset`, whose type derives from the host `tzinfo`
type, so the constructor accepts it. -/
def DateTime_FromDateAndTime (year month day hour minute second usecond : Int)
    (tzinfo : Option FixedOffset) : Except PyFailure PyResult :=
  if check_date_args year month day ∧ check_time_args hour minute second usecond then
    .ok (.datetime year month day hour minute second usecond tzinfo)
  else .error .ConstructorError

/-- C function `PyObject* parse_iso8601(PyObject *self, PyObject *args)`, applied to the text
that `PyArg_ParseTuple(args, "s", &str)` extracts.  The object returned is the one that the
constructor called at the end returns, `NULL` included. -/
def parse_iso8601 (str : List Char) : Except PyFailure PyResult :=
  let parsed := new_parsed
  let r := if peek str = 'P' then _parse_iso8601_duration str parsed
           else _parse_iso8601_datetime str parsed
  match r with
  | .error e => .error (.ValueError e)
  | .ok parsed =>
    if parsed.is_date ≠ 0 then
      if parsed.ambiguous ≠ 0 then
        let parsed : Parsed :=
          { parsed with hour := cdiv parsed.year 100, minute := cmod parsed.year 100,
                        second := parsed.month }
        Time_FromTime parsed.hour parsed.minute parsed.second parsed.microsecond
      else Date_FromDate parsed.year parsed.month parsed.day
    else if parsed.is_datetime ≠ 0 then
      let tzinfo : Option FixedOffset :=
        if parsed.has_offset = 0 then none else some ⟨parsed.offset, parsed.tzname⟩
      DateTime_FromDateAndTime parsed.year parsed.month parsed.day parsed.hour parsed.minute
        parsed.second parsed.microsecond tzinfo
    else if parsed.is_duration ≠ 0 then
      .ok (.duration parsed.years parsed.months parsed.weeks parsed.days parsed.hours
             parsed.minutes parsed.seconds parsed.microseconds)
    else .error .null


/-! ## Texts used in the statements -/

/-- The ASCII digit for `d` (taken modulo 10). -/
def digit_char (d : Nat) : Char := Char.ofNat (48 + d % 10)

/-- The decimal text of `n`, zero-padded (or cut) to exactly `k` digits. -/
def zero_padded : Nat → Nat → List Char
  | 0, _ => []
  | k + 1, n => zero_padded k (n / 10) ++ [digit_char n]

/-- The extended UTC text `YYYY-MM-DDThh:mm:ssZ`. -/
def utc_text (Y M D h m s : Nat) : List Char :=
  zero_padded 4 Y ++ '-' :: zero_padded 2 M ++ '-' :: zero_padded 2 D ++ 'T' ::
    zero_padded 2 h ++ ':' :: zero_padded 2 m ++ ':' :: zero_padded 2 s ++ ['Z']

/-- The extended week-date text `YYYY-Www-k`. -/
def week_text (Y w k : Nat) : List Char :=
  zero_padded 4 Y ++ ['-', 'W'] ++ zero_padded 2 w ++ ['-'] ++ zero_padded 1 k

/-- The decimal text of `n` (no leading zeros, `0` for zero). -/
def decimal (n : Nat) : List Char := Nat.toDigits 10 n

/-- A number followed by its unit designator, or nothing when the group is left out. -/
def duration_group (v : Option Nat) (designator : Char) : List Char :=
  match v with
  | none => []
  | some n => decimal n ++ [designator]

/-- The duration text `P[y]Y[mo]M[d]DT[h]H[mi]M[s]S` with any of the six groups left out;
`T` is written exactly when a time group remains. -/
def duration_text (y mo d h mi s : Option Nat) : List Char :=
  'P' :: (duration_group y 'Y' ++ duration_group mo 'M' ++ duration_group d 'D'
    ++ (if h.isSome ∨ mi.isSome ∨ s.isSome then ['T'] else [])
    ++ duration_group h 'H' ++ duration_group mi 'M' ++ duration_group s 'S')

/-- Every character of the text is an ASCII digit. -/
def IsDigitStr (ds : List Char) : Prop := ∀ c ∈ ds, is_digit c = true

instance (ds : List Char) : Decidable (IsDigitStr ds) := by
  unfold IsDigitStr; infer_instance

/-- The extended calendar-date text `YYYY-MM-DD`. -/
def date_text (Y M D : Nat) : List Char :=
  zero_padded 4 Y ++ ('-' :: (zero_padded 2 M ++ ('-' :: zero_padded 2 D)))

/-- The extended ordinal-date text `YYYY-nnn`. -/
def ordinal_text (Y n : Nat) : List Char := zero_padded 4 Y ++ ('-' :: zero_padded 3 n)

/-- The basic ordinal-date text `YYYYnnn`. -/
def ordinal_text_basic (Y n : Nat) : List Char := zero_padded 4 Y ++ zero_padded 3 n

/-- The extended week text `YYYY-Www` without a weekday. -/
def week_only_text (Y w : Nat) : List Char := zero_padded 4 Y ++ ('-' :: 'W' :: zero_padded 2 w)

/-- The extended date-time text `YYYY-MM-DDThh:mm:ss`, without fraction or zone. -/
def datetime_text (Y M D h m s : Nat) : List Char :=
  zero_padded 4 Y ++ ('-' :: (zero_padded 2 M ++ ('-' :: (zero_padded 2 D ++ ('T' ::
    (zero_padded 2 h ++ (':' :: (zero_padded 2 m ++ (':' :: zero_padded 2 s)))))))))

/-- One step of reading a decimal number: append the digit `c` to the value `a`. -/
def digit_step (a : Nat) (c : Char) : Nat := 10 * a + (c.toNat - 48)

/-- The value of a digit string read as a decimal number. -/
def digits_value (ds : List Char) : Nat := ds.foldl digit_step 0

/-- The integer formed by the first six digits of `f`, right-padded with zeros when `f` has
fewer than six digits. -/
def first_six_digits (f : List Char) : Nat := digits_value ((f ++ List.replicate 6 '0').take 6)

/-- The basic time text `hhmmss`. -/
def time_text_basic (h m s : Nat) : List Char :=
  zero_padded 2 h ++ (zero_padded 2 m ++ zero_padded 2 s)

/-- The sign of a zone offset: -1 for `-`, +1 otherwise. -/
def zone_sign (x : Char) : Int := if x = '-' then -1 else 1

/-! ## Specification-level calendar steps -/

/-- The calendar day after `(y, m, d)`: the next day of the month, else the first day of the
next month (the month length taken from `DAYS_PER_MONTHS` and `_is_leap`), else 1 January of
the next year. -/
def next_day (y m d : Int) : Int × Int × Int :=
  if d < DAYS_PER_MONTHS (_is_leap y) m then (y, m, d + 1)
  else if m < 12 then (y, m + 1, 1)
  else (y + 1, 1, 1)

/-- The date `k` days after `(y, m, d)`, reached by `k` steps of `next_day`. -/
def days_after : Nat → Int → Int → Int → Int × Int × Int
  | 0, y, m, d => (y, m, d)
  | k + 1, y, m, d =>
    let t := days_after k y m d
    next_day t.1 t.2.1 t.2.2

/-! ## `precise_diff`: the statements after the swap, and naive inputs -/

/-- The four borrow steps of `precise_diff` (`if (microsecond_diff < 0) { ... }` to
`if (hour_diff < 0) { ... }`): from the raw differences to
`(day_diff, hour_diff, minute_diff, second_diff, microsecond_diff)`. -/
def borrow_time (day_diff hour_diff minute_diff second_diff microsecond_diff : Int) :
    Int × Int × Int × Int × Int :=
  let second_diff := if microsecond_diff < 0 then second_diff - 1 else second_diff
  let microsecond_diff :=
    if microsecond_diff < 0 then microsecond_diff + 1000000 else microsecond_diff
  let minute_diff := if second_diff < 0 then minute_diff - 1 else minute_diff
  let second_diff := if second_diff < 0 then second_diff + 60 else second_diff
  let hour_diff := if minute_diff < 0 then hour_diff - 1 else hour_diff
  let minute_diff := if minute_diff < 0 then minute_diff + 60 else minute_diff
  let day_diff := if hour_diff < 0 then day_diff - 1 else day_diff
  let hour_diff := if hour_diff < 0 then hour_diff + 24 else hour_diff
  (day_diff, hour_diff, minute_diff, second_diff, microsecond_diff)

/-- The statements of `precise_diff` that follow the swap (`year_diff = dt2_year - dt1_year;`
to `return new_diff(...)`), as a function of the sign, of the fields of both arguments as they
stand at that point, and of `total_days`; `precise_diff` contains the same statements inline. -/
def diff_fields (sign dt1_year dt1_month dt1_day dt1_hour dt1_minute dt1_second
    dt1_microsecond dt2_year dt2_month dt2_day dt2_hour dt2_minute dt2_second
    dt2_microsecond total_days : Int) : Diff :=
  let year_diff := dt2_year - dt1_year
  let month_diff := dt2_month - dt1_month
  let day_diff := dt2_day - dt1_day
  let hour_diff := dt2_hour - dt1_hour
  let minute_diff := dt2_minute - dt1_minute
  let second_diff := dt2_second - dt1_second
  let microsecond_diff := dt2_microsecond - dt1_microsecond
  let t := borrow_time day_diff hour_diff minute_diff second_diff microsecond_diff
  let dm := resolve_days dt1_day dt2_year dt2_month t.1 month_diff
  let day_diff := dm.1
  let month_diff := dm.2
  let year_diff := if month_diff < 0 then year_diff - 1 else year_diff
  let month_diff := if month_diff < 0 then month_diff + 12 else month_diff
  ⟨year_diff * sign, month_diff * sign, day_diff * sign, t.2.1 * sign,
   t.2.2.1 * sign, t.2.2.2.1 * sign, t.2.2.2.2 * sign, total_days * sign⟩

/-- The values that `precise_diff` has computed when it reaches `year_diff = ...`: the sign,
the fields of both arguments (after the optional normalisation and the swap) and
`total_days`. -/
structure DiffInputs where
  sign : Int
  dt1_year : Int
  dt1_month : Int
  dt1_day : Int
  dt1_hour : Int
  dt1_minute : Int
  dt1_second : Int
  dt1_microsecond : Int
  dt2_year : Int
  dt2_month : Int
  dt2_day : Int
  dt2_hour : Int
  dt2_minute : Int
  dt2_second : Int
  dt2_microsecond : Int
  total_days : Int

/-- The statements of `precise_diff` up to and including the swap (`if (dt1_gt_dt2) { ... }`);
`precise_diff` contains the same statements inline. -/
def diff_inputs (dt1 dt2 : PyDate) : DiffInputs :=
  let sign : Int := 1
  let dt1_year := dt1.year
  let dt2_year := dt2.year
  let dt1_month := dt1.month
  let dt2_month := dt2.month
  let dt1_day := dt1.day
  let dt2_day := dt2.day
  let dt1_is_datetime := dt1.is_datetime
  let dt2_is_datetime := dt2.is_datetime
  let total_days := _day_number dt2_year dt2_month dt2_day - _day_number dt1_year dt1_month dt1_day
  let both := dt1_is_datetime && dt2_is_datetime
  let tz1 := if both && _has_tzinfo dt1 then _get_tz_name dt1 else emptyLiteral
  let dt1_offset := if both && _has_tzinfo dt1 then _get_offset dt1 else 0
  let tz2 := if both && _has_tzinfo dt2 then _get_tz_name dt2 else emptyLiteral
  let dt2_offset := if both && _has_tzinfo dt2 then _get_offset dt2 else 0
  let in_same_tz : Bool := both && (tz1.addr == tz2.addr && tz1.text.head? != none)
  let n1 : Int × Int × Int × Int :=
    if dt1_is_datetime then
      if (!in_same_tz && dt1_offset != 0) || total_days == 0 then
        normalize_offset dt1.hour dt1.minute dt1.second dt1_day dt1_offset
      else (dt1.hour, dt1.minute, dt1.second, dt1_day)
    else (0, 0, 0, dt1_day)
  let dt1_hour := n1.1
  let dt1_minute := n1.2.1
  let dt1_second := n1.2.2.1
  let dt1_day := n1.2.2.2
  let dt1_microsecond := if dt1_is_datetime then dt1.microsecond else 0
  let dt1_total_seconds :=
    if dt1_is_datetime then dt1_hour * SECS_PER_HOUR + dt1_minute * SECS_PER_MIN + dt1_second
    else 0
  let n2 : Int × Int × Int × Int :=
    if dt2_is_datetime then
      if (!in_same_tz && dt2_offset != 0) || total_days == 0 then
        normalize_offset dt2.hour dt2.minute dt2.second dt2_day dt2_offset
      else (dt2.hour, dt2.minute, dt2.second, dt2_day)
    else (0, 0, 0, dt2_day)
  let dt2_hour := n2.1
  let dt2_minute := n2.2.1
  let dt2_second := n2.2.2.1
  let dt2_day := n2.2.2.2
  let dt2_microsecond := if dt2_is_datetime then dt2.microsecond else 0
  let dt2_total_seconds :=
    if dt2_is_datetime then dt2_hour * SECS_PER_HOUR + dt2_minute * SECS_PER_MIN + dt2_second
    else 0
  let dt1_gt_dt2 : Bool :=
    decide (dt1_year > dt2_year
      ∨ (dt1_year = dt2_year ∧ dt1_month > dt2_month)
      ∨ (dt1_year = dt2_year ∧ dt1_month = dt2_month ∧ dt1_day > dt2_day)
      ∨ (dt1_year = dt2_year ∧ dt1_month = dt2_month ∧ dt1_day = dt2_day
          ∧ dt1_total_seconds > dt2_total_seconds)
      ∨ (dt1_year = dt2_year ∧ dt1_month = dt2_month ∧ dt1_day = dt2_day
          ∧ dt1_total_seconds = dt2_total_seconds ∧ dt1_microsecond > dt2_microsecond))
  let a := if dt1_gt_dt2 then dt2 else dt1
  let b := if dt1_gt_dt2 then dt1 else dt2
  let sign := if dt1_gt_dt2 then -1 else sign
  let dt1_year := if dt1_gt_dt2 then a.year else dt1_year
  let dt2_year := if dt1_gt_dt2 then b.year else dt2_year
  let dt1_month := if dt1_gt_dt2 then a.month else dt1_month
  let dt2_month := if dt1_gt_dt2 then b.month else dt2_month
  let dt1_day := if dt1_gt_dt2 then a.day else dt1_day
  let dt2_day := if dt1_gt_dt2 then b.day else dt2_day
  let s1 := dt1_gt_dt2 && dt2_is_datetime
  let s2 := dt1_gt_dt2 && dt1_is_datetime
  let new_dt1_hour := if s1 then a.hour else dt1_hour
  let new_dt1_minute := if s1 then a.minute else dt1_minute
  let new_dt1_second := if s1 then a.second else dt1_second
  let new_dt1_microsecond := if s1 then a.microsecond else dt1_microsecond
  let new_dt2_hour := if s2 then b.hour else dt2_hour
  let new_dt2_minute := if s2 then b.minute else dt2_minute
  let new_dt2_second := if s2 then b.second else dt2_second
  let new_dt2_microsecond := if s2 then b.microsecond else dt2_microsecond
  let total_days :=
    if dt1_gt_dt2 then
      _day_number dt2_year dt2_month dt2_day - _day_number dt1_year dt1_month dt1_day
    else total_days
  ⟨sign, dt1_year, dt1_month, dt1_day, new_dt1_hour, new_dt1_minute, new_dt1_second,
   new_dt1_microsecond, dt2_year, dt2_month, dt2_day, new_dt2_hour, new_dt2_minute,
   new_dt2_second, new_dt2_microsecond, total_days⟩

/-- The time of day of a date-time in microseconds; 0 for a date. -/
def time_of_day_us (dt : PyDate) : Int :=
  if dt.is_datetime then
    (dt.hour * 3600 + dt.minute * 60 + dt.second) * 1000000 + dt.microsecond
  else 0

/-- The civil instant `a` is not later than `b`: calendar order, then time of day. -/
def NotLater (a b : PyDate) : Prop :=
  DateLt a.year a.month a.day b.year b.month b.day ∨
  (a.year = b.year ∧ a.month = b.month ∧ a.day = b.day ∧ time_of_day_us a ≤ time_of_day_us b)

instance (a b : PyDate) : Decidable (NotLater a b) := by
  unfold NotLater; infer_instance

/-- A valid timezone-naive input of `precise_diff`: a Python `date`, or a `datetime` without
`tzinfo`, with the field ranges that Python guarantees. -/
def ValidNaive (dt : PyDate) : Prop :=
  1 ≤ dt.year ∧ dt.year ≤ 9999 ∧ ValidDate dt.year dt.month dt.day ∧ dt.tzinfo = none ∧
  (dt.is_datetime = true →
    0 ≤ dt.hour ∧ dt.hour ≤ 23 ∧ 0 ≤ dt.minute ∧ dt.minute ≤ 59 ∧
    0 ≤ dt.second ∧ dt.second ≤ 59 ∧ 0 ≤ dt.microsecond ∧ dt.microsecond ≤ 999999)

instance (dt : PyDate) : Decidable (ValidNaive dt) := by
  unfold ValidNaive; infer_instance

/-- The length of the month before month `dt2_month` of year `dt2_year`, as `precise_diff`
computes it (`if (month == 1) { month = 12; year--; } else { month--; }`,
`days_in_last_month = DAYS_PER_MONTHS[_is_leap(year)][month]`). -/
def days_in_last_month (dt2_year dt2_month : Int) : Int :=
  DAYS_PER_MONTHS (_is_leap (if dt2_month = 1 then dt2_year - 1 else dt2_year))
    (if dt2_month = 1 then 12 else dt2_month - 1)

/-- Time fields in the ranges of a Python `time`. -/
def ValidTime (hour minute second microsecond : Int) : Prop :=
  0 ≤ hour ∧ hour ≤ 23 ∧ 0 ≤ minute ∧ minute ≤ 59 ∧
  0 ≤ second ∧ second ≤ 59 ∧ 0 ≤ microsecond ∧ microsecond ≤ 999999

instance (h m s us : Int) : Decidable (ValidTime h m s us) := by
  unfold ValidTime; infer_instance

/-! # Theorems -/

/-! ## C division, remainder and wrap-around -/

theorem cdiv_eq (a b : Int) (hb : 0 < b) :
    cdiv a b = if 0 ≤ a then a / b else -((-a) / b) := by
  unfold cdiv
  split
  · exact Int.tdiv_eq_ediv (by assumption) (le_of_lt hb)
  · have h : a = -(-a) := by omega
    rw [h, Int.neg_tdiv, Int.tdiv_eq_ediv (by omega) (le_of_lt hb)]
    simp

theorem cmod_eq (a b : Int) (hb : 0 < b) :
    cmod a b = if 0 ≤ a then a % b else -((-a) % b) := by
  have h := cdiv_eq a b hb
  unfold cdiv at h
  unfold cmod
  rw [Int.tmod_def, h]
  split
  · rw [Int.emod_def]
  · rw [Int.emod_def]; ring

theorem cdiv_nonneg_eq (a b : Int) (ha : 0 ≤ a) (hb : 0 < b) : cdiv a b = a / b := by
  rw [cdiv_eq a b hb, if_pos ha]

theorem cmod_nonneg_eq (a b : Int) (ha : 0 ≤ a) (hb : 0 < b) : cmod a b = a % b := by
  rw [cmod_eq a b hb, if_pos ha]

theorem cmod_eq_zero_iff (a b : Int) : cmod a b = 0 ↔ b ∣ a := by
  unfold cmod
  exact ⟨Int.dvd_of_tmod_eq_zero, Int.tmod_eq_zero_of_dvd⟩

theorem wrap32_eq_self (x : Int) (h1 : -2147483648 ≤ x) (h2 : x < 2147483648) :
    wrap32 x = x := by
  unfold wrap32; omega

theorem wrap64_eq_self (x : Int) (h1 : -9223372036854775808 ≤ x)
    (h2 : x < 9223372036854775808) : wrap64 x = x := by
  unfold wrap64; omega

/-! ## Leap years and the month tables -/

theorem _is_leap_iff (y : Int) : _is_leap y ≠ 0 ↔ (4 ∣ y ∧ (¬ 100 ∣ y ∨ 400 ∣ y)) := by
  unfold _is_leap cbool
  simp only [cmod_eq_zero_iff, ne_eq]
  split <;> simp_all

theorem is_leap_eq (y : Int) : is_leap y = _is_leap y := rfl

/-- The leap flag is 1 or 0 according to the Gregorian rule on euclidean remainders. -/
theorem _is_leap_cases (y : Int) :
    (_is_leap y = 1 ∧ y % 4 = 0 ∧ (y % 100 ≠ 0 ∨ y % 400 = 0)) ∨
    (_is_leap y = 0 ∧ ¬ (y % 4 = 0 ∧ (y % 100 ≠ 0 ∨ y % 400 = 0))) := by
  have h := _is_leap_iff y
  by_cases hc : _is_leap y ≠ 0
  · left
    have h1 := h.mp hc
    refine ⟨?_, ?_⟩
    · unfold _is_leap cbool at hc ⊢
      split
      · rfl
      · simp_all
    · omega
  · right
    refine ⟨by omega, ?_⟩
    intro h2
    apply hc
    apply h.mpr
    omega

theorem _is_leap_01 (y : Int) : _is_leap y = 0 ∨ _is_leap y = 1 := by
  rcases _is_leap_cases y with h | h
  · exact Or.inr h.1
  · exact Or.inl h.1

/-- Closed form of the month-offset table. -/
theorem MONTHS_OFFSETS_closed (l m : Int) (hl : l = 0 ∨ l = 1) (h1 : 1 ≤ m) (h2 : m ≤ 13) :
    MONTHS_OFFSETS l m = if m ≤ 2 then 31 * (m - 1) else (306 * (m - 3) + 5) / 10 + 59 + l := by
  rcases hl with rfl | rfl <;> interval_cases m <;> decide

theorem DAYS_PER_MONTHS_closed (l m : Int) (hl : l = 0 ∨ l = 1) (h1 : 1 ≤ m) (h2 : m ≤ 12) :
    DAYS_PER_MONTHS l m = MONTHS_OFFSETS l (m + 1) - MONTHS_OFFSETS l m := by
  rcases hl with rfl | rfl <;> interval_cases m <;> decide

theorem DAYS_PER_MONTHS_le (l m : Int) (hl : l = 0 ∨ l = 1) (h1 : 1 ≤ m) (h2 : m ≤ 12) :
    DAYS_PER_MONTHS l m ≤ 31 := by
  rcases hl with rfl | rfl <;> interval_cases m <;> decide

/-! ## Day numbers -/

/-- Closed form of `_day_number` for years in `1 .. 5879609`, where no intermediate value
leaves the `int` range. -/
theorem _day_number_eq (y m d : Int) (hy : 1 ≤ y) (hy2 : y ≤ 5879609)
    (hm : 1 ≤ m) (hm2 : m ≤ 12) (hd : 1 ≤ d) (hd2 : d ≤ 31) :
    _day_number y m d =
      365 * (y - (m + 9) % 12 / 10) + (y - (m + 9) % 12 / 10) / 4 - (y - (m + 9) % 12 / 10) / 100
        + (y - (m + 9) % 12 / 10) / 400 + ((m + 9) % 12 * 306 + 5) / 10 + (d - 1) := by
  unfold _day_number
  simp only []
  rw [wrap32_eq_self (m + 9) (by omega) (by omega)]
  rw [cmod_nonneg_eq (m + 9) 12 (by omega) (by omega)]
  rw [cdiv_nonneg_eq ((m + 9) % 12) 10 (by omega) (by omega)]
  rw [wrap32_eq_self (y - (m + 9) % 12 / 10) (by omega) (by omega)]
  rw [cdiv_nonneg_eq (y - (m + 9) % 12 / 10) 4 (by omega) (by omega)]
  rw [cdiv_nonneg_eq (y - (m + 9) % 12 / 10) 100 (by omega) (by omega)]
  rw [cdiv_nonneg_eq (y - (m + 9) % 12 / 10) 400 (by omega) (by omega)]
  rw [cdiv_nonneg_eq ((m + 9) % 12 * 306 + 5) 10 (by omega) (by omega)]
  rw [wrap32_eq_self _ (by omega) (by omega)]

/-- The number of leap days up to year `y` grows by the leap flag of `y`. -/
theorem leap_count_step (y : Int) :
    y / 4 - y / 100 + y / 400 = (y - 1) / 4 - (y - 1) / 100 + (y - 1) / 400 + _is_leap y := by
  rcases _is_leap_cases y with ⟨hl, h4, h100⟩ | ⟨hl, hn⟩ <;> rw [hl] <;> omega

/-- A day number is the day number of 1 January plus the month offset plus the day. -/
theorem _day_number_split (y m d : Int) (hy : 1 ≤ y) (hy2 : y ≤ 5879609)
    (hm : 1 ≤ m) (hm2 : m ≤ 12) (hd : 1 ≤ d) (hd2 : d ≤ 31) :
    _day_number y m d = _day_number y 1 1 + MONTHS_OFFSETS (_is_leap y) m + (d - 1) := by
  rw [_day_number_eq y m d hy hy2 hm hm2 hd hd2,
      _day_number_eq y 1 1 hy hy2 (by omega) (by omega) (by omega) (by omega),
      MONTHS_OFFSETS_closed _ m (_is_leap_01 y) hm (by omega)]
  have hs := leap_count_step y
  interval_cases m <;> norm_num <;> linarith

/-- Day number of 1 January. -/
theorem _day_number_jan1 (y : Int) (hy : 1 ≤ y) (hy2 : y ≤ 5879609) :
    _day_number y 1 1 = 365 * (y - 1) + (y - 1) / 4 - (y - 1) / 100 + (y - 1) / 400 + 306 := by
  rw [_day_number_eq y 1 1 hy hy2 (by omega) (by omega) (by omega) (by omega)]
  norm_num

theorem _day_number_next_year (y : Int) (hy : 1 ≤ y) (hy2 : y < 5879609) :
    _day_number (y + 1) 1 1 = _day_number y 1 1 + 365 + _is_leap y := by
  rw [_day_number_jan1 y hy (by omega), _day_number_jan1 (y + 1) (by omega) (by omega)]
  have hs := leap_count_step y
  have : y + 1 - 1 = y := by ring
  rw [this]
  linarith

/-- Year starts are one year length apart at least. -/
theorem _day_number_jan1_mono (y1 y2 : Int) (hy : 1 ≤ y1) (hlt : y1 < y2)
    (hy2 : y2 ≤ 5879609) :
    _day_number y1 1 1 + 365 + _is_leap y1 ≤ _day_number y2 1 1 := by
  obtain ⟨k, hk⟩ : ∃ k : Nat, y2 = y1 + 1 + k := ⟨(y2 - y1 - 1).toNat, by omega⟩
  subst hk
  induction k with
  | zero =>
    simp only [Nat.cast_zero, add_zero]
    rw [_day_number_next_year y1 hy (by omega)]
  | succ n ih =>
    have h1 := ih (by omega) (by omega)
    have h2 := _day_number_next_year (y1 + 1 + n) (by omega) (by push_cast at hy2; omega)
    have h3 := _is_leap_01 (y1 + 1 + n)
    have : y1 + 1 + ((n + 1 : Nat) : Int) = y1 + 1 + n + 1 := by push_cast; ring
    rw [this, h2]
    omega

/-! ## Claims on the calendar helpers -/

/-- C9: for every integer year `y`, `_is_leap(y)` (and the parser's copy `is_leap(y)`) is
non-zero exactly when `y` is divisible by 4 and (not divisible by 100 or divisible by 400);
2000 and 2024 are leap years, 1900 and 2023 are not. -/
theorem is_leap_gregorian_rule (y : Int) :
    (_is_leap y ≠ 0 ↔ (4 ∣ y ∧ (¬ 100 ∣ y ∨ 400 ∣ y))) ∧
    (is_leap y ≠ 0 ↔ (4 ∣ y ∧ (¬ 100 ∣ y ∨ 400 ∣ y))) ∧
    _is_leap 2000 ≠ 0 ∧ _is_leap 2024 ≠ 0 ∧ _is_leap 1900 = 0 ∧ _is_leap 2023 = 0 := by
  refine ⟨_is_leap_iff y, ?_, by decide, by decide, by decide, by decide⟩
  rw [is_leap_eq]
  exact _is_leap_iff y

/-- C10 as stated fails: in year 0, which `_is_leap` counts as a leap year, 29 February
and 1 March are both valid, the first precedes the second, and both have day number 0
(the divisions of the shifted year -1 truncate toward zero).  At the other end, 9 September
5879610 has the largest `int` as its day number and the next day wraps to the smallest. -/
theorem day_number_not_increasing_year_zero :
    (ValidDate 0 2 29 ∧ ValidDate 0 3 1 ∧ DateLt 0 2 29 0 3 1 ∧
      ¬ (_day_number 0 2 29 < _day_number 0 3 1)) ∧
    (ValidDate 5879610 9 9 ∧ ValidDate 5879610 9 10 ∧ DateLt 5879610 9 9 5879610 9 10 ∧
      _day_number 5879610 9 9 = 2147483647 ∧ _day_number 5879610 9 10 = -2147483648) := by
  decide

/-- C10, amended: for valid dates `a = (y1, m1, d1)` and `b = (y2, m2, d2)` with years in
`1 .. 5879609` (positive years whose day numbers fit in an `int`), if `a` precedes `b`
lexicographically then `_day_number(a) < _day_number(b)`. -/
theorem day_number_strictly_increasing (y1 m1 d1 y2 m2 d2 : Int)
    (hy1 : 1 ≤ y1) (hy2 : y2 ≤ 5879609)
    (hv1 : ValidDate y1 m1 d1) (hv2 : ValidDate y2 m2 d2)
    (hlt : DateLt y1 m1 d1 y2 m2 d2) :
    _day_number y1 m1 d1 < _day_number y2 m2 d2 := by
  obtain ⟨hm1, hm1', hd1, hd1'⟩ := hv1
  obtain ⟨hm2, hm2', hd2, hd2'⟩ := hv2
  have hyle : y1 ≤ y2 := by unfold DateLt at hlt; omega
  have hl1 := _is_leap_01 y1
  have hl2 := _is_leap_01 y2
  have hA := DAYS_PER_MONTHS_le (_is_leap y1) m1 hl1 hm1 hm1'
  have hB := DAYS_PER_MONTHS_le (_is_leap y2) m2 hl2 hm2 hm2'
  rw [_day_number_split y1 m1 d1 hy1 (by omega) hm1 hm1' hd1 (by omega),
      _day_number_split y2 m2 d2 (by omega) hy2 hm2 hm2' hd2 (by omega)]
  rw [DAYS_PER_MONTHS_closed _ m1 hl1 hm1 hm1'] at hd1'
  rw [MONTHS_OFFSETS_closed _ (m1 + 1) hl1 (by omega) (by omega),
      MONTHS_OFFSETS_closed _ m1 hl1 (by omega) (by omega)] at hd1'
  rw [MONTHS_OFFSETS_closed _ m1 hl1 (by omega) (by omega),
      MONTHS_OFFSETS_closed _ m2 hl2 (by omega) (by omega)]
  unfold DateLt at hlt
  by_cases hy : y1 < y2
  · have hj := _day_number_jan1_mono y1 y2 hy1 hy hy2
    split_ifs at hd1' ⊢ <;> omega
  · have hyy : y1 = y2 := by omega
    subst hyy
    split_ifs at hd1' ⊢ <;> omega

/-- Witness for `day_number_strictly_increasing`: 2019-12-31 precedes 2020-02-29. -/
theorem day_number_strictly_increasing_witness :
    (1 : Int) ≤ 2019 ∧ (2020 : Int) ≤ 5879609 ∧ ValidDate 2019 12 31 ∧ ValidDate 2020 2 29 ∧
    DateLt 2019 12 31 2020 2 29 ∧ _day_number 2019 12 31 < _day_number 2020 2 29 :=
  ⟨by decide, by decide, by decide, by decide, by decide,
   day_number_strictly_increasing 2019 12 31 2020 2 29 (by decide) (by decide) (by decide)
     (by decide) (by decide)⟩


/-! ## Claims on `timestamp` and `precise_diff` at concrete inputs -/

/-- C5 (defect of `timestamp`): the timestamp -3786825600 is 1850-01-01T00:00:00Z (its day
number is 43829 days before that of 1970-01-01); `local_time` returns these civil fields,
and `timestamp` applied to them returns -3786912000, one day less than the timestamp
started from. -/
theorem timestamp_round_trip_fails_in_1850 :
    local_time ((-3786825600 : Int) : ℚ) 0 0 = some ⟨1850, 1, 1, 0, 0, 0, 0⟩ ∧
    timestamp (PyDate.datetime 1850 1 1 0 0 0 0 none) = -3786912000 ∧
    (_day_number 1850 1 1 - _day_number 1970 1 1) * 86400 = -3786825600 ∧
    timestamp (PyDate.datetime 1850 1 1 0 0 0 0 none) ≠ -3786825600 := by
  decide

/-- C6 (defect of `precise_diff`): 10:00 at UTC+01:00 and 12:00 UTC on 2021-01-01 are 3 hours
apart and `precise_diff` says so in this order, but with the arguments swapped it returns
-2 hours: the fields re-read after the swap are not normalised by the offsets.  Likewise
for a date and a naive date-time: 1 day 10 hours one way, -1 day 0 hours the other way,
because the hour of the date-time is kept for the date after the swap. -/
theorem precise_diff_swap_not_negated :
    precise_diff
        (PyDate.datetime 2021 1 1 10 0 0 0 (some ⟨some ⟨1, "Europe/Paris".toList⟩, 3600⟩))
        (PyDate.datetime 2021 1 1 12 0 0 0 (some ⟨some ⟨2, "UTC".toList⟩, 0⟩))
      = ⟨0, 0, 0, 3, 0, 0, 0, 0⟩ ∧
    precise_diff
        (PyDate.datetime 2021 1 1 12 0 0 0 (some ⟨some ⟨2, "UTC".toList⟩, 0⟩))
        (PyDate.datetime 2021 1 1 10 0 0 0 (some ⟨some ⟨1, "Europe/Paris".toList⟩, 3600⟩))
      = ⟨0, 0, 0, -2, 0, 0, 0, 0⟩ ∧
    precise_diff (PyDate.date 2021 1 1) (PyDate.datetime 2021 1 2 10 0 0 0 none)
      = ⟨0, 0, 1, 10, 0, 0, 0, 1⟩ ∧
    precise_diff (PyDate.datetime 2021 1 2 10 0 0 0 none) (PyDate.date 2021 1 1)
      = ⟨0, 0, -1, 0, 0, 0, 0, -1⟩ := by
  decide

/-- C7 as stated fails: for 2021-01-31 and 2021-03-01 the result is not
`years = 0, months = 1, days = 0`. -/
theorem precise_diff_jan31_mar1_not_zero_days :
    ¬ ((precise_diff (PyDate.date 2021 1 31) (PyDate.date 2021 3 1)).years = 0 ∧
       (precise_diff (PyDate.date 2021 1 31) (PyDate.date 2021 3 1)).months = 1 ∧
       (precise_diff (PyDate.date 2021 1 31) (PyDate.date 2021 3 1)).days = 0) := by
  decide

/-- C7, amended: `precise_diff` applied to the dates 2021-01-31 and 2021-03-01 returns
`years = 0, months = 1, days = 1` (the day difference -30 is below 31 - 28, the partial
month branch adds the earlier day 31, and one month is borrowed); all time components are
0 and `total_days = 29`. -/
theorem precise_diff_jan31_mar1 :
    precise_diff (PyDate.date 2021 1 31) (PyDate.date 2021 3 1) = ⟨0, 1, 1, 0, 0, 0, 0, 29⟩ := by
  decide

/-- C8 as stated fails: for 2021-01-30 and 2021-03-01 the result is not
`years = 0, months = 0, days = 29`. -/
theorem precise_diff_jan30_mar1_not_29_days :
    ¬ ((precise_diff (PyDate.date 2021 1 30) (PyDate.date 2021 3 1)).years = 0 ∧
       (precise_diff (PyDate.date 2021 1 30) (PyDate.date 2021 3 1)).months = 0 ∧
       (precise_diff (PyDate.date 2021 1 30) (PyDate.date 2021 3 1)).days = 29) := by
  decide

/-- C8, amended: `precise_diff` applied to the dates 2021-01-30 and 2021-03-01 returns
`years = 0, months = 1, days = 1` (the day difference -29 is below 31 - 28, the partial
month branch adds the earlier day 30, and one month is borrowed); all time components are
0 and `total_days = 30`. -/
theorem precise_diff_jan30_mar1 :
    precise_diff (PyDate.date 2021 1 30) (PyDate.date 2021 3 1) = ⟨0, 1, 1, 0, 0, 0, 0, 30⟩ := by
  decide


/-! ## Scanning digits -/

theorem is_digit_digit_char (d : Nat) : is_digit (digit_char d) = true := by
  unfold digit_char
  have h : d % 10 < 10 := Nat.mod_lt _ (by decide)
  generalize d % 10 = k at h
  interval_cases k <;> decide

theorem toNat_digit_char (d : Nat) : ((digit_char d).toNat : Int) = 48 + (d % 10 : Nat) := by
  unfold digit_char
  have h : d % 10 < 10 := Nat.mod_lt _ (by decide)
  generalize d % 10 = k at h
  interval_cases k <;> decide

/-- A digit is none of the characters that the scanners treat specially. -/
theorem is_digit_ne (c : Char) (h : is_digit c = true) :
    c ≠ NUL ∧ c ≠ ' ' ∧ c ≠ 'T' ∧ c ≠ '-' ∧ c ≠ ':' ∧ c ≠ '.' ∧ c ≠ ',' ∧ c ≠ 'Z' ∧
    c ≠ '+' ∧ c ≠ 'W' := by
  refine ⟨?_, ?_, ?_, ?_, ?_, ?_, ?_, ?_, ?_, ?_⟩ <;>
    (intro hc; rw [hc] at h; exact absurd h (by decide))

theorem isDigitStr_zero_padded (k n : Nat) : IsDigitStr (zero_padded k n) := by
  induction k generalizing n with
  | zero => intro c hc; simp [zero_padded] at hc
  | succ k ih =>
    intro c hc
    simp only [zero_padded, List.mem_append, List.mem_singleton] at hc
    rcases hc with hc | hc
    · exact ih _ c hc
    · rw [hc]; exact is_digit_digit_char n

theorem length_zero_padded (k n : Nat) : (zero_padded k n).length = k := by
  induction k generalizing n with
  | zero => rfl
  | succ k ih => simp [zero_padded, ih]

/-- Value accumulated over a zero-padded number, when it fits in an `int`. -/
theorem foldl_accumulate_zero_padded (k n : Nat) (acc : Int) (hacc : 0 ≤ acc)
    (hn : n < 10 ^ k) (hfit : acc * 10 ^ k + n < 2147483648) :
    (zero_padded k n).foldl accumulate acc = acc * 10 ^ k + n := by
  induction k generalizing n with
  | zero =>
    have : n = 0 := by simpa using hn
    subst this
    simp [zero_padded]
  | succ k ih =>
    have h10 : (0 : Int) < 10 ^ k := by positivity
    have hn' : n / 10 < 10 ^ k := by
      rw [Nat.div_lt_iff_lt_mul (by decide)]
      calc n < 10 ^ (k + 1) := hn
        _ = 10 ^ k * 10 := by ring
    have hdm : (n : Int) = 10 * ((n / 10 : Nat) : Int) + ((n % 10 : Nat) : Int) := by
      have := Nat.div_add_mod n 10
      omega
    have hfit' : acc * 10 ^ k + ((n / 10 : Nat) : Int) < 2147483648 := by
      have h1 : acc * 10 ^ (k + 1) = 10 * (acc * 10 ^ k) := by ring
      rw [h1] at hfit
      have h2 : 0 ≤ acc * 10 ^ k := by positivity
      omega
    rw [zero_padded, List.foldl_append, ih (n / 10) hn' hfit']
    simp only [List.foldl_cons, List.foldl_nil]
    unfold accumulate
    rw [toNat_digit_char]
    have h1 : acc * 10 ^ (k + 1) = 10 * (acc * 10 ^ k) := by ring
    have h2 : 0 ≤ acc * 10 ^ k := by positivity
    rw [h1] at hfit ⊢
    rw [wrap32_eq_self _ (by omega) (by omega)]
    omega

theorem scan_year_digits (ds rest : List Char) (year : Int) (h : IsDigitStr ds) :
    scan_year ds.length (ds ++ rest) year = .ok (ds.foldl accumulate year, rest) := by
  induction ds generalizing year with
  | nil => rfl
  | cons d ds ih =>
    have hd : is_digit d = true := h d (List.mem_cons_self _ _)
    have hds : IsDigitStr ds := fun c hc => h c (List.mem_cons_of_mem _ hc)
    simp only [List.length_cons, List.cons_append, scan_year, peek, hd, if_true, List.tail_cons,
      List.foldl_cons]
    exact ih _ hds

theorem scan_monthday_digits (ds rest : List Char) (monthday separators i : Int)
    (h : IsDigitStr ds) :
    scan_monthday (ds ++ rest) monthday separators i =
      scan_monthday rest (ds.foldl accumulate monthday) separators (i + ds.length) := by
  induction ds generalizing monthday i with
  | nil => simp
  | cons d ds ih =>
    have hd : is_digit d = true := h d (List.mem_cons_self _ _)
    have hds : IsDigitStr ds := fun c hc => h c (List.mem_cons_of_mem _ hc)
    obtain ⟨h0, h1, h2, h3, -⟩ := is_digit_ne d hd
    simp only [List.cons_append, scan_monthday, h0, h1, h2, h3, hd, or_self, if_false,
      not_true_eq_false, List.foldl_cons, List.length_cons]
    rw [List.append_eq, ih _ _ hds]
    congr 1
    push_cast
    ring

theorem scan_time_digits (ds rest : List Char) (time separators i : Int)
    (h : IsDigitStr ds) :
    scan_time (ds ++ rest) time separators i =
      scan_time rest (ds.foldl accumulate time) separators (i + ds.length) := by
  induction ds generalizing time i with
  | nil => simp
  | cons d ds ih =>
    have hd : is_digit d = true := h d (List.mem_cons_self _ _)
    have hds : IsDigitStr ds := fun c hc => h c (List.mem_cons_of_mem _ hc)
    obtain ⟨h0, -, -, h3, h4, h5, h6, h7, h8, -⟩ := is_digit_ne d hd
    simp only [List.cons_append, scan_time, h0, h3, h4, h5, h6, h7, h8, hd, or_self, if_false,
      not_true_eq_false, List.foldl_cons, List.length_cons]
    rw [List.append_eq, ih _ _ hds]
    congr 1
    push_cast
    ring


theorem peek_cons (c : Char) (cs : List Char) : peek (c :: cs) = c := rfl

theorem foldl_accumulate_pad2 (n : Nat) (acc : Int) (hacc : 0 ≤ acc) (hacc2 : acc < 10000000)
    (hn : n < 100) : (zero_padded 2 n).foldl accumulate acc = acc * 100 + n := by
  have := foldl_accumulate_zero_padded 2 n acc hacc (by simpa using hn) (by norm_num; omega)
  simpa using this

theorem scan_monthday_stop (r : List Char) (monthday separators i : Int) :
    scan_monthday ('T' :: r) monthday separators i = .ok (monthday, separators, i, 'T' :: r) := by
  simp [scan_monthday]

theorem scan_monthday_sep (r : List Char) (monthday separators i : Int) :
    scan_monthday ('-' :: r) monthday separators i = scan_monthday r monthday (separators + 1) i := by
  have h1 : '-' ≠ NUL := by decide
  simp [scan_monthday, h1]

theorem peek_zero_padded_succ (k n : Nat) (rest : List Char) :
    is_digit (peek (zero_padded (k + 1) n ++ rest)) = true := by
  induction k generalizing n rest with
  | zero => simp [zero_padded, peek, is_digit_digit_char]
  | succ k ih =>
    rw [zero_padded, List.append_assoc]
    exact ih _ _

theorem date_section_calendar (Y M D : Nat) (r : List Char) (hY : Y ≤ 9999)
    (hM1 : 1 ≤ M) (hM2 : M ≤ 12) (hD1 : 1 ≤ D)
    (hD2 : (D : Int) ≤ DAYS_PER_MONTHS (is_leap Y) M) :
    date_section
        (zero_padded 4 Y ++ ('-' :: (zero_padded 2 M ++ ('-' :: (zero_padded 2 D ++ ('T' :: r))))))
        new_parsed =
      .ok ⟨{ new_parsed with is_date := 1, year := Y, month := M, day := D }, 'T' :: r,
           is_leap Y, 2, 100 * M + D, 0⟩ := by
  have hD3 : D ≤ 31 := by
    have := DAYS_PER_MONTHS_le (is_leap Y) M (_is_leap_01 Y) (by omega) (by omega)
    omega
  have hy := scan_year_digits (zero_padded 4 Y)
    ('-' :: (zero_padded 2 M ++ ('-' :: (zero_padded 2 D ++ ('T' :: r))))) 0
    (isDigitStr_zero_padded 4 Y)
  rw [length_zero_padded,
    foldl_accumulate_zero_padded 4 Y 0 (le_refl _) (by norm_num; omega) (by norm_num; omega)] at hy
  have hw : peek (zero_padded 2 M ++ ('-' :: (zero_padded 2 D ++ ('T' :: r)))) ≠ 'W' :=
    (is_digit_ne _ (peek_zero_padded_succ 1 M _)).2.2.2.2.2.2.2.2.2
  have hmd : scan_monthday (zero_padded 2 M ++ ('-' :: (zero_padded 2 D ++ ('T' :: r)))) 0 1 0
      = .ok (100 * (M : Int) + D, 2, 4, 'T' :: r) := by
    rw [scan_monthday_digits _ _ _ _ _ (isDigitStr_zero_padded 2 M), scan_monthday_sep,
      scan_monthday_digits _ _ _ _ _ (isDigitStr_zero_padded 2 D), scan_monthday_stop,
      length_zero_padded, length_zero_padded,
      foldl_accumulate_pad2 M 0 (le_refl _) (by norm_num) (by omega),
      foldl_accumulate_pad2 D _ (by omega) (by omega) (by omega)]
    norm_num
    ring
  have hmonth : cdiv (100 * (M : Int) + D) 100 = M := by
    rw [cdiv_nonneg_eq _ _ (by omega) (by omega)]; omega
  have hday : cmod (100 * (M : Int) + D) 100 = D := by
    rw [cmod_nonneg_eq _ _ (by omega) (by omega)]; omega
  unfold date_section
  simp only [show new_parsed.year = 0 from rfl]
  rw [hy]
  simp only [peek_cons, if_true, List.tail_cons, hw, if_false]
  unfold calendar_branch
  rw [hmd]
  simp only [hmonth, hday]
  norm_num
  rw [if_neg (by omega), if_neg (by omega), if_neg (by omega)]

theorem scan_time_stop (r : List Char) (time separators i : Int) :
    scan_time ('Z' :: r) time separators i = .ok (time, separators, i, 'Z' :: r) := by
  simp [scan_time]

theorem scan_time_sep (r : List Char) (time separators i : Int) :
    scan_time (':' :: r) time separators i = scan_time r time (separators + 1) i := by
  have h1 : ':' ≠ NUL := by decide
  simp [scan_time, h1]

/-- The time section on `Thh:mm:ssZ`. -/
theorem time_section_utc (parsed : Parsed) (h m s : Nat) (hamb : parsed.ambiguous = 0)
    (hh : h ≤ 23) (hm : m ≤ 59) (hs : s ≤ 59) :
    time_section parsed
        ('T' :: (zero_padded 2 h ++ (':' :: (zero_padded 2 m ++ (':' :: (zero_padded 2 s ++ ['Z']))))))
      = .ok ({ parsed with is_datetime := 1, is_date := 0, hour := h, minute := m, second := s,
                           has_offset := 1, tzname := some "UTC" }, []) := by
  have ht : scan_time
      (zero_padded 2 h ++ (':' :: (zero_padded 2 m ++ (':' :: (zero_padded 2 s ++ ['Z']))))) 0 0 0
      = .ok (10000 * (h : Int) + 100 * m + s, 2, 6, ['Z']) := by
    rw [scan_time_digits _ _ _ _ _ (isDigitStr_zero_padded 2 h), scan_time_sep,
      scan_time_digits _ _ _ _ _ (isDigitStr_zero_padded 2 m), scan_time_sep,
      scan_time_digits _ _ _ _ _ (isDigitStr_zero_padded 2 s), scan_time_stop,
      length_zero_padded, length_zero_padded, length_zero_padded,
      foldl_accumulate_pad2 h 0 (le_refl _) (by norm_num) (by omega),
      foldl_accumulate_pad2 m _ (by omega) (by omega) (by omega),
      foldl_accumulate_pad2 s _ (by omega) (by omega) (by omega)]
    norm_num
    ring
  have h1 : cdiv (10000 * (h : Int) + 100 * m + s) 10000 = h := by
    rw [cdiv_nonneg_eq _ _ (by omega) (by omega)]; omega
  have h2 : cmod (cdiv (10000 * (h : Int) + 100 * m + s) 100) 100 = m := by
    rw [cdiv_nonneg_eq _ _ (by omega) (by omega), cmod_nonneg_eq _ _ (by omega) (by omega)]
    omega
  have h3 : cmod (10000 * (h : Int) + 100 * m + s) 100 = s := by
    rw [cmod_nonneg_eq _ _ (by omega) (by omega)]; omega
  unfold time_section
  rw [if_neg (by simp [hamb])]
  simp only [List.tail_cons]
  rw [ht]
  simp only [h1, h2, h3]
  norm_num
  rw [if_neg (by omega), if_neg (by omega), if_neg (by omega)]
  have hp1 : ¬ ('Z' = '.' ∨ 'Z' = ',') := by decide
  simp only [peek_cons, hp1, if_false]
  unfold tz_section
  simp only [peek_cons, if_true, List.tail_cons]


/-- C1: for every year `Y` in 0..9999, month `M` in 1..12, day `D` in 1..days-in-month,
hour `h` in 0..23, minute `m` in 0..59 and second `s` in 0..59, `_parse_iso8601_datetime`
applied to the zero-padded text `YYYY-MM-DDThh:mm:ssZ` (and a fresh `Parsed`) succeeds with
`is_datetime = 1`, `is_date = 0`, the six fields read back, `microsecond = 0`,
`has_offset = 1`, `offset = 0` and `tzname = "UTC"`, all other fields as initialised. -/
theorem parse_utc_datetime (Y M D h m s : Nat) (hY : Y ≤ 9999)
    (hM1 : 1 ≤ M) (hM2 : M ≤ 12) (hD1 : 1 ≤ D)
    (hD2 : (D : Int) ≤ DAYS_PER_MONTHS (is_leap Y) M)
    (hh : h ≤ 23) (hm : m ≤ 59) (hs : s ≤ 59) :
    _parse_iso8601_datetime (utc_text Y M D h m s) new_parsed =
      .ok { new_parsed with
            is_date := 0, is_datetime := 1, year := Y, month := M, day := D,
            hour := h, minute := m, second := s, microsecond := 0,
            has_offset := 1, offset := 0, tzname := some "UTC" } := by
  unfold _parse_iso8601_datetime utc_text
  simp only [List.append_assoc, List.singleton_append, List.cons_append]
  rw [date_section_calendar Y M D _ hY hM1 hM2 hD1 hD2]
  simp only [peek_cons, true_or, if_true]
  rw [time_section_utc _ h m s rfl hh hm hs]
  simp [peek, new_parsed]

/-- Witness for `parse_utc_datetime`: the text `2021-05-21T12:30:00Z`. -/
theorem parse_utc_datetime_witness :
    utc_text 2021 5 21 12 30 0 = "2021-05-21T12:30:00Z".toList ∧
    _parse_iso8601_datetime "2021-05-21T12:30:00Z".toList new_parsed =
      .ok { new_parsed with
            is_date := 0, is_datetime := 1, year := 2021, month := 5, day := 21,
            hour := 12, minute := 30, second := 0, microsecond := 0,
            has_offset := 1, offset := 0, tzname := some "UTC" } :=
  ⟨by decide,
   parse_utc_datetime 2021 5 21 12 30 0 (by decide) (by decide) (by decide) (by decide)
     (by decide) (by decide) (by decide) (by decide)⟩


/-! ## Week dates -/

theorem p_eq (y : Int) (h0 : 0 ≤ y) (h1 : y ≤ 10000000) :
    p y = y + y / 4 - y / 100 + y / 400 := by
  unfold p
  rw [cdiv_nonneg_eq y 4 h0 (by omega), cdiv_nonneg_eq y 100 h0 (by omega),
    cdiv_nonneg_eq y 400 h0 (by omega), wrap32_eq_self _ (by omega) (by omega)]

/-- The weekday is the day number modulo 7, with Monday = 1. -/
theorem week_day_eq (y m d : Int) (hy : 1 ≤ y) (hy2 : y ≤ 5879609)
    (hm : 1 ≤ m) (hm2 : m ≤ 12) (hd : 1 ≤ d) (hd2 : d ≤ 31) :
    week_day y m d = (_day_number y m d + 2) % 7 + 1 := by
  rw [_day_number_eq y m d hy hy2 hm hm2 hd hd2]
  unfold week_day
  have hp0 := p_eq y (by omega) (by omega)
  have hp1 := p_eq (y - 1) (by omega) (by omega)
  have hw0 : wrap32 (y - 0) = y := by rw [wrap32_eq_self _ (by omega) (by omega)]; ring
  have hw1 : wrap32 (y - 1) = y - 1 := wrap32_eq_self _ (by omega) (by omega)
  interval_cases m <;>
    simp only [cbool, show ((1 : Int) < 3) = True from by decide,
      show ((2 : Int) < 3) = True from by decide, show ((3 : Int) < 3) = False from by decide,
      show ((4 : Int) < 3) = False from by decide, show ((5 : Int) < 3) = False from by decide,
      show ((6 : Int) < 3) = False from by decide, show ((7 : Int) < 3) = False from by decide,
      show ((8 : Int) < 3) = False from by decide, show ((9 : Int) < 3) = False from by decide,
      show ((10 : Int) < 3) = False from by decide, show ((11 : Int) < 3) = False from by decide,
      show ((12 : Int) < 3) = False from by decide, if_true, if_false, hw0, hw1, hp0, hp1,
      show DAY_OF_WEEK_TABLE (wrap32 (1 - 1)) = 0 from by decide,
      show DAY_OF_WEEK_TABLE (wrap32 (2 - 1)) = 3 from by decide,
      show DAY_OF_WEEK_TABLE (wrap32 (3 - 1)) = 2 from by decide,
      show DAY_OF_WEEK_TABLE (wrap32 (4 - 1)) = 5 from by decide,
      show DAY_OF_WEEK_TABLE (wrap32 (5 - 1)) = 0 from by decide,
      show DAY_OF_WEEK_TABLE (wrap32 (6 - 1)) = 3 from by decide,
      show DAY_OF_WEEK_TABLE (wrap32 (7 - 1)) = 5 from by decide,
      show DAY_OF_WEEK_TABLE (wrap32 (8 - 1)) = 1 from by decide,
      show DAY_OF_WEEK_TABLE (wrap32 (9 - 1)) = 4 from by decide,
      show DAY_OF_WEEK_TABLE (wrap32 (10 - 1)) = 6 from by decide,
      show DAY_OF_WEEK_TABLE (wrap32 (11 - 1)) = 2 from by decide,
      show DAY_OF_WEEK_TABLE (wrap32 (12 - 1)) = 4 from by decide] <;>
    norm_num <;>
    (rw [wrap32_eq_self _ (by omega) (by omega), cmod_nonneg_eq _ _ (by omega) (by omega)]
     split <;> omega)


theorem ordinal_to_day_month_aux (l o : Int) (hl : l = 0 ∨ l = 1) (h1 : 1 ≤ o)
    (h2 : o ≤ 365 + l) :
    ∀ (n : Nat) (j : Int), 1 ≤ j → j + n = 14 → (j = 1 ∨ MONTHS_OFFSETS l (j - 1) < o) →
      ∃ m, ordinal_to_day_month l o n j = some (wrap32 (o - MONTHS_OFFSETS l m), m) ∧
        1 ≤ m ∧ m ≤ 12 ∧ MONTHS_OFFSETS l m < o ∧ o ≤ MONTHS_OFFSETS l (m + 1) := by
  intro n
  induction n with
  | zero =>
    intro j hj hn hprev
    have hj14 : j = 14 := by simpa using hn
    subst hj14
    have h13 := MONTHS_OFFSETS_closed l 13 hl (by decide) (by decide)
    norm_num at h13
    rcases hprev with h | h
    · omega
    · norm_num at h; omega
  | succ n ih =>
    intro j hj hn hprev
    push_cast at hn
    rw [ordinal_to_day_month]
    by_cases hc : o ≤ MONTHS_OFFSETS l j
    · rw [if_pos hc]
      rcases hprev with h | h
      · subst h
        have h0 := MONTHS_OFFSETS_closed l 1 hl (by decide) (by decide)
        norm_num at h0
        omega
      · refine ⟨j - 1, rfl, ?_, by omega, h, ?_⟩
        · by_contra hlt
          have hj1 : j = 1 := by omega
          subst hj1
          have h0 := MONTHS_OFFSETS_closed l 1 hl (by decide) (by decide)
          norm_num at h0
          omega
        · have : j - 1 + 1 = j := by ring
          rw [this]; exact hc
    · rw [if_neg hc]
      apply ih (j + 1) (by omega) (by omega)
      right
      have : j + 1 - 1 = j := by ring
      rw [this]; omega

/-- The ordinal loop finds the month and day of a valid ordinal day. -/
theorem ordinal_to_day_month_spec (l o : Int) (hl : l = 0 ∨ l = 1) (h1 : 1 ≤ o)
    (h2 : o ≤ 365 + l) :
    ∃ m d, ordinal_to_day_month l o 13 1 = some (d, m) ∧ 1 ≤ m ∧ m ≤ 12 ∧ 1 ≤ d ∧
      d ≤ DAYS_PER_MONTHS l m ∧ MONTHS_OFFSETS l m + d = o := by
  obtain ⟨m, hm, hm1, hm2, hlo, hhi⟩ :=
    ordinal_to_day_month_aux l o hl h1 h2 13 1 (by decide) (by decide) (Or.inl rfl)
  have hdpm := DAYS_PER_MONTHS_closed l m hl hm1 hm2
  have hle := DAYS_PER_MONTHS_le l m hl hm1 hm2
  have hmo : 0 ≤ MONTHS_OFFSETS l m := by
    rw [MONTHS_OFFSETS_closed l m hl hm1 (by omega)]
    split <;> omega
  rw [wrap32_eq_self _ (by omega) (by omega)] at hm
  exact ⟨m, o - MONTHS_OFFSETS l m, hm, hm1, hm2, by omega, by omega, by omega⟩


theorem scan_week_digits (ds rest : List Char) (week separators i : Int)
    (h : IsDigitStr ds) :
    scan_week (ds ++ rest) week separators i =
      scan_week rest (ds.foldl accumulate week) separators (i + ds.length) := by
  induction ds generalizing week i with
  | nil => simp
  | cons d ds ih =>
    have hd : is_digit d = true := h d (List.mem_cons_self _ _)
    have hds : IsDigitStr ds := fun c hc => h c (List.mem_cons_of_mem _ hc)
    obtain ⟨h0, h1, h2, h3, -⟩ := is_digit_ne d hd
    simp only [List.cons_append, scan_week, h0, h1, h2, h3, or_self, if_false,
      List.foldl_cons, List.length_cons]
    rw [List.append_eq, ih _ _ hds]
    congr 1
    push_cast
    ring

theorem scan_week_sep (r : List Char) (week separators i : Int) :
    scan_week ('-' :: r) week separators i = scan_week r week (separators + 1) i := by
  have h1 : '-' ≠ NUL := by decide
  simp [scan_week, h1]

theorem days_in_year_eq (y : Int) : days_in_year y = 365 + is_leap y := by
  unfold days_in_year
  rcases _is_leap_01 y with h | h <;> rw [is_leap_eq, h] <;> decide

theorem week_day_range (y m d : Int) (hy : 1 ≤ y) (hy2 : y ≤ 5879609)
    (hm : 1 ≤ m) (hm2 : m ≤ 12) (hd : 1 ≤ d) (hd2 : d ≤ 31) :
    1 ≤ week_day y m d ∧ week_day y m d ≤ 7 := by
  rw [week_day_eq y m d hy hy2 hm hm2 hd hd2]
  omega

/-- Storing the month and day of ordinal day `o` of year `y`. -/
theorem set_day_month_spec (P : Parsed) (y o : Int) (hy1 : 1 ≤ y) (hy2 : y ≤ 5879609)
    (ho1 : 1 ≤ o) (ho2 : o ≤ 365 + is_leap y) :
    ∃ m d : Int, set_day_month P (is_leap y) o = { P with day := d, month := m } ∧
      ValidDate y m d ∧ _day_number y m d = _day_number y 1 1 + o - 1 := by
  have hl := _is_leap_01 y
  rw [← is_leap_eq] at hl
  obtain ⟨m, d, hs, hm1, hm2, hd1, hd2, ho⟩ := ordinal_to_day_month_spec (is_leap y) o hl ho1 ho2
  have hle := DAYS_PER_MONTHS_le (is_leap y) m hl hm1 hm2
  refine ⟨m, d, ?_, ⟨hm1, hm2, hd1, ?_⟩, ?_⟩
  · unfold set_day_month
    rw [hs]
  · rw [← is_leap_eq]; exact hd2
  · rw [_day_number_split y m d hy1 hy2 hm1 hm2 hd1 (by omega), ← is_leap_eq]
    omega

/-- The week-date branch on `Www-k`: the date found is valid and is day `7w + k - (wd + 3)`
of the year read, counted from its 1 January (`wd` the weekday of its 4 January). -/
theorem week_branch_spec (parsed : Parsed) (w k : Nat) (leap : Int)
    (hleap : leap = is_leap parsed.year)
    (hy1 : 1 ≤ parsed.year) (hy2 : parsed.year ≤ 9999)
    (hw1 : 1 ≤ w) (hw2 : w ≤ 52 ∨ (w ≤ 53 ∧ is_long_year parsed.year ≠ 0))
    (hk1 : 1 ≤ k) (hk2 : k ≤ 7) :
    ∃ y m d : Int,
      week_branch parsed ('W' :: (zero_padded 2 w ++ ('-' :: zero_padded 1 k))) leap 1 =
        .ok ⟨{ parsed with year := y, month := m, day := d }, [], is_leap y, 2, 0, w⟩ ∧
      1 ≤ y ∧ y ≤ 10000 ∧ ValidDate y m d ∧
      _day_number y m d =
        _day_number parsed.year 1 1 + (7 * w + k - (week_day parsed.year 1 4 + 3)) - 1 := by
  have hsw : scan_week (zero_padded 2 w ++ ('-' :: zero_padded 1 k)) 0 1 0
      = (10 * (w : Int) + k, 2, 3, []) := by
    have hk' := foldl_accumulate_zero_padded 1 k (w : Int) (by omega) (by simpa using (by omega : k < 10))
      (by norm_num; omega)
    rw [scan_week_digits _ _ _ _ _ (isDigitStr_zero_padded 2 w), scan_week_sep,
      ← List.append_nil (zero_padded 1 k),
      scan_week_digits _ _ _ _ _ (isDigitStr_zero_padded 1 k),
      length_zero_padded, length_zero_padded,
      foldl_accumulate_pad2 w 0 (le_refl _) (by norm_num) (by omega)]
    simp only [zero_mul, zero_add]
    rw [hk']
    simp only [scan_week]
    norm_num
    ring
  have hwd := week_day_range parsed.year 1 4 hy1 (by omega) (by decide) (by decide) (by decide)
    (by decide)
  have hweekday : cmod (10 * (w : Int) + k) 10 = k := by
    rw [cmod_nonneg_eq _ _ (by omega) (by omega)]; omega
  have hweek : cdiv (10 * (w : Int) + k) 10 = w := by
    rw [cdiv_nonneg_eq _ _ (by omega) (by omega)]; omega
  have hO : wrap32 ((w : Int) * 7 + k - (week_day parsed.year 1 4 + 3))
      = 7 * w + k - (week_day parsed.year 1 4 + 3) := by
    rw [wrap32_eq_self _ (by omega) (by omega)]; ring
  have hchk : ¬ (53 < w ∨ 52 < w ∧ is_long_year parsed.year = 0) := by
    rcases hw2 with h | ⟨h, h'⟩
    · omega
    · intro hc
      rcases hc with hc | ⟨-, hc⟩
      · omega
      · exact h' hc
  have hY1 : parsed.year = 1 → week_day parsed.year 1 4 = 4 := by
    intro h; rw [h]; decide
  subst hleap
  unfold week_branch
  simp only [List.tail_cons]
  rw [hsw]
  simp only [hweekday, hweek]
  norm_num
  rw [if_neg hchk, if_neg (by omega)]
  simp only [hO]
  generalize hwd4 : week_day parsed.year 1 4 = wd at *
  by_cases hprev : 7 * (w : Int) + k - (wd + 3) < 1
  · -- previous year
    have hY2 : 2 ≤ parsed.year := by
      by_contra hc
      have := hY1 (by omega)
      omega
    have hwm : wrap32 (parsed.year - 1) = parsed.year - 1 := wrap32_eq_self _ (by omega) (by omega)
    simp only [hprev, if_true, hwm, days_in_year_eq]
    have hl := _is_leap_01 (parsed.year - 1)
    rw [← is_leap_eq] at hl
    rw [wrap32_eq_self (7 * (w : Int) + k - (wd + 3) + (365 + is_leap (parsed.year - 1)))
      (by omega) (by omega)]
    have hno : ¬ (365 + is_leap (parsed.year - 1)
        < 7 * (w : Int) + k - (wd + 3) + (365 + is_leap (parsed.year - 1))) := by omega
    simp only [hno, if_false]
    obtain ⟨m, d, hs, hv, hdn⟩ := set_day_month_spec
      { parsed with year := parsed.year - 1 } (parsed.year - 1)
      (7 * w + k - (wd + 3) + (365 + is_leap (parsed.year - 1))) (by omega) (by omega)
      (by omega) (by omega)
    refine ⟨parsed.year - 1, m, d, ?_, by omega, by omega, hv, ?_⟩
    · rw [hs]
    · have hny := _day_number_next_year (parsed.year - 1) (by omega) (by omega)
      rw [show parsed.year - 1 + 1 = parsed.year from by ring, ← is_leap_eq] at hny
      rw [hdn, hny]
      ring
  · by_cases hnext : 365 + is_leap parsed.year < 7 * (w : Int) + k - (wd + 3)
    · -- next year
      have hl := _is_leap_01 parsed.year
      rw [← is_leap_eq] at hl
      have hwp : wrap32 (parsed.year + 1) = parsed.year + 1 := wrap32_eq_self _ (by omega) (by omega)
      simp only [hprev, if_false, days_in_year_eq, hnext, if_true, hwp]
      rw [wrap32_eq_self (7 * (w : Int) + k - (wd + 3) - (365 + is_leap parsed.year))
        (by omega) (by omega)]
      have hl' := _is_leap_01 (parsed.year + 1)
      rw [← is_leap_eq] at hl'
      obtain ⟨m, d, hs, hv, hdn⟩ := set_day_month_spec
        { parsed with year := parsed.year + 1 } (parsed.year + 1)
        (7 * w + k - (wd + 3) - (365 + is_leap parsed.year)) (by omega) (by omega)
        (by omega) (by omega)
      refine ⟨parsed.year + 1, m, d, ?_, by omega, by omega, hv, ?_⟩
      · rw [hs]
      · have hny := _day_number_next_year parsed.year (by omega) (by omega)
        rw [← is_leap_eq] at hny
        rw [hdn, hny]
        ring
    · -- same year
      simp only [hprev, if_false, days_in_year_eq, hnext]
      obtain ⟨m, d, hs, hv, hdn⟩ := set_day_month_spec parsed parsed.year
        (7 * w + k - (wd + 3)) (by omega) (by omega) (by omega) (by omega)
      refine ⟨parsed.year, m, d, ?_, by omega, by omega, hv, ?_⟩
      · rw [hs]
      · rw [hdn]


/-- C2: for every year `Y` in 1..9999, week `w` in 1..52 (or 1..53 when `is_long_year(Y)`)
and weekday `k` in 1..7, `_parse_iso8601_datetime` applied to `YYYY-Www-k` succeeds with a
date `(y, m, d)` that is a valid calendar date, has
`day_number(y, m, d) = day_number(Y, 1, 4) - (week_day(Y, 1, 4) - 1) + 7 * (w - 1) + (k - 1)`
and falls on weekday `k`. -/
theorem parse_week_date (Y w k : Nat) (hY1 : 1 ≤ Y) (hY2 : Y ≤ 9999) (hw1 : 1 ≤ w)
    (hw2 : w ≤ 52 ∨ (w ≤ 53 ∧ is_long_year Y ≠ 0)) (hk1 : 1 ≤ k) (hk2 : k ≤ 7) :
    ∃ y m d : Int,
      _parse_iso8601_datetime (week_text Y w k) new_parsed =
        .ok { new_parsed with is_date := 1, year := y, month := m, day := d } ∧
      ValidDate y m d ∧
      _day_number y m d =
        _day_number Y 1 4 - (week_day Y 1 4 - 1) + 7 * ((w : Int) - 1) + ((k : Int) - 1) ∧
      week_day y m d = k := by
  have hy := scan_year_digits (zero_padded 4 Y)
    ('-' :: 'W' :: (zero_padded 2 w ++ ('-' :: zero_padded 1 k))) 0 (isDigitStr_zero_padded 4 Y)
  rw [length_zero_padded,
    foldl_accumulate_zero_padded 4 Y 0 (le_refl _) (by norm_num; omega) (by norm_num; omega)] at hy
  obtain ⟨y, m, d, hwb, hy1, hy2, hv, hdn⟩ := week_branch_spec
    { new_parsed with is_date := 1, year := Y } w k (is_leap Y) rfl
    (by show (1 : Int) ≤ Y; omega) (by show (Y : Int) ≤ 9999; omega) hw1 hw2 hk1 hk2
  have hv' := hv
  obtain ⟨hm1, hm2, hd1, hd2⟩ := hv'
  have hle := DAYS_PER_MONTHS_le (_is_leap y) m (_is_leap_01 y) hm1 hm2
  have h14 := _day_number_split Y 1 4 (by omega) (by omega) (by decide) (by decide) (by decide)
    (by decide)
  rw [MONTHS_OFFSETS_closed _ 1 (_is_leap_01 Y) (by decide) (by decide)] at h14
  norm_num at h14
  have hwd4 := week_day_eq Y 1 4 (by omega) (by omega) (by decide) (by decide) (by decide)
    (by decide)
  have hwd := week_day_eq y m d hy1 (by omega) hm1 hm2 hd1 (by omega)
  simp only [] at hdn hwb
  refine ⟨y, m, d, ?_, hv, ?_, ?_⟩
  · unfold _parse_iso8601_datetime date_section week_text
    simp only [List.append_assoc, List.singleton_append, List.cons_append, List.nil_append,
      show new_parsed.year = 0 from rfl]
    rw [hy]
    simp only [zero_mul, zero_add, peek_cons, if_true, List.tail_cons]
    rw [hwb]
    simp only []
    rw [if_neg (by simp; omega), if_neg (by omega), if_neg (by rw [is_leap_eq]; omega)]
    have hn : ¬ (NUL = 'T' ∨ NUL = ' ') := by decide
    simp [peek, new_parsed, hn]
  · rw [hdn, h14]; ring
  · rw [hwd, hdn]
    omega

/-- Witness for `parse_week_date`: the text `2021-W21-5`, which yields 2021-05-28. -/
theorem parse_week_date_witness :
    week_text 2021 21 5 = "2021-W21-5".toList ∧
    _parse_iso8601_datetime "2021-W21-5".toList new_parsed =
      .ok { new_parsed with is_date := 1, year := 2021, month := 5, day := 28 } ∧
    ∃ y m d : Int,
      _parse_iso8601_datetime (week_text 2021 21 5) new_parsed =
        .ok { new_parsed with is_date := 1, year := y, month := m, day := d } ∧
      ValidDate y m d ∧
      _day_number y m d =
        _day_number 2021 1 4 - (week_day 2021 1 4 - 1) + 7 * (((21 : Nat) : Int) - 1)
          + (((5 : Nat) : Int) - 1) ∧
      week_day y m d = ((5 : Nat) : Int) :=
  ⟨by decide, by rfl,
   parse_week_date 2021 21 5 (by decide) (by decide) (by decide) (Or.inl (by decide))
     (by decide) (by decide)⟩


/-! ## Durations -/

theorem is_digit_digitChar (k : Nat) (hk : k < 10) : is_digit (Nat.digitChar k) = true := by
  interval_cases k <;> decide

theorem toNat_digitChar (k : Nat) (hk : k < 10) :
    ((Nat.digitChar k).toNat : Int) = 48 + (k : Int) := by
  interval_cases k <;> decide

/-- The digits produced by `Nat.toDigitsCore` are decimal digits whose value is `n`. -/
theorem toDigitsCore_spec (fuel : Nat) :
    ∀ (n : Nat) (ds : List Char), n < fuel →
      ∃ pre, Nat.toDigitsCore 10 fuel n ds = pre ++ ds ∧ pre ≠ [] ∧ IsDigitStr pre ∧
        ∀ acc : Int, 0 ≤ acc → acc * 10 ^ pre.length + n < 2147483648 →
          pre.foldl accumulate acc = acc * 10 ^ pre.length + n := by
  induction fuel with
  | zero => intro n ds h; omega
  | succ fuel ih =>
    intro n ds hn
    have hmod : n % 10 < 10 := Nat.mod_lt _ (by decide)
    rw [Nat.toDigitsCore]
    by_cases h0 : n / 10 = 0
    · simp only [h0, if_true]
      have hn10 : n % 10 = n := by omega
      refine ⟨[Nat.digitChar (n % 10)], rfl, by simp, ?_, ?_⟩
      · intro c hc
        rw [List.mem_singleton] at hc
        rw [hc]; exact is_digit_digitChar _ hmod
      · intro acc hacc hfit
        simp only [List.length_singleton, pow_one, List.foldl_cons, List.foldl_nil] at hfit ⊢
        unfold accumulate
        rw [toNat_digitChar _ hmod, hn10, wrap32_eq_self _ (by omega) (by omega)]
        ring
    · simp only [h0, if_false]
      obtain ⟨pre, hpre, -, hdig, hval⟩ := ih (n / 10) (Nat.digitChar (n % 10) :: ds) (by omega)
      refine ⟨pre ++ [Nat.digitChar (n % 10)], by rw [hpre]; simp, by simp, ?_, ?_⟩
      · intro c hc
        rw [List.mem_append, List.mem_singleton] at hc
        rcases hc with hc | hc
        · exact hdig c hc
        · rw [hc]; exact is_digit_digitChar _ hmod
      · intro acc hacc hfit
        have hdm : (n : Int) = 10 * ((n / 10 : Nat) : Int) + ((n % 10 : Nat) : Int) := by
          have := Nat.div_add_mod n 10
          omega
        rw [List.length_append, List.length_singleton, pow_succ] at hfit ⊢
        have h2 : 0 ≤ acc * 10 ^ pre.length := by positivity
        have hv := hval acc hacc (by nlinarith)
        rw [List.foldl_append, hv]
        simp only [List.foldl_cons, List.foldl_nil]
        unfold accumulate
        rw [toNat_digitChar _ hmod, wrap32_eq_self _ (by nlinarith) (by nlinarith)]
        rw [hdm]
        push_cast
        ring

/-- The decimal text of a number below `2^31` is a non-empty digit string whose
accumulated value is the number. -/
theorem decimal_spec (n : Nat) (hn : n < 2147483648) :
    decimal n ≠ [] ∧ IsDigitStr (decimal n) ∧ (decimal n).foldl accumulate 0 = n := by
  obtain ⟨pre, hpre, hne, hdig, hval⟩ := toDigitsCore_spec (n + 1) n [] (by omega)
  have hd : decimal n = pre := by
    unfold decimal Nat.toDigits
    rw [hpre, List.append_nil]
  rw [hd]
  refine ⟨hne, hdig, ?_⟩
  rw [hval 0 (le_refl _) (by omega)]
  ring

/-! ## The duration loop on numbers and unit designators -/

/-- A digit is none of the unit designators or fraction marks of a duration. -/
theorem is_digit_ne_designator (c : Char) (h : is_digit c = true) :
    c ≠ NUL ∧ c ≠ 'Y' ∧ c ≠ 'M' ∧ c ≠ 'D' ∧ c ≠ 'T' ∧ c ≠ 'H' ∧ c ≠ 'S' ∧ c ≠ 'W' ∧
    c ≠ '.' ∧ c ≠ ',' := by
  refine ⟨?_, ?_, ?_, ?_, ?_, ?_, ?_, ?_, ?_, ?_⟩ <;>
    (intro hc; rw [hc] at h; exact absurd h (by decide))

theorem duration_step_digit (s : DurationScan) (d : Char) (hd : is_digit d = true)
    (hf : s.in_fraction = 0) :
    duration_step s d = .ok { s with value := accumulate s.value d, grabbed := 1 } := by
  obtain ⟨-, h1, h2, h3, h4, h5, h6, h7, h8, h9⟩ := is_digit_ne_designator d hd
  unfold duration_step
  simp only [h1, h2, h3, h4, h5, h6, h7, h8, h9, hd, hf, or_self, if_false, if_true,
    ne_eq, not_true_eq_false]

/-- The loop over a non-empty run of digits outside a fraction accumulates `value`. -/
theorem duration_loop_digits (ds rest : List Char) (d : Char) (s : DurationScan)
    (h : IsDigitStr (d :: ds)) (hf : s.in_fraction = 0) :
    duration_loop (d :: ds ++ rest) s =
      duration_loop rest { s with value := (d :: ds).foldl accumulate s.value, grabbed := 1 } := by
  induction ds generalizing d s with
  | nil =>
    have hd : is_digit d = true := h d (List.mem_cons_self _ _)
    have h0 := (is_digit_ne_designator d hd).1
    simp only [List.cons_append, List.nil_append, duration_loop, h0, if_false,
      duration_step_digit s d hd hf, List.foldl_cons, List.foldl_nil]
    rfl
  | cons e ds ih =>
    have hd : is_digit d = true := h d (List.mem_cons_self _ _)
    have hds : IsDigitStr (e :: ds) := fun c hc => h c (List.mem_cons_of_mem _ hc)
    have h0 := (is_digit_ne_designator d hd).1
    rw [List.cons_append, duration_loop]
    simp only [h0, if_false, duration_step_digit s d hd hf]
    rw [ih e { s with value := accumulate s.value d, grabbed := 1 } hds hf]
    rfl

theorem duration_loop_decimal (n : Nat) (hn : n < 2147483648) (rest : List Char)
    (s : DurationScan) (hf : s.in_fraction = 0) (hv : s.value = 0) :
    duration_loop (decimal n ++ rest) s =
      duration_loop rest { s with value := n, grabbed := 1 } := by
  obtain ⟨hne, hdig, hval⟩ := decimal_spec n hn
  obtain ⟨d, ds, hd⟩ := List.exists_cons_of_ne_nil hne
  rw [hd] at hdig hval ⊢
  rw [duration_loop_digits ds rest d s hdig hf, hv, hval]


theorem duration_group_Y (P : Parsed) (n : Nat) (hn : n < 2147483648) (rest : List Char) :
    duration_loop (decimal n ++ ('Y' :: rest)) ⟨P, 0, 0, 0, 0, 0, 0, 0, 0, 0, 0, 0, 0, 0, 0, 0⟩ =
      duration_loop rest ⟨{ P with years := n }, 0, 0, 0, 0, 0, 0, 0, 1, 0, 1, 0, 0, 0, 0, 0⟩ := by
  rw [duration_loop_decimal n hn _ _ rfl rfl, duration_loop]
  have h0 : 'Y' ≠ NUL := by decide
  simp [duration_step, reset_number, h0]

theorem duration_group_M (P : Parsed) (n : Nat) (hn : n < 2147483648) (rest : List Char)
    (ymd hy : Int) :
    duration_loop (decimal n ++ ('M' :: rest))
        ⟨P, 0, 0, 0, 0, 0, 0, 0, ymd, 0, hy, 0, 0, 0, 0, 0⟩ =
      duration_loop rest ⟨{ P with months := n }, 0, 0, 0, 0, 0, 0, 0, 1, 0, hy, 1, 0, 0, 0, 0⟩ := by
  rw [duration_loop_decimal n hn _ _ rfl rfl, duration_loop]
  have h0 : 'M' ≠ NUL := by decide
  simp [duration_step, reset_number, h0]

theorem duration_group_D (P : Parsed) (n : Nat) (hn : n < 2147483648) (rest : List Char)
    (ymd hy hm : Int) :
    duration_loop (decimal n ++ ('D' :: rest))
        ⟨P, 0, 0, 0, 0, 0, 0, 0, ymd, 0, hy, hm, 0, 0, 0, 0⟩ =
      duration_loop rest ⟨{ P with days := n }, 0, 0, 0, 0, 0, 0, 0, 1, 0, hy, hm, 1, 0, 0, 0⟩ := by
  rw [duration_loop_decimal n hn _ _ rfl rfl, duration_loop]
  have h0 : 'D' ≠ NUL := by decide
  simp [duration_step, reset_number, h0]

theorem duration_T (P : Parsed) (rest : List Char) (ymd hy hm hd : Int) :
    duration_loop ('T' :: rest) ⟨P, 0, 0, 0, 0, 0, 0, 0, ymd, 0, hy, hm, hd, 0, 0, 0⟩ =
      duration_loop rest ⟨P, 0, 0, 1, 0, 0, 0, 0, ymd, 0, hy, hm, hd, 0, 0, 0⟩ := by
  rw [duration_loop]
  have h0 : 'T' ≠ NUL := by decide
  simp [duration_step, h0]

theorem duration_group_H (P : Parsed) (n : Nat) (hn : n < 2147483648) (rest : List Char)
    (ymd hy hm hd : Int) :
    duration_loop (decimal n ++ ('H' :: rest))
        ⟨P, 0, 0, 1, 0, 0, 0, 0, ymd, 0, hy, hm, hd, 0, 0, 0⟩ =
      duration_loop rest ⟨{ P with hours := n }, 0, 0, 1, 0, 0, 0, 0, ymd, 0, hy, hm, hd, 1, 0, 0⟩ := by
  rw [duration_loop_decimal n hn _ _ rfl rfl, duration_loop]
  have h0 : 'H' ≠ NUL := by decide
  simp [duration_step, reset_number, h0]

theorem duration_group_min (P : Parsed) (n : Nat) (hn : n < 2147483648) (rest : List Char)
    (ymd hy hm hd hh : Int) :
    duration_loop (decimal n ++ ('M' :: rest))
        ⟨P, 0, 0, 1, 0, 0, 0, 0, ymd, 0, hy, hm, hd, hh, 0, 0⟩ =
      duration_loop rest
        ⟨{ P with minutes := n }, 0, 0, 1, 0, 0, 0, 0, ymd, 0, hy, hm, hd, hh, 1, 0⟩ := by
  rw [duration_loop_decimal n hn _ _ rfl rfl, duration_loop]
  have h0 : 'M' ≠ NUL := by decide
  simp [duration_step, reset_number, h0]

theorem duration_group_S (P : Parsed) (n : Nat) (hn : n < 2147483648) (rest : List Char)
    (ymd hy hm hd hh hmi : Int) :
    duration_loop (decimal n ++ ('S' :: rest))
        ⟨P, 0, 0, 1, 0, 0, 0, 0, ymd, 0, hy, hm, hd, hh, hmi, 0⟩ =
      duration_loop rest
        ⟨{ P with seconds := n }, 0, 0, 1, 0, 0, 0, 0, ymd, 0, hy, hm, hd, hh, hmi, 1⟩ := by
  rw [duration_loop_decimal n hn _ _ rfl rfl, duration_loop]
  have h0 : 'S' ≠ NUL := by decide
  simp [duration_step, reset_number, h0]


theorem duration_loop_nil (s : DurationScan) : duration_loop [] s = .ok s := rfl

/-- C3: for all non-negative integers below `2^31` written in decimal, the duration parser
applied to `P{y}Y{mo}M{d}DT{h}H{mi}M{s}S`, with any of the six number+unit groups left out
(`T` kept exactly when a time group remains), succeeds and returns the written values in
`years`, `months`, `days`, `hours`, `minutes`, `seconds`, 0 for every group left out, and
`weeks = 0`, `microseconds = 0`. -/
theorem parse_duration_groups (y mo d h mi s : Option Nat)
    (hy : y.getD 0 < 2147483648) (hmo : mo.getD 0 < 2147483648) (hd : d.getD 0 < 2147483648)
    (hh : h.getD 0 < 2147483648) (hmi : mi.getD 0 < 2147483648) (hs : s.getD 0 < 2147483648) :
    _parse_iso8601_duration (duration_text y mo d h mi s) new_parsed =
      .ok { new_parsed with
            is_duration := 1, years := (y.getD 0 : Nat), months := (mo.getD 0 : Nat),
            weeks := 0, days := (d.getD 0 : Nat), hours := (h.getD 0 : Nat),
            minutes := (mi.getD 0 : Nat), seconds := (s.getD 0 : Nat), microseconds := 0 } := by
  unfold _parse_iso8601_duration duration_text duration_init
  rcases y with _ | y <;> rcases mo with _ | mo <;> rcases d with _ | d <;>
    rcases h with _ | h <;> rcases mi with _ | mi <;> rcases s with _ | s <;>
    simp only [Option.getD_some, Option.getD_none] at hy hmo hd hh hmi hs <;>
    simp only [duration_group, Option.isSome_some, Option.isSome_none, List.tail_cons,
      List.append_assoc, List.nil_append, List.append_nil, List.cons_append,
      List.singleton_append, Bool.false_eq_true, or_self, or_true, true_or, if_true, if_false,
      Option.getD_some, Option.getD_none,
      duration_group_Y, duration_group_M, duration_group_D, duration_T, duration_group_H,
      duration_group_min, duration_group_S, duration_loop_nil, hy, hmo, hd, hh, hmi, hs] <;>
    simp [new_parsed]


/-- Witness for `parse_duration_groups`: the text `P1Y2M10DT2H30M` (seconds left out). -/
theorem parse_duration_groups_witness :
    duration_text (some 1) (some 2) (some 10) (some 2) (some 30) none
      = "P1Y2M10DT2H30M".toList ∧
    _parse_iso8601_duration "P1Y2M10DT2H30M".toList new_parsed =
      .ok { new_parsed with
            is_duration := 1, years := 1, months := 2, weeks := 0, days := 10, hours := 2,
            minutes := 30, seconds := 0, microseconds := 0 } :=
  ⟨by decide,
   parse_duration_groups (some 1) (some 2) (some 10) (some 2) (some 30) none
     (by decide) (by decide) (by decide) (by decide) (by decide) (by decide)⟩

/-! ## `local_time`: the year loops -/

theorem SECS_PER_100_YEARS_0 : SECS_PER_100_YEARS 0 = 3155673600 := by decide
theorem SECS_PER_100_YEARS_1 : SECS_PER_100_YEARS 1 = 3155760000 := by decide
theorem SECS_PER_4_YEARS_0 : SECS_PER_4_YEARS 0 = 126144000 := by decide
theorem SECS_PER_4_YEARS_1 : SECS_PER_4_YEARS 1 = 126230400 := by decide
theorem SECS_PER_YEAR_0 : SECS_PER_YEAR 0 = 31536000 := by decide
theorem SECS_PER_YEAR_1 : SECS_PER_YEAR 1 = 31622400 := by decide

/-- The century loop once the leap flag is 0: whole non-leap centuries are peeled off. -/
theorem loop_100_years_steady (n : Nat) :
    ∀ (s y : Int), 0 ≤ s → s < 4611686018427387904 → s / 3155673600 < n →
      -2147483648 ≤ y → y + 100 * (s / 3155673600) < 2147483648 →
      loop_100_years n s y 0 = some (s % 3155673600, y + 100 * (s / 3155673600), 0) := by
  induction n with
  | zero => intro s y h0 _ hn; omega
  | succ n ih =>
    intro s y h0 h1 hn hy hy2
    rw [loop_100_years, SECS_PER_100_YEARS_0]
    by_cases hc : s ≥ 3155673600
    · rw [if_pos hc, wrap64_eq_self _ (by omega) (by omega),
        wrap32_eq_self _ (by omega) (by omega),
        ih (s - 3155673600) (y + 100) (by omega) (by omega) (by omega) (by omega) (by omega)]
      congr 2
      · omega
      · congr 1; omega
    · rw [if_neg hc]
      congr 2
      · omega
      · congr 1; omega

/-- The 4-year loop once the leap flag is 1. -/
theorem loop_4_years_steady (n : Nat) :
    ∀ (s y : Int), 0 ≤ s → s < 4611686018427387904 → s / 126230400 < n →
      -2147483648 ≤ y → y + 4 * (s / 126230400) < 2147483648 →
      loop_4_years n s y 1 = some (s % 126230400, y + 4 * (s / 126230400), 1) := by
  induction n with
  | zero => intro s y h0 _ hn; omega
  | succ n ih =>
    intro s y h0 h1 hn hy hy2
    rw [loop_4_years, SECS_PER_4_YEARS_1]
    by_cases hc : s ≥ 126230400
    · rw [if_pos hc, wrap64_eq_self _ (by omega) (by omega),
        wrap32_eq_self _ (by omega) (by omega),
        ih (s - 126230400) (y + 4) (by omega) (by omega) (by omega) (by omega) (by omega)]
      congr 2
      · omega
      · congr 1; omega
    · rw [if_neg hc]
      congr 2
      · omega
      · congr 1; omega

/-- The year loop once the leap flag is 0. -/
theorem loop_1_year_steady (n : Nat) :
    ∀ (s y : Int), 0 ≤ s → s < 4611686018427387904 → s / 31536000 < n →
      -2147483648 ≤ y → y + s / 31536000 < 2147483648 →
      loop_1_year n s y 0 = some (s % 31536000, y + s / 31536000, 0) := by
  induction n with
  | zero => intro s y h0 _ hn; omega
  | succ n ih =>
    intro s y h0 h1 hn hy hy2
    rw [loop_1_year, SECS_PER_YEAR_0]
    by_cases hc : s ≥ 31536000
    · rw [if_pos hc, wrap64_eq_self _ (by omega) (by omega),
        wrap32_eq_self _ (by omega) (by omega),
        ih (s - 31536000) (y + 1) (by omega) (by omega) (by omega) (by omega) (by omega)]
      congr 2
      · omega
      · congr 1; omega
    · rw [if_neg hc]
      congr 2
      · omega
      · congr 1; omega


theorem loop_fuel_eq : LOOP_FUEL = 31 + 1 := rfl

/-- Result of the century loop: `c` centuries are peeled off, the first a leap-starting one. -/
theorem loop_100_years_spec (r y : Int) (hr0 : 0 ≤ r) (hr1 : r < 12622780800)
    (hy : -2147483648 ≤ y) (hy2 : y < 2147480000) :
    ∃ c r1 l1 : Int, loop_100_years LOOP_FUEL r y 1 = some (r1, y + 100 * c, l1) ∧
      0 ≤ c ∧ c ≤ 3 ∧ 0 ≤ r1 ∧
      ((c = 0 ∧ l1 = 1 ∧ r1 = r ∧ r < 3155760000) ∨
       (1 ≤ c ∧ l1 = 0 ∧ r = 3155760000 + (c - 1) * 3155673600 + r1 ∧ r1 < 3155673600)) := by
  rw [loop_fuel_eq, loop_100_years, SECS_PER_100_YEARS_1]
  by_cases hc : r ≥ 3155760000
  · rw [if_pos hc, wrap64_eq_self _ (by omega) (by omega), wrap32_eq_self _ (by omega) (by omega),
      loop_100_years_steady 31 (r - 3155760000) (y + 100) (by omega) (by omega) (by omega)
        (by omega) (by omega)]
    refine ⟨1 + (r - 3155760000) / 3155673600, (r - 3155760000) % 3155673600, 0, ?_, by omega,
      by omega, by omega, Or.inr ⟨by omega, rfl, by omega, by omega⟩⟩
    congr 2
    congr 1
    ring
  · rw [if_neg hc]
    exact ⟨0, r, 1, by simp, by omega, by omega, hr0, Or.inl ⟨rfl, rfl, rfl, by omega⟩⟩

/-- Result of the 4-year loop inside a century whose first year has leap flag `l1`. -/
theorem loop_4_years_spec (r1 y l1 : Int) (hl : l1 = 0 ∨ l1 = 1) (hr0 : 0 ≤ r1)
    (hr1 : r1 < 3155673600 + 86400 * l1)
    (hy : -2147483648 ≤ y) (hy2 : y < 2147480000) :
    ∃ f r2 l2 : Int, loop_4_years LOOP_FUEL r1 y l1 = some (r2, y + 4 * f, l2) ∧
      0 ≤ f ∧ f ≤ 24 ∧ 0 ≤ r2 ∧
      ((f = 0 ∧ l2 = l1 ∧ r2 = r1 ∧ r1 < 126144000 + 86400 * l1) ∨
       (1 ≤ f ∧ l2 = 1 ∧ r1 = 126144000 + 86400 * l1 + (f - 1) * 126230400 + r2 ∧
          r2 < 126230400)) := by
  have hB : SECS_PER_4_YEARS l1 = 126144000 + 86400 * l1 := by
    rcases hl with rfl | rfl <;> decide
  rw [loop_fuel_eq, loop_4_years, hB]
  by_cases hc : r1 ≥ 126144000 + 86400 * l1
  · rw [if_pos hc, wrap64_eq_self _ (by omega) (by omega), wrap32_eq_self _ (by omega) (by omega),
      loop_4_years_steady 31 (r1 - (126144000 + 86400 * l1)) (y + 4) (by omega) (by omega)
        (by omega) (by omega) (by omega)]
    refine ⟨1 + (r1 - (126144000 + 86400 * l1)) / 126230400,
      (r1 - (126144000 + 86400 * l1)) % 126230400, 1, ?_, by omega,
      by omega, by omega, Or.inr ⟨by omega, rfl, by omega, by omega⟩⟩
    congr 2
    congr 1
    ring
  · rw [if_neg hc]
    exact ⟨0, r1, l1, by simp, by omega, by omega, hr0, Or.inl ⟨rfl, rfl, rfl, by omega⟩⟩

/-- Result of the year loop inside a 4-year chunk whose first year has leap flag `l2`. -/
theorem loop_1_year_spec (r2 y l2 : Int) (hl : l2 = 0 ∨ l2 = 1) (hr0 : 0 ≤ r2)
    (hr1 : r2 < 126144000 + 86400 * l2)
    (hy : -2147483648 ≤ y) (hy2 : y < 2147480000) :
    ∃ a r3 l3 : Int, loop_1_year LOOP_FUEL r2 y l2 = some (r3, y + a, l3) ∧
      0 ≤ a ∧ a ≤ 3 ∧ 0 ≤ r3 ∧
      ((a = 0 ∧ l3 = l2 ∧ r3 = r2 ∧ r2 < 31536000 + 86400 * l2) ∨
       (1 ≤ a ∧ l3 = 0 ∧ r2 = 31536000 + 86400 * l2 + (a - 1) * 31536000 + r3 ∧
          r3 < 31536000)) := by
  have hC : SECS_PER_YEAR l2 = 31536000 + 86400 * l2 := by
    rcases hl with rfl | rfl <;> decide
  rw [loop_fuel_eq, loop_1_year, hC]
  by_cases hc : r2 ≥ 31536000 + 86400 * l2
  · rw [if_pos hc, wrap64_eq_self _ (by omega) (by omega), wrap32_eq_self _ (by omega) (by omega),
      loop_1_year_steady 31 (r2 - (31536000 + 86400 * l2)) (y + 1) (by omega) (by omega)
        (by omega) (by omega) (by omega)]
    refine ⟨1 + (r2 - (31536000 + 86400 * l2)) / 31536000,
      (r2 - (31536000 + 86400 * l2)) % 31536000, 0, ?_, by omega,
      by omega, by omega, Or.inr ⟨by omega, rfl, by omega, by omega⟩⟩
    congr 2
    congr 1
    ring
  · rw [if_neg hc]
    exact ⟨0, r2, l2, by simp, by omega, by omega, hr0, Or.inl ⟨rfl, rfl, rfl, by omega⟩⟩

/-! ## `local_time`: month and day -/

/-- The month loop walks down from `month` to the month that holds day `day` of the year. -/
theorem loop_month_aux (l day : Int) (hl : l = 0 ∨ l = 1) (hd1 : 1 ≤ day) (n : Nat) :
    ∀ month : Int, month = n → 1 ≤ month → month ≤ 12 → day ≤ MONTHS_OFFSETS l (month + 1) →
      ∃ m : Int, loop_month l n month day = (m, day - MONTHS_OFFSETS l m) ∧ 1 ≤ m ∧ m ≤ 12 ∧
        MONTHS_OFFSETS l m < day ∧ day ≤ MONTHS_OFFSETS l (m + 1) := by
  induction n with
  | zero => intro month h0 h1; simp at h0; omega
  | succ n ih =>
    intro month hmn hm1 hm2 hday
    have h1 := MONTHS_OFFSETS_closed l 1 hl (by decide) (by decide)
    norm_num at h1
    have hlo : 0 ≤ MONTHS_OFFSETS l month := by
      rw [MONTHS_OFFSETS_closed l month hl hm1 (by omega)]
      split <;> omega
    have hhi : MONTHS_OFFSETS l (month + 1) ≤ 366 := by
      rw [MONTHS_OFFSETS_closed l (month + 1) hl (by omega) (by omega)]
      split <;> omega
    rw [loop_month]
    by_cases hne : month ≠ 1
    · rw [if_pos hne]
      simp only []
      by_cases hgt : day > MONTHS_OFFSETS l month
      · rw [if_pos hgt, wrap32_eq_self _ (by omega) (by omega)]
        exact ⟨month, rfl, hm1, hm2, hgt, hday⟩
      · rw [if_neg hgt, wrap32_eq_self _ (by omega) (by omega)]
        push_cast at hmn
        apply ih (month - 1) (by omega) (by omega) (by omega)
        rw [show month - 1 + 1 = month from by ring]
        omega
    · rw [if_neg hne]
      have hm : month = 1 := by omega
      subst hm
      refine ⟨1, ?_, by omega, by omega, by omega, hday⟩
      rw [h1]; simp

theorem loop_month_spec (l day : Int) (hl : l = 0 ∨ l = 1) (hd1 : 1 ≤ day)
    (hd2 : day ≤ 365 + l) :
    ∃ m d : Int, loop_month l 12 12 day = (m, d) ∧ 1 ≤ m ∧ m ≤ 12 ∧ 1 ≤ d ∧
      d ≤ DAYS_PER_MONTHS l m ∧ MONTHS_OFFSETS l m + d = day := by
  have h13 := MONTHS_OFFSETS_closed l 13 hl (by decide) (by decide)
  norm_num at h13
  obtain ⟨m, hm, hm1, hm2, hlo, hhi⟩ := loop_month_aux l day hl hd1 12 12 (by norm_num)
    (by decide) (by decide) (by norm_num; omega)
  have hdpm := DAYS_PER_MONTHS_closed l m hl hm1 hm2
  exact ⟨m, day - MONTHS_OFFSETS l m, hm, hm1, hm2, by omega, by omega, by omega⟩


/-! ## `local_time`: alignment and assembly -/

/-- The alignment leaves the seconds since 2000-01-01 reduced modulo 400 years and the
first year of that 400-year period. -/
theorem align_400_years_spec (T off : Int)
    (hoff1 : -2147483648 ≤ off) (hoff2 : off < 2147483648)
    (hlo : -62135596800 ≤ T + off) (hhi : T + off < 185480403379200) :
    align_400_years (T : ℚ) off =
      ((T + off - 946684800) % 12622780800,
       2000 + 400 * ((T + off - 946684800) / 12622780800)) := by
  unfold align_400_years
  simp only [Int.floor_intCast, EPOCH_YEAR,
    show SECS_PER_DAY = 86400 from by decide,
    show SECS_PER_400_YEARS = 12622780800 from by decide]
  rw [wrap64_eq_self T (by omega) (by omega)]
  by_cases hT : T ≥ 0
  · simp only [hT, if_true]
    rw [wrap64_eq_self (T - 10957 * 86400) (by omega) (by omega),
      wrap64_eq_self (T - 10957 * 86400 + off) (by omega) (by omega),
      cdiv_eq _ 12622780800 (by decide), cmod_eq _ 12622780800 (by decide)]
    by_cases h0 : 0 ≤ T - 10957 * 86400 + off
    · simp only [h0, if_true]
      have hq : wrap32 (1970 + 30 + 400 * ((T - 10957 * 86400 + off) / 12622780800))
          = 2000 + 400 * ((T + off - 946684800) / 12622780800) := by
        rw [wrap32_eq_self _ (by omega) (by omega)]; omega
      rw [hq, if_neg (by omega), if_neg (by omega)]
      congr 1
      omega
    · simp only [h0, if_false]
      have hq : wrap32 (1970 + 30 + 400 * -(-(T - 10957 * 86400 + off) / 12622780800))
          = 2000 + 400 * -(-(T - 10957 * 86400 + off) / 12622780800) := by
        rw [wrap32_eq_self _ (by omega) (by omega)]; omega
      rw [hq]
      by_cases h1 : -(-(T - 10957 * 86400 + off) % 12622780800) < 0
      · rw [if_pos h1, if_pos h1, wrap32_eq_self _ (by omega) (by omega)]
        congr 1 <;> omega
      · rw [if_neg h1, if_neg h1]
        congr 1 <;> omega
  · simp only [hT, if_false]
    rw [wrap64_eq_self (T + (146097 - 10957) * 86400) (by omega) (by omega),
      wrap64_eq_self (T + (146097 - 10957) * 86400 + off) (by omega) (by omega),
      cdiv_eq _ 12622780800 (by decide), cmod_eq _ 12622780800 (by decide)]
    by_cases h0 : 0 ≤ T + (146097 - 10957) * 86400 + off
    · simp only [h0, if_true]
      have hq : wrap32 (1970 - 370 + 400 * ((T + (146097 - 10957) * 86400 + off) / 12622780800))
          = 2000 + 400 * ((T + off - 946684800) / 12622780800) := by
        rw [wrap32_eq_self _ (by omega) (by omega)]; omega
      rw [hq, if_neg (by omega), if_neg (by omega)]
      congr 1
      omega
    · simp only [h0, if_false]
      have hq : wrap32 (1970 - 370 + 400 * -(-(T + (146097 - 10957) * 86400 + off) / 12622780800))
          = 1600 + 400 * -(-(T + (146097 - 10957) * 86400 + off) / 12622780800) := by
        rw [wrap32_eq_self _ (by omega) (by omega)]; omega
      rw [hq]
      by_cases h1 : -(-(T + (146097 - 10957) * 86400 + off) % 12622780800) < 0
      · rw [if_pos h1, if_pos h1, wrap32_eq_self _ (by omega) (by omega)]
        congr 1 <;> omega
      · rw [if_neg h1, if_neg h1]
        congr 1 <;> omega


/-- The fields extracted from the seconds `r3` into year `y` (leap flag `l3`): the date is
day `r3 / 86400` of the year, the time is `r3 % 86400`. -/
theorem civil_fields_spec (r3 y l3 us : Int) (hl : _is_leap y = l3)
    (hy1 : 1 ≤ y) (hy2 : y ≤ 5879609) (hr0 : 0 ≤ r3) (hr1 : r3 < 86400 * (365 + l3)) :
    ∃ m d h mi s : Int, civil_fields r3 y l3 us = ⟨y, m, d, h, mi, s, us⟩ ∧
      ValidDate y m d ∧ _day_number y m d = _day_number y 1 1 + r3 / 86400 ∧
      h * 3600 + mi * 60 + s = r3 % 86400 ∧
      0 ≤ h ∧ h ≤ 23 ∧ 0 ≤ mi ∧ mi ≤ 59 ∧ 0 ≤ s ∧ s ≤ 59 := by
  have hl01 : l3 = 0 ∨ l3 = 1 := by rw [← hl]; exact _is_leap_01 y
  obtain ⟨m, d, hmd, hm1, hm2, hd1, hd2, hsum⟩ := loop_month_spec l3 (r3 / 86400 + 1) hl01
    (by omega) (by omega)
  have hle := DAYS_PER_MONTHS_le l3 m hl01 hm1 hm2
  refine ⟨m, d, r3 % 86400 / 3600, r3 % 86400 % 3600 / 60, r3 % 86400 % 3600 % 60, ?_,
    ⟨hm1, hm2, hd1, by rw [hl]; exact hd2⟩, ?_, by omega, by omega, by omega, by omega,
    by omega, by omega, by omega⟩
  · unfold civil_fields
    simp only [show SECS_PER_DAY = 86400 from by decide,
      show SECS_PER_HOUR = 3600 from by decide, show SECS_PER_MIN = 60 from by decide]
    rw [cdiv_nonneg_eq r3 86400 hr0 (by decide), cmod_nonneg_eq r3 86400 hr0 (by decide),
      cdiv_nonneg_eq (r3 % 86400) 3600 (by omega) (by decide),
      cmod_nonneg_eq (r3 % 86400) 3600 (by omega) (by decide),
      cdiv_nonneg_eq (r3 % 86400 % 3600) 60 (by omega) (by decide),
      cmod_nonneg_eq (r3 % 86400 % 3600) 60 (by omega) (by decide),
      wrap32_eq_self (r3 / 86400 + 1) (by omega) (by omega),
      wrap32_eq_self (r3 % 86400 / 3600) (by omega) (by omega),
      wrap32_eq_self (r3 % 86400 % 3600 / 60) (by omega) (by omega),
      wrap32_eq_self (r3 % 86400 % 3600 % 60) (by omega) (by omega), hmd]
  · rw [_day_number_split y m d hy1 hy2 hm1 hm2 hd1 (by omega), hl]
    omega

/-- Leap days counted up to the year before `2000 + 400 q + 100 c + 4 f + a`. -/
theorem leap_count_decomp (q c f a : Int) (hc0 : 0 ≤ c) (hc3 : c ≤ 3) (hf0 : 0 ≤ f)
    (hf24 : f ≤ 24) (ha0 : 0 ≤ a) (ha3 : a ≤ 3) :
    (1999 + 400 * q + 100 * c + 4 * f + a) / 4 =
        499 + 100 * q + 25 * c + f + (if a = 0 then 0 else 1) ∧
    (1999 + 400 * q + 100 * c + 4 * f + a) / 100 =
        19 + 4 * q + c + (if f = 0 ∧ a = 0 then 0 else 1) ∧
    (1999 + 400 * q + 100 * c + 4 * f + a) / 400 =
        4 + q + (if c = 0 ∧ f = 0 ∧ a = 0 then 0 else 1) := by
  refine ⟨?_, ?_, ?_⟩ <;> split <;> omega


set_option maxRecDepth 100000 in
/-- C4 as stated fails: for the timestamp `2^57` and offset 0 no 64-bit value overflows and
the year returned, 271863183, is at least 1, but it is the civil year reduced modulo `2^32`
(the `int32_t year` cannot hold 4566830479), so the day number of the returned date is not
`floor(S / 86400)` days after 1970-01-01.  Already for the timestamp 185480434828800
(5879610-12-31T00:00:00Z) the civil fields returned are right but the 32-bit day number of
the date has wrapped, so the difference of day numbers is not `floor(S / 86400)`. -/
theorem local_time_year_wraps :
    (local_time ((144115188075855872 : Int) : ℚ) 0 0
      = some ⟨271863183, 10, 18, 1, 44, 32, 0⟩ ∧
    (1 : Int) ≤ 271863183 ∧
    (1 : Int) * 3600 + 44 * 60 + 32 = (144115188075855872 + 0) % 86400 ∧
    _day_number 271863183 10 18 - _day_number 1970 1 1 ≠ (144115188075855872 + 0) / 86400) ∧
    (local_time ((185480434828800 : Int) : ℚ) 0 0 = some ⟨5879610, 12, 31, 0, 0, 0, 0⟩ ∧
     _day_number 5879610 12 31 - _day_number 1970 1 1 = -2148203004 ∧
     (185480434828800 + 0 : Int) / 86400 = 2146764292) := by
  decide

/-- C4, amended: for every integer timestamp `T` and 32-bit offset `off` such that
`S = T + off` lies in the civil years 1..5879609 (from 0001-01-01T00:00:00, `S = -62135596800`,
up to but excluding 5879610-01-01T00:00:00, `S = 185480403379200`, the range in which the year
and the day numbers fit in 32 bits), `local_time(T, off, us)` returns a valid date and time
with `day_number(year, month, day) - day_number(1970, 1, 1) = floor(S / 86400)`,
`hour * 3600 + minute * 60 + second = S mod 86400`, and the microsecond unchanged. -/
theorem local_time_civil (T off us : Int)
    (hoff1 : -2147483648 ≤ off) (hoff2 : off < 2147483648)
    (hlo : -62135596800 ≤ T + off) (hhi : T + off < 185480403379200) :
    ∃ r : LocalTime, local_time (T : ℚ) off us = some r ∧ r.microsecond = us ∧
      1 ≤ r.year ∧ ValidDate r.year r.month r.day ∧
      _day_number r.year r.month r.day - _day_number 1970 1 1 = (T + off) / 86400 ∧
      r.hour * 3600 + r.minute * 60 + r.second = (T + off) % 86400 ∧
      0 ≤ r.hour ∧ r.hour ≤ 23 ∧ 0 ≤ r.minute ∧ r.minute ≤ 59 ∧
      0 ≤ r.second ∧ r.second ≤ 59 := by
  have halign := align_400_years_spec T off hoff1 hoff2 hlo hhi
  generalize hq : (T + off - 946684800) / 12622780800 = q at halign
  generalize hr : (T + off - 946684800) % 12622780800 = r at halign
  have hS : T + off = 12622780800 * q + r + 946684800 := by omega
  have hr0 : 0 ≤ r := by omega
  have hr1 : r < 12622780800 := by omega
  have hq0 : -5 ≤ q := by omega
  have hq1 : q ≤ 14694 := by omega
  obtain ⟨c, r1, l1, h100, hc0, hc3, hr10, hcase1⟩ :=
    loop_100_years_spec r (2000 + 400 * q) hr0 hr1 (by omega) (by omega)
  have hl1 : l1 = 0 ∨ l1 = 1 := by omega
  obtain ⟨f, r2, l2, h4, hf0, hf24, hr20, hcase2⟩ :=
    loop_4_years_spec r1 (2000 + 400 * q + 100 * c) l1 hl1 hr10 (by omega) (by omega) (by omega)
  have hl2 : l2 = 0 ∨ l2 = 1 := by omega
  obtain ⟨a, r3, l3, h1, ha0, ha3, hr30, hcase3⟩ :=
    loop_1_year_spec r2 (2000 + 400 * q + 100 * c + 4 * f) l2 hl2 hr20 (by omega) (by omega)
      (by omega)
  have hl3 : l3 = 0 ∨ l3 = 1 := by omega
  have hY1 : 1 ≤ 2000 + 400 * q + 100 * c + 4 * f + a := by
    by_cases hq' : -4 ≤ q
    · omega
    · have hq5 : q = -5 := by omega
      subst hq5
      rcases hcase1 with ⟨e1, e2, e3, e4⟩ | ⟨e1, e2, e3, e4⟩ <;>
      rcases hcase2 with ⟨g1, g2, g3, g4⟩ | ⟨g1, g2, g3, g4⟩ <;>
      rcases hcase3 with ⟨k1, k2, k3, k4⟩ | ⟨k1, k2, k3, k4⟩ <;>
      omega
  have hY2 : 2000 + 400 * q + 100 * c + 4 * f + a ≤ 5879609 := by
    by_cases hq' : q ≤ 14693
    · omega
    · have hq14 : q = 14694 := by omega
      subst hq14
      rcases hcase1 with ⟨e1, e2, e3, e4⟩ | ⟨e1, e2, e3, e4⟩ <;>
      rcases hcase2 with ⟨g1, g2, g3, g4⟩ | ⟨g1, g2, g3, g4⟩ <;>
      rcases hcase3 with ⟨k1, k2, k3, k4⟩ | ⟨k1, k2, k3, k4⟩ <;>
      omega
  have hleap : _is_leap (2000 + 400 * q + 100 * c + 4 * f + a) = l3 := by
    rcases _is_leap_cases (2000 + 400 * q + 100 * c + 4 * f + a) with ⟨h, h4', h100'⟩ | ⟨h, hn⟩
    · rw [h]; omega
    · rw [h]; omega
  obtain ⟨m, d, h, mi, s, hcf, hv, hdn, htime, hh0, hh1, hm0, hm1, hs0, hs1⟩ :=
    civil_fields_spec r3 (2000 + 400 * q + 100 * c + 4 * f + a) l3 us hleap hY1 hY2 hr30
      (by omega)
  refine ⟨⟨2000 + 400 * q + 100 * c + 4 * f + a, m, d, h, mi, s, us⟩, ?_, rfl, hY1, hv, ?_, ?_,
    hh0, hh1, hm0, hm1, hs0, hs1⟩
  · unfold local_time
    simp only [halign, h100, h4, h1, hcf]
  · show _day_number (2000 + 400 * q + 100 * c + 4 * f + a) m d - _day_number 1970 1 1 = _
    obtain ⟨hz4, hz100, hz400⟩ := leap_count_decomp q c f a hc0 hc3 hf0 hf24 ha0 ha3
    have hj := _day_number_jan1 (2000 + 400 * q + 100 * c + 4 * f + a) hY1 hY2
    rw [show 2000 + 400 * q + 100 * c + 4 * f + a - 1 = 1999 + 400 * q + 100 * c + 4 * f + a
      from by ring, hz4, hz100, hz400] at hj
    rw [hdn, hj, show _day_number 1970 1 1 = 719468 from by decide, hS]
    rcases hcase1 with ⟨e1, e2, e3, e4⟩ | ⟨e1, e2, e3, e4⟩ <;>
    rcases hcase2 with ⟨g1, g2, g3, g4⟩ | ⟨g1, g2, g3, g4⟩ <;>
    rcases hcase3 with ⟨k1, k2, k3, k4⟩ | ⟨k1, k2, k3, k4⟩ <;>
    split_ifs <;> omega
  · show h * 3600 + mi * 60 + s = _
    rw [htime, hS]
    rcases hcase1 with ⟨e1, e2, e3, e4⟩ | ⟨e1, e2, e3, e4⟩ <;>
    rcases hcase2 with ⟨g1, g2, g3, g4⟩ | ⟨g1, g2, g3, g4⟩ <;>
    rcases hcase3 with ⟨k1, k2, k3, k4⟩ | ⟨k1, k2, k3, k4⟩ <;>
    omega


/-- Witness for `local_time_civil`: the timestamp 1621600200 (2021-05-21T12:30:00Z) at
offset +01:00 with 5 microseconds. -/
theorem local_time_civil_witness :
    local_time ((1621600200 : Int) : ℚ) 3600 5 = some ⟨2021, 5, 21, 13, 30, 0, 5⟩ ∧
    ∃ r : LocalTime, local_time ((1621600200 : Int) : ℚ) 3600 5 = some r ∧ r.microsecond = 5 ∧
      1 ≤ r.year ∧ ValidDate r.year r.month r.day ∧
      _day_number r.year r.month r.day - _day_number 1970 1 1 = (1621600200 + 3600) / 86400 ∧
      r.hour * 3600 + r.minute * 60 + r.second = (1621600200 + 3600) % 86400 ∧
      0 ≤ r.hour ∧ r.hour ≤ 23 ∧ 0 ≤ r.minute ∧ r.minute ≤ 59 ∧
      0 ≤ r.second ∧ r.second ≤ 59 :=
  ⟨by decide,
   local_time_civil 1621600200 3600 5 (by decide) (by decide) (by decide) (by decide)⟩

/-! ## Weekdays and long years -/

theorem _week_day_eq_week_day (y m d : Int) : _week_day y m d = week_day y m d := rfl

theorem _p_eq_p (y : Int) : _p y = p y := rfl

/-- Leap-day count `L` before year `y` and the quantities expressed with it. -/
theorem year_start_facts (y : Int) (hy : 1 ≤ y) (hy2 : y ≤ 5879609) :
    ∃ L : Int, 0 ≤ L ∧ L ≤ y ∧
      _p (wrap32 (y - 1)) = y - 1 + L ∧ _p y = y + L + _is_leap y ∧
      _day_number y 1 1 = 365 * (y - 1) + L + 306 ∧
      _day_number y 1 4 = 365 * (y - 1) + L + 309 ∧
      _week_day y 1 1 = (_day_number y 1 1 + 2) % 7 + 1 ∧
      _week_day y 1 4 = (_day_number y 1 4 + 2) % 7 + 1 := by
  refine ⟨(y - 1) / 4 - (y - 1) / 100 + (y - 1) / 400, by omega, by omega, ?_, ?_, ?_, ?_, ?_, ?_⟩
  · rw [wrap32_eq_self _ (by omega) (by omega), _p_eq_p, p_eq _ (by omega) (by omega)]
    ring
  · rw [_p_eq_p, p_eq _ (by omega) (by omega)]
    have := leap_count_step y
    linarith
  · rw [_day_number_jan1 y hy hy2]
    ring
  · rw [_day_number_split y 1 4 hy hy2 (by decide) (by decide) (by decide) (by decide),
      _day_number_jan1 y hy hy2,
      MONTHS_OFFSETS_closed _ 1 (_is_leap_01 y) (by decide) (by decide)]
    norm_num
    ring
  · rw [_week_day_eq_week_day,
      week_day_eq y 1 1 hy hy2 (by decide) (by decide) (by decide) (by decide)]
  · rw [_week_day_eq_week_day,
      week_day_eq y 1 4 hy hy2 (by decide) (by decide) (by decide) (by decide)]

/-- C11 as stated fails: 10 September 5879610 is a valid date of a year `>= 1` whose day
number has wrapped around the `int` range; `_week_day` returns 5 for it while the day-number
formula gives 1. -/
theorem week_day_formula_fails_after_wrap :
    (1 : Int) ≤ 5879610 ∧ ValidDate 5879610 9 10 ∧ _week_day 5879610 9 10 = 5 ∧
    (_day_number 5879610 9 10 - _day_number 2024 1 1) % 7 + 1 = 1 := by
  decide

/-- C11, amended: for every valid date with year in `1 .. 5879609` (the years whose day
numbers fit in an `int`), `_week_day(year, month, day)` lies in 1..7 and equals
`((_day_number(year, month, day) - _day_number(2024, 1, 1)) mod 7) + 1`, and
`_week_day(2024, 1, 1) = 1` (a Monday). -/
theorem week_day_iso_number (y m d : Int) (hy : 1 ≤ y) (hy2 : y ≤ 5879609)
    (hv : ValidDate y m d) :
    1 ≤ _week_day y m d ∧ _week_day y m d ≤ 7 ∧
    _week_day y m d = (_day_number y m d - _day_number 2024 1 1) % 7 + 1 ∧
    _week_day 2024 1 1 = 1 := by
  obtain ⟨hm1, hm2, hd1, hd2⟩ := hv
  have hle := DAYS_PER_MONTHS_le (_is_leap y) m (_is_leap_01 y) hm1 hm2
  have h := week_day_eq y m d hy hy2 hm1 hm2 hd1 (by omega)
  have h24 : _day_number 2024 1 1 = 739191 := by decide
  rw [_week_day_eq_week_day, h, h24]
  refine ⟨by omega, by omega, by omega, by decide⟩

/-- Witness for `week_day_iso_number`: 28 May 2021, a Friday. -/
theorem week_day_iso_number_witness :
    _week_day 2021 5 28 = 5 ∧
    (1 ≤ _week_day 2021 5 28 ∧ _week_day 2021 5 28 ≤ 7 ∧
     _week_day 2021 5 28 = (_day_number 2021 5 28 - _day_number 2024 1 1) % 7 + 1 ∧
     _week_day 2024 1 1 = 1) :=
  ⟨by decide, week_day_iso_number 2021 5 28 (by decide) (by decide) (by decide)⟩

/-- The function `_p` without wrap-around, up to the last year for which the sum fits in an
`int` less the few years treated separately. -/
theorem _p_eq_wide (y : Int) (h0 : 0 ≤ y) (h1 : y ≤ 1728357058) :
    _p y = y + y / 4 - y / 100 + y / 400 := by
  unfold _p
  rw [cdiv_nonneg_eq y 4 h0 (by omega), cdiv_nonneg_eq y 100 h0 (by omega),
    cdiv_nonneg_eq y 400 h0 (by omega), wrap32_eq_self _ (by omega) (by omega)]

/-- The exact day numbers of 1 and 4 January. -/
theorem exact_day_number_jan (y : Int) :
    exact_day_number y 1 1 = 365 * (y - 1) + ((y - 1) / 4 - (y - 1) / 100 + (y - 1) / 400) + 306 ∧
    exact_day_number y 1 4 = 365 * (y - 1) + ((y - 1) / 4 - (y - 1) / 100 + (y - 1) / 400) + 309 := by
  unfold exact_day_number
  have e1 : ((1 : Int) + 9) % 12 = 10 := by decide
  have e2 : ((10 : Int) * 306 + 5) / 10 = 306 := by decide
  have e3 : (10 : Int) / 10 = 1 := by decide
  simp only [e1, e2, e3]
  constructor <;> ring

/-- The exact day numbers agree with `_day_number` while the latter fits in an `int`. -/
theorem exact_day_number_eq (y m d : Int) (hy : 1 ≤ y) (hy2 : y ≤ 5879609)
    (hm : 1 ≤ m) (hm2 : m ≤ 12) (hd : 1 ≤ d) (hd2 : d ≤ 31) :
    exact_day_number y m d = _day_number y m d := by
  rw [_day_number_eq y m d hy hy2 hm hm2 hd hd2]
  rfl

/-- C12 as stated fails: year 1728357063 is at least 1 and has 53 ISO weeks (its 1 January is a
Thursday, and the Monday of week 1 of the next year comes `53 * 7` days after its own), but
`_is_long_year` returns 0 for it: the sum `y + y/4 - y/100 + y/400` of `_p` has left the
`int` range.  For the same reason `_week_day` returns 7 for that 1 January. -/
theorem long_year_fails_after_wrap :
    (1 : Int) ≤ 1728357063 ∧ _is_long_year 1728357063 = 0 ∧
    exact_week_day 1728357063 1 1 = 4 ∧
    exact_iso_week1_monday (1728357063 + 1) - exact_iso_week1_monday 1728357063 = 53 * 7 ∧
    _week_day 1728357063 1 1 = 7 ∧
    (1728357063 : Int) + 1728357063 / 4 - 1728357063 / 100 + 1728357063 / 400 > 2147483647 := by
  decide

/-- C12, amended: for every year `y` in `1 .. 1728357062` (1728357063 being the first year for
which the claim fails), `_is_long_year(y)` is non-zero exactly when 1 January of `y` is a
Thursday, or `y` is a leap year and 1 January is a Wednesday (weekdays as computed by
`_week_day`); equivalently, exactly when the Monday starting ISO week 1 of `y + 1` lies
`53 * 7` days after the Monday starting ISO week 1 of `y` in the exact calendar (and it is
zero exactly when the distance is `52 * 7` days).  Up to year 1728357060 the weekday that
`_week_day` computes for 1 January is the exact one.  The parser's `is_long_year` is the same
function. -/
theorem long_year_iff (y : Int) (hy : 1 ≤ y) (hy2 : y ≤ 1728357062) :
    (_is_long_year y ≠ 0 ↔
      (_week_day y 1 1 = 4 ∨ (_is_leap y ≠ 0 ∧ _week_day y 1 1 = 3))) ∧
    (_is_long_year y ≠ 0 ↔
      exact_iso_week1_monday (y + 1) - exact_iso_week1_monday y = 53 * 7) ∧
    (_is_long_year y = 0 ↔
      exact_iso_week1_monday (y + 1) - exact_iso_week1_monday y = 52 * 7) ∧
    (y ≤ 1728357060 → _week_day y 1 1 = exact_week_day y 1 1) ∧
    is_long_year y = _is_long_year y := by
  by_cases hlast : 1728357059 ≤ y
  · have hc : y = 1728357059 ∨ y = 1728357060 ∨ y = 1728357061 ∨ y = 1728357062 := by omega
    rcases hc with h | h | h | h <;> subst h <;> decide
  · have hl := _is_leap_01 y
    have hstep := leap_count_step y
    have hstep1 := leap_count_step (y + 1)
    have hl1 := _is_leap_01 (y + 1)
    obtain ⟨d1, d4⟩ := exact_day_number_jan y
    obtain ⟨-, d4'⟩ := exact_day_number_jan (y + 1)
    have hp := _p_eq_wide y (by omega) (by omega)
    have hpm := _p_eq_wide (y - 1) (by omega) (by omega)
    have hw : wrap32 (y - 1) = y - 1 := wrap32_eq_self _ (by omega) (by omega)
    have hlong : _is_long_year y
        = cbool ((y - 1 + ((y - 1) / 4 - (y - 1) / 100 + (y - 1) / 400) + 1 + _is_leap y) % 7 = 4
            ∨ (y - 1 + ((y - 1) / 4 - (y - 1) / 100 + (y - 1) / 400)) % 7 = 3) := by
      have hp2 : _p y
          = y - 1 + ((y - 1) / 4 - (y - 1) / 100 + (y - 1) / 400) + 1 + _is_leap y := by
        rw [hp]
        linarith
      have hpm2 : _p (y - 1) = y - 1 + ((y - 1) / 4 - (y - 1) / 100 + (y - 1) / 400) := by
        rw [hpm]
        ring
      unfold _is_long_year
      rw [hw, hpm2, hp2, cmod_nonneg_eq _ _ (by omega) (by omega),
        cmod_nonneg_eq _ _ (by omega) (by omega)]
    have e1 : _week_day y 1 1
        = (y - 1 + ((y - 1) / 4 - (y - 1) / 100 + (y - 1) / 400)) % 7 + 1 := by
      unfold _week_day
      have c1 : cbool ((1 : Int) < 3) = 1 := by decide
      have c2 : DAY_OF_WEEK_TABLE (wrap32 (1 - 1)) = 0 := by decide
      have hpm3 : _p (y - 1) = y - 1 + ((y - 1) / 4 - (y - 1) / 100 + (y - 1) / 400) := by
        rw [hpm]
        ring
      simp only [c1, c2, hw, hpm3]
      rw [wrap32_eq_self _ (by omega) (by omega), cmod_nonneg_eq _ _ (by omega) (by omega)]
      split_ifs <;> omega
    have x1 : exact_week_day y 1 1
        = (y - 1 + ((y - 1) / 4 - (y - 1) / 100 + (y - 1) / 400)) % 7 + 1 := by
      unfold exact_week_day
      rw [d1]
      omega
    have x4 : exact_week_day y 1 4
        = (y - 1 + ((y - 1) / 4 - (y - 1) / 100 + (y - 1) / 400) + 3) % 7 + 1 := by
      unfold exact_week_day
      rw [d4]
      omega
    have x4' : exact_week_day (y + 1) 1 4
        = (y - 1 + ((y - 1) / 4 - (y - 1) / 100 + (y - 1) / 400) + 1 + _is_leap y + 3) % 7
            + 1 := by
      unfold exact_week_day
      rw [d4', add_sub_cancel_right, hstep]
      omega
    have ed : exact_day_number (y + 1) 1 4 - exact_day_number y 1 4 = 365 + _is_leap y := by
      rw [d4', d4, add_sub_cancel_right, hstep]
      ring
    refine ⟨?_, ?_, ?_, fun _ => by rw [e1, x1], rfl⟩ <;>
    · simp only [exact_iso_week1_monday, hlong, e1, x4, x4']
      generalize y - 1 + ((y - 1) / 4 - (y - 1) / 100 + (y - 1) / 400) = z at *
      generalize exact_day_number (y + 1) 1 4 = A at *
      generalize exact_day_number y 1 4 = B at *
      clear hp hpm hlong e1 x1 x4 x4' d1 d4 d4' hstep hstep1
      have hz : z % 7 = 0 ∨ z % 7 = 1 ∨ z % 7 = 2 ∨ z % 7 = 3 ∨ z % 7 = 4 ∨ z % 7 = 5 ∨
          z % 7 = 6 := by omega
      unfold cbool
      rcases hl with h | h <;> rw [h] at ed ⊢ <;>
        rcases hz with h0 | h0 | h0 | h0 | h0 | h0 | h0 <;> split <;> omega

/-- Witness for `long_year_iff`: 2020 is a long year (2021 is not). -/
theorem long_year_iff_witness :
    _is_long_year 2020 ≠ 0 ∧ _is_long_year 2021 = 0 ∧
    ((_is_long_year 2020 ≠ 0 ↔
      (_week_day 2020 1 1 = 4 ∨ (_is_leap 2020 ≠ 0 ∧ _week_day 2020 1 1 = 3))) ∧
    (_is_long_year 2020 ≠ 0 ↔
      exact_iso_week1_monday (2020 + 1) - exact_iso_week1_monday 2020 = 53 * 7) ∧
    (_is_long_year 2020 = 0 ↔
      exact_iso_week1_monday (2020 + 1) - exact_iso_week1_monday 2020 = 52 * 7) ∧
    ((2020 : Int) ≤ 1728357060 → _week_day 2020 1 1 = exact_week_day 2020 1 1) ∧
    is_long_year 2020 = _is_long_year 2020) :=
  ⟨by decide, by decide, long_year_iff 2020 (by decide) (by decide)⟩

/-! ## Texts without a four-digit year -/

/-- The year loop fails exactly with the invalid-ISO8601 code when one of the first `n`
characters is missing or is not a digit. -/
theorem scan_year_not_digits (n : Nat) (str : List Char) (year : Int)
    (h : ¬ (n ≤ str.length ∧ IsDigitStr (str.take n))) :
    scan_year n str year = .error PARSER_INVALID_ISO8601 := by
  induction n generalizing str year with
  | zero => exact absurd ⟨Nat.zero_le _, by intro c hc; simp at hc⟩ h
  | succ n ih =>
    rw [scan_year]
    cases str with
    | nil => simp [peek, is_digit, NUL]
    | cons c cs =>
      by_cases hd : is_digit c = true
      · simp only [peek_cons, hd, if_true, List.tail_cons]
        apply ih
        intro ⟨h1, h2⟩
        apply h
        refine ⟨by simpa using h1, ?_⟩
        intro x hx
        simp only [List.take_succ_cons, List.mem_cons] at hx
        rcases hx with hx | hx
        · rw [hx]; exact hd
        · exact h2 x hx
      · simp only [peek_cons, hd, Bool.false_eq_true, if_false]

/-- C13: for every text that does not start with `P` and whose first four characters are not
all ASCII digits (texts shorter than four characters and the empty text included),
`parse_iso8601` fails with the `ValueError` of `PARSER_INVALID_ISO8601`, and so does
`_parse_iso8601_datetime`. -/
theorem parse_rejects_missing_year (str : List Char) (hP : str.head? ≠ some 'P')
    (h4 : ¬ (4 ≤ str.length ∧ IsDigitStr (str.take 4))) :
    parse_iso8601 str = .error (.ValueError PARSER_INVALID_ISO8601) ∧
    _parse_iso8601_datetime str new_parsed = .error PARSER_INVALID_ISO8601 := by
  have hy := scan_year_not_digits 4 str 0 h4
  have hd : _parse_iso8601_datetime str new_parsed = .error PARSER_INVALID_ISO8601 := by
    unfold _parse_iso8601_datetime date_section
    simp only [show new_parsed.year = 0 from rfl]
    rw [hy]
  have hp : peek str ≠ 'P' := by
    cases str with
    | nil => decide
    | cons c cs =>
      intro hc
      apply hP
      rw [peek_cons] at hc
      rw [hc]; rfl
  refine ⟨?_, hd⟩
  unfold parse_iso8601
  simp only [hp, if_false]
  rw [hd]

/-- Witness for `parse_rejects_missing_year`: the text `not-a-date`; the empty text and
the three-digit text `202` fail the same way. -/
theorem parse_rejects_missing_year_witness :
    (parse_iso8601 "not-a-date".toList = .error (.ValueError PARSER_INVALID_ISO8601) ∧
     _parse_iso8601_datetime "not-a-date".toList new_parsed = .error PARSER_INVALID_ISO8601) ∧
    parse_iso8601 [] = .error (.ValueError PARSER_INVALID_ISO8601) ∧
    parse_iso8601 "202".toList = .error (.ValueError PARSER_INVALID_ISO8601) :=
  ⟨parse_rejects_missing_year "not-a-date".toList (by decide) (by decide),
   by rfl, by rfl⟩

/-! ## Calendar dates `YYYY-MM-DD` -/

theorem scan_monthday_nil (monthday separators i : Int) :
    scan_monthday [] monthday separators i = .ok (monthday, separators, i, []) := rfl

theorem peek_zero_padded_ne_P (k n : Nat) (rest : List Char) :
    peek (zero_padded (k + 1) n ++ rest) ≠ 'P' := by
  intro h
  have hd := peek_zero_padded_succ k n rest
  rw [h] at hd
  exact absurd hd (by decide)

/-- The date section on `YYYY-MM-DD` for arbitrary two-digit fields. -/
theorem date_section_ymd (Y M D : Nat) (hY : Y ≤ 9999) (hM : M ≤ 99) (hD : D ≤ 99) :
    date_section (date_text Y M D) new_parsed =
      if 100 * (M : Int) + D = 0 then .error PARSER_INVALID_DATE
      else if (12 : Int) < M then .error PARSER_INVALID_MONTH
      else if DAYS_PER_MONTHS (is_leap Y) M < D then .error PARSER_INVALID_DAY_FOR_MONTH
      else .ok ⟨{ new_parsed with is_date := 1, year := Y, month := M, day := D }, [],
                is_leap Y, 2, 100 * M + D, 0⟩ := by
  have hy := scan_year_digits (zero_padded 4 Y)
    ('-' :: (zero_padded 2 M ++ ('-' :: zero_padded 2 D))) 0 (isDigitStr_zero_padded 4 Y)
  rw [length_zero_padded,
    foldl_accumulate_zero_padded 4 Y 0 (le_refl _) (by norm_num; omega) (by norm_num; omega)] at hy
  have hw : peek (zero_padded 2 M ++ ('-' :: zero_padded 2 D)) ≠ 'W' :=
    (is_digit_ne _ (peek_zero_padded_succ 1 M _)).2.2.2.2.2.2.2.2.2
  have hmd : scan_monthday (zero_padded 2 M ++ ('-' :: zero_padded 2 D)) 0 1 0
      = .ok (100 * (M : Int) + D, 2, 4, []) := by
    rw [scan_monthday_digits _ _ _ _ _ (isDigitStr_zero_padded 2 M), scan_monthday_sep,
      ← List.append_nil (zero_padded 2 D),
      scan_monthday_digits _ _ _ _ _ (isDigitStr_zero_padded 2 D), scan_monthday_nil,
      length_zero_padded, length_zero_padded,
      foldl_accumulate_pad2 M 0 (le_refl _) (by norm_num) (by omega),
      foldl_accumulate_pad2 D _ (by omega) (by omega) (by omega)]
    norm_num
    ring
  have hmonth : cdiv (100 * (M : Int) + D) 100 = M := by
    rw [cdiv_nonneg_eq _ _ (by omega) (by omega)]; omega
  have hday : cmod (100 * (M : Int) + D) 100 = D := by
    rw [cmod_nonneg_eq _ _ (by omega) (by omega)]; omega
  unfold date_section date_text
  simp only [show new_parsed.year = 0 from rfl]
  rw [hy]
  simp only [peek_cons, if_true, List.tail_cons, hw, if_false]
  unfold calendar_branch
  rw [hmd]
  simp only [hmonth, hday]
  norm_num

/-- The date-time parser on `YYYY-MM-DD` for arbitrary two-digit fields. -/
theorem parse_datetime_ymd (Y M D : Nat) (hY : Y ≤ 9999) (hM : M ≤ 99) (hD : D ≤ 99) :
    _parse_iso8601_datetime (date_text Y M D) new_parsed =
      if 100 * (M : Int) + D = 0 then .error PARSER_INVALID_DATE
      else if (12 : Int) < M then .error PARSER_INVALID_MONTH
      else if DAYS_PER_MONTHS (is_leap Y) M < D then .error PARSER_INVALID_DAY_FOR_MONTH
      else .ok { new_parsed with is_date := 1, year := Y, month := M, day := D } := by
  unfold _parse_iso8601_datetime
  rw [date_section_ymd Y M D hY hM hD]
  have hn : ¬ (NUL = 'T' ∨ NUL = ' ') := by decide
  split_ifs <;> simp [peek, hn]

/-! ## The constructors of the host runtime -/

/-- The date constructor returns the date when its check passes. -/
theorem Date_FromDate_ok (y m d : Int) (h : check_date_args y m d) :
    Date_FromDate y m d = .ok (.date y m d) := if_pos h

/-- The date constructor fails when its check fails. -/
theorem Date_FromDate_refused (y m d : Int) (h : ¬ check_date_args y m d) :
    Date_FromDate y m d = .error .ConstructorError := if_neg h

/-- The time constructor returns the time when its check passes. -/
theorem Time_FromTime_ok (h m s us : Int) (hc : check_time_args h m s us) :
    Time_FromTime h m s us = .ok (.time h m s us) := if_pos hc

/-- The time constructor fails when its check fails. -/
theorem Time_FromTime_refused (h m s us : Int) (hc : ¬ check_time_args h m s us) :
    Time_FromTime h m s us = .error .ConstructorError := if_neg hc

/-- The date-time constructor returns the date-time when both checks pass. -/
theorem DateTime_FromDateAndTime_ok (y mo d h m s us : Int) (tz : Option FixedOffset)
    (hd : check_date_args y mo d) (ht : check_time_args h m s us) :
    DateTime_FromDateAndTime y mo d h m s us tz = .ok (.datetime y mo d h m s us tz) :=
  if_pos ⟨hd, ht⟩

/-- The date-time constructor fails when the date check fails. -/
theorem DateTime_FromDateAndTime_refused (y mo d h m s us : Int) (tz : Option FixedOffset)
    (hd : ¬ check_date_args y mo d) :
    DateTime_FromDateAndTime y mo d h m s us tz = .error .ConstructorError :=
  if_neg (fun hc => hd hc.1)

/-- The entry point fails with a parser error exactly when the parser called fails with it: a
constructor never fails with one. -/
theorem parse_iso8601_ValueError_iff (str : List Char) (code : Int) :
    parse_iso8601 str = .error (.ValueError code) ↔
      (if peek str = 'P' then _parse_iso8601_duration str new_parsed
       else _parse_iso8601_datetime str new_parsed) = .error code := by
  unfold parse_iso8601
  simp only []
  generalize (if peek str = 'P' then _parse_iso8601_duration str new_parsed
       else _parse_iso8601_datetime str new_parsed) = r
  cases r with
  | error e => simp
  | ok P =>
    simp only [Time_FromTime, Date_FromDate, DateTime_FromDateAndTime]
    split_ifs <;> simp

/-- The entry point on `YYYY-MM-DD` for arbitrary two-digit fields: the parser's checks, then
the date constructor. -/
theorem parse_iso8601_ymd (Y M D : Nat) (hY : Y ≤ 9999) (hM : M ≤ 99) (hD : D ≤ 99) :
    parse_iso8601 (date_text Y M D) =
      if 100 * (M : Int) + D = 0 then .error (.ValueError PARSER_INVALID_DATE)
      else if (12 : Int) < M then .error (.ValueError PARSER_INVALID_MONTH)
      else if DAYS_PER_MONTHS (is_leap Y) M < D then
        .error (.ValueError PARSER_INVALID_DAY_FOR_MONTH)
      else Date_FromDate Y M D := by
  unfold parse_iso8601
  have hp : peek (date_text Y M D) ≠ 'P' := peek_zero_padded_ne_P 3 Y _
  simp only [hp, if_false]
  rw [parse_datetime_ymd Y M D hY hM hD]
  split_ifs <;> simp [new_parsed]

/-- C14 as stated fails: `0000-01-01` has a four-digit year, month 01 and day 01 within the
month, and the parser accepts it with these fields, but the call does not succeed: the date
constructor of the host refuses the year 0 (its years are 1 to 9999). -/
theorem parse_calendar_date_year_zero :
    date_text 0 1 1 = "0000-01-01".toList ∧
    (1 : Int) ≤ DAYS_PER_MONTHS (is_leap 0) 1 ∧
    _parse_iso8601_datetime "0000-01-01".toList new_parsed =
      .ok { new_parsed with is_date := 1, year := 0, month := 1, day := 1 } ∧
    ¬ check_date_args 0 1 1 ∧
    parse_iso8601 "0000-01-01".toList = .error .ConstructorError := by
  refine ⟨by decide, by decide, by rfl, by decide, by rfl⟩

/-- C14, amended: for every four-digit year `Y` and two-digit fields `MM` and `DD`, parsing
`YYYY-MM-DD` fails with invalid-month when `MM > 12`, fails with invalid-day-for-month when
`1 <= MM <= 12` and `DD` exceeds `DAYS_PER_MONTHS[is_leap(Y)][MM]`, and, when
`1 <= MM <= 12` and `1 <= DD <= DAYS_PER_MONTHS[is_leap(Y)][MM]`, the parser accepts the
fields `(Y, MM, DD)` and the call succeeds with the date `(Y, MM, DD)` for `Y` in 0001..9999,
while for `Y = 0000` the date constructor refuses the year; February has 29 days exactly in
leap years; `2021-13-01` fails with invalid-month, `2021-02-29` fails with
invalid-day-for-month and `2020-02-29` succeeds. -/
theorem parse_calendar_date (Y M D : Nat) (hY : Y ≤ 9999) (hM : M ≤ 99) (hD : D ≤ 99) :
    (12 < M →
      parse_iso8601 (date_text Y M D) = .error (.ValueError PARSER_INVALID_MONTH) ∧
      _parse_iso8601_datetime (date_text Y M D) new_parsed = .error PARSER_INVALID_MONTH) ∧
    (1 ≤ M → M ≤ 12 → DAYS_PER_MONTHS (is_leap Y) M < D →
      parse_iso8601 (date_text Y M D) = .error (.ValueError PARSER_INVALID_DAY_FOR_MONTH) ∧
      _parse_iso8601_datetime (date_text Y M D) new_parsed
        = .error PARSER_INVALID_DAY_FOR_MONTH) ∧
    (1 ≤ M → M ≤ 12 → 1 ≤ D → (D : Int) ≤ DAYS_PER_MONTHS (is_leap Y) M →
      (1 ≤ Y → parse_iso8601 (date_text Y M D) = .ok (.date Y M D)) ∧
      (Y = 0 → parse_iso8601 (date_text Y M D) = .error .ConstructorError) ∧
      _parse_iso8601_datetime (date_text Y M D) new_parsed
        = .ok { new_parsed with is_date := 1, year := Y, month := M, day := D }) ∧
    (DAYS_PER_MONTHS (is_leap Y) 2 = 29 ↔ is_leap Y ≠ 0) ∧
    (DAYS_PER_MONTHS (is_leap Y) 2 = 28 ↔ is_leap Y = 0) ∧
    parse_iso8601 "2021-13-01".toList = .error (.ValueError PARSER_INVALID_MONTH) ∧
    parse_iso8601 "2021-02-29".toList = .error (.ValueError PARSER_INVALID_DAY_FOR_MONTH) ∧
    parse_iso8601 "2020-02-29".toList = .ok (.date 2020 2 29) := by
  have h1 := parse_iso8601_ymd Y M D hY hM hD
  have h2 := parse_datetime_ymd Y M D hY hM hD
  refine ⟨?_, ?_, ?_, ?_, ?_, by rfl, by rfl, by rfl⟩
  · intro h
    rw [h1, h2, if_neg (by omega), if_pos (by omega), if_neg (by omega), if_pos (by omega)]
    exact ⟨rfl, rfl⟩
  · intro ha hb hc
    rw [h1, h2, if_neg (by omega), if_neg (by omega), if_pos hc, if_neg (by omega),
      if_neg (by omega), if_pos hc]
    exact ⟨rfl, rfl⟩
  · intro ha hb hc hd
    rw [h1, h2, if_neg (by omega), if_neg (by omega), if_neg (by omega), if_neg (by omega),
      if_neg (by omega), if_neg (by omega)]
    refine ⟨fun hy1 => ?_, fun hy0 => ?_, rfl⟩
    · exact Date_FromDate_ok _ _ _
        ⟨by omega, by omega, by omega, by omega, by omega, by rw [← is_leap_eq]; exact hd⟩
    · exact Date_FromDate_refused _ _ _ (fun hc0 => by have := hc0.1; omega)
  · rcases _is_leap_01 Y with h | h <;> rw [is_leap_eq, h] <;> decide
  · rcases _is_leap_01 Y with h | h <;> rw [is_leap_eq, h] <;> decide

/-- Witness for `parse_calendar_date`: the fields of `2020-02-29`, for which the third case
applies. -/
theorem parse_calendar_date_witness :
    date_text 2020 2 29 = "2020-02-29".toList ∧
    parse_iso8601 (date_text 2020 2 29) = .ok (.date ((2020 : Nat) : Int) ((2 : Nat) : Int)
      ((29 : Nat) : Int)) :=
  ⟨by decide,
   ((parse_calendar_date 2020 2 29 (by decide) (by decide) (by decide)).2.2.1
      (by decide) (by decide) (by decide) (by decide)).1 (by decide)⟩

/-! ## Ordinal dates -/

theorem calendar_branch_ordinal (P : Parsed) (n : Nat) (hn : n ≤ 999) (leap s : Int)
    (hs : s ≤ 1) :
    calendar_branch P (zero_padded 3 n) leap s =
      if (n : Int) < 1 ∨ (n : Int) > MONTHS_OFFSETS leap 13 then
        .error PARSER_INVALID_ORDINAL_DAY_FOR_YEAR
      else .ok ⟨set_day_month P leap n, [], leap, s, n, 0⟩ := by
  have hmd : scan_monthday (zero_padded 3 n) 0 s 0 = .ok ((n : Int), s, 3, []) := by
    rw [← List.append_nil (zero_padded 3 n),
      scan_monthday_digits _ _ _ _ _ (isDigitStr_zero_padded 3 n), scan_monthday_nil,
      length_zero_padded,
      foldl_accumulate_zero_padded 3 n 0 (le_refl _) (by norm_num; omega) (by norm_num; omega)]
    norm_num
  have h30 : ¬ ((3 : Int) = 0) := by decide
  have h32 : ¬ ((3 : Int) = 2) := by decide
  have hs1 : ¬ (s > 1) := by omega
  unfold calendar_branch
  rw [hmd]
  simp only [h30, h32, hs1, if_false, if_true]

/-- The date section on an ordinal date, in extended or basic form. -/
theorem date_section_ordinal (Y n : Nat) (hY : Y ≤ 9999) (hn : n ≤ 999) :
    (date_section (ordinal_text Y n) new_parsed =
      if (n : Int) < 1 ∨ (n : Int) > MONTHS_OFFSETS (is_leap Y) 13 then
        .error PARSER_INVALID_ORDINAL_DAY_FOR_YEAR
      else
        let P := set_day_month { new_parsed with is_date := 1, year := Y } (is_leap Y) n
        if P.month > 12 then .error PARSER_INVALID_MONTH
        else if P.day > DAYS_PER_MONTHS (is_leap Y) P.month then
          .error PARSER_INVALID_DAY_FOR_MONTH
        else .ok ⟨P, [], is_leap Y, 1, n, 0⟩) ∧
    (date_section (ordinal_text_basic Y n) new_parsed =
      if (n : Int) < 1 ∨ (n : Int) > MONTHS_OFFSETS (is_leap Y) 13 then
        .error PARSER_INVALID_ORDINAL_DAY_FOR_YEAR
      else
        let P := set_day_month { new_parsed with is_date := 1, year := Y } (is_leap Y) n
        if P.month > 12 then .error PARSER_INVALID_MONTH
        else if P.day > DAYS_PER_MONTHS (is_leap Y) P.month then
          .error PARSER_INVALID_DAY_FOR_MONTH
        else .ok ⟨P, [], is_leap Y, 0, n, 0⟩) := by
  have hy1 := scan_year_digits (zero_padded 4 Y) ('-' :: zero_padded 3 n) 0
    (isDigitStr_zero_padded 4 Y)
  have hy2 := scan_year_digits (zero_padded 4 Y) (zero_padded 3 n) 0
    (isDigitStr_zero_padded 4 Y)
  rw [length_zero_padded,
    foldl_accumulate_zero_padded 4 Y 0 (le_refl _) (by norm_num; omega) (by norm_num; omega)]
    at hy1 hy2
  have hdig := peek_zero_padded_succ 2 n []
  rw [List.append_nil] at hdig
  have hw : peek (zero_padded 3 n) ≠ 'W' := (is_digit_ne _ hdig).2.2.2.2.2.2.2.2.2
  have hm : peek (zero_padded 3 n) ≠ '-' := (is_digit_ne _ hdig).2.2.2.1
  constructor
  · unfold date_section ordinal_text
    simp only [show new_parsed.year = 0 from rfl]
    rw [hy1]
    simp only [peek_cons, if_true, List.tail_cons, hw, if_false]
    rw [calendar_branch_ordinal _ n hn _ 1 (le_refl _)]
    by_cases hc : (n : Int) < 1 ∨ (n : Int) > MONTHS_OFFSETS (is_leap ((0 : Int) * 10 ^ 4 + Y)) 13
    · have hc' := hc
      rw [show ((0 : Int) * 10 ^ 4 + Y) = Y from by ring] at hc'
      simp only [hc, hc', if_true]
    · have hc' := hc
      rw [show ((0 : Int) * 10 ^ 4 + Y) = Y from by ring] at hc'
      simp only [hc, hc', if_false]
      have hn0 : (n : Int) ≠ 0 := by omega
      simp only [hn0, false_and, and_false, if_false,
        show ((0 : Int) * 10 ^ 4 + Y) = Y from by ring]
  · unfold date_section ordinal_text_basic
    simp only [show new_parsed.year = 0 from rfl]
    rw [hy2]
    simp only [hm, hw, if_false]
    rw [calendar_branch_ordinal _ n hn _ 0 (by decide)]
    by_cases hc : (n : Int) < 1 ∨ (n : Int) > MONTHS_OFFSETS (is_leap ((0 : Int) * 10 ^ 4 + Y)) 13
    · have hc' := hc
      rw [show ((0 : Int) * 10 ^ 4 + Y) = Y from by ring] at hc'
      simp only [hc, hc', if_true]
    · have hc' := hc
      rw [show ((0 : Int) * 10 ^ 4 + Y) = Y from by ring] at hc'
      simp only [hc, hc', if_false]
      have hn0 : (n : Int) ≠ 0 := by omega
      simp only [hn0, false_and, and_false, if_false,
        show ((0 : Int) * 10 ^ 4 + Y) = Y from by ring]

theorem MONTHS_OFFSETS_13 (y : Int) : MONTHS_OFFSETS (is_leap y) 13 = days_in_year y := by
  rw [days_in_year_eq]
  rcases _is_leap_01 y with h | h <;> rw [is_leap_eq, h] <;> decide

/-- C15: for every four-digit year `Y >= 1` and three-digit ordinal `n`, parsing `YYYY-nnn`
or `YYYYnnn` succeeds if and only if `1 <= n <= days_in_year(Y)`; otherwise it fails with
invalid-ordinal-day-for-year; on success the result is a date `(Y, m, d)` that is a valid
calendar date with `_day_number(Y, m, d) = _day_number(Y, 1, 1) + n - 1`. -/
theorem parse_ordinal_date (Y n : Nat) (hY1 : 1 ≤ Y) (hY : Y ≤ 9999) (hn : n ≤ 999)
    (t : List Char) (ht : t = ordinal_text Y n ∨ t = ordinal_text_basic Y n) :
    ((∃ r, parse_iso8601 t = .ok r) ↔ (1 ≤ n ∧ (n : Int) ≤ days_in_year Y)) ∧
    (¬ (1 ≤ n ∧ (n : Int) ≤ days_in_year Y) →
      parse_iso8601 t = .error (.ValueError PARSER_INVALID_ORDINAL_DAY_FOR_YEAR)) ∧
    (1 ≤ n ∧ (n : Int) ≤ days_in_year Y →
      ∃ m d : Int, parse_iso8601 t = .ok (.date Y m d) ∧ ValidDate Y m d ∧
        _day_number Y m d = _day_number Y 1 1 + n - 1) := by
  have hbad : ¬ (1 ≤ n ∧ (n : Int) ≤ days_in_year Y) →
      parse_iso8601 t = .error (.ValueError PARSER_INVALID_ORDINAL_DAY_FOR_YEAR) := by
    intro hc
    have hc' : (n : Int) < 1 ∨ (n : Int) > MONTHS_OFFSETS (is_leap Y) 13 := by
      rw [MONTHS_OFFSETS_13]; omega
    have hp : peek t ≠ 'P' := by
      rcases ht with rfl | rfl <;> exact peek_zero_padded_ne_P 3 Y _
    have hds : date_section t new_parsed = .error PARSER_INVALID_ORDINAL_DAY_FOR_YEAR := by
      rcases ht with rfl | rfl
      · rw [(date_section_ordinal Y n hY hn).1, if_pos hc']
      · rw [(date_section_ordinal Y n hY hn).2, if_pos hc']
    unfold parse_iso8601 _parse_iso8601_datetime
    simp only [hp, if_false, hds]
  have hgood : 1 ≤ n ∧ (n : Int) ≤ days_in_year Y →
      ∃ m d : Int, parse_iso8601 t = .ok (.date Y m d) ∧ ValidDate Y m d ∧
        _day_number Y m d = _day_number Y 1 1 + n - 1 := by
    intro ⟨h1, h2⟩
    have hc' : ¬ ((n : Int) < 1 ∨ (n : Int) > MONTHS_OFFSETS (is_leap Y) 13) := by
      rw [MONTHS_OFFSETS_13]; omega
    have hp : peek t ≠ 'P' := by
      rcases ht with rfl | rfl <;> exact peek_zero_padded_ne_P 3 Y _
    rw [days_in_year_eq] at h2
    obtain ⟨m, d, hs, hv, hdn⟩ := set_day_month_spec
      { new_parsed with is_date := 1, year := Y } (Y : Int) (n : Int) (by omega) (by omega)
      (by omega) h2
    have hv' := hv
    obtain ⟨hm1, hm2, hd1, hd2⟩ := hv'
    have hds : ∃ s : Int, date_section t new_parsed =
        .ok ⟨{ new_parsed with is_date := 1, year := Y, month := m, day := d }, [],
             is_leap Y, s, n, 0⟩ := by
      rcases ht with rfl | rfl
      · refine ⟨1, ?_⟩
        rw [(date_section_ordinal Y n hY hn).1, if_neg hc']
        simp only [hs]
        rw [if_neg (by omega), if_neg (by rw [is_leap_eq]; omega)]
      · refine ⟨0, ?_⟩
        rw [(date_section_ordinal Y n hY hn).2, if_neg hc']
        simp only [hs]
        rw [if_neg (by omega), if_neg (by rw [is_leap_eq]; omega)]
    obtain ⟨s, hds⟩ := hds
    refine ⟨m, d, ?_, hv, by rw [hdn]⟩
    have hn : ¬ (NUL = 'T' ∨ NUL = ' ') := by decide
    have hcd : check_date_args (Y : Int) m d := ⟨by omega, by omega, hv⟩
    unfold parse_iso8601 _parse_iso8601_datetime
    simp only [hp, if_false, hds]
    simp [peek, hn, new_parsed, Date_FromDate_ok _ _ _ hcd]
  refine ⟨⟨?_, ?_⟩, hbad, hgood⟩
  · intro ⟨r, hr⟩
    by_contra hc
    rw [hbad hc] at hr
    exact absurd hr (by simp)
  · intro hc
    obtain ⟨m, d, h, -⟩ := hgood hc
    exact ⟨_, h⟩

/-- Witness for `parse_ordinal_date`: the text `2021-148`, which yields 2021-05-28. -/
theorem parse_ordinal_date_witness :
    ordinal_text 2021 148 = "2021-148".toList ∧
    parse_iso8601 "2021-148".toList = .ok (.date 2021 5 28) ∧
    parse_iso8601 "2021148".toList = .ok (.date 2021 5 28) ∧
    parse_iso8601 "2021-366".toList
      = .error (.ValueError PARSER_INVALID_ORDINAL_DAY_FOR_YEAR) ∧
    parse_iso8601 "2021-000".toList
      = .error (.ValueError PARSER_INVALID_ORDINAL_DAY_FOR_YEAR) ∧
    (∃ m d : Int, parse_iso8601 (ordinal_text 2021 148) = .ok (.date ((2021 : Nat) : Int) m d) ∧
      ValidDate ((2021 : Nat) : Int) m d ∧
      _day_number ((2021 : Nat) : Int) m d
        = _day_number ((2021 : Nat) : Int) 1 1 + ((148 : Nat) : Int) - 1) :=
  ⟨by decide, by rfl, by rfl, by rfl, by rfl,
   (parse_ordinal_date 2021 148 (by decide) (by decide) (by decide) _ (Or.inl rfl)).2.2
     ⟨by decide, by decide⟩⟩

/-! ## Week number and weekday checks -/

theorem scan_week_nil (week separators i : Int) :
    scan_week [] week separators i = (week, separators, i, []) := rfl

theorem scan_week_two (w : Nat) (hw : w ≤ 99) :
    scan_week (zero_padded 2 w) 0 1 0 = ((w : Int), 1, 2, []) := by
  rw [← List.append_nil (zero_padded 2 w),
    scan_week_digits _ _ _ _ _ (isDigitStr_zero_padded 2 w), scan_week_nil,
    length_zero_padded, foldl_accumulate_pad2 w 0 (le_refl _) (by norm_num) (by omega)]
  norm_num

theorem scan_week_three (w k : Nat) (hw : w ≤ 99) (hk : k ≤ 9) :
    scan_week (zero_padded 2 w ++ ('-' :: zero_padded 1 k)) 0 1 0
      = (10 * (w : Int) + k, 2, 3, []) := by
  have hk' := foldl_accumulate_zero_padded 1 k (w : Int) (by omega)
    (by simpa using (by omega : k < 10)) (by norm_num; omega)
  rw [scan_week_digits _ _ _ _ _ (isDigitStr_zero_padded 2 w), scan_week_sep,
    ← List.append_nil (zero_padded 1 k),
    scan_week_digits _ _ _ _ _ (isDigitStr_zero_padded 1 k), scan_week_nil,
    length_zero_padded, length_zero_padded,
    foldl_accumulate_pad2 w 0 (le_refl _) (by norm_num) (by omega)]
  simp only [zero_mul, zero_add]
  rw [hk']
  norm_num
  ring

/-- The three outcomes of the week-date branch once the week text has been scanned to its
end: a bad week number, a bad weekday number, or a stored date. -/
theorem week_branch_cases (P : Parsed) (leap : Int) (c : List Char) (wk seps i week weekday : Int)
    (hsw : scan_week c 0 1 0 = (wk, seps, i, []))
    (hi : (i = 2 ∧ week = wk ∧ weekday = 1) ∨
          (i = 3 ∧ seps = 2 ∧ week = cdiv wk 10 ∧ weekday = cmod wk 10)) :
    ((week > 53 ∨ (week > 52 ∧ is_long_year P.year = 0)) →
      week_branch P ('W' :: c) leap 1 = .error PARSER_INVALID_WEEK_NUMBER) ∧
    (¬ (week > 53 ∨ (week > 52 ∧ is_long_year P.year = 0)) → weekday > 7 →
      week_branch P ('W' :: c) leap 1 = .error PARSER_INVALID_WEEKDAY_NUMBER) ∧
    (¬ (week > 53 ∨ (week > 52 ∧ is_long_year P.year = 0)) → weekday ≤ 7 →
      ∃ (P' : Parsed) (leap' : Int),
        week_branch P ('W' :: c) leap 1 = .ok ⟨P', [], leap', seps, 0, week⟩) := by
  have h32 : ¬ ((3 : Int) = 2) := by decide
  have h23 : ¬ ((2 : Int) = 3) := by decide
  refine ⟨?_, ?_, ?_⟩
  · intro hbad
    unfold week_branch
    simp only [List.tail_cons, hsw]
    rcases hi with ⟨rfl, rfl, rfl⟩ | ⟨rfl, rfl, rfl, rfl⟩
    · simp only [h23, ne_eq, not_true_eq_false, false_and, and_false, if_false, hbad, if_true]
    · simp only [ne_eq, not_true_eq_false, and_false, true_or, not_true, if_false, true_and,
        or_true, if_true, hbad]
  · intro hgood hwd
    unfold week_branch
    simp only [List.tail_cons, hsw]
    rcases hi with ⟨rfl, rfl, rfl⟩ | ⟨rfl, rfl, rfl, rfl⟩
    · omega
    · simp only [ne_eq, not_true_eq_false, and_false, true_or, not_true, if_false, true_and,
        or_true, if_true, hgood, hwd]
  · intro hgood hwd
    have hwd' : ¬ (weekday > 7) := by omega
    unfold week_branch
    simp only [List.tail_cons, hsw]
    rcases hi with ⟨rfl, rfl, rfl⟩ | ⟨rfl, rfl, rfl, rfl⟩
    · simp only [h23, ne_eq, not_true_eq_false, false_and, and_false, if_false, hgood, hwd']
      exact ⟨_, _, rfl⟩
    · simp only [ne_eq, not_true_eq_false, and_false, true_or, not_true, if_false, true_and,
        or_true, if_true, hgood, hwd']
      exact ⟨_, _, rfl⟩

/-- The date section on a week text `YYYY-W...` enters the week-date branch. -/
theorem date_section_week (Y : Nat) (hY : Y ≤ 9999) (c : List Char) :
    date_section (zero_padded 4 Y ++ ('-' :: 'W' :: c)) new_parsed =
      match week_branch { new_parsed with is_date := 1, year := Y } ('W' :: c) (is_leap Y) 1 with
      | .error e => .error e
      | .ok d =>
        if d.separators ≠ 0 ∧ d.monthday = 0 ∧ d.week = 0 then .error PARSER_INVALID_DATE
        else if d.parsed.month > 12 then .error PARSER_INVALID_MONTH
        else if d.parsed.day > DAYS_PER_MONTHS d.leap d.parsed.month then
          .error PARSER_INVALID_DAY_FOR_MONTH
        else .ok d := by
  have hy := scan_year_digits (zero_padded 4 Y) ('-' :: 'W' :: c) 0 (isDigitStr_zero_padded 4 Y)
  rw [length_zero_padded,
    foldl_accumulate_zero_padded 4 Y 0 (le_refl _) (by norm_num; omega) (by norm_num; omega)] at hy
  unfold date_section
  simp only [show new_parsed.year = 0 from rfl]
  rw [hy]
  simp only [zero_mul, zero_add, peek_cons, if_true, List.tail_cons]

/-- C16: for every four-digit year `Y`, two-digit week number `ww` and weekday digit `k` in
1..7, parsing `YYYY-Www` or `YYYY-Www-k` fails with invalid-week-number whenever `ww > 53`, or
`ww = 53` and `is_long_year(Y)` is zero; and it does not fail with invalid-week-number when
`ww <= 52`, or `ww = 53` and `is_long_year(Y)` is non-zero. -/
theorem parse_week_number_check (Y w k : Nat) (hY : Y ≤ 9999) (hw : w ≤ 99)
    (hk1 : 1 ≤ k) (hk7 : k ≤ 7)
    (t : List Char) (ht : t = week_only_text Y w ∨ t = week_text Y w k) :
    ((53 < w ∨ (w = 53 ∧ is_long_year Y = 0)) →
      parse_iso8601 t = .error (.ValueError PARSER_INVALID_WEEK_NUMBER) ∧
      _parse_iso8601_datetime t new_parsed = .error PARSER_INVALID_WEEK_NUMBER) ∧
    ((w ≤ 52 ∨ (w = 53 ∧ is_long_year Y ≠ 0)) →
      parse_iso8601 t ≠ .error (.ValueError PARSER_INVALID_WEEK_NUMBER) ∧
      _parse_iso8601_datetime t new_parsed ≠ .error PARSER_INVALID_WEEK_NUMBER) := by
  have hp : peek t ≠ 'P' := by
    rcases ht with rfl | rfl
    · exact peek_zero_padded_ne_P 3 Y _
    · unfold week_text
      simp only [List.append_assoc]
      exact peek_zero_padded_ne_P 3 Y _
  -- the text after `YYYY-W`, its scan and the week and weekday read from it
  obtain ⟨c, htc, wk, seps, i, weekday, hsw, hi, hwd⟩ :
      ∃ c, t = zero_padded 4 Y ++ ('-' :: 'W' :: c) ∧
        ∃ wk seps i weekday : Int, scan_week c 0 1 0 = (wk, seps, i, []) ∧
          ((i = 2 ∧ (w : Int) = wk ∧ weekday = 1) ∨
           (i = 3 ∧ seps = 2 ∧ (w : Int) = cdiv wk 10 ∧ weekday = cmod wk 10)) ∧
          weekday ≤ 7 := by
    rcases ht with rfl | rfl
    · exact ⟨zero_padded 2 w, rfl, w, 1, 2, 1, scan_week_two w hw, Or.inl ⟨rfl, rfl, rfl⟩,
        by decide⟩
    · refine ⟨zero_padded 2 w ++ ('-' :: zero_padded 1 k), ?_, 10 * w + k, 2, 3, k,
        scan_week_three w k hw (by omega), Or.inr ⟨rfl, rfl, ?_, ?_⟩, by omega⟩
      · unfold week_text
        simp only [List.append_assoc, List.singleton_append, List.cons_append, List.nil_append]
      · rw [cdiv_nonneg_eq _ _ (by omega) (by omega)]; omega
      · rw [cmod_nonneg_eq _ _ (by omega) (by omega)]; omega
  obtain ⟨hA, -, hC⟩ := week_branch_cases { new_parsed with is_date := 1, year := Y }
    (is_leap Y) c wk seps i w weekday hsw hi
  have hds := date_section_week Y hY c
  rw [← htc] at hds
  constructor
  · intro hbad
    have hbad' : (w : Int) > 53 ∨ ((w : Int) > 52 ∧ is_long_year (Y : Int) = 0) := by
      rcases hbad with h | ⟨h, h'⟩
      · left; omega
      · right; exact ⟨by omega, h'⟩
    rw [hA hbad'] at hds
    have hd : _parse_iso8601_datetime t new_parsed = .error PARSER_INVALID_WEEK_NUMBER := by
      unfold _parse_iso8601_datetime
      rw [hds]
    refine ⟨?_, hd⟩
    unfold parse_iso8601
    simp only [hp, if_false]
    rw [hd]
  · intro hgood
    have hgood' : ¬ ((w : Int) > 53 ∨ ((w : Int) > 52 ∧ is_long_year (Y : Int) = 0)) := by
      rcases hgood with h | ⟨h, h'⟩
      · omega
      · intro hc
        rcases hc with hc | ⟨-, hc⟩
        · omega
        · exact h' hc
    obtain ⟨P', leap', hok⟩ := hC hgood' hwd
    rw [hok] at hds
    simp only [] at hds
    have hn : ¬ (NUL = 'T' ∨ NUL = ' ') := by decide
    have h1 : PARSER_INVALID_DATE ≠ PARSER_INVALID_WEEK_NUMBER := by decide
    have h8 : PARSER_INVALID_MONTH ≠ PARSER_INVALID_WEEK_NUMBER := by decide
    have h9 : PARSER_INVALID_DAY_FOR_MONTH ≠ PARSER_INVALID_WEEK_NUMBER := by decide
    have hd : _parse_iso8601_datetime t new_parsed ≠ .error PARSER_INVALID_WEEK_NUMBER := by
      unfold _parse_iso8601_datetime
      rw [hds]
      split_ifs <;> simp [peek, hn, h1, h8, h9]
    refine ⟨?_, hd⟩
    rw [ne_eq, parse_iso8601_ValueError_iff, if_neg hp]
    exact hd

/-- Witness for `parse_week_number_check`: 2021 is not a long year, so `2021-W53` and
`2021-W53-1` fail with invalid-week-number. -/
theorem parse_week_number_check_witness :
    week_only_text 2021 53 = "2021-W53".toList ∧
    parse_iso8601 "2020-W53".toList = .ok (.date 2020 12 28) ∧
    parse_iso8601 (week_only_text 2021 53) = .error (.ValueError PARSER_INVALID_WEEK_NUMBER) ∧
    _parse_iso8601_datetime (week_only_text 2021 53) new_parsed
      = .error PARSER_INVALID_WEEK_NUMBER :=
  ⟨by decide, by rfl,
   (parse_week_number_check 2021 53 1 (by decide) (by decide) (by decide) (by decide) _
      (Or.inl rfl)).1 (Or.inr ⟨rfl, by decide⟩)⟩

/-! ## Claims on the weekday digit and on bare six-digit texts, at concrete inputs -/

/-- C17 (defect of the weekday check): the week-date branch only tests `weekday > 7`, so the
weekday digit 0 is accepted: `2021-W21-0` and `2021W210` parse to 2021-05-23, the Sunday
before the Monday 2021-05-24 that starts week 21, instead of failing with
invalid-weekday-number; the digits 8 and 9 are rejected with invalid-weekday-number. -/
theorem parse_week_date_accepts_weekday_zero :
    parse_iso8601 "2021-W21-0".toList = .ok (.date 2021 5 23) ∧
    parse_iso8601 "2021W210".toList = .ok (.date 2021 5 23) ∧
    parse_iso8601 "2021-W21-1".toList = .ok (.date 2021 5 24) ∧
    week_day 2021 5 23 = 7 ∧
    parse_iso8601 "2021-W21-8".toList = .error (.ValueError PARSER_INVALID_WEEKDAY_NUMBER) ∧
    parse_iso8601 "2021-W21-9".toList = .error (.ValueError PARSER_INVALID_WEEKDAY_NUMBER) := by
  refine ⟨by rfl, by rfl, by rfl, by decide, by rfl, by rfl⟩

/-- C18 (defect of the bare `hhmmss` form): the six digits are first read as a year `hhmm` and
an ambiguous month `ss`, and the month and day checks run before the text is reinterpreted as
a time.  So `123015` fails with invalid-month (15 > 12) and `123000` fails with
invalid-day-for-month (month 0 has table entry -1), while `123005` and `123012` succeed as
the times 12:30:05 and 12:30:12. -/
theorem parse_bare_time_rejects_seconds :
    parse_iso8601 "123015".toList = .error (.ValueError PARSER_INVALID_MONTH) ∧
    parse_iso8601 "123000".toList = .error (.ValueError PARSER_INVALID_DAY_FOR_MONTH) ∧
    parse_iso8601 "123005".toList = .ok (.time 12 30 5 0) ∧
    parse_iso8601 "123012".toList = .ok (.time 12 30 12 0) ∧
    parse_iso8601 "123013".toList = .error (.ValueError PARSER_INVALID_MONTH) ∧
    parse_iso8601 "235959".toList = .error (.ValueError PARSER_INVALID_MONTH) := by
  refine ⟨by rfl, by rfl, by rfl, by rfl, by rfl, by rfl⟩

/-! ## Digit strings and their values -/

theorem is_digit_toNat (c : Char) (h : is_digit c = true) : 48 ≤ c.toNat ∧ c.toNat ≤ 57 := by
  unfold is_digit at h
  simp only [decide_eq_true_eq] at h
  obtain ⟨h1, h2⟩ := h
  rw [Char.le_def, UInt32.le_def, BitVec.le_def] at h1 h2
  exact ⟨h1, h2⟩

theorem foldl_digit_step (ds : List Char) (a : Nat) :
    ds.foldl digit_step a = a * 10 ^ ds.length + digits_value ds := by
  induction ds generalizing a with
  | nil => simp [digits_value]
  | cons d ds ih =>
    unfold digits_value
    simp only [List.foldl_cons, List.length_cons]
    rw [ih (digit_step a d), ih (digit_step 0 d)]
    unfold digit_step
    ring

theorem digits_value_append (a b : List Char) :
    digits_value (a ++ b) = digits_value a * 10 ^ b.length + digits_value b := by
  unfold digits_value
  rw [List.foldl_append, foldl_digit_step]
  rfl

theorem digits_value_lt (ds : List Char) (h : IsDigitStr ds) :
    digits_value ds < 10 ^ ds.length := by
  induction ds using List.reverseRecOn with
  | nil => simp [digits_value]
  | append_singleton ds d ih =>
    have hd := is_digit_toNat d (h d (by simp))
    have hds : IsDigitStr ds := fun c hc => h c (by simp [hc])
    have := ih hds
    rw [digits_value_append]
    simp only [List.length_singleton, pow_one, List.length_append]
    have e : digits_value [d] = d.toNat - 48 := by simp [digits_value, digit_step]
    rw [e, pow_succ]
    omega

theorem digits_value_replicate_zero (k : Nat) : digits_value (List.replicate k '0') = 0 := by
  induction k with
  | zero => rfl
  | succ k ih =>
    rw [List.replicate_succ']
    rw [digits_value_append, ih]
    simp [digits_value, digit_step]

/-- The scanners accumulate the decimal value of a digit string when it fits in an `int`. -/
theorem foldl_accumulate_digits (ds : List Char) (a : Nat) (h : IsDigitStr ds)
    (hfit : ds.foldl digit_step a < 2147483648) :
    ds.foldl accumulate (a : Int) = ((ds.foldl digit_step a : Nat) : Int) := by
  induction ds generalizing a with
  | nil => rfl
  | cons d ds ih =>
    have hd := is_digit_toNat d (h d (List.mem_cons_self _ _))
    have hds : IsDigitStr ds := fun c hc => h c (List.mem_cons_of_mem _ hc)
    simp only [List.foldl_cons] at hfit ⊢
    have hle : digit_step a d ≤ ds.foldl digit_step (digit_step a d) := by
      rw [foldl_digit_step]
      have : 1 ≤ 10 ^ ds.length := Nat.one_le_pow _ _ (by decide)
      nlinarith [Nat.zero_le (digits_value ds)]
    have hacc : accumulate (a : Int) d = ((digit_step a d : Nat) : Int) := by
      have hlt : digit_step a d < 2147483648 := lt_of_le_of_lt hle hfit
      have e : digit_step a d = 10 * a + (d.toNat - 48) := rfl
      rw [e] at hlt ⊢
      unfold accumulate
      rw [wrap32_eq_self _ (by omega) (by omega)]
      omega
    rw [hacc]
    exact ih _ hds hfit

/-- The scaling to microseconds keeps the first six digits, padding with zeros. -/
theorem scale_to_micro_digits (f : List Char) (h : IsDigitStr f) :
    scale_to_micro (digits_value f : Int) (f.length : Int) = (first_six_digits f : Int) := by
  unfold scale_to_micro first_six_digits pow10
  by_cases hlen : f.length ≤ 6
  · have e : (f ++ List.replicate 6 '0').take 6 = f ++ List.replicate (6 - f.length) '0' := by
      rw [List.take_append_eq_append_take, List.take_of_length_le hlen, List.take_replicate]
      congr 2
      omega
    rw [e, digits_value_append, digits_value_replicate_zero, List.length_replicate,
      if_neg (by omega)]
    have : ((6 : Int) - f.length).toNat = 6 - f.length := by omega
    rw [this]
    push_cast
    ring
  · have hlen' : 6 < f.length := by omega
    have e : (f ++ List.replicate 6 '0').take 6 = f.take 6 := by
      rw [List.take_append_of_le_length (by omega)]
    have hsplit : digits_value f
        = digits_value (f.take 6) * 10 ^ (f.length - 6) + digits_value (f.drop 6) := by
      conv_lhs => rw [← List.take_append_drop 6 f]
      rw [digits_value_append, List.length_drop]
    have hlt : digits_value (f.drop 6) < 10 ^ (f.length - 6) := by
      have := digits_value_lt (f.drop 6) (fun c hc => h c (List.mem_of_mem_drop hc))
      rwa [List.length_drop] at this
    rw [e, if_pos (by omega)]
    have : ((f.length : Int) - 6).toNat = f.length - 6 := by omega
    rw [this, cdiv_nonneg_eq _ _ (by positivity) (by positivity)]
    have hpos : 0 < 10 ^ (f.length - 6) := by positivity
    have hq : digits_value f / 10 ^ (f.length - 6) = digits_value (f.take 6) := by
      rw [hsplit, mul_comm, Nat.mul_add_div hpos, Nat.div_eq_of_lt hlt, add_zero]
    exact_mod_cast congrArg (Nat.cast : Nat → Int) hq

/-! ## Fractions of a second -/

theorem scan_subsecond_nil (time i : Int) :
    scan_subsecond [] time i = .ok (time, i, []) := rfl

theorem scan_subsecond_digits (ds rest : List Char) (time i : Int) (h : IsDigitStr ds) :
    scan_subsecond (ds ++ rest) time i =
      scan_subsecond rest (ds.foldl accumulate time) (i + ds.length) := by
  induction ds generalizing time i with
  | nil => simp
  | cons d ds ih =>
    have hd : is_digit d = true := h d (List.mem_cons_self _ _)
    have hds : IsDigitStr ds := fun c hc => h c (List.mem_cons_of_mem _ hc)
    obtain ⟨h0, -, -, h3, -, -, -, h7, h8, -⟩ := is_digit_ne d hd
    simp only [List.cons_append, scan_subsecond, h0, h3, h7, h8, hd, or_self, if_false,
      not_true_eq_false, List.foldl_cons, List.length_cons]
    rw [List.append_eq, ih _ _ hds]
    congr 1
    push_cast
    ring

/-- The time scanner stops on a fraction mark, a zone mark or the end of the text. -/
theorem scan_time_stop_at (r : List Char) (time separators i : Int)
    (hr : peek r = NUL ∨ peek r = '.' ∨ peek r = ',' ∨ peek r = 'Z' ∨ peek r = '+' ∨
      peek r = '-') :
    scan_time r time separators i = .ok (time, separators, i, r) := by
  cases r with
  | nil => rfl
  | cons ch r =>
    rw [peek_cons] at hr
    simp only [scan_time, hr, if_true]

/-- The time scanner on `hh:mm:ss` followed by a fraction mark, a zone mark or nothing. -/
theorem scan_time_hms (h m s : Nat) (hh : h ≤ 99) (hm : m ≤ 99) (hs : s ≤ 99) (r : List Char)
    (hr : peek r = NUL ∨ peek r = '.' ∨ peek r = ',' ∨ peek r = 'Z' ∨ peek r = '+' ∨
      peek r = '-') :
    scan_time (zero_padded 2 h ++ (':' :: (zero_padded 2 m ++ (':' :: (zero_padded 2 s ++ r)))))
      0 0 0 = .ok (10000 * (h : Int) + 100 * m + s, 2, 6, r) := by
  rw [scan_time_digits _ _ _ _ _ (isDigitStr_zero_padded 2 h), scan_time_sep,
    scan_time_digits _ _ _ _ _ (isDigitStr_zero_padded 2 m), scan_time_sep,
    scan_time_digits _ _ _ _ _ (isDigitStr_zero_padded 2 s), scan_time_stop_at _ _ _ _ hr,
    length_zero_padded, length_zero_padded, length_zero_padded,
    foldl_accumulate_pad2 h 0 (le_refl _) (by norm_num) (by omega),
    foldl_accumulate_pad2 m _ (by omega) (by omega) (by omega),
    foldl_accumulate_pad2 s _ (by omega) (by omega) (by omega)]
  norm_num
  ring

/-- The time section on `Thh:mm:ss` followed by a fraction that runs to the end of the text. -/
theorem time_section_fraction (parsed : Parsed) (h m s : Nat) (hamb : parsed.ambiguous = 0)
    (hh : h ≤ 23) (hm : m ≤ 59) (hs : s ≤ 59) (sep : Char) (hsep : sep = '.' ∨ sep = ',')
    (f : List Char) (hf : IsDigitStr f) (hfit : digits_value f < 2147483648) :
    time_section parsed
        ('T' :: (zero_padded 2 h ++ (':' :: (zero_padded 2 m ++ (':' ::
          (zero_padded 2 s ++ (sep :: f)))))))
      = .ok ({ parsed with is_datetime := 1, is_date := 0, hour := h, minute := m, second := s,
                           microsecond := first_six_digits f }, []) := by
  have ht := scan_time_hms h m s (by omega) (by omega) (by omega) (sep :: f)
    (by rw [peek_cons]; rcases hsep with h | h <;> simp [h])
  have h1 : cdiv (10000 * (h : Int) + 100 * m + s) 10000 = h := by
    rw [cdiv_nonneg_eq _ _ (by omega) (by omega)]; omega
  have h2 : cmod (cdiv (10000 * (h : Int) + 100 * m + s) 100) 100 = m := by
    rw [cdiv_nonneg_eq _ _ (by omega) (by omega), cmod_nonneg_eq _ _ (by omega) (by omega)]
    omega
  have h3 : cmod (10000 * (h : Int) + 100 * m + s) 100 = s := by
    rw [cmod_nonneg_eq _ _ (by omega) (by omega)]; omega
  have hsub : scan_subsecond f 0 0 = .ok ((digits_value f : Int), (f.length : Int), []) := by
    rw [← List.append_nil f, scan_subsecond_digits _ _ _ _ hf, scan_subsecond_nil]
    have := foldl_accumulate_digits f 0 hf hfit
    simp only [Nat.cast_zero] at this
    rw [this]
    simp [digits_value]
  have hsep' : sep = '.' ∨ sep = ',' := hsep
  unfold time_section
  rw [if_neg (by simp [hamb])]
  simp only [List.tail_cons]
  rw [ht]
  simp only [h1, h2, h3]
  norm_num
  rw [if_neg (by omega), if_neg (by omega), if_neg (by omega)]
  simp only [peek_cons, hsep', if_true, List.tail_cons, hsub, scale_to_micro_digits f hf]
  have hz : ¬ (NUL = 'Z') := by decide
  have hpm : ¬ (NUL = '+' ∨ NUL = '-') := by decide
  simp only [tz_section, peek, hz, hpm, if_false]

/-- C19 as stated fails: the fraction is accumulated in an `int`, so for the ten digits
`9999999999` the value read is `9999999999 - 2 * 2^32 = 1410065407` and the microsecond
stored is 141006, not the first six digits 999999. -/
theorem parse_fraction_ten_digits_wraps :
    IsDigitStr "9999999999".toList ∧ first_six_digits "9999999999".toList = 999999 ∧
    parse_iso8601 "2021-05-21T12:30:00.9999999999".toList
      = .ok (.datetime 2021 5 21 12 30 0 141006 none) := by
  refine ⟨by decide, by decide, by rfl⟩

/-- The first six digits of a digit string form a number below one million. -/
theorem first_six_digits_lt (f : List Char) (hf : IsDigitStr f) :
    first_six_digits f < 1000000 := by
  unfold first_six_digits
  have hd : IsDigitStr ((f ++ List.replicate 6 '0').take 6) := by
    intro c hc
    have hc2 := List.mem_of_mem_take hc
    rcases List.mem_append.mp hc2 with h | h
    · exact hf c h
    · rw [List.eq_of_mem_replicate h]
      decide
  have hlen : ((f ++ List.replicate 6 '0').take 6).length ≤ 6 := by
    rw [List.length_take]
    exact Nat.min_le_left _ _
  have h1 := digits_value_lt _ hd
  have h2 : 10 ^ ((f ++ List.replicate 6 '0').take 6).length ≤ 10 ^ 6 :=
    Nat.pow_le_pow_right (by decide) hlen
  omega

/-- C19, amended: for every valid date-time prefix `YYYY-MM-DDThh:mm:ss` followed by `.` or
`,` and a digit string `f` whose decimal value is below `2^31` (every string of at most nine
digits is), the parser succeeds and the microsecond field equals the integer formed by the
first six digits of `f`, right-padded with zeros when `f` is shorter and with the digits
beyond the sixth discarded when it is longer; no offset is set.  The call returns the
date-time with these fields for the years 0001 to 9999; for the year 0000 the parser accepts
the text and the date-time constructor refuses the year. -/
theorem parse_fraction (Y M D h m s : Nat) (hY : Y ≤ 9999)
    (hM1 : 1 ≤ M) (hM2 : M ≤ 12) (hD1 : 1 ≤ D)
    (hD2 : (D : Int) ≤ DAYS_PER_MONTHS (is_leap Y) M)
    (hh : h ≤ 23) (hm : m ≤ 59) (hs : s ≤ 59)
    (sep : Char) (hsep : sep = '.' ∨ sep = ',')
    (f : List Char) (hf : IsDigitStr f) (hfit : digits_value f < 2147483648) :
    _parse_iso8601_datetime (datetime_text Y M D h m s ++ (sep :: f)) new_parsed =
      .ok { new_parsed with
            is_date := 0, is_datetime := 1, year := Y, month := M, day := D,
            hour := h, minute := m, second := s, microsecond := first_six_digits f } ∧
    (1 ≤ Y → parse_iso8601 (datetime_text Y M D h m s ++ (sep :: f)) =
      .ok (.datetime Y M D h m s (first_six_digits f) none)) ∧
    (Y = 0 → parse_iso8601 (datetime_text Y M D h m s ++ (sep :: f)) =
      .error .ConstructorError) ∧
    (f.length ≤ 9 → digits_value f < 2147483648) := by
  have hd : _parse_iso8601_datetime (datetime_text Y M D h m s ++ (sep :: f)) new_parsed =
      .ok { new_parsed with
            is_date := 0, is_datetime := 1, year := Y, month := M, day := D,
            hour := h, minute := m, second := s, microsecond := first_six_digits f } := by
    unfold _parse_iso8601_datetime datetime_text
    simp only [List.append_assoc, List.singleton_append, List.cons_append]
    rw [date_section_calendar Y M D _ hY hM1 hM2 hD1 hD2]
    simp only [peek_cons, true_or, if_true]
    rw [time_section_fraction _ h m s rfl hh hm hs sep hsep f hf hfit]
    simp [peek, new_parsed]
  have hp : peek (datetime_text Y M D h m s ++ (sep :: f)) ≠ 'P' := by
    unfold datetime_text
    simp only [List.append_assoc]
    exact peek_zero_padded_ne_P 3 Y _
  have h6 := first_six_digits_lt f hf
  have hcall : parse_iso8601 (datetime_text Y M D h m s ++ (sep :: f)) =
      DateTime_FromDateAndTime Y M D h m s (first_six_digits f) none := by
    unfold parse_iso8601
    simp only [hp, if_false]
    rw [hd]
    simp [new_parsed]
  refine ⟨hd, fun hy1 => ?_, fun hy0 => ?_, ?_⟩
  · rw [hcall]
    exact DateTime_FromDateAndTime_ok _ _ _ _ _ _ _ _
      ⟨by omega, by omega, by omega, by omega, by omega, by rw [← is_leap_eq]; exact hD2⟩
      ⟨by omega, by omega, by omega, by omega, by omega, by omega, by omega, by omega⟩
  · rw [hcall]
    exact DateTime_FromDateAndTime_refused _ _ _ _ _ _ _ _ (fun hc0 => by have := hc0.1; omega)
  · intro hlen
    have h1 := digits_value_lt f hf
    have h2 : 10 ^ f.length ≤ 10 ^ 9 := Nat.pow_le_pow_right (by decide) hlen
    omega

/-- Witness for `parse_fraction`: `.5` gives 500000 and `.1234567` gives 123456. -/
theorem parse_fraction_witness :
    datetime_text 2021 5 21 12 30 0 ++ ('.' :: "5".toList) = "2021-05-21T12:30:00.5".toList ∧
    first_six_digits "5".toList = 500000 ∧ first_six_digits "1234567".toList = 123456 ∧
    parse_iso8601 "2021-05-21T12:30:00.5".toList
      = .ok (.datetime 2021 5 21 12 30 0 500000 none) ∧
    parse_iso8601 "2021-05-21T12:30:00,1234567".toList
      = .ok (.datetime 2021 5 21 12 30 0 123456 none) ∧
    parse_iso8601 "0000-05-21T12:30:00.5".toList = .error .ConstructorError ∧
    parse_iso8601 (datetime_text 2021 5 21 12 30 0 ++ ('.' :: "1234567".toList)) =
      .ok (.datetime ((2021 : Nat) : Int) ((5 : Nat) : Int) ((21 : Nat) : Int)
        ((12 : Nat) : Int) ((30 : Nat) : Int) ((0 : Nat) : Int)
        ((first_six_digits "1234567".toList : Nat) : Int) none) :=
  ⟨by decide, by decide, by decide, by rfl, by rfl, by rfl,
   (parse_fraction 2021 5 21 12 30 0 (by decide) (by decide) (by decide) (by decide)
      (by decide) (by decide) (by decide) (by decide) '.' (Or.inl rfl) "1234567".toList
      (by decide) (by decide)).2.1 (by decide)⟩

/-! ## Locality of the scanners

A scanner that stops on a character of the text (rather than at its end) does not look at
anything after that character, and the cursor it returns is a suffix of the text. -/

theorem peek_append (c s : List Char) (hc : c ≠ []) : peek (c ++ s) = peek c := by
  cases c with
  | nil => exact absurd rfl hc
  | cons x xs => rfl

theorem tail_append (c s : List Char) (hc : c ≠ []) : (c ++ s).tail = c.tail ++ s := by
  cases c with
  | nil => exact absurd rfl hc
  | cons x xs => rfl

theorem scan_year_local (n : Nat) (c : List Char) (y y' : Int) (c' : List Char)
    (h : scan_year n c y = .ok (y', c')) :
    List.IsSuffix c' c ∧ ∀ s, scan_year n (c ++ s) y = .ok (y', c' ++ s) := by
  induction n generalizing c y with
  | zero =>
    simp only [scan_year, Except.ok.injEq, Prod.mk.injEq] at h
    obtain ⟨rfl, rfl⟩ := h
    exact ⟨List.suffix_refl _, fun s => rfl⟩
  | succ n ih =>
    cases c with
    | nil => simp [scan_year, peek, is_digit, NUL] at h
    | cons x xs =>
      rw [scan_year] at h
      by_cases hd : is_digit x = true
      · simp only [peek_cons, hd, if_true, List.tail_cons] at h
        obtain ⟨h1, h2⟩ := ih xs _ h
        refine ⟨h1.trans (List.suffix_cons _ _), fun s => ?_⟩
        rw [List.cons_append, scan_year]
        simp only [peek_cons, hd, if_true, List.tail_cons]
        exact h2 s
      · simp [peek_cons, hd] at h

theorem scan_week_local (c : List Char) (w sp i w' sp' i' : Int) (c' : List Char)
    (h : scan_week c w sp i = (w', sp', i', c')) :
    List.IsSuffix c' c ∧ (c' ≠ [] → ∀ s, scan_week (c ++ s) w sp i = (w', sp', i', c' ++ s)) := by
  induction c generalizing w sp i with
  | nil =>
    simp only [scan_week, Prod.mk.injEq] at h
    obtain ⟨-, -, -, rfl⟩ := h
    exact ⟨List.suffix_refl _, fun hc => absurd rfl hc⟩
  | cons x xs ih =>
    rw [scan_week] at h
    by_cases hstop : x = NUL ∨ x = ' ' ∨ x = 'T'
    · rw [if_pos hstop] at h
      simp only [Prod.mk.injEq] at h
      obtain ⟨rfl, rfl, rfl, rfl⟩ := h
      refine ⟨List.suffix_refl _, fun _ s => ?_⟩
      rw [List.cons_append, scan_week, if_pos hstop]
    · rw [if_neg hstop] at h
      by_cases hsep : x = '-'
      · rw [if_pos hsep] at h
        obtain ⟨h1, h2⟩ := ih _ _ _ h
        refine ⟨h1.trans (List.suffix_cons _ _), fun hc s => ?_⟩
        rw [List.cons_append, scan_week, if_neg hstop, if_pos hsep]
        exact h2 hc s
      · rw [if_neg hsep] at h
        obtain ⟨h1, h2⟩ := ih _ _ _ h
        refine ⟨h1.trans (List.suffix_cons _ _), fun hc s => ?_⟩
        rw [List.cons_append, scan_week, if_neg hstop, if_neg hsep]
        exact h2 hc s

theorem scan_monthday_local (c : List Char) (md sp i md' sp' i' : Int) (c' : List Char)
    (h : scan_monthday c md sp i = .ok (md', sp', i', c')) :
    List.IsSuffix c' c ∧
      (c' ≠ [] → ∀ s, scan_monthday (c ++ s) md sp i = .ok (md', sp', i', c' ++ s)) := by
  induction c generalizing md sp i with
  | nil =>
    simp only [scan_monthday, Except.ok.injEq, Prod.mk.injEq] at h
    obtain ⟨-, -, -, rfl⟩ := h
    exact ⟨List.suffix_refl _, fun hc => absurd rfl hc⟩
  | cons x xs ih =>
    rw [scan_monthday] at h
    by_cases hstop : x = NUL ∨ x = ' ' ∨ x = 'T'
    · rw [if_pos hstop] at h
      simp only [Except.ok.injEq, Prod.mk.injEq] at h
      obtain ⟨rfl, rfl, rfl, rfl⟩ := h
      refine ⟨List.suffix_refl _, fun _ s => ?_⟩
      rw [List.cons_append, scan_monthday, if_pos hstop]
    · rw [if_neg hstop] at h
      by_cases hsep : x = '-'
      · rw [if_pos hsep] at h
        obtain ⟨h1, h2⟩ := ih _ _ _ h
        refine ⟨h1.trans (List.suffix_cons _ _), fun hc s => ?_⟩
        rw [List.cons_append, scan_monthday, if_neg hstop, if_pos hsep]
        exact h2 hc s
      · rw [if_neg hsep] at h
        by_cases hd : ¬ is_digit x = true
        · rw [if_pos hd] at h
          exact absurd h (by simp)
        · rw [if_neg hd] at h
          obtain ⟨h1, h2⟩ := ih _ _ _ h
          refine ⟨h1.trans (List.suffix_cons _ _), fun hc s => ?_⟩
          rw [List.cons_append, scan_monthday, if_neg hstop, if_neg hsep, if_neg hd]
          exact h2 hc s

theorem scan_time_local (c : List Char) (t sp i t' sp' i' : Int) (c' : List Char)
    (h : scan_time c t sp i = .ok (t', sp', i', c')) :
    List.IsSuffix c' c ∧
      (c' ≠ [] → ∀ s, scan_time (c ++ s) t sp i = .ok (t', sp', i', c' ++ s)) ∧
      (c' = [] → ∀ x r, (x = '+' ∨ x = '-') →
        scan_time (c ++ x :: r) t sp i = .ok (t', sp', i', x :: r)) := by
  induction c generalizing t sp i with
  | nil =>
    simp only [scan_time, Except.ok.injEq, Prod.mk.injEq] at h
    obtain ⟨rfl, rfl, rfl, rfl⟩ := h
    refine ⟨List.suffix_refl _, fun hc => absurd rfl hc, fun _ x r hx => ?_⟩
    rw [List.nil_append, scan_time, if_pos (by tauto)]
  | cons x xs ih =>
    rw [scan_time] at h
    by_cases hstop : x = NUL ∨ x = '.' ∨ x = ',' ∨ x = 'Z' ∨ x = '+' ∨ x = '-'
    · rw [if_pos hstop] at h
      simp only [Except.ok.injEq, Prod.mk.injEq] at h
      obtain ⟨rfl, rfl, rfl, rfl⟩ := h
      refine ⟨List.suffix_refl _, fun _ s => ?_, fun hc => absurd hc (by simp)⟩
      rw [List.cons_append, scan_time, if_pos hstop]
    · rw [if_neg hstop] at h
      by_cases hsep : x = ':'
      · rw [if_pos hsep] at h
        obtain ⟨h1, h2, h3⟩ := ih _ _ _ h
        refine ⟨h1.trans (List.suffix_cons _ _), fun hc s => ?_, fun hc y r hy => ?_⟩
        · rw [List.cons_append, scan_time, if_neg hstop, if_pos hsep]
          exact h2 hc s
        · rw [List.cons_append, scan_time, if_neg hstop, if_pos hsep]
          exact h3 hc y r hy
      · rw [if_neg hsep] at h
        by_cases hd : ¬ is_digit x = true
        · rw [if_pos hd] at h
          exact absurd h (by simp)
        · rw [if_neg hd] at h
          obtain ⟨h1, h2, h3⟩ := ih _ _ _ h
          refine ⟨h1.trans (List.suffix_cons _ _), fun hc s => ?_, fun hc y r hy => ?_⟩
          · rw [List.cons_append, scan_time, if_neg hstop, if_neg hsep, if_neg hd]
            exact h2 hc s
          · rw [List.cons_append, scan_time, if_neg hstop, if_neg hsep, if_neg hd]
            exact h3 hc y r hy

theorem scan_subsecond_local (c : List Char) (t i t' i' : Int) (c' : List Char)
    (h : scan_subsecond c t i = .ok (t', i', c')) :
    List.IsSuffix c' c ∧
      (c' ≠ [] → ∀ s, scan_subsecond (c ++ s) t i = .ok (t', i', c' ++ s)) ∧
      (c' = [] → ∀ x r, (x = '+' ∨ x = '-') →
        scan_subsecond (c ++ x :: r) t i = .ok (t', i', x :: r)) := by
  induction c generalizing t i with
  | nil =>
    simp only [scan_subsecond, Except.ok.injEq, Prod.mk.injEq] at h
    obtain ⟨rfl, rfl, rfl⟩ := h
    refine ⟨List.suffix_refl _, fun hc => absurd rfl hc, fun _ x r hx => ?_⟩
    rw [List.nil_append, scan_subsecond, if_pos (by tauto)]
  | cons x xs ih =>
    rw [scan_subsecond] at h
    by_cases hstop : x = NUL ∨ x = 'Z' ∨ x = '+' ∨ x = '-'
    · rw [if_pos hstop] at h
      simp only [Except.ok.injEq, Prod.mk.injEq] at h
      obtain ⟨rfl, rfl, rfl⟩ := h
      refine ⟨List.suffix_refl _, fun _ s => ?_, fun hc => absurd hc (by simp)⟩
      rw [List.cons_append, scan_subsecond, if_pos hstop]
    · rw [if_neg hstop] at h
      by_cases hd : ¬ is_digit x = true
      · rw [if_pos hd] at h
        exact absurd h (by simp)
      · rw [if_neg hd] at h
        obtain ⟨h1, h2, h3⟩ := ih _ _ h
        refine ⟨h1.trans (List.suffix_cons _ _), fun hc s => ?_, fun hc y r hy => ?_⟩
        · rw [List.cons_append, scan_subsecond, if_neg hstop, if_neg hd]
          exact h2 hc s
        · rw [List.cons_append, scan_subsecond, if_neg hstop, if_neg hd]
          exact h3 hc y r hy

/-! ## Locality of the date section -/

theorem set_day_month_is_datetime (P : Parsed) (leap o : Int) :
    (set_day_month P leap o).is_datetime = P.is_datetime := by
  unfold set_day_month
  split <;> rfl

theorem calendar_branch_local (P : Parsed) (c : List Char) (leap sp : Int) (d : DateScan)
    (h : calendar_branch P c leap sp = .ok d) :
    List.IsSuffix d.c c ∧ d.parsed.is_datetime = P.is_datetime ∧
    (d.c ≠ [] → ∀ s, calendar_branch P (c ++ s) leap sp = .ok { d with c := d.c ++ s }) := by
  unfold calendar_branch at h
  cases hsm : scan_monthday c 0 sp 0 with
  | error e => rw [hsm] at h; exact absurd h (by simp)
  | ok r =>
    obtain ⟨md, sp', i, c2⟩ := r
    obtain ⟨hs1, hs2⟩ := scan_monthday_local _ _ _ _ _ _ _ _ hsm
    rw [hsm] at h
    simp only [] at h
    split_ifs at h with h0 h2 h3 h4 h5 h6 h7 h8 <;>
      first
      | (simp at h; done)
      | (have hd := Except.ok.inj h
         subst hd
         refine ⟨hs1, ?_, fun hne s => ?_⟩
         · first | rfl | exact set_day_month_is_datetime _ _ _
         · unfold calendar_branch
           rw [hs2 hne s]
           simp only []
           split_ifs
           rfl)

theorem ite_is_datetime (b : Prop) [Decidable b] (A B : Parsed) :
    (if b then A else B).is_datetime = if b then A.is_datetime else B.is_datetime := by
  split <;> rfl

theorem week_branch_local (P : Parsed) (c : List Char) (leap sp : Int) (d : DateScan)
    (hc : c ≠ []) (h : week_branch P c leap sp = .ok d) :
    List.IsSuffix d.c c ∧ d.parsed.is_datetime = P.is_datetime ∧
    (d.c ≠ [] → ∀ s, week_branch P (c ++ s) leap sp = .ok { d with c := d.c ++ s }) := by
  obtain ⟨w, sp', i, c2, hr⟩ : ∃ w sp' i c2, scan_week c.tail 0 sp 0 = (w, sp', i, c2) :=
    ⟨_, _, _, _, rfl⟩
  obtain ⟨hs1, hs2⟩ := scan_week_local _ _ _ _ _ _ _ _ hr
  have h23 : ¬ ((2 : Int) = 3) := by decide
  unfold week_branch at h
  simp only [hr] at h
  by_cases h1 : i ≠ 2 ∧ i ≠ 3
  · rw [if_pos h1] at h; exact absurd h (by simp)
  rw [if_neg h1] at h
  by_cases h2 : i = 3 ∧ ¬ (sp' = 0 ∨ sp' = 2)
  · rw [if_pos h2] at h; exact absurd h (by simp)
  rw [if_neg h2] at h
  have hi : i = 2 ∨ i = 3 := by omega
  rcases hi with rfl | rfl
  · simp only [h23, if_false] at h
    by_cases h3 : w > 53 ∨ (w > 52 ∧ is_long_year P.year = 0)
    · rw [if_pos h3] at h; exact absurd h (by simp)
    rw [if_neg h3] at h
    have h4 : ¬ ((1 : Int) > 7) := by decide
    rw [if_neg h4] at h
    have hd := Except.ok.inj h
    subst hd
    refine ⟨hs1.trans (List.tail_suffix c), ?_, fun hne s => ?_⟩
    · simp only [set_day_month_is_datetime, ite_is_datetime, ite_self]
    · unfold week_branch
      simp only [tail_append c s hc, hs2 hne s, h23, if_false, ne_eq, not_true_eq_false,
        false_and, and_false, if_neg h3, if_neg h4]
  · simp only [if_true] at h
    by_cases h3 : cdiv w 10 > 53 ∨ (cdiv w 10 > 52 ∧ is_long_year P.year = 0)
    · rw [if_pos h3] at h; exact absurd h (by simp)
    rw [if_neg h3] at h
    by_cases h4 : cmod w 10 > 7
    · rw [if_pos h4] at h; exact absurd h (by simp)
    rw [if_neg h4] at h
    have hd := Except.ok.inj h
    subst hd
    have h2' : ¬ ¬ (sp' = 0 ∨ sp' = 2) := fun hn => h2 ⟨rfl, hn⟩
    refine ⟨hs1.trans (List.tail_suffix c), ?_, fun hne s => ?_⟩
    · simp only [set_day_month_is_datetime, ite_is_datetime, ite_self]
    · unfold week_branch
      simp only [tail_append c s hc, hs2 hne s, if_true, ne_eq, not_true_eq_false,
        and_false, if_false, true_and, if_neg h2', if_neg h3, if_neg h4]

theorem ne_nil_of_suffix (a b : List Char) (h : List.IsSuffix a b) (ha : a ≠ []) : b ≠ [] := by
  intro hb
  subst hb
  exact ha (List.suffix_nil.mp h)

/-- Either date branch is local. -/
theorem date_branch_local (P : Parsed) (c : List Char) (leap sp : Int) (d : DateScan)
    (h : (if peek c = 'W' then week_branch P c leap sp else calendar_branch P c leap sp)
      = .ok d) :
    List.IsSuffix d.c c ∧ d.parsed.is_datetime = P.is_datetime ∧
    (d.c ≠ [] → ∀ s,
      (if peek (c ++ s) = 'W' then week_branch P (c ++ s) leap sp
       else calendar_branch P (c ++ s) leap sp) = .ok { d with c := d.c ++ s }) := by
  by_cases hW : peek c = 'W'
  · rw [if_pos hW] at h
    have hc : c ≠ [] := by
      intro hc; subst hc; exact absurd hW (by decide)
    obtain ⟨h1, h2, h3⟩ := week_branch_local P c leap sp d hc h
    refine ⟨h1, h2, fun hne s => ?_⟩
    rw [peek_append c s hc, if_pos hW]
    exact h3 hne s
  · rw [if_neg hW] at h
    obtain ⟨h1, h2, h3⟩ := calendar_branch_local P c leap sp d h
    refine ⟨h1, h2, fun hne s => ?_⟩
    rw [peek_append c s (ne_nil_of_suffix _ _ h1 hne), if_neg hW]
    exact h3 hne s

theorem date_section_local (str : List Char) (P0 : Parsed) (d : DateScan)
    (h : date_section str P0 = .ok d) :
    List.IsSuffix d.c str ∧ d.parsed.is_datetime = P0.is_datetime ∧
    (d.c ≠ [] → ∀ s, date_section (str ++ s) P0 = .ok { d with c := d.c ++ s }) := by
  unfold date_section at h
  simp only [] at h
  cases hy : scan_year 4 str P0.year with
  | error e => rw [hy] at h; exact absurd h (by simp)
  | ok r =>
    obtain ⟨year, c1⟩ := r
    obtain ⟨hy1, hy2⟩ := scan_year_local _ _ _ _ _ hy
    rw [hy] at h
    simp only [] at h
    cases hb : (if peek (if peek c1 = '-' then c1.tail else c1) = 'W' then
        week_branch { P0 with is_date := 1, year := year }
          (if peek c1 = '-' then c1.tail else c1) (is_leap year) (if peek c1 = '-' then 1 else 0)
      else calendar_branch { P0 with is_date := 1, year := year }
          (if peek c1 = '-' then c1.tail else c1) (is_leap year) (if peek c1 = '-' then 1 else 0))
      with
    | error e => rw [hb] at h; exact absurd h (by simp)
    | ok d' =>
      rw [hb] at h
      simp only [] at h
      obtain ⟨b1, b2, b3⟩ := date_branch_local _ _ _ _ _ hb
      have hc1' : List.IsSuffix (if peek c1 = '-' then c1.tail else c1) c1 := by
        split
        · exact List.tail_suffix c1
        · exact List.suffix_refl c1
      by_cases k1 : d'.separators ≠ 0 ∧ d'.monthday = 0 ∧ d'.week = 0
      · rw [if_pos k1] at h; exact absurd h (by simp)
      rw [if_neg k1] at h
      by_cases k2 : d'.parsed.month > 12
      · rw [if_pos k2] at h; exact absurd h (by simp)
      rw [if_neg k2] at h
      by_cases k3 : d'.parsed.day > DAYS_PER_MONTHS d'.leap d'.parsed.month
      · rw [if_pos k3] at h; exact absurd h (by simp)
      rw [if_neg k3] at h
      have hd := Except.ok.inj h
      subst hd
      refine ⟨b1.trans (hc1'.trans hy1), b2, fun hne s => ?_⟩
      have hc1 : c1 ≠ [] := ne_nil_of_suffix _ _ (b1.trans hc1') hne
      have happ : (if peek c1 = '-' then c1.tail ++ s else c1 ++ s)
          = (if peek c1 = '-' then c1.tail else c1) ++ s := by
        split <;> rfl
      unfold date_section
      simp only [hy2 s, peek_append c1 s hc1, tail_append c1 s hc1, happ, b3 hne s]
      rw [if_neg k1, if_neg k2, if_neg k3]

/-! ## Appending a zone to a date-time text -/

/-- When the zone section leaves `has_offset` at zero it has read nothing. -/
theorem tz_section_no_offset (Q : Parsed) (c : List Char) (P : Parsed) (cf : List Char)
    (h : tz_section Q c = .ok (P, cf)) (hno : P.has_offset = 0) : P = Q ∧ cf = c := by
  unfold tz_section at h
  by_cases hz : peek c = 'Z'
  · rw [if_pos hz] at h
    have h' := Except.ok.inj h
    simp only [Prod.mk.injEq] at h'
    obtain ⟨rfl, -⟩ := h'
    simp at hno
  · rw [if_neg hz] at h
    by_cases hs : peek c = '+' ∨ peek c = '-'
    · rw [if_pos hs] at h
      simp only [] at h
      cases hsc : scan_tz c.tail 0 0 0 with
      | error e => rw [hsc] at h; exact absurd h (by simp)
      | ok r =>
        obtain ⟨t, sp, i, c'⟩ := r
        rw [hsc] at h
        simp only [] at h
        split_ifs at h <;>
          first
          | (simp at h; done)
          | (have h' := Except.ok.inj h
             simp only [Prod.mk.injEq] at h'
             obtain ⟨rfl, -⟩ := h'
             simp at hno)
    · rw [if_neg hs] at h
      have h' := Except.ok.inj h
      simp only [Prod.mk.injEq] at h'
      exact ⟨h'.1.symm, h'.2.symm⟩

theorem time_section_append_zone (Q : Parsed) (c : List Char) (P : Parsed) (cf : List Char)
    (hc : c ≠ []) (h : time_section Q c = .ok (P, cf)) (hno : P.has_offset = 0) :
    List.IsSuffix cf c ∧
    (cf = [] → ∀ x r, (x = '+' ∨ x = '-') →
      time_section Q (c ++ x :: r) = tz_section P (x :: r)) := by
  unfold time_section at h
  by_cases hamb : Q.ambiguous ≠ 0
  · rw [if_pos hamb] at h; exact absurd h (by simp)
  rw [if_neg hamb] at h
  simp only [] at h
  cases hst : scan_time c.tail 0 0 0 with
  | error e => rw [hst] at h; exact absurd h (by simp)
  | ok r0 =>
    obtain ⟨t, sp, i, c2⟩ := r0
    obtain ⟨hs1, hs2, hs3⟩ := scan_time_local _ _ _ _ _ _ _ _ hst
    rw [hst] at h
    simp only [] at h
    by_cases k1 : i ≠ 2 ∧ i ≠ 4 ∧ i ≠ 6
    · rw [if_pos k1] at h; exact absurd h (by simp)
    rw [if_neg k1] at h
    by_cases k2 : i = 2 ∧ sp > 0
    · rw [if_pos k2] at h; exact absurd h (by simp)
    rw [if_neg k2] at h
    by_cases k3 : i = 4 ∧ sp > 1
    · rw [if_pos k3] at h; exact absurd h (by simp)
    rw [if_neg k3] at h
    by_cases k4 : i = 6 ∧ ¬ (sp = 0 ∨ sp = 2)
    · rw [if_pos k4] at h; exact absurd h (by simp)
    rw [if_neg k4] at h
    generalize hP2 : (ite (i = 2) _ _ : Parsed) = P2 at h
    by_cases k5 : P2.hour > 23
    · rw [if_pos k5] at h; exact absurd h (by simp)
    rw [if_neg k5] at h
    by_cases k6 : P2.minute > 59
    · rw [if_pos k6] at h; exact absurd h (by simp)
    rw [if_neg k6] at h
    by_cases k7 : P2.second > 59
    · rw [if_pos k7] at h; exact absurd h (by simp)
    rw [if_neg k7] at h
    by_cases hfrac : peek c2 = '.' ∨ peek c2 = ','
    · rw [if_pos hfrac] at h
      cases hss : scan_subsecond c2.tail 0 0 with
      | error e => rw [hss] at h; exact absurd h (by simp)
      | ok r1 =>
        obtain ⟨t', i', c3⟩ := r1
        rw [hss] at h
        simp only [] at h
        obtain ⟨hP, hcf⟩ := tz_section_no_offset _ _ _ _ h hno
        subst hcf
        obtain ⟨q1, -, q3⟩ := scan_subsecond_local _ _ _ _ _ _ hss
        have hc2 : c2 ≠ [] := by
          intro e
          subst e
          exact absurd hfrac (by decide)
        refine ⟨(q1.trans (List.tail_suffix c2)).trans (hs1.trans (List.tail_suffix c)),
          fun hcf x r hx => ?_⟩
        unfold time_section
        rw [if_neg hamb]
        simp only [tail_append c _ hc, hs2 hc2 (x :: r)]
        rw [if_neg k1, if_neg k2, if_neg k3, if_neg k4]
        simp only [hP2]
        rw [if_neg k5, if_neg k6, if_neg k7]
        simp only [peek_append c2 _ hc2, if_pos hfrac, tail_append c2 _ hc2, q3 hcf x r hx]
        rw [hP]
    · rw [if_neg hfrac] at h
      simp only [] at h
      obtain ⟨hP, hcf⟩ := tz_section_no_offset _ _ _ _ h hno
      subst hcf
      refine ⟨hs1.trans (List.tail_suffix c), fun hcf x r hx => ?_⟩
      have hx' : ¬ (x = '.' ∨ x = ',') := by
        rcases hx with rfl | rfl <;> decide
      unfold time_section
      rw [if_neg hamb]
      simp only [tail_append c _ hc, hs3 hcf x r hx]
      rw [if_neg k1, if_neg k2, if_neg k3, if_neg k4]
      simp only [hP2]
      rw [if_neg k5, if_neg k6, if_neg k7]
      simp only [peek_cons, if_neg hx']
      rw [hP]

/-- Appending `+...` or `-...` to a text that parses as a date-time without zone runs the
zone section on the parsed result and then the end-of-text check. -/
theorem parse_datetime_append_zone (pre : List Char) (P : Parsed) (hnul : NUL ∉ pre)
    (hpre : _parse_iso8601_datetime pre new_parsed = .ok P)
    (hdt : P.is_datetime = 1) (hno : P.has_offset = 0)
    (x : Char) (hx : x = '+' ∨ x = '-') (off : List Char) :
    _parse_iso8601_datetime (pre ++ x :: off) new_parsed =
      (tz_section P (x :: off)).bind
        (fun r => if peek r.2 ≠ NUL then .error PARSER_INVALID_ISO8601 else .ok r.1) := by
  unfold _parse_iso8601_datetime at hpre ⊢
  cases hds : date_section pre new_parsed with
  | error e => rw [hds] at hpre; exact absurd hpre (by simp)
  | ok d =>
    rw [hds] at hpre
    simp only [] at hpre
    obtain ⟨s1, s2, s3⟩ := date_section_local _ _ _ hds
    by_cases hT : peek d.c = 'T' ∨ peek d.c = ' '
    · rw [if_pos hT] at hpre
      cases hts : time_section d.parsed d.c with
      | error e => rw [hts] at hpre; exact absurd hpre (by simp)
      | ok pr =>
        obtain ⟨Pt, ct⟩ := pr
        rw [hts] at hpre
        simp only [] at hpre
        by_cases hend : peek ct ≠ NUL
        · rw [if_pos hend] at hpre; exact absurd hpre (by simp)
        rw [if_neg hend] at hpre
        have hP := Except.ok.inj hpre
        subst hP
        have hdc : d.c ≠ [] := by
          intro e
          rw [e] at hT
          exact absurd hT (by decide)
        obtain ⟨u1, u2⟩ := time_section_append_zone _ _ _ _ hdc hts hno
        have hct : ct = [] := by
          cases ct with
          | nil => rfl
          | cons y ys =>
            exfalso
            rw [peek_cons] at hend
            have hy : y = NUL := by
              by_contra hne
              exact hend hne
            apply hnul
            rw [← hy]
            exact (u1.trans s1).subset (List.mem_cons_self _ _)
        rw [s3 hdc (x :: off)]
        simp only []
        rw [peek_append d.c _ hdc, if_pos hT, u2 hct x off hx]
        generalize tz_section Pt (x :: off) = r
        rcases r with e | ⟨p, c⟩ <;> rfl
    · rw [if_neg hT] at hpre
      simp only [] at hpre
      by_cases hend : peek d.c ≠ NUL
      · rw [if_pos hend] at hpre; exact absurd hpre (by simp)
      rw [if_neg hend] at hpre
      have hP := Except.ok.inj hpre
      subst hP
      rw [s2] at hdt
      exact absurd hdt (by decide)

/-! ## Zone offsets -/

theorem scan_tz_nil (time separators i : Int) :
    scan_tz [] time separators i = .ok (time, separators, i, []) := rfl

theorem scan_tz_sep (r : List Char) (time separators i : Int) :
    scan_tz (':' :: r) time separators i = scan_tz r time (separators + 1) i := by
  have h1 : ':' ≠ NUL := by decide
  simp [scan_tz, h1]

theorem scan_tz_digits (ds rest : List Char) (time separators i : Int) (h : IsDigitStr ds) :
    scan_tz (ds ++ rest) time separators i =
      scan_tz rest (ds.foldl accumulate time) separators (i + ds.length) := by
  induction ds generalizing time i with
  | nil => simp
  | cons d ds ih =>
    have hd : is_digit d = true := h d (List.mem_cons_self _ _)
    have hds : IsDigitStr ds := fun c hc => h c (List.mem_cons_of_mem _ hc)
    obtain ⟨h0, -, -, -, h4, -⟩ := is_digit_ne d hd
    simp only [List.cons_append, scan_tz, h0, h4, hd, if_false, not_true_eq_false,
      List.foldl_cons, List.length_cons]
    rw [List.append_eq, ih _ _ hds]
    congr 1
    push_cast
    ring

/-- On a text of digits and colons the offset scanner counts both and reaches the end. -/
theorem scan_tz_counts (off : List Char) (hoff : ∀ ch ∈ off, is_digit ch = true ∨ ch = ':')
    (time separators i : Int) :
    ∃ t, scan_tz off time separators i =
      .ok (t, separators + off.count ':', i + off.countP is_digit, []) := by
  induction off generalizing time separators i with
  | nil => exact ⟨time, by simp [scan_tz]⟩
  | cons c cs ih =>
    have hcs : ∀ ch ∈ cs, is_digit ch = true ∨ ch = ':' :=
      fun ch hch => hoff ch (List.mem_cons_of_mem _ hch)
    rcases hoff c (List.mem_cons_self _ _) with hd | rfl
    · obtain ⟨h0, -, -, -, h4, -⟩ := is_digit_ne c hd
      obtain ⟨t, ht⟩ := ih hcs (accumulate time c) separators (i + 1)
      refine ⟨t, ?_⟩
      have hne : (c == ':') = false := by simpa using h4
      rw [scan_tz, if_neg h0, if_neg h4, if_neg (by simp [hd]), ht,
        List.countP_cons_of_pos _ _ hd, List.count_cons, hne]
      simp only [Bool.false_eq_true, if_false, add_zero]
      have e : i + 1 + ((List.countP is_digit cs : Nat) : Int)
          = i + ((List.countP is_digit cs + 1 : Nat) : Int) := by push_cast; ring
      rw [e]
    · obtain ⟨t, ht⟩ := ih hcs time (separators + 1) i
      refine ⟨t, ?_⟩
      have hnd : ¬ is_digit ':' = true := by decide
      rw [scan_tz_sep, ht, List.countP_cons_of_neg _ _ hnd, List.count_cons_self]
      have e : separators + 1 + ((List.count ':' cs : Nat) : Int)
          = separators + ((List.count ':' cs + 1 : Nat) : Int) := by push_cast; ring
      rw [e]

/-- The zone section on the three accepted forms of a numeric offset. -/
theorem tz_section_offset (P : Parsed) (x : Char) (hx : x = '+' ∨ x = '-') (hh mm : Nat)
    (hhh : hh ≤ 99) (hmm : mm ≤ 99) :
    tz_section P (x :: zero_padded 2 hh) =
      .ok ({ P with has_offset := 1, offset := zone_sign x * (hh * 3600) }, []) ∧
    tz_section P (x :: (zero_padded 2 hh ++ zero_padded 2 mm)) =
      .ok ({ P with has_offset := 1, offset := zone_sign x * (hh * 3600 + mm * 60) }, []) ∧
    tz_section P (x :: (zero_padded 2 hh ++ (':' :: zero_padded 2 mm))) =
      .ok ({ P with has_offset := 1, offset := zone_sign x * (hh * 3600 + mm * 60) }, []) := by
  have hz : ¬ (x = 'Z') := by rcases hx with rfl | rfl <;> decide
  have hs2 : scan_tz (zero_padded 2 hh) 0 0 0 = .ok ((hh : Int), 0, 2, []) := by
    rw [← List.append_nil (zero_padded 2 hh),
      scan_tz_digits _ _ _ _ _ (isDigitStr_zero_padded 2 hh), scan_tz_nil,
      length_zero_padded, foldl_accumulate_pad2 hh 0 (le_refl _) (by norm_num) (by omega)]
    norm_num
  have hs4 : scan_tz (zero_padded 2 hh ++ zero_padded 2 mm) 0 0 0
      = .ok (100 * (hh : Int) + mm, 0, 4, []) := by
    rw [scan_tz_digits _ _ _ _ _ (isDigitStr_zero_padded 2 hh),
      ← List.append_nil (zero_padded 2 mm),
      scan_tz_digits _ _ _ _ _ (isDigitStr_zero_padded 2 mm), scan_tz_nil,
      length_zero_padded, length_zero_padded,
      foldl_accumulate_pad2 hh 0 (le_refl _) (by norm_num) (by omega),
      foldl_accumulate_pad2 mm _ (by omega) (by omega) (by omega)]
    norm_num
    ring
  have hs5 : scan_tz (zero_padded 2 hh ++ (':' :: zero_padded 2 mm)) 0 0 0
      = .ok (100 * (hh : Int) + mm, 1, 4, []) := by
    rw [scan_tz_digits _ _ _ _ _ (isDigitStr_zero_padded 2 hh), scan_tz_sep,
      ← List.append_nil (zero_padded 2 mm),
      scan_tz_digits _ _ _ _ _ (isDigitStr_zero_padded 2 mm), scan_tz_nil,
      length_zero_padded, length_zero_padded,
      foldl_accumulate_pad2 hh 0 (le_refl _) (by norm_num) (by omega),
      foldl_accumulate_pad2 mm _ (by omega) (by omega) (by omega)]
    norm_num
    ring
  have hq : cdiv (100 * (hh : Int) + mm) 100 = hh := by
    rw [cdiv_nonneg_eq _ _ (by omega) (by omega)]; omega
  have hr : cmod (100 * (hh : Int) + mm) 100 = mm := by
    rw [cmod_nonneg_eq _ _ (by omega) (by omega)]; omega
  have hsg : zone_sign x = 1 ∨ zone_sign x = -1 := by
    rcases hx with rfl | rfl
    · left; decide
    · right; decide
  have hw2 : wrap32 (zone_sign x * ((hh : Int) * 3600)) = zone_sign x * (hh * 3600) := by
    rcases hsg with h | h <;> rw [h] <;> exact wrap32_eq_self _ (by omega) (by omega)
  have hw4 : wrap32 (zone_sign x * ((hh : Int) * 3600 + mm * 60))
      = zone_sign x * (hh * 3600 + mm * 60) := by
    rcases hsg with h | h <;> rw [h] <;> exact wrap32_eq_self _ (by omega) (by omega)
  have hsign : (if x = '-' then (-1 : Int) else 1) = zone_sign x := rfl
  have h24 : ¬ ((2 : Int) = 4) := by decide
  have h42 : ¬ ((4 : Int) = 2) := by decide
  refine ⟨?_, ?_, ?_⟩
  · unfold tz_section
    simp only [peek_cons, hz, if_false, hx, if_true, List.tail_cons, hs2, hsign, hw2,
      ne_eq, not_true_eq_false]
  · unfold tz_section
    simp only [peek_cons, hz, if_false, hx, if_true, List.tail_cons, hs4, hsign, hq, hr, hw4,
      h42]
    norm_num
  · unfold tz_section
    simp only [peek_cons, hz, if_false, hx, if_true, List.tail_cons, hs5, hsign, hq, hr, hw4,
      h42]
    norm_num

/-- The zone section rejects digit groupings other than two or four digits, and two digits
with a colon. -/
theorem tz_section_bad_offset (P : Parsed) (x : Char) (hx : x = '+' ∨ x = '-')
    (off : List Char) (hoff : ∀ ch ∈ off, is_digit ch = true ∨ ch = ':')
    (hbad : (off.countP is_digit ≠ 2 ∧ off.countP is_digit ≠ 4) ∨
      (off.countP is_digit = 2 ∧ ':' ∈ off)) :
    tz_section P (x :: off) = .error PARSER_INVALID_TZ_OFFSET := by
  have hz : ¬ (x = 'Z') := by rcases hx with rfl | rfl <;> decide
  obtain ⟨t, ht⟩ := scan_tz_counts off hoff 0 0 0
  unfold tz_section
  simp only [peek_cons, hz, if_false, hx, if_true, List.tail_cons, ht, zero_add]
  rcases hbad with ⟨h2, h4⟩ | ⟨h2, hc⟩
  · have k2 : ¬ ((off.countP is_digit : Int) = 2) := by exact_mod_cast h2
    have k4 : ¬ ((off.countP is_digit : Int) = 4) := by exact_mod_cast h4
    simp only [k2, k4, if_false]
  · have k2 : ((List.countP is_digit off : Nat) : Int) = 2 := by exact_mod_cast h2
    have kc : ((List.count ':' off : Nat) : Int) ≠ 0 := by
      have := List.count_pos_iff.mpr hc
      omega
    simp only [k2, if_true, kc, ne_eq, not_false_eq_true]

/-- C20: for every text `pre` without NUL that parses as a date-time without zone, every sign
`x` in `+`, `-` and all two-digit fields `hh` and `mm`, the texts `pre x hh`, `pre x hhmm` and
`pre x hh:mm` parse to the same result with `has_offset = 1` and
`offset = sgn * (hh * 3600 + mm * 60)` seconds (`mm = 0` in the first form, `sgn = +1` for `+`
and `-1` for `-`); and a suffix of digits and colons whose digit count is neither 2 nor 4, or
is 2 with a colon present, makes the parser fail with invalid-tz-offset. -/
theorem parse_zone_offset (pre : List Char) (P : Parsed) (hnul : NUL ∉ pre)
    (hpre : _parse_iso8601_datetime pre new_parsed = .ok P)
    (hdt : P.is_datetime = 1) (hno : P.has_offset = 0)
    (x : Char) (hx : x = '+' ∨ x = '-') (hh mm : Nat) (hhh : hh ≤ 99) (hmm : mm ≤ 99) :
    _parse_iso8601_datetime (pre ++ x :: zero_padded 2 hh) new_parsed =
      .ok { P with has_offset := 1, offset := zone_sign x * (hh * 3600) } ∧
    _parse_iso8601_datetime (pre ++ x :: (zero_padded 2 hh ++ zero_padded 2 mm)) new_parsed =
      .ok { P with has_offset := 1, offset := zone_sign x * (hh * 3600 + mm * 60) } ∧
    _parse_iso8601_datetime (pre ++ x :: (zero_padded 2 hh ++ (':' :: zero_padded 2 mm)))
        new_parsed =
      .ok { P with has_offset := 1, offset := zone_sign x * (hh * 3600 + mm * 60) } ∧
    (∀ off : List Char, (∀ ch ∈ off, is_digit ch = true ∨ ch = ':') →
      ((off.countP is_digit ≠ 2 ∧ off.countP is_digit ≠ 4) ∨
        (off.countP is_digit = 2 ∧ ':' ∈ off)) →
      _parse_iso8601_datetime (pre ++ x :: off) new_parsed
        = .error PARSER_INVALID_TZ_OFFSET) ∧
    zone_sign '+' = 1 ∧ zone_sign '-' = -1 := by
  obtain ⟨t1, t2, t3⟩ := tz_section_offset P x hx hh mm hhh hmm
  refine ⟨?_, ?_, ?_, ?_, by decide, by decide⟩
  · rw [parse_datetime_append_zone pre P hnul hpre hdt hno x hx, t1]
    rfl
  · rw [parse_datetime_append_zone pre P hnul hpre hdt hno x hx, t2]
    rfl
  · rw [parse_datetime_append_zone pre P hnul hpre hdt hno x hx, t3]
    rfl
  · intro off hoff hbad
    rw [parse_datetime_append_zone pre P hnul hpre hdt hno x hx,
      tz_section_bad_offset P x hx off hoff hbad]
    rfl

/-- Witness for `parse_zone_offset`: the prefix `2021-05-21T12:30:00` with the zone `-05:30`;
also `+02`, `+0200` and `+02:00` all give 7200 seconds, and `+2`, `+020` and `+0:2` fail. -/
theorem parse_zone_offset_witness :
    "2021-05-21T12:30:00".toList ++ '-' :: (zero_padded 2 5 ++ (':' :: zero_padded 2 30))
      = "2021-05-21T12:30:00-05:30".toList ∧
    parse_iso8601 "2021-05-21T12:30:00-05:30".toList
      = .ok (.datetime 2021 5 21 12 30 0 0 (some ⟨-19800, none⟩)) ∧
    parse_iso8601 "2021-05-21T12:30:00+02".toList
      = .ok (.datetime 2021 5 21 12 30 0 0 (some ⟨7200, none⟩)) ∧
    parse_iso8601 "2021-05-21T12:30:00+0200".toList
      = .ok (.datetime 2021 5 21 12 30 0 0 (some ⟨7200, none⟩)) ∧
    parse_iso8601 "2021-05-21T12:30:00+02:00".toList
      = .ok (.datetime 2021 5 21 12 30 0 0 (some ⟨7200, none⟩)) ∧
    parse_iso8601 "2021-05-21T12:30:00+2".toList
      = .error (.ValueError PARSER_INVALID_TZ_OFFSET) ∧
    parse_iso8601 "2021-05-21T12:30:00+020".toList
      = .error (.ValueError PARSER_INVALID_TZ_OFFSET) ∧
    parse_iso8601 "2021-05-21T12:30:00+0:2".toList
      = .error (.ValueError PARSER_INVALID_TZ_OFFSET) ∧
    _parse_iso8601_datetime
        ("2021-05-21T12:30:00".toList ++ '-' :: (zero_padded 2 5 ++ (':' :: zero_padded 2 30)))
        new_parsed =
      .ok { ({ new_parsed with is_date := 0, is_datetime := 1, year := 2021, month := 5,
                               day := 21, hour := 12, minute := 30, second := 0 } : Parsed) with
            has_offset := 1,
            offset := zone_sign '-' * (((5 : Nat) : Int) * 3600 + ((30 : Nat) : Int) * 60) } :=
  ⟨by decide, by rfl, by rfl, by rfl, by rfl, by rfl, by rfl, by rfl,
   (parse_zone_offset "2021-05-21T12:30:00".toList
      { new_parsed with is_date := 0, is_datetime := 1, year := 2021, month := 5, day := 21,
                        hour := 12, minute := 30, second := 0 }
      (by decide) (by rfl) (by rfl) (by rfl) '-' (Or.inr rfl) 5 30 (by decide)
      (by decide)).2.2.1⟩

/-! ## Claims settled by running the parsers on concrete texts -/

/-- C21 (defect of the day check): the date section tests `month > 12` and
`day > DAYS_PER_MONTHS[leap][month]` only, so the day `00` passes: `2021-05-00` and `20210500`
are parsed successfully by `_parse_iso8601_datetime` as the calendar date with `month = 5` and
`day = 0`, which does not satisfy `1 <= day`.  The day is refused only afterwards, by the date
constructor of the host to which `parse_iso8601` hands `(2021, 5, 0)`.  The neighbouring
cases are rejected by the parser's own checks: day 32 and month 00 with
invalid-day-for-month (the table entry for month 0 is -1), month 13 with invalid-month. -/
theorem parse_accepts_day_zero :
    _parse_iso8601_datetime "2021-05-00".toList new_parsed =
      .ok { new_parsed with is_date := 1, year := 2021, month := 5, day := 0 } ∧
    _parse_iso8601_datetime "20210500".toList new_parsed =
      .ok { new_parsed with is_date := 1, year := 2021, month := 5, day := 0 } ∧
    ¬ ValidDate 2021 5 0 ∧
    parse_iso8601 "2021-05-00".toList = .error .ConstructorError ∧
    parse_iso8601 "2021-05-32".toList = .error (.ValueError PARSER_INVALID_DAY_FOR_MONTH) ∧
    parse_iso8601 "2021-00-01".toList = .error (.ValueError PARSER_INVALID_DAY_FOR_MONTH) ∧
    parse_iso8601 "2021-13-01".toList = .error (.ValueError PARSER_INVALID_MONTH) := by
  refine ⟨by rfl, by rfl, by decide, by rfl, by rfl, by rfl, by rfl⟩

/-- C23 (defect of the repeated-unit checks): the minute case of `M` tests `has_second` and
`has_fractional` but not `has_minute`, and the `W` case tests `has_ymd` but not `has_week`, so
`PT1M2M` and `P1W2W` are accepted and the second value overwrites the first (2 minutes,
2 weeks).  The other units are guarded: two `Y`, two date-part `M`, two `D`, two `H` and two
`S` fail with invalid-duration. -/
theorem parse_duration_accepts_repeated_units :
    _parse_iso8601_duration "PT1M2M".toList new_parsed =
      .ok { new_parsed with is_duration := 1, minutes := 2 } ∧
    _parse_iso8601_duration "P1W2W".toList new_parsed =
      .ok { new_parsed with is_duration := 1, weeks := 2 } ∧
    parse_iso8601 "PT1M2M".toList = .ok (.duration 0 0 0 0 0 2 0 0) ∧
    parse_iso8601 "P1W2W".toList = .ok (.duration 0 0 2 0 0 0 0 0) ∧
    _parse_iso8601_duration "P1Y2Y".toList new_parsed = .error PARSER_INVALID_DURATION ∧
    _parse_iso8601_duration "P1M2M".toList new_parsed = .error PARSER_INVALID_DURATION ∧
    _parse_iso8601_duration "P1D2D".toList new_parsed = .error PARSER_INVALID_DURATION ∧
    _parse_iso8601_duration "PT1H2H".toList new_parsed = .error PARSER_INVALID_DURATION ∧
    _parse_iso8601_duration "PT1S2S".toList new_parsed = .error PARSER_INVALID_DURATION := by
  refine ⟨by rfl, by rfl, by rfl, by rfl, by rfl, by rfl, by rfl, by rfl, by rfl⟩

/-- C26 (defect of the fraction bookkeeping): every unit designator resets `fraction` and
`in_fraction` but not `fraction_length`, so the digits of an earlier fraction are still counted
when the seconds are scaled.  `PT1.5S` gives 500000 microseconds, but `P1.0DT1.5S` gives 50000
(length counted as 2) and `PT1.00M1.5S` gives 5000 (length counted as 3); the first six digits
of `5` right-padded with zeros are 500000. -/
theorem parse_duration_fraction_length_not_reset :
    first_six_digits "5".toList = 500000 ∧
    parse_iso8601 "PT1.5S".toList = .ok (.duration 0 0 0 0 0 0 1 500000) ∧
    _parse_iso8601_duration "P1.0DT1.5S".toList new_parsed =
      .ok { new_parsed with is_duration := 1, days := 1, seconds := 1, microseconds := 50000 } ∧
    parse_iso8601 "P1.0DT1.5S".toList = .ok (.duration 0 0 0 1 0 0 1 50000) ∧
    parse_iso8601 "PT1.00M1.5S".toList = .ok (.duration 0 0 0 0 0 1 1 5000) := by
  refine ⟨by decide, by rfl, by rfl, by rfl, by rfl⟩

/-- C29 (defect of the week scan): the loop of the week-date branch accumulates every
character other than `-` (up to NUL, space or `T`) without the digit test that the
calendar branch applies, so `2021-W3/` is accepted: `/` is read as the digit value -1, the week
number becomes `3 * 10 - 1 = 29` and the result is 2021-07-19, the date of `2021-W29`.  The
character `/` is not an ASCII digit, and in the calendar branch the same character is rejected
with invalid-date. -/
theorem parse_week_date_accepts_non_digit :
    is_digit '/' = false ∧
    _parse_iso8601_datetime "2021-W3/".toList new_parsed =
      .ok { new_parsed with is_date := 1, year := 2021, month := 7, day := 19 } ∧
    parse_iso8601 "2021-W3/".toList = .ok (.date 2021 7 19) ∧
    parse_iso8601 "2021-W29".toList = .ok (.date 2021 7 19) ∧
    _parse_iso8601_datetime "2021-0/".toList new_parsed = .error PARSER_INVALID_DATE := by
  refine ⟨by decide, by rfl, by rfl, by rfl, by rfl⟩

/-! ## Range checks of the time section -/

/-- The time scanner on a run of characters none of which ends the time section, followed by
a character that does: either a character of the run is rejected, or the run is consumed
and `i` has grown by the number of digits in it. -/
theorem scan_time_section (tt r : List Char)
    (htt : ∀ ch ∈ tt, ch ≠ NUL ∧ ch ≠ '.' ∧ ch ≠ ',' ∧ ch ≠ 'Z' ∧ ch ≠ '+' ∧ ch ≠ '-')
    (hr : peek r = NUL ∨ peek r = '.' ∨ peek r = ',' ∨ peek r = 'Z' ∨ peek r = '+' ∨
      peek r = '-') (time separators i : Int) :
    scan_time (tt ++ r) time separators i = .error PARSER_INVALID_TIME ∨
    ∃ t sp, scan_time (tt ++ r) time separators i =
      .ok (t, sp, i + tt.countP is_digit, r) := by
  induction tt generalizing time separators i with
  | nil =>
    right
    exact ⟨time, separators, by simp [scan_time_stop_at r time separators i hr]⟩
  | cons c cs ih =>
    have hcs : ∀ ch ∈ cs, ch ≠ NUL ∧ ch ≠ '.' ∧ ch ≠ ',' ∧ ch ≠ 'Z' ∧ ch ≠ '+' ∧ ch ≠ '-' :=
      fun ch hch => htt ch (List.mem_cons_of_mem _ hch)
    obtain ⟨c0, c1, c2, c3, c4, c5⟩ := htt c (List.mem_cons_self _ _)
    have hstop : ¬ (c = NUL ∨ c = '.' ∨ c = ',' ∨ c = 'Z' ∨ c = '+' ∨ c = '-') := by
      simp [c0, c1, c2, c3, c4, c5]
    by_cases hcol : c = ':'
    · subst hcol
      have hnd : ¬ is_digit ':' = true := by decide
      rw [List.cons_append, scan_time_sep, List.countP_cons_of_neg _ _ hnd]
      rcases ih hcs time (separators + 1) i with h | ⟨t, sp, h⟩
      · exact Or.inl h
      · exact Or.inr ⟨t, sp, h⟩
    · by_cases hd : is_digit c = true
      · rw [List.cons_append, scan_time, if_neg hstop, if_neg hcol, if_neg (by simp [hd]),
          List.countP_cons_of_pos _ _ hd]
        rcases ih hcs (accumulate time c) separators (i + 1) with h | ⟨t, sp, h⟩
        · exact Or.inl h
        · refine Or.inr ⟨t, sp, ?_⟩
          rw [h]
          have e : i + 1 + ((List.countP is_digit cs : Nat) : Int)
              = i + ((List.countP is_digit cs + 1 : Nat) : Int) := by push_cast; ring
          rw [e]
      · left
        rw [List.cons_append, scan_time, if_neg hstop, if_neg hcol, if_pos hd]

/-- C22: for every valid date prefix `YYYY-MM-DD` and two-digit fields `hh`, `mm`, `ss`,
parsing `YYYY-MM-DDThh:mm:ss` fails with invalid-hour when `hh > 23`, with invalid-minute
when `hh <= 23` and `mm > 59`, with invalid-second when `hh <= 23`, `mm <= 59` and `ss > 59`,
and otherwise succeeds with `hour = hh`, `minute = mm`, `second = ss`; and a time section
(the characters after `T` up to the end of the text or the first of `.`, `,`, `Z`, `+`, `-`)
whose number of digits is not 2, 4 or 6 fails with invalid-time. -/
theorem parse_time_range_checks (Y M D : Nat) (hY : Y ≤ 9999)
    (hM1 : 1 ≤ M) (hM2 : M ≤ 12) (hD1 : 1 ≤ D)
    (hD2 : (D : Int) ≤ DAYS_PER_MONTHS (is_leap Y) M)
    (h m s : Nat) (hh : h ≤ 99) (hm : m ≤ 99) (hs : s ≤ 99) :
    _parse_iso8601_datetime (datetime_text Y M D h m s) new_parsed =
      (if 23 < h then .error PARSER_INVALID_HOUR
       else if 59 < m then .error PARSER_INVALID_MINUTE
       else if 59 < s then .error PARSER_INVALID_SECOND
       else .ok { new_parsed with
                  is_date := 0, is_datetime := 1, year := Y, month := M, day := D,
                  hour := h, minute := m, second := s }) ∧
    ∀ tt r : List Char,
      (∀ ch ∈ tt, ch ≠ NUL ∧ ch ≠ '.' ∧ ch ≠ ',' ∧ ch ≠ 'Z' ∧ ch ≠ '+' ∧ ch ≠ '-') →
      (peek r = NUL ∨ peek r = '.' ∨ peek r = ',' ∨ peek r = 'Z' ∨ peek r = '+' ∨
        peek r = '-') →
      tt.countP is_digit ≠ 2 → tt.countP is_digit ≠ 4 → tt.countP is_digit ≠ 6 →
      _parse_iso8601_datetime (date_text Y M D ++ ('T' :: (tt ++ r))) new_parsed =
        .error PARSER_INVALID_TIME := by
  constructor
  · have ht := scan_time_hms h m s hh hm hs [] (Or.inl rfl)
    simp only [List.append_nil] at ht
    have h1 : cdiv (10000 * (h : Int) + 100 * m + s) 10000 = h := by
      rw [cdiv_nonneg_eq _ _ (by omega) (by omega)]; omega
    have h2 : cmod (cdiv (10000 * (h : Int) + 100 * m + s) 100) 100 = m := by
      rw [cdiv_nonneg_eq _ _ (by omega) (by omega), cmod_nonneg_eq _ _ (by omega) (by omega)]
      omega
    have h3 : cmod (10000 * (h : Int) + 100 * m + s) 100 = s := by
      rw [cmod_nonneg_eq _ _ (by omega) (by omega)]; omega
    unfold _parse_iso8601_datetime datetime_text
    rw [date_section_calendar Y M D _ hY hM1 hM2 hD1 hD2]
    simp only [peek_cons, true_or, if_true]
    unfold time_section
    rw [if_neg (by simp [new_parsed])]
    simp only [List.tail_cons]
    rw [ht]
    simp only [h1, h2, h3]
    norm_num
    by_cases c1 : 23 < h
    · rw [if_pos c1, if_pos c1]
    · rw [if_neg c1, if_neg c1]
      by_cases c2 : 59 < m
      · rw [if_pos c2, if_pos c2]
      · rw [if_neg c2, if_neg c2]
        by_cases c3 : 59 < s
        · rw [if_pos c3, if_pos c3]
        · rw [if_neg c3, if_neg c3]
          have hd1 : ¬ (NUL = '.' ∨ NUL = ',') := by decide
          have hz : ¬ (NUL = 'Z') := by decide
          have hpm : ¬ (NUL = '+' ∨ NUL = '-') := by decide
          simp only [peek, hd1, hz, hpm, if_false, tz_section, ne_eq, not_true_eq_false]
          rfl
  · intro tt r htt hr n2 n4 n6
    unfold _parse_iso8601_datetime date_text
    simp only [List.append_assoc, List.cons_append]
    rw [date_section_calendar Y M D _ hY hM1 hM2 hD1 hD2]
    simp only [peek_cons, true_or, if_true]
    unfold time_section
    rw [if_neg (by simp [new_parsed])]
    simp only [List.tail_cons]
    rcases scan_time_section tt r htt hr 0 0 0 with e | ⟨t, sp, e⟩
    · rw [e]
    · rw [e]
      have k2 : (0 : Int) + ((List.countP is_digit tt : Nat) : Int) ≠ 2 := by omega
      have k4 : (0 : Int) + ((List.countP is_digit tt : Nat) : Int) ≠ 4 := by omega
      have k6 : (0 : Int) + ((List.countP is_digit tt : Nat) : Int) ≠ 6 := by omega
      simp only []
      rw [if_pos ⟨k2, k4, k6⟩]

/-- Witness for `parse_time_range_checks`: on 2021-05-06 the time `23:59:60` fails with
invalid-second, and the three-digit time section `123` fails with invalid-time. -/
theorem parse_time_range_checks_witness :
    datetime_text 2021 5 6 23 59 60 = "2021-05-06T23:59:60".toList ∧
    _parse_iso8601_datetime (datetime_text 2021 5 6 23 59 60) new_parsed =
      .error PARSER_INVALID_SECOND ∧
    _parse_iso8601_datetime (date_text 2021 5 6 ++ ('T' :: ("123".toList ++ []))) new_parsed =
      .error PARSER_INVALID_TIME :=
  ⟨by decide,
   ((parse_time_range_checks 2021 5 6 (by decide) (by decide) (by decide) (by decide)
      (by decide) 23 59 60 (by decide) (by decide) (by decide)).1).trans (by rfl),
   (parse_time_range_checks 2021 5 6 (by decide) (by decide) (by decide) (by decide)
      (by decide) 23 59 60 (by decide) (by decide) (by decide)).2 "123".toList []
      (by decide) (Or.inl rfl) (by decide) (by decide) (by decide)⟩

/-! ## The duration loop on prefixes and on fractions -/

/-- The loop on a text `a ++ b` (no NUL in `a`) is the loop on `a` followed by the loop on
`b` from the state reached. -/
theorem duration_loop_append (a b : List Char) (s : DurationScan) (hnul : NUL ∉ a) :
    duration_loop (a ++ b) s = (duration_loop a s).bind (fun s1 => duration_loop b s1) := by
  induction a generalizing s with
  | nil => rfl
  | cons c cs ih =>
    have hc : c ≠ NUL := fun h => hnul (h ▸ List.mem_cons_self _ _)
    have hcs : NUL ∉ cs := fun h => hnul (List.mem_cons_of_mem _ h)
    rw [List.cons_append, duration_loop, duration_loop]
    simp only [hc, if_false]
    rcases hstep : duration_step s c with e | s1
    · rfl
    · exact ih s1 hcs

theorem duration_step_fraction_digit (s : DurationScan) (d : Char) (hd : is_digit d = true)
    (hf : s.in_fraction ≠ 0) :
    duration_step s d = .ok { s with fraction := accumulate s.fraction d,
                                     fraction_length := s.fraction_length + 1 } := by
  obtain ⟨-, h1, h2, h3, h4, h5, h6, h7, h8, h9⟩ := is_digit_ne_designator d hd
  unfold duration_step
  simp only [h1, h2, h3, h4, h5, h6, h7, h8, h9, hd, hf, or_self, if_false, if_true,
    ne_eq, not_false_eq_true]

/-- The loop over a run of digits inside a fraction accumulates `fraction` and counts the
digits in `fraction_length`. -/
theorem duration_loop_fraction_digits (f rest : List Char) (s : DurationScan)
    (h : IsDigitStr f) (hf : s.in_fraction ≠ 0) :
    duration_loop (f ++ rest) s =
      duration_loop rest { s with fraction := f.foldl accumulate s.fraction,
                                  fraction_length := s.fraction_length + f.length } := by
  induction f generalizing s with
  | nil => simp
  | cons d ds ih =>
    have hd : is_digit d = true := h d (List.mem_cons_self _ _)
    have hds : IsDigitStr ds := fun c hc => h c (List.mem_cons_of_mem _ hc)
    have h0 := (is_digit_ne_designator d hd).1
    rw [List.cons_append, duration_loop]
    simp only [h0, if_false, duration_step_fraction_digit s d hd hf]
    rw [ih _ hds]
    · simp only [List.foldl_cons, List.length_cons]
      congr 2
      push_cast
      ring
    · exact hf

/-- The fraction mark after a number that no unit has closed starts the fraction. -/
theorem duration_step_mark (s : DurationScan) (sep : Char) (hsep : sep = '.' ∨ sep = ',')
    (hg : s.grabbed ≠ 0) (hhf : s.has_fractional = 0) :
    duration_step s sep = .ok { s with in_fraction := 1 } := by
  have h1 : sep ≠ 'Y' ∧ sep ≠ 'M' ∧ sep ≠ 'D' ∧ sep ≠ 'T' ∧ sep ≠ 'H' ∧ sep ≠ 'S' ∧
      sep ≠ 'W' ∧ sep ≠ NUL := by
    rcases hsep with rfl | rfl <;> decide
  obtain ⟨a1, a2, a3, a4, a5, a6, a7, -⟩ := h1
  unfold duration_step
  simp only [a1, a2, a3, a4, a5, a6, a7, hsep, hg, hhf, if_false, if_true, or_self,
    ne_eq, not_true_eq_false]

theorem duration_step_Y_fraction (s : DurationScan) (hg : s.grabbed ≠ 0) (ht : s.in_time = 0)
    (hw : s.has_week = 0) (hymd : s.has_ymd = 0) (hfr : s.fraction ≠ 0) :
    duration_step s 'Y' = .error PARSER_INVALID_DURATION_FLOAT_YEAR_MONTH_NOT_SUPPORTED := by
  unfold duration_step
  simp only [hg, ht, hw, hymd, hfr, if_true, if_false, or_self, ne_eq, not_true_eq_false,
    not_false_eq_true]

theorem duration_step_M_fraction (s : DurationScan) (hg : s.grabbed ≠ 0) (ht : s.in_time = 0)
    (hw : s.has_week = 0) (hfr : s.fraction ≠ 0) :
    duration_step s 'M' = .error PARSER_INVALID_DURATION_FLOAT_YEAR_MONTH_NOT_SUPPORTED := by
  have h1 : 'M' ≠ 'Y' := by decide
  unfold duration_step
  simp only [h1, hg, ht, hw, hfr, if_true, if_false, or_self, ne_eq, not_true_eq_false,
    not_false_eq_true]

/-- The loop from a state with no fraction in progress over a number written with a
fraction: the state when the unit designator is reached. -/
theorem duration_loop_fractional_number (s : DurationScan) (hif : s.in_fraction = 0)
    (hfr : s.fraction = 0) (hhf : s.has_fractional = 0)
    (n f : List Char) (hn : IsDigitStr n) (hn0 : n ≠ []) (hf : IsDigitStr f)
    (hfit : digits_value f < 2147483648)
    (sep : Char) (hsep : sep = '.' ∨ sep = ',') (rest : List Char) :
    duration_loop (n ++ (sep :: (f ++ rest))) s =
      duration_loop rest
        { s with value := n.foldl accumulate s.value, grabbed := 1, in_fraction := 1,
                 fraction := digits_value f,
                 fraction_length := s.fraction_length + f.length } := by
  obtain ⟨d, ds, rfl⟩ := List.exists_cons_of_ne_nil hn0
  have hs0 : sep ≠ NUL := by rcases hsep with rfl | rfl <;> decide
  have hv := foldl_accumulate_digits f 0 hf hfit
  simp only [Nat.cast_zero] at hv
  have h1 : (1 : Int) ≠ 0 := by decide
  rw [duration_loop_digits ds _ d s hn hif, duration_loop]
  simp only [hs0, if_false]
  rw [duration_step_mark _ sep hsep]
  · simp only []
    rw [duration_loop_fraction_digits f rest _ hf]
    · simp only [hfr, hv]
      rfl
    · exact h1
  · exact h1
  · exact hhf

/-- C25 as stated fails: the year and month cases test the value of `fraction`, not whether a
fraction was written, so a fraction whose digits are all zero passes: `P1.0Y` is accepted as
1 year and `P1,00M` as 1 month, while `P1.5Y` and `P0,25M` fail with
invalid-duration-fractional-year-or-month. -/
theorem parse_duration_accepts_zero_fraction :
    _parse_iso8601_duration "P1.0Y".toList new_parsed =
      .ok { new_parsed with is_duration := 1, years := 1 } ∧
    _parse_iso8601_duration "P1,00M".toList new_parsed =
      .ok { new_parsed with is_duration := 1, months := 1 } ∧
    parse_iso8601 "P1.0Y".toList = .ok (.duration 1 0 0 0 0 0 0 0) ∧
    _parse_iso8601_duration "P1.5Y".toList new_parsed =
      .error PARSER_INVALID_DURATION_FLOAT_YEAR_MONTH_NOT_SUPPORTED ∧
    _parse_iso8601_duration "P0,25M".toList new_parsed =
      .error PARSER_INVALID_DURATION_FLOAT_YEAR_MONTH_NOT_SUPPORTED := by
  refine ⟨by rfl, by rfl, by rfl, by rfl, by rfl⟩

/-- C25, amended: take a duration text `P pre n sep f X ...` in which the part `pre` before
the value is accepted by the loop (it ends in the state `s`) and leaves it in the date part
(`in_time = 0`) with no week, no fractional unit and no fraction in progress; `n` is a
non-empty digit string, `sep` is `.` or `,`, and `f` is a digit string whose decimal value is
not zero and below `2^31`.  Then with `X = M` (date-part month), and with `X = Y` when no
year, month or day unit precedes, `_parse_iso8601_duration` fails with
invalid-duration-fractional-year-or-month, whatever follows the designator. -/
theorem parse_duration_fraction_year_month (pre : List Char) (s : DurationScan)
    (hnul : NUL ∉ pre)
    (hpre : duration_loop pre (duration_init new_parsed) = .ok s)
    (hif : s.in_fraction = 0) (hfr : s.fraction = 0) (hhf : s.has_fractional = 0)
    (ht : s.in_time = 0) (hw : s.has_week = 0)
    (n f : List Char) (hn : IsDigitStr n) (hn0 : n ≠ []) (hf : IsDigitStr f)
    (hfv : digits_value f ≠ 0) (hfit : digits_value f < 2147483648)
    (sep : Char) (hsep : sep = '.' ∨ sep = ',') (rest : List Char) :
    _parse_iso8601_duration ('P' :: (pre ++ (n ++ (sep :: (f ++ ('M' :: rest)))))) new_parsed
      = .error PARSER_INVALID_DURATION_FLOAT_YEAR_MONTH_NOT_SUPPORTED ∧
    (s.has_ymd = 0 →
      _parse_iso8601_duration ('P' :: (pre ++ (n ++ (sep :: (f ++ ('Y' :: rest)))))) new_parsed
        = .error PARSER_INVALID_DURATION_FLOAT_YEAR_MONTH_NOT_SUPPORTED) := by
  have hv : ((digits_value f : Nat) : Int) ≠ 0 := by exact_mod_cast hfv
  have h1 : (1 : Int) ≠ 0 := by decide
  have hM : 'M' ≠ NUL := by decide
  have hY : 'Y' ≠ NUL := by decide
  constructor
  · unfold _parse_iso8601_duration
    rw [List.tail_cons, duration_loop_append pre _ _ hnul, hpre]
    simp only [Except.bind]
    rw [duration_loop_fractional_number s hif hfr hhf n f hn hn0 hf hfit sep hsep, duration_loop]
    simp only [hM, if_false]
    rw [duration_step_M_fraction]
    · exact h1
    · exact ht
    · exact hw
    · exact hv
  · intro hymd
    unfold _parse_iso8601_duration
    rw [List.tail_cons, duration_loop_append pre _ _ hnul, hpre]
    simp only [Except.bind]
    rw [duration_loop_fractional_number s hif hfr hhf n f hn hn0 hf hfit sep hsep, duration_loop]
    simp only [hY, if_false]
    rw [duration_step_Y_fraction]
    · exact h1
    · exact ht
    · exact hw
    · exact hymd
    · exact hv

/-- Witness for `parse_duration_fraction_year_month`: `P1Y1.5M` (the month value after the
year group `1Y`) and `P1.5Y` (the year value directly after `P`). -/
theorem parse_duration_fraction_year_month_witness :
    'P' :: ("1Y".toList ++ ("1".toList ++ ('.' :: ("5".toList ++ ('M' :: [])))))
      = "P1Y1.5M".toList ∧
    _parse_iso8601_duration
        ('P' :: ("1Y".toList ++ ("1".toList ++ ('.' :: ("5".toList ++ ('M' :: []))))))
        new_parsed
      = .error PARSER_INVALID_DURATION_FLOAT_YEAR_MONTH_NOT_SUPPORTED ∧
    _parse_iso8601_duration
        ('P' :: ([] ++ ("1".toList ++ ('.' :: ("5".toList ++ ('Y' :: []))))))
        new_parsed
      = .error PARSER_INVALID_DURATION_FLOAT_YEAR_MONTH_NOT_SUPPORTED :=
  ⟨by decide,
   (parse_duration_fraction_year_month "1Y".toList
      ⟨{ new_parsed with is_duration := 1, years := 1 },
        0, 0, 0, 0, 0, 0, 0, 1, 0, 1, 0, 0, 0, 0, 0⟩
      (by decide) (by rfl) rfl rfl rfl rfl rfl "1".toList "5".toList (by decide) (by decide)
      (by decide) (by decide) (by decide) '.' (Or.inl rfl) []).1,
   (parse_duration_fraction_year_month [] (duration_init new_parsed)
      (by decide) (by rfl) rfl rfl rfl rfl rfl "1".toList "5".toList (by decide) (by decide)
      (by decide) (by decide) (by decide) '.' (Or.inl rfl) []).2 rfl⟩

/-! ## The `T` separator of durations -/

/-- What one successful step of the duration loop does to `in_time`, `grabbed` and
`in_fraction`, by the kind of character read: `T` (only with no number in progress), a unit
designator (`H` and `S` only in the time part), a fraction mark (only after a number), or
a digit. -/
theorem duration_step_shadow (s s1 : DurationScan) (c : Char)
    (h : duration_step s c = .ok s1) :
    (c = 'T' ∧ s.grabbed = 0 ∧ s1.in_time = 1 ∧ s1.grabbed = 0 ∧
      s1.in_fraction = s.in_fraction) ∨
    (c ≠ 'T' ∧ (c = 'Y' ∨ c = 'M' ∨ c = 'D' ∨ c = 'H' ∨ c = 'S' ∨ c = 'W') ∧
      ((c = 'H' ∨ c = 'S') → s.in_time ≠ 0) ∧
      s1.in_time = s.in_time ∧ s1.grabbed = 0 ∧ s1.in_fraction = 0) ∨
    (c ≠ 'T' ∧ (c = '.' ∨ c = ',') ∧ s.grabbed ≠ 0 ∧ s1.in_time = s.in_time ∧
      s1.grabbed = s.grabbed ∧ s1.in_fraction = 1) ∨
    (c ≠ 'T' ∧ is_digit c = true ∧ s1.in_time = s.in_time ∧
      ((s.in_fraction ≠ 0 ∧ s1.grabbed = s.grabbed ∧ s1.in_fraction = s.in_fraction) ∨
       (s.in_fraction = 0 ∧ s1.grabbed = 1 ∧ s1.in_fraction = 0))) := by
  by_cases hY : c = 'Y'
  · subst hY
    rw [duration_step, if_pos rfl] at h
    by_cases g1 : s.grabbed = 0 ∨ s.in_time ≠ 0 ∨ s.has_week ≠ 0 ∨ s.has_ymd ≠ 0
    · rw [if_pos g1] at h; cases h
    · rw [if_neg g1] at h
      by_cases g2 : s.fraction ≠ 0
      · rw [if_pos g2] at h; cases h
      · rw [if_neg g2] at h
        cases h
        exact Or.inr (Or.inl ⟨by decide, Or.inl rfl, fun k => absurd k (by decide), rfl, rfl,
          rfl⟩)
  by_cases hM : c = 'M'
  · subst hM
    rw [duration_step, if_neg (by decide), if_pos rfl] at h
    by_cases g1 : s.grabbed = 0 ∨ s.has_week ≠ 0
    · rw [if_pos g1] at h; cases h
    · rw [if_neg g1] at h
      by_cases g2 : s.in_time ≠ 0
      · rw [if_pos g2] at h
        by_cases g3 : s.has_second ≠ 0
        · rw [if_pos g3] at h; cases h
        · rw [if_neg g3] at h
          by_cases g4 : s.has_fractional ≠ 0
          · rw [if_pos g4] at h; cases h
          · rw [if_neg g4] at h
            cases h
            exact Or.inr (Or.inl ⟨by decide, Or.inr (Or.inl rfl),
              fun k => absurd k (by decide), rfl, rfl, rfl⟩)
      · rw [if_neg g2] at h
        by_cases g3 : s.fraction ≠ 0
        · rw [if_pos g3] at h; cases h
        · rw [if_neg g3] at h
          by_cases g4 : s.has_month ≠ 0 ∨ s.has_day ≠ 0
          · rw [if_pos g4] at h; cases h
          · rw [if_neg g4] at h
            cases h
            exact Or.inr (Or.inl ⟨by decide, Or.inr (Or.inl rfl),
              fun k => absurd k (by decide), rfl, rfl, rfl⟩)
  by_cases hD : c = 'D'
  · subst hD
    rw [duration_step, if_neg (by decide), if_neg (by decide), if_pos rfl] at h
    by_cases g1 : s.grabbed = 0 ∨ s.in_time ≠ 0 ∨ s.has_week ≠ 0
    · rw [if_pos g1] at h; cases h
    · rw [if_neg g1] at h
      by_cases g2 : s.has_day ≠ 0
      · rw [if_pos g2] at h; cases h
      · rw [if_neg g2] at h
        cases h
        exact Or.inr (Or.inl ⟨by decide, Or.inr (Or.inr (Or.inl rfl)),
          fun k => absurd k (by decide), rfl, rfl, rfl⟩)
  by_cases hT : c = 'T'
  · subst hT
    rw [duration_step, if_neg (by decide), if_neg (by decide), if_neg (by decide),
      if_pos rfl] at h
    by_cases g1 : s.grabbed ≠ 0
    · rw [if_pos g1] at h; cases h
    · rw [if_neg g1] at h
      cases h
      have g0 : s.grabbed = 0 := not_not.mp g1
      exact Or.inl ⟨rfl, g0, rfl, g0, rfl⟩
  by_cases hH : c = 'H'
  · subst hH
    rw [duration_step, if_neg (by decide), if_neg (by decide), if_neg (by decide),
      if_neg (by decide), if_pos rfl] at h
    by_cases g1 : s.grabbed = 0 ∨ s.in_time = 0 ∨ s.has_week ≠ 0
    · rw [if_pos g1] at h; cases h
    · rw [if_neg g1] at h
      by_cases g2 : s.has_hour ≠ 0 ∨ s.has_second ≠ 0 ∨ s.has_minute ≠ 0
      · rw [if_pos g2] at h; cases h
      · rw [if_neg g2] at h
        by_cases g3 : s.has_fractional ≠ 0
        · rw [if_pos g3] at h; cases h
        · rw [if_neg g3] at h
          cases h
          exact Or.inr (Or.inl ⟨by decide, Or.inr (Or.inr (Or.inr (Or.inl rfl))),
            fun _ k => g1 (Or.inr (Or.inl k)), rfl, rfl, rfl⟩)
  by_cases hS : c = 'S'
  · subst hS
    rw [duration_step, if_neg (by decide), if_neg (by decide), if_neg (by decide),
      if_neg (by decide), if_neg (by decide), if_pos rfl] at h
    by_cases g1 : s.grabbed = 0 ∨ s.in_time = 0 ∨ s.has_week ≠ 0
    · rw [if_pos g1] at h; cases h
    · rw [if_neg g1] at h
      by_cases g2 : s.has_second ≠ 0
      · rw [if_pos g2] at h; cases h
      · rw [if_neg g2] at h
        by_cases g3 : s.has_fractional ≠ 0
        · rw [if_pos g3] at h; cases h
        · rw [if_neg g3] at h
          cases h
          exact Or.inr (Or.inl ⟨by decide, Or.inr (Or.inr (Or.inr (Or.inr (Or.inl rfl)))),
            fun _ k => g1 (Or.inr (Or.inl k)), rfl, rfl, rfl⟩)
  by_cases hW : c = 'W'
  · subst hW
    rw [duration_step, if_neg (by decide), if_neg (by decide), if_neg (by decide),
      if_neg (by decide), if_neg (by decide), if_neg (by decide), if_pos rfl] at h
    by_cases g1 : s.grabbed = 0 ∨ s.in_time ≠ 0 ∨ s.has_ymd ≠ 0
    · rw [if_pos g1] at h; cases h
    · rw [if_neg g1] at h
      cases h
      exact Or.inr (Or.inl ⟨by decide, Or.inr (Or.inr (Or.inr (Or.inr (Or.inr rfl)))),
        fun k => absurd k (by decide), rfl, rfl, rfl⟩)
  rw [duration_step, if_neg hY, if_neg hM, if_neg hD, if_neg hT, if_neg hH, if_neg hS,
    if_neg hW] at h
  by_cases hmark : c = '.' ∨ c = ','
  · rw [if_pos hmark] at h
    by_cases g1 : s.grabbed = 0 ∨ s.has_fractional ≠ 0
    · rw [if_pos g1] at h; cases h
    · rw [if_neg g1] at h
      cases h
      exact Or.inr (Or.inr (Or.inl ⟨hT, hmark, fun k => g1 (Or.inl k), rfl, rfl, rfl⟩))
  · rw [if_neg hmark] at h
    by_cases hd : is_digit c = true
    · rw [if_pos hd] at h
      by_cases g1 : s.in_fraction ≠ 0
      · rw [if_pos g1] at h
        cases h
        exact Or.inr (Or.inr (Or.inr ⟨hT, hd, rfl, Or.inl ⟨g1, rfl, rfl⟩⟩))
      · rw [if_neg g1] at h
        cases h
        have g0 : s.in_fraction = 0 := not_not.mp g1
        exact Or.inr (Or.inr (Or.inr ⟨hT, hd, rfl, Or.inr ⟨g0, rfl, g0⟩⟩))
    · rw [if_neg hd] at h
      cases h

/-- A successful run of the loop over `a ++ rest` passes through a state after `a`. -/
theorem duration_loop_split (a rest : List Char) (s s2 : DurationScan) (hnul : NUL ∉ a)
    (h : duration_loop (a ++ rest) s = .ok s2) :
    ∃ s1, duration_loop a s = .ok s1 ∧ duration_loop rest s1 = .ok s2 := by
  rw [duration_loop_append a rest s hnul] at h
  rcases hs : duration_loop a s with e | s1
  · rw [hs] at h; cases h
  · rw [hs] at h; exact ⟨s1, rfl, h⟩

/-- A successful run of the loop over `c :: cs` makes a successful step on `c`. -/
theorem duration_loop_cons_ok (c : Char) (cs : List Char) (s s2 : DurationScan) (hc : c ≠ NUL)
    (h : duration_loop (c :: cs) s = .ok s2) :
    ∃ s1, duration_step s c = .ok s1 ∧ duration_loop cs s1 = .ok s2 := by
  rw [duration_loop, if_neg hc] at h
  rcases hs : duration_step s c with e | s1
  · simp only [hs] at h; cases h
  · simp only [hs] at h; exact ⟨s1, rfl, h⟩

/-- The loop is in the time part exactly when it started there or has read a `T`. -/
theorem duration_loop_in_time (a : List Char) (s s1 : DurationScan) (hnul : NUL ∉ a)
    (h : duration_loop a s = .ok s1) :
    s1.in_time ≠ 0 ↔ (s.in_time ≠ 0 ∨ 'T' ∈ a) := by
  induction a generalizing s with
  | nil =>
    cases h
    simp
  | cons c cs ih =>
    have hc : c ≠ NUL := fun k => hnul (k ▸ List.mem_cons_self _ _)
    have hcs : NUL ∉ cs := fun k => hnul (List.mem_cons_of_mem _ k)
    obtain ⟨s', hstep, hloop⟩ := duration_loop_cons_ok c cs s s1 hc h
    rw [ih s' hcs hloop]
    rcases duration_step_shadow s s' c hstep with
      ⟨rfl, -, e, -⟩ | ⟨hT, -, -, e, -⟩ | ⟨hT, -, -, e, -⟩ | ⟨hT, -, e, -⟩
    · simp [e]
    · simp [e, Ne.symm hT]
    · simp [e, Ne.symm hT]
    · simp [e, Ne.symm hT]

/-- Along the loop, a fraction in progress belongs to a number in progress. -/
theorem duration_loop_number (a : List Char) (s s1 : DurationScan) (hnul : NUL ∉ a)
    (h : duration_loop a s = .ok s1) (hI : s.in_fraction ≠ 0 → s.grabbed ≠ 0) :
    s1.in_fraction ≠ 0 → s1.grabbed ≠ 0 := by
  induction a generalizing s with
  | nil =>
    cases h
    exact hI
  | cons c cs ih =>
    have hc : c ≠ NUL := fun k => hnul (k ▸ List.mem_cons_self _ _)
    have hcs : NUL ∉ cs := fun k => hnul (List.mem_cons_of_mem _ k)
    obtain ⟨s', hstep, hloop⟩ := duration_loop_cons_ok c cs s s1 hc h
    apply ih s' hcs hloop
    rcases duration_step_shadow s s' c hstep with
      ⟨-, g0, -, e1, e2⟩ | ⟨-, -, -, -, e1, e2⟩ | ⟨-, -, g, -, e1, e2⟩ |
      ⟨-, -, -, ⟨g, e1, e2⟩ | ⟨g, e1, e2⟩⟩
    · intro k
      rw [e2] at k
      exact absurd g0 (hI k)
    · intro k
      exact absurd e2 k
    · intro _
      rw [e1]
      exact g
    · intro _
      rw [e1]
      exact hI g
    · intro k
      exact absurd e2 k

/-- C24 as stated fails: the `T` case only tests `grabbed` (no digits waiting for a unit), so
a second `T`, and a `T` after a time unit, are accepted: `PTT1H` gives 1 hour and `PT1HT2M`
gives 1 hour 2 minutes.  A `T` directly after digits is rejected with invalid-duration. -/
theorem parse_duration_accepts_repeated_T :
    _parse_iso8601_duration "PTT1H".toList new_parsed =
      .ok { new_parsed with is_duration := 1, hours := 1 } ∧
    _parse_iso8601_duration "PT1HT2M".toList new_parsed =
      .ok { new_parsed with is_duration := 1, hours := 1, minutes := 2 } ∧
    parse_iso8601 "PTT1H".toList = .ok (.duration 0 0 0 0 1 0 0 0) ∧
    parse_iso8601 "PT1HT2M".toList = .ok (.duration 0 0 0 0 1 2 0 0) ∧
    _parse_iso8601_duration "P1T2H".toList new_parsed = .error PARSER_INVALID_DURATION := by
  refine ⟨by rfl, by rfl, by rfl, by rfl, by rfl⟩

/-- C24, amended: in every duration text accepted by `_parse_iso8601_duration` (a C string
`P text`), a `T` occurs before every `H` and every `S`; after any part `a` of the text the
loop is in the time part (where `M` means minutes) exactly when `a` contains a `T`; and no
`T` directly follows a digit, `.` or `,` (a `T` is rejected exactly when a number is waiting
for its unit designator).  Nothing limits the number of `T`s or forbids a `T` after a time
unit. -/
theorem parse_duration_T_placement (text : List Char) (P : Parsed) (hnul : NUL ∉ text)
    (hacc : _parse_iso8601_duration ('P' :: text) new_parsed = .ok P) :
    (∀ a b : List Char, text = a ++ 'H' :: b → 'T' ∈ a) ∧
    (∀ a b : List Char, text = a ++ 'S' :: b → 'T' ∈ a) ∧
    (∀ (a b : List Char) (s : DurationScan), text = a ++ b →
      duration_loop a (duration_init new_parsed) = .ok s → (s.in_time ≠ 0 ↔ 'T' ∈ a)) ∧
    (∀ (a b : List Char) (c : Char), text = a ++ c :: 'T' :: b →
      ¬ (is_digit c = true ∨ c = '.' ∨ c = ',')) := by
  have hloop : ∃ s2, duration_loop text (duration_init new_parsed) = .ok s2 := by
    unfold _parse_iso8601_duration at hacc
    rw [List.tail_cons] at hacc
    rcases hs : duration_loop text (duration_init new_parsed) with e | s2
    · simp only [hs] at hacc; cases hacc
    · exact ⟨s2, rfl⟩
  obtain ⟨s2, hloop⟩ := hloop
  have h0 : (duration_init new_parsed).in_time = 0 := rfl
  have time_unit : ∀ (u : Char), (u = 'H' ∨ u = 'S') →
      ∀ a b : List Char, text = a ++ u :: b → 'T' ∈ a := by
    intro u hu a b hab
    subst hab
    have hna : NUL ∉ a := fun k => hnul (List.mem_append_left _ k)
    have hu0 : u ≠ NUL := by rcases hu with rfl | rfl <;> decide
    obtain ⟨sa, ha, hrest⟩ := duration_loop_split a (u :: b) _ _ hna hloop
    obtain ⟨s', hstep, -⟩ := duration_loop_cons_ok u b sa s2 hu0 hrest
    have hin := duration_loop_in_time a _ sa hna ha
    rcases duration_step_shadow sa s' u hstep with
      ⟨e, -⟩ | ⟨-, -, ht, -⟩ | ⟨-, e, -⟩ | ⟨-, e, -⟩
    · rcases hu with rfl | rfl <;> exact absurd e (by decide)
    · rcases hin.mp (ht hu) with k | k
      · exact absurd h0 k
      · exact k
    · rcases hu with rfl | rfl <;> exact absurd e (by decide)
    · rcases hu with rfl | rfl <;> exact absurd e (by decide)
  refine ⟨time_unit 'H' (Or.inl rfl), time_unit 'S' (Or.inr rfl), ?_, ?_⟩
  · intro a b s hab ha
    have hna : NUL ∉ a := fun k => hnul (by rw [hab]; exact List.mem_append_left _ k)
    have hin := duration_loop_in_time a _ s hna ha
    rw [hin]
    constructor
    · rintro (k | k)
      · exact absurd h0 k
      · exact k
    · exact Or.inr
  · intro a b c hab hc
    subst hab
    have hna : NUL ∉ a := fun k => hnul (List.mem_append_left _ k)
    have hc0 : c ≠ NUL := fun k =>
      hnul (List.mem_append_right _ (k ▸ List.mem_cons_self _ _))
    obtain ⟨sa, ha, hrest⟩ := duration_loop_split a (c :: 'T' :: b) _ _ hna hloop
    obtain ⟨s1, hstep1, hrest1⟩ := duration_loop_cons_ok c ('T' :: b) sa s2 hc0 hrest
    obtain ⟨s3, hstep2, -⟩ := duration_loop_cons_ok 'T' b s1 s2 (by decide) hrest1
    have hI := duration_loop_number a _ sa hna ha (fun k => absurd rfl k)
    have hg1 : s1.grabbed = 0 := by
      rcases duration_step_shadow s1 s3 'T' hstep2 with
        ⟨-, g, -⟩ | ⟨k, -⟩ | ⟨k, -⟩ | ⟨k, -⟩
      · exact g
      · exact absurd rfl k
      · exact absurd rfl k
      · exact absurd rfl k
    rcases duration_step_shadow sa s1 c hstep1 with
      ⟨e, -⟩ | ⟨-, e, -⟩ | ⟨-, -, g, -, e1, -⟩ | ⟨-, -, -, ⟨g, e1, -⟩ | ⟨-, e1, -⟩⟩
    · subst e
      revert hc
      decide
    · revert hc
      rcases e with rfl | rfl | rfl | rfl | rfl | rfl <;> decide
    · rw [e1] at hg1
      exact g hg1
    · rw [e1] at hg1
      exact hI g hg1
    · rw [e1] at hg1
      exact absurd hg1 (by decide)

/-- Witness for `parse_duration_T_placement`: the accepted text `PT1HT2M`, in which the second
`T` follows the unit designator `H`. -/
theorem parse_duration_T_placement_witness :
    'P' :: "T1HT2M".toList = "PT1HT2M".toList ∧
    (∀ a b : List Char, "T1HT2M".toList = a ++ 'H' :: b → 'T' ∈ a) ∧
    (∀ (a b : List Char) (c : Char), "T1HT2M".toList = a ++ c :: 'T' :: b →
      ¬ (is_digit c = true ∨ c = '.' ∨ c = ',')) :=
  ⟨by decide,
   (parse_duration_T_placement "T1HT2M".toList
      { new_parsed with is_duration := 1, hours := 1, minutes := 2 } (by decide) (by rfl)).1,
   (parse_duration_T_placement "T1HT2M".toList
      { new_parsed with is_duration := 1, hours := 1, minutes := 2 } (by decide)
      (by rfl)).2.2.2⟩

/-! ## `total_days` of `precise_diff` -/

/-- The day number is strictly increasing along the calendar order, for valid dates with years
in `1 .. 5879609`. -/
theorem _day_number_lt_of_DateLt (y1 m1 d1 y2 m2 d2 : Int)
    (hy1 : 1 ≤ y1) (hy2 : y2 ≤ 5879609)
    (hv1 : ValidDate y1 m1 d1) (hv2 : ValidDate y2 m2 d2)
    (hlt : DateLt y1 m1 d1 y2 m2 d2) :
    _day_number y1 m1 d1 < _day_number y2 m2 d2 := by
  obtain ⟨hm1, hm1', hd1, hd1'⟩ := hv1
  obtain ⟨hm2, hm2', hd2, hd2'⟩ := hv2
  have hyle : y1 ≤ y2 := by unfold DateLt at hlt; omega
  have hl1 := _is_leap_01 y1
  have hl2 := _is_leap_01 y2
  have hA := DAYS_PER_MONTHS_le (_is_leap y1) m1 hl1 hm1 hm1'
  have hB := DAYS_PER_MONTHS_le (_is_leap y2) m2 hl2 hm2 hm2'
  rw [_day_number_split y1 m1 d1 hy1 (by omega) hm1 hm1' hd1 (by omega),
      _day_number_split y2 m2 d2 (by omega) hy2 hm2 hm2' hd2 (by omega)]
  rw [DAYS_PER_MONTHS_closed _ m1 hl1 hm1 hm1'] at hd1'
  rw [MONTHS_OFFSETS_closed _ (m1 + 1) hl1 (by omega) (by omega),
      MONTHS_OFFSETS_closed _ m1 hl1 (by omega) (by omega)] at hd1'
  rw [MONTHS_OFFSETS_closed _ m1 hl1 (by omega) (by omega),
      MONTHS_OFFSETS_closed _ m2 hl2 (by omega) (by omega)]
  unfold DateLt at hlt
  by_cases hy : y1 < y2
  · have hj := _day_number_jan1_mono y1 y2 hy1 hy hy2
    split_ifs at hd1' ⊢ <;> omega
  · have hyy : y1 = y2 := by omega
    subst hyy
    split_ifs at hd1' ⊢ <;> omega

/-- The `total_days` field returned by `precise_diff`, whatever the other fields: the day
number of the second argument minus that of the first, both from the fields as passed. -/
theorem precise_diff_total_days_eq (dt1 dt2 : PyDate) :
    (precise_diff dt1 dt2).total_days =
      _day_number dt2.year dt2.month dt2.day - _day_number dt1.year dt1.month dt1.day := by
  unfold precise_diff
  dsimp only
  split_ifs <;> ring

/-- C27: for every pair of valid inputs `dt1`, `dt2` of `precise_diff` (dates or date-times,
naive or timezone-aware, years 1 to 9999 as Python allows), the returned `total_days` equals
`_day_number(year2, month2, day2) - _day_number(year1, month1, day1)` computed from the
calendar-date fields of the second and the first argument as passed, whether or not the
arguments were swapped internally; it is negative exactly when the calendar date of the
second argument precedes that of the first. -/
theorem precise_diff_total_days (dt1 dt2 : PyDate)
    (hy1 : 1 ≤ dt1.year ∧ dt1.year ≤ 9999) (hy2 : 1 ≤ dt2.year ∧ dt2.year ≤ 9999)
    (hv1 : ValidDate dt1.year dt1.month dt1.day)
    (hv2 : ValidDate dt2.year dt2.month dt2.day) :
    (precise_diff dt1 dt2).total_days =
      _day_number dt2.year dt2.month dt2.day - _day_number dt1.year dt1.month dt1.day ∧
    ((precise_diff dt1 dt2).total_days < 0 ↔
      DateLt dt2.year dt2.month dt2.day dt1.year dt1.month dt1.day) := by
  refine ⟨precise_diff_total_days_eq dt1 dt2, ?_⟩
  rw [precise_diff_total_days_eq]
  constructor
  · intro hneg
    by_contra hnot
    by_cases heq : dt1.year = dt2.year ∧ dt1.month = dt2.month ∧ dt1.day = dt2.day
    · obtain ⟨e1, e2, e3⟩ := heq
      rw [e1, e2, e3] at hneg
      omega
    · have hlt : DateLt dt1.year dt1.month dt1.day dt2.year dt2.month dt2.day := by
        unfold DateLt at hnot ⊢
        omega
      have := _day_number_lt_of_DateLt _ _ _ _ _ _ hy1.1 (by omega) hv1 hv2 hlt
      omega
  · intro hlt
    have := _day_number_lt_of_DateLt _ _ _ _ _ _ hy2.1 (by omega) hv2 hv1 hlt
    omega

/-- Witness for `precise_diff_total_days`: from 2021-03-01 10:00 (UTC+01:00) back to the date
2021-01-31 the arguments are swapped internally and `total_days` is -29. -/
theorem precise_diff_total_days_witness :
    precise_diff (PyDate.datetime 2021 3 1 10 0 0 0 (some ⟨some ⟨1, "Europe/Paris".toList⟩, 3600⟩))
        (PyDate.date 2021 1 31)
      = ⟨0, -1, -1, 0, 0, 0, 0, -29⟩ ∧
    (precise_diff
        (PyDate.datetime 2021 3 1 10 0 0 0 (some ⟨some ⟨1, "Europe/Paris".toList⟩, 3600⟩))
        (PyDate.date 2021 1 31)).total_days =
      _day_number 2021 1 31 - _day_number 2021 3 1 ∧
    DateLt 2021 1 31 2021 3 1 :=
  ⟨by decide,
   (precise_diff_total_days
      (PyDate.datetime 2021 3 1 10 0 0 0 (some ⟨some ⟨1, "Europe/Paris".toList⟩, 3600⟩))
      (PyDate.date 2021 1 31) (by decide) (by decide) (by decide) (by decide)).1,
   by decide⟩

/-! ## `local_time`: validity of the fields over the whole range of `int32_t` years -/

/-- The alignment of `local_time` for every `S = T + off` in the civil years
`-2147483600 .. 2147479999`: no 32-bit or 64-bit value wraps. -/
theorem align_400_years_wide (T off : Int)
    (hoff1 : -2147483648 ≤ off) (hoff2 : off < 2147483648)
    (hlo : -67768099053206400 ≤ T + off) (hhi : T + off < 67767861113740800) :
    align_400_years (T : ℚ) off =
      ((T + off - 946684800) % 12622780800,
       2000 + 400 * ((T + off - 946684800) / 12622780800)) := by
  unfold align_400_years
  simp only [Int.floor_intCast, EPOCH_YEAR,
    show SECS_PER_DAY = 86400 from by decide,
    show SECS_PER_400_YEARS = 12622780800 from by decide]
  rw [wrap64_eq_self T (by omega) (by omega)]
  by_cases hT : T ≥ 0
  · simp only [hT, if_true]
    rw [wrap64_eq_self (T - 10957 * 86400) (by omega) (by omega),
      wrap64_eq_self (T - 10957 * 86400 + off) (by omega) (by omega),
      cdiv_eq _ 12622780800 (by decide), cmod_eq _ 12622780800 (by decide)]
    by_cases h0 : 0 ≤ T - 10957 * 86400 + off
    · simp only [h0, if_true]
      have hq : wrap32 (1970 + 30 + 400 * ((T - 10957 * 86400 + off) / 12622780800))
          = 2000 + 400 * ((T + off - 946684800) / 12622780800) := by
        rw [wrap32_eq_self _ (by omega) (by omega)]; omega
      rw [hq, if_neg (by omega), if_neg (by omega)]
      congr 1
      omega
    · simp only [h0, if_false]
      have hq : wrap32 (1970 + 30 + 400 * -(-(T - 10957 * 86400 + off) / 12622780800))
          = 2000 + 400 * -(-(T - 10957 * 86400 + off) / 12622780800) := by
        rw [wrap32_eq_self _ (by omega) (by omega)]; omega
      rw [hq]
      by_cases h1 : -(-(T - 10957 * 86400 + off) % 12622780800) < 0
      · rw [if_pos h1, if_pos h1, wrap32_eq_self _ (by omega) (by omega)]
        congr 1 <;> omega
      · rw [if_neg h1, if_neg h1]
        congr 1 <;> omega
  · simp only [hT, if_false]
    rw [wrap64_eq_self (T + (146097 - 10957) * 86400) (by omega) (by omega),
      wrap64_eq_self (T + (146097 - 10957) * 86400 + off) (by omega) (by omega),
      cdiv_eq _ 12622780800 (by decide), cmod_eq _ 12622780800 (by decide)]
    by_cases h0 : 0 ≤ T + (146097 - 10957) * 86400 + off
    · simp only [h0, if_true]
      have hq : wrap32 (1970 - 370 + 400 * ((T + (146097 - 10957) * 86400 + off) / 12622780800))
          = 2000 + 400 * ((T + off - 946684800) / 12622780800) := by
        rw [wrap32_eq_self _ (by omega) (by omega)]; omega
      rw [hq, if_neg (by omega), if_neg (by omega)]
      congr 1
      omega
    · simp only [h0, if_false]
      have hq : wrap32 (1970 - 370 + 400 * -(-(T + (146097 - 10957) * 86400 + off) / 12622780800))
          = 1600 + 400 * -(-(T + (146097 - 10957) * 86400 + off) / 12622780800) := by
        rw [wrap32_eq_self _ (by omega) (by omega)]; omega
      rw [hq]
      by_cases h1 : -(-(T + (146097 - 10957) * 86400 + off) % 12622780800) < 0
      · rw [if_pos h1, if_pos h1, wrap32_eq_self _ (by omega) (by omega)]
        congr 1 <;> omega
      · rw [if_neg h1, if_neg h1]
        congr 1 <;> omega

/-- The fields extracted from the seconds `r3` into a year `y` with leap flag `l3` form a valid
date and time of day, whatever the year. -/
theorem civil_fields_valid (r3 y l3 us : Int) (hl : _is_leap y = l3)
    (hr0 : 0 ≤ r3) (hr1 : r3 < 86400 * (365 + l3)) :
    ∃ m d h mi s : Int, civil_fields r3 y l3 us = ⟨y, m, d, h, mi, s, us⟩ ∧
      ValidDate y m d ∧ 0 ≤ h ∧ h ≤ 23 ∧ 0 ≤ mi ∧ mi ≤ 59 ∧ 0 ≤ s ∧ s ≤ 59 := by
  have hl01 : l3 = 0 ∨ l3 = 1 := by rw [← hl]; exact _is_leap_01 y
  obtain ⟨m, d, hmd, hm1, hm2, hd1, hd2, hsum⟩ := loop_month_spec l3 (r3 / 86400 + 1) hl01
    (by omega) (by omega)
  have hle := DAYS_PER_MONTHS_le l3 m hl01 hm1 hm2
  refine ⟨m, d, r3 % 86400 / 3600, r3 % 86400 % 3600 / 60, r3 % 86400 % 3600 % 60, ?_,
    ⟨hm1, hm2, hd1, by rw [hl]; exact hd2⟩, by omega, by omega, by omega, by omega,
    by omega, by omega⟩
  unfold civil_fields
  simp only [show SECS_PER_DAY = 86400 from by decide,
    show SECS_PER_HOUR = 3600 from by decide, show SECS_PER_MIN = 60 from by decide]
  rw [cdiv_nonneg_eq r3 86400 hr0 (by decide), cmod_nonneg_eq r3 86400 hr0 (by decide),
    cdiv_nonneg_eq (r3 % 86400) 3600 (by omega) (by decide),
    cmod_nonneg_eq (r3 % 86400) 3600 (by omega) (by decide),
    cdiv_nonneg_eq (r3 % 86400 % 3600) 60 (by omega) (by decide),
    cmod_nonneg_eq (r3 % 86400 % 3600) 60 (by omega) (by decide),
    wrap32_eq_self (r3 / 86400 + 1) (by omega) (by omega),
    wrap32_eq_self (r3 % 86400 / 3600) (by omega) (by omega),
    wrap32_eq_self (r3 % 86400 % 3600 / 60) (by omega) (by omega),
    wrap32_eq_self (r3 % 86400 % 3600 % 60) (by omega) (by omega), hmd]

set_option maxRecDepth 100000 in
/-- C28 as stated fails: the timestamp 135536017795101296 (within the 64-bit range, a
multiple of 16 and so a value of a `double`; offset 0) is 12:34:56 on 29 February of the
civil year `4294967396 = 2^32 + 100`, a leap year.  The `int32_t year` returned is 100, which
is not a leap year, so the day 29 returned for month 2 exceeds
`DAYS_PER_MONTHS[_is_leap(100)][2] = 28`. -/
theorem local_time_leap_day_in_wrapped_year :
    local_time ((135536017795101296 : Int) : ℚ) 0 7 = some ⟨100, 2, 29, 12, 34, 56, 7⟩ ∧
    (135536017795101296 : Int) < 2 ^ 63 ∧ (135536017795101296 : Int) % 16 = 0 ∧
    _is_leap 100 = 0 ∧ DAYS_PER_MONTHS (_is_leap 100) 2 = 28 ∧ ¬ ValidDate 100 2 29 := by
  decide

/-- C28, amended: for every integer timestamp `T` and 32-bit offset `off` such that
`S = T + off` lies in the civil years `-2147483600 .. 2147479999` (from `S = -67768099053206400`
up to but excluding `S = 67767861113740800`, the 400-year periods in which the `int32_t` year
cannot wrap), `local_time(T, off, us)` returns fields that form a valid civil instant: month
in `1 .. 12`, day in `1 .. DAYS_PER_MONTHS[_is_leap(year)][month]`, hour in `0 .. 23`, minute
and second in `0 .. 59`, and the microsecond equal to the input `us`. -/
theorem local_time_valid_fields (T off us : Int)
    (hoff1 : -2147483648 ≤ off) (hoff2 : off < 2147483648)
    (hlo : -67768099053206400 ≤ T + off) (hhi : T + off < 67767861113740800) :
    ∃ r : LocalTime, local_time (T : ℚ) off us = some r ∧
      1 ≤ r.month ∧ r.month ≤ 12 ∧
      1 ≤ r.day ∧ r.day ≤ DAYS_PER_MONTHS (_is_leap r.year) r.month ∧
      0 ≤ r.hour ∧ r.hour ≤ 23 ∧ 0 ≤ r.minute ∧ r.minute ≤ 59 ∧
      0 ≤ r.second ∧ r.second ≤ 59 ∧ r.microsecond = us := by
  have halign := align_400_years_wide T off hoff1 hoff2 hlo hhi
  generalize hq : (T + off - 946684800) / 12622780800 = q at halign
  generalize hr : (T + off - 946684800) % 12622780800 = r at halign
  have hr0 : 0 ≤ r := by omega
  have hr1 : r < 12622780800 := by omega
  have hq0 : -5368714 ≤ q := by omega
  have hq1 : q ≤ 5368694 := by omega
  obtain ⟨c, r1, l1, h100, hc0, hc3, hr10, hcase1⟩ :=
    loop_100_years_spec r (2000 + 400 * q) hr0 hr1 (by omega) (by omega)
  have hl1 : l1 = 0 ∨ l1 = 1 := by omega
  obtain ⟨f, r2, l2, h4, hf0, hf24, hr20, hcase2⟩ :=
    loop_4_years_spec r1 (2000 + 400 * q + 100 * c) l1 hl1 hr10 (by omega) (by omega) (by omega)
  have hl2 : l2 = 0 ∨ l2 = 1 := by omega
  obtain ⟨a, r3, l3, h1, ha0, ha3, hr30, hcase3⟩ :=
    loop_1_year_spec r2 (2000 + 400 * q + 100 * c + 4 * f) l2 hl2 hr20 (by omega) (by omega)
      (by omega)
  have hl3 : l3 = 0 ∨ l3 = 1 := by omega
  have hleap : _is_leap (2000 + 400 * q + 100 * c + 4 * f + a) = l3 := by
    rcases _is_leap_cases (2000 + 400 * q + 100 * c + 4 * f + a) with ⟨h, h4', h100'⟩ | ⟨h, hn⟩
    · rw [h]; omega
    · rw [h]; omega
  obtain ⟨m, d, h, mi, s, hcf, hv, hh0, hh1, hm0, hm1, hs0, hs1⟩ :=
    civil_fields_valid r3 (2000 + 400 * q + 100 * c + 4 * f + a) l3 us hleap hr30 (by omega)
  obtain ⟨hv1, hv2, hv3, hv4⟩ := hv
  refine ⟨⟨2000 + 400 * q + 100 * c + 4 * f + a, m, d, h, mi, s, us⟩, ?_, hv1, hv2, hv3, hv4,
    hh0, hh1, hm0, hm1, hs0, hs1, rfl⟩
  unfold local_time
  simp only [halign, h100, h4, h1, hcf]

/-- Witness for `local_time_valid_fields`: one second before the civil year 1 starts, at offset
+01:00. -/
theorem local_time_valid_fields_witness :
    local_time ((-62135600401 : Int) : ℚ) 3600 5 = some ⟨0, 12, 31, 23, 59, 59, 5⟩ ∧
    ∃ r : LocalTime, local_time ((-62135600401 : Int) : ℚ) 3600 5 = some r ∧
      1 ≤ r.month ∧ r.month ≤ 12 ∧
      1 ≤ r.day ∧ r.day ≤ DAYS_PER_MONTHS (_is_leap r.year) r.month ∧
      0 ≤ r.hour ∧ r.hour ≤ 23 ∧ 0 ≤ r.minute ∧ r.minute ≤ 59 ∧
      0 ≤ r.second ∧ r.second ≤ 59 ∧ r.microsecond = 5 :=
  ⟨by decide,
   local_time_valid_fields (-62135600401) 3600 5 (by decide) (by decide) (by decide)
     (by decide)⟩

/-! ## The ambiguous six-digit token followed by a time section -/

theorem DAYS_PER_MONTHS_ge (l m : Int) (hl : l = 0 ∨ l = 1) (h1 : 1 ≤ m) (h2 : m ≤ 12) :
    28 ≤ DAYS_PER_MONTHS l m := by
  rcases hl with rfl | rfl <;> interval_cases m <;> decide

theorem scan_monthday_stop_at (r : List Char) (monthday separators i : Int)
    (hr : peek r = NUL ∨ peek r = ' ' ∨ peek r = 'T') :
    scan_monthday r monthday separators i = .ok (monthday, separators, i, r) := by
  cases r with
  | nil => rfl
  | cons ch r =>
    rw [peek_cons] at hr
    simp only [scan_monthday, hr, if_true]

/-- The date section on `YYYYMM` followed by `T` or a space: the two digits are stored as an
ambiguous month and checked as a month. -/
theorem date_section_ambiguous (Y M : Nat) (hY : Y ≤ 9999) (hM : M ≤ 99) (sep : Char)
    (hsep : sep = 'T' ∨ sep = ' ') (rest : List Char) :
    date_section (zero_padded 4 Y ++ (zero_padded 2 M ++ (sep :: rest))) new_parsed =
      if (12 : Int) < M then .error PARSER_INVALID_MONTH
      else if M = 0 then .error PARSER_INVALID_DAY_FOR_MONTH
      else .ok ⟨{ new_parsed with is_date := 1, year := Y, ambiguous := 1, month := M },
                sep :: rest, is_leap Y, 0, M, 0⟩ := by
  have hy := scan_year_digits (zero_padded 4 Y) (zero_padded 2 M ++ (sep :: rest)) 0
    (isDigitStr_zero_padded 4 Y)
  rw [length_zero_padded,
    foldl_accumulate_zero_padded 4 Y 0 (le_refl _) (by norm_num; omega) (by norm_num; omega)] at hy
  have hdig := is_digit_ne _ (peek_zero_padded_succ 1 M (sep :: rest))
  have hw : peek (zero_padded 2 M ++ (sep :: rest)) ≠ 'W' := hdig.2.2.2.2.2.2.2.2.2
  have hm : peek (zero_padded 2 M ++ (sep :: rest)) ≠ '-' := hdig.2.2.2.1
  have hmd : scan_monthday (zero_padded 2 M ++ (sep :: rest)) 0 0 0
      = .ok ((M : Int), 0, 2, sep :: rest) := by
    rw [scan_monthday_digits _ _ _ _ _ (isDigitStr_zero_padded 2 M),
      scan_monthday_stop_at _ _ _ _ (by rw [peek_cons]; tauto),
      length_zero_padded, foldl_accumulate_pad2 M 0 (le_refl _) (by norm_num) (by omega)]
    norm_num
  unfold date_section
  simp only [show new_parsed.year = 0 from rfl]
  rw [hy]
  simp only [hm, hw, if_false]
  unfold calendar_branch
  rw [hmd]
  norm_num
  have hday : new_parsed.day = 1 := rfl
  by_cases h12 : 12 < M
  · rw [if_pos h12, if_pos h12]
  · rw [if_neg h12, if_neg h12]
    by_cases h0 : M = 0
    · subst h0
      rw [if_pos rfl, if_pos]
      rw [hday, is_leap_eq]
      rcases _is_leap_01 Y with h | h <;> rw [h] <;> decide
    · rw [if_neg h0, if_neg]
      have := DAYS_PER_MONTHS_ge (is_leap Y) M (_is_leap_01 Y) (by omega) (by omega)
      rw [hday]
      omega

/-- C30 as stated fails: when the two digits after the year are above 12 the month check fires
first and the error is invalid-month, and for `00` it is invalid-day-for-month; only for
`01 .. 12` the text reaches the time section and fails there with invalid-date. -/
theorem parse_ambiguous_token_other_errors :
    _parse_iso8601_datetime "202113T12".toList new_parsed = .error PARSER_INVALID_MONTH ∧
    _parse_iso8601_datetime "202100T12".toList new_parsed
      = .error PARSER_INVALID_DAY_FOR_MONTH ∧
    _parse_iso8601_datetime "202105T12".toList new_parsed = .error PARSER_INVALID_DATE ∧
    PARSER_INVALID_MONTH ≠ PARSER_INVALID_DATE ∧
    PARSER_INVALID_DAY_FOR_MONTH ≠ PARSER_INVALID_DATE := by
  refine ⟨by rfl, by rfl, by rfl, by decide, by decide⟩

/-- C30, amended: for every text made of a four-digit year immediately followed by exactly two
digits `dd` with no separator and then `T` or a space (followed by anything),
`_parse_iso8601_datetime` fails: with invalid-date when `dd` is `01 .. 12`, with invalid-month
when `dd` is above 12, and with invalid-day-for-month when `dd` is `00`.  So the ambiguous
two-digit token is never followed by a time section in an accepted text. -/
theorem parse_ambiguous_token_then_time (Y M : Nat) (hY : Y ≤ 9999) (hM : M ≤ 99) (sep : Char)
    (hsep : sep = 'T' ∨ sep = ' ') (rest : List Char) :
    _parse_iso8601_datetime (zero_padded 4 Y ++ (zero_padded 2 M ++ (sep :: rest))) new_parsed =
      if 12 < M then .error PARSER_INVALID_MONTH
      else if M = 0 then .error PARSER_INVALID_DAY_FOR_MONTH
      else .error PARSER_INVALID_DATE := by
  unfold _parse_iso8601_datetime
  rw [date_section_ambiguous Y M hY hM sep hsep rest]
  have h12 : ((12 : Int) < M) ↔ 12 < M := by exact_mod_cast Iff.rfl
  by_cases c1 : 12 < M
  · rw [if_pos (h12.mpr c1), if_pos c1]
  · rw [if_neg (fun h => c1 (h12.mp h)), if_neg c1]
    by_cases c2 : M = 0
    · rw [if_pos c2, if_pos c2]
    · rw [if_neg c2, if_neg c2]
      simp only [peek_cons]
      rw [if_pos (by tauto)]
      unfold time_section
      rw [if_pos (by simp)]

/-- Witness for `parse_ambiguous_token_then_time`: `202105T12` fails with invalid-date. -/
theorem parse_ambiguous_token_then_time_witness :
    zero_padded 4 2021 ++ (zero_padded 2 5 ++ ('T' :: "12".toList)) = "202105T12".toList ∧
    _parse_iso8601_datetime (zero_padded 4 2021 ++ (zero_padded 2 5 ++ ('T' :: "12".toList)))
      new_parsed = .error PARSER_INVALID_DATE :=
  ⟨by decide,
   (parse_ambiguous_token_then_time 2021 5 (by decide) (by decide) 'T' (Or.inl rfl)
      "12".toList).trans (by rfl)⟩

/-! ## Claims on the bare time form, on carried fractions and on zones -/

/-- The first four digits of `hhmmss` are the decimal text of `100 * hh + mm`. -/
theorem zero_padded_hhmm (h m : Nat) (hm : m ≤ 99) :
    zero_padded 2 h ++ zero_padded 2 m = zero_padded 4 (100 * h + m) := by
  have e1 : (100 * h + m) / 10 / 10 / 10 % 10 = h / 10 % 10 := by omega
  have e2 : (100 * h + m) / 10 / 10 % 10 = h % 10 := by omega
  have e3 : (100 * h + m) / 10 % 10 = m / 10 % 10 := by omega
  have e4 : (100 * h + m) % 10 = m % 10 := by omega
  simp only [zero_padded, digit_char, List.nil_append, List.cons_append, List.singleton_append,
    List.append_assoc, e1, e2, e3, e4]

/-- The date section on the six digits `YYYYMM` at the end of the text: the last two digits
are stored as an ambiguous month and checked as a month. -/
theorem date_section_six_digits (Y M : Nat) (hY : Y ≤ 9999) (hM : M ≤ 99) :
    date_section (zero_padded 4 Y ++ (zero_padded 2 M ++ [])) new_parsed =
      if (12 : Int) < M then .error PARSER_INVALID_MONTH
      else if M = 0 then .error PARSER_INVALID_DAY_FOR_MONTH
      else .ok ⟨{ new_parsed with is_date := 1, year := Y, ambiguous := 1, month := M },
                [], is_leap Y, 0, M, 0⟩ := by
  have hy := scan_year_digits (zero_padded 4 Y) (zero_padded 2 M ++ []) 0
    (isDigitStr_zero_padded 4 Y)
  rw [length_zero_padded,
    foldl_accumulate_zero_padded 4 Y 0 (le_refl _) (by norm_num; omega) (by norm_num; omega)] at hy
  have hdig := is_digit_ne _ (peek_zero_padded_succ 1 M [])
  have hw : peek (zero_padded 2 M ++ []) ≠ 'W' := hdig.2.2.2.2.2.2.2.2.2
  have hm : peek (zero_padded 2 M ++ []) ≠ '-' := hdig.2.2.2.1
  have hmd : scan_monthday (zero_padded 2 M ++ []) 0 0 0
      = .ok ((M : Int), 0, 2, []) := by
    rw [scan_monthday_digits _ _ _ _ _ (isDigitStr_zero_padded 2 M),
      scan_monthday_stop_at [] _ _ _ (Or.inl rfl),
      length_zero_padded, foldl_accumulate_pad2 M 0 (le_refl _) (by norm_num) (by omega)]
    norm_num
  unfold date_section
  simp only [show new_parsed.year = 0 from rfl]
  rw [hy]
  simp only [hm, hw, if_false]
  unfold calendar_branch
  rw [hmd]
  norm_num
  have hday : new_parsed.day = 1 := rfl
  by_cases h12 : 12 < M
  · rw [if_pos h12, if_pos h12]
  · rw [if_neg h12, if_neg h12]
    by_cases h0 : M = 0
    · subst h0
      rw [if_pos rfl, if_pos]
      rw [hday, is_leap_eq]
      rcases _is_leap_01 Y with h | h <;> rw [h] <;> decide
    · rw [if_neg h0, if_neg]
      have := DAYS_PER_MONTHS_ge (is_leap Y) M (_is_leap_01 Y) (by omega) (by omega)
      rw [hday]
      omega

/-- The entry point on the six digits `hhmmss`: the parser's month and day checks on the
last two digits, then the time constructor on `(hh, mm, ss, 0)`. -/
theorem parse_iso8601_six_digits (hh mm ss : Nat) (hhh : hh ≤ 99) (hmm : mm ≤ 99)
    (hss : ss ≤ 99) :
    parse_iso8601 (time_text_basic hh mm ss) =
      if 12 < ss then .error (.ValueError PARSER_INVALID_MONTH)
      else if ss = 0 then .error (.ValueError PARSER_INVALID_DAY_FOR_MONTH)
      else Time_FromTime hh mm ss 0 := by
  have htext : time_text_basic hh mm ss
      = zero_padded 4 (100 * hh + mm) ++ (zero_padded 2 ss ++ []) := by
    unfold time_text_basic
    rw [← zero_padded_hhmm hh mm hmm, List.append_nil, List.append_assoc]
  have hp : peek (time_text_basic hh mm ss) ≠ 'P' := by
    rw [htext]
    exact peek_zero_padded_ne_P 3 _ _
  have h12 : ((12 : Int) < ss) ↔ 12 < ss := by exact_mod_cast Iff.rfl
  have hq : cdiv (100 * (hh : Int) + mm) 100 = hh := by
    rw [cdiv_nonneg_eq _ _ (by omega) (by omega)]
    omega
  have hr : cmod (100 * (hh : Int) + mm) 100 = mm := by
    rw [cmod_nonneg_eq _ _ (by omega) (by omega)]
    omega
  have hn : ¬ (NUL = 'T' ∨ NUL = ' ') := by decide
  unfold parse_iso8601 _parse_iso8601_datetime
  simp only [hp, if_false]
  rw [htext, date_section_six_digits _ ss (by omega) hss]
  by_cases c1 : 12 < ss
  · rw [if_pos (h12.mpr c1), if_pos c1]
  · rw [if_neg (fun h => c1 (h12.mp h)), if_neg c1]
    by_cases c2 : ss = 0
    · rw [if_pos c2, if_pos c2]
    · rw [if_neg c2, if_neg c2]
      simp [peek, hn, new_parsed, hq, hr]

/-- C31: every successful parse that yields a time-only value has its hour in 0..23, its
minute in 0..59, its second in 0..59 and its microsecond in 0..999999: the value is the one
accepted by the time constructor.  A six-digit text `hhmmss` fails with invalid-month when
`ss > 12` and with invalid-day-for-month when `ss = 00` (the digits are checked as a year and
a month), and for `ss` in 01..12 it yields the time `(hh, mm, ss)` when `hh <= 23` and
`mm <= 59` and is refused by the time constructor otherwise; so every six-digit text whose
hour, minute or second is out of range is rejected, `999912` and `246012` among them. -/
theorem parse_bare_time_ranges (text : List Char) (h m s us : Int) (hh mm ss : Nat)
    (hhh : hh ≤ 99) (hmm : mm ≤ 99) (hss : ss ≤ 99) :
    (parse_iso8601 text = .ok (.time h m s us) →
      0 ≤ h ∧ h ≤ 23 ∧ 0 ≤ m ∧ m ≤ 59 ∧ 0 ≤ s ∧ s ≤ 59 ∧ 0 ≤ us ∧ us ≤ 999999) ∧
    parse_iso8601 (time_text_basic hh mm ss) =
      (if 12 < ss then .error (.ValueError PARSER_INVALID_MONTH)
       else if ss = 0 then .error (.ValueError PARSER_INVALID_DAY_FOR_MONTH)
       else if hh ≤ 23 ∧ mm ≤ 59 then .ok (.time hh mm ss 0)
       else .error .ConstructorError) ∧
    ((23 < hh ∨ 59 < mm ∨ 59 < ss) →
      ∃ e, parse_iso8601 (time_text_basic hh mm ss) = .error e) ∧
    parse_iso8601 "999912".toList = .error .ConstructorError ∧
    parse_iso8601 "246012".toList = .error .ConstructorError := by
  have h6 : parse_iso8601 (time_text_basic hh mm ss) =
      (if 12 < ss then .error (.ValueError PARSER_INVALID_MONTH)
       else if ss = 0 then .error (.ValueError PARSER_INVALID_DAY_FOR_MONTH)
       else if hh ≤ 23 ∧ mm ≤ 59 then .ok (.time hh mm ss 0)
       else .error .ConstructorError) := by
    rw [parse_iso8601_six_digits hh mm ss hhh hmm hss]
    by_cases c1 : 12 < ss
    · rw [if_pos c1, if_pos c1]
    · rw [if_neg c1, if_neg c1]
      by_cases c2 : ss = 0
      · rw [if_pos c2, if_pos c2]
      · rw [if_neg c2, if_neg c2]
        by_cases c3 : hh ≤ 23 ∧ mm ≤ 59
        · rw [if_pos c3]
          exact Time_FromTime_ok _ _ _ _
            ⟨by omega, by omega, by omega, by omega, by omega, by omega, by omega, by omega⟩
        · rw [if_neg c3]
          exact Time_FromTime_refused _ _ _ _ (fun hc => c3 ⟨by have := hc.2.1; omega,
            by have := hc.2.2.2.1; omega⟩)
  refine ⟨?_, h6, ?_, by rfl, by rfl⟩
  · intro hok
    unfold parse_iso8601 at hok
    simp only [] at hok
    generalize (if peek text = 'P' then _parse_iso8601_duration text new_parsed
       else _parse_iso8601_datetime text new_parsed) = r at hok
    cases r with
    | error e => simp at hok
    | ok P =>
      simp only [Time_FromTime, Date_FromDate, DateTime_FromDateAndTime] at hok
      split_ifs at hok with a1 a2 a3 <;> simp at hok
      obtain ⟨rfl, rfl, rfl, rfl⟩ := hok
      exact a3
  · intro hbad
    rw [h6]
    by_cases c1 : 12 < ss
    · exact ⟨_, if_pos c1⟩
    · rw [if_neg c1]
      by_cases c2 : ss = 0
      · exact ⟨_, if_pos c2⟩
      · rw [if_neg c2, if_neg (by omega)]
        exact ⟨_, rfl⟩

/-- Witness for `parse_bare_time_ranges`: `123005` yields the time 12:30:05, whose fields are
in range; `996012` has hour 99 and minute 60 and is rejected. -/
theorem parse_bare_time_ranges_witness :
    time_text_basic 99 60 12 = "996012".toList ∧
    parse_iso8601 "123005".toList = .ok (.time 12 30 5 0) ∧
    ((0 : Int) ≤ 12 ∧ (12 : Int) ≤ 23 ∧ (0 : Int) ≤ 30 ∧ (30 : Int) ≤ 59 ∧ (0 : Int) ≤ 5 ∧
      (5 : Int) ≤ 59 ∧ (0 : Int) ≤ 0 ∧ (0 : Int) ≤ 999999) ∧
    (∃ e, parse_iso8601 (time_text_basic 99 60 12) = .error e) :=
  ⟨by decide, by rfl,
   (parse_bare_time_ranges "123005".toList 12 30 5 0 99 60 12 (by decide) (by decide)
      (by decide)).1 (by rfl),
   (parse_bare_time_ranges "123005".toList 12 30 5 0 99 60 12 (by decide) (by decide)
      (by decide)).2.2.1 (Or.inl (by decide))⟩

/-- C35 (defect of the zone normalisation): 01:00 on 2021-01-02 at UTC+01:00 and 19:00 on
2021-01-01 at UTC-05:00 are the same instant (midnight UTC: the timestamps of the fields minus
the offsets agree), but `precise_diff` returns -6 hours.  The second argument is normalised to
hour 24 of 1 January (the carry tests `hour > 24`), the first to hour 0 of 2 January, so the
first counts as later, the arguments are swapped and the fields read again after the swap are
the local ones.  In the other order the result is zero.  Across a month end, 00:30 on
2021-02-01 at UTC+01:00 against 23:30 UTC on 2021-01-31 gives -1 hour: the borrow leaves day 0
of February, which compares as later than 31 January. -/
theorem precise_diff_same_instant_not_zero :
    timestamp (PyDate.datetime 2021 1 2 1 0 0 0 none) - 3600
      = timestamp (PyDate.datetime 2021 1 1 19 0 0 0 none) - (-18000) ∧
    precise_diff
        (PyDate.datetime 2021 1 2 1 0 0 0 (some ⟨some ⟨1, "Europe/Paris".toList⟩, 3600⟩))
        (PyDate.datetime 2021 1 1 19 0 0 0 (some ⟨some ⟨3, "America/New_York".toList⟩, -18000⟩))
      = ⟨0, 0, 0, -6, 0, 0, 0, -1⟩ ∧
    precise_diff
        (PyDate.datetime 2021 1 1 19 0 0 0 (some ⟨some ⟨3, "America/New_York".toList⟩, -18000⟩))
        (PyDate.datetime 2021 1 2 1 0 0 0 (some ⟨some ⟨1, "Europe/Paris".toList⟩, 3600⟩))
      = ⟨0, 0, 0, 0, 0, 0, 0, 1⟩ ∧
    normalize_offset 19 0 0 1 (-18000) = (24, 0, 0, 1) ∧
    normalize_offset 1 0 0 2 3600 = (0, 0, 0, 2) ∧
    timestamp (PyDate.datetime 2021 2 1 0 30 0 0 none) - 3600
      = timestamp (PyDate.datetime 2021 1 31 23 30 0 0 none) - 0 ∧
    precise_diff
        (PyDate.datetime 2021 2 1 0 30 0 0 (some ⟨some ⟨1, "Europe/Paris".toList⟩, 3600⟩))
        (PyDate.datetime 2021 1 31 23 30 0 0 (some ⟨some ⟨2, "UTC".toList⟩, 0⟩))
      = ⟨0, 0, 0, -1, 0, 0, 0, -1⟩ ∧
    normalize_offset 0 30 0 1 3600 = (23, 30, 0, 0) := by
  decide

/-! ## Rounding of the product `fraction * 2.4` -/

theorem bit_length_bounds (n : Nat) (hn : n ≠ 0) :
    2 ^ (bit_length n - 1) ≤ n ∧ n < 2 ^ bit_length n := by
  unfold bit_length
  rw [if_neg hn]
  exact ⟨by simpa using Nat.log2_self_le hn, Nat.lt_log2_self⟩

/-- Rounding a number of more than 53 bits to 53 bits: with `s` the number of bits dropped,
the result is a multiple of `2^s` at most `2^s` above `n`, not below any multiple of `2^s`
that `n` has reached, and equal to the next multiple when `n` is less than half a step
below it. -/
theorem round_sig_window (n : Nat) (hn : 2 ^ 53 ≤ n) :
    ∃ s : Nat, 1 ≤ s ∧ 2 ^ (s + 52) ≤ n ∧ n < 2 ^ (s + 53) ∧
      round_sig 53 n ≤ n + 2 ^ s ∧
      (∀ a, a * 2 ^ s ≤ n → a * 2 ^ s ≤ round_sig 53 n) ∧
      (∀ a, n < a * 2 ^ s → a * 2 ^ s < n + 2 ^ (s - 1) → round_sig 53 n = a * 2 ^ s) := by
  have hn0 : n ≠ 0 := by
    intro h
    rw [h] at hn
    exact absurd hn (by norm_num)
  obtain ⟨hlo, hhi⟩ := bit_length_bounds n hn0
  have hb : 53 < bit_length n := by
    by_contra hcon
    have h1 : 2 ^ bit_length n ≤ 2 ^ 53 := Nat.pow_le_pow_right (by norm_num) (by omega)
    omega
  obtain ⟨s, hs⟩ : ∃ s, bit_length n = s + 53 := ⟨bit_length n - 53, by omega⟩
  have hs1 : 1 ≤ s := by omega
  have hP : 0 < 2 ^ s := Nat.pow_pos (by norm_num)
  have hPH : 2 ^ s = 2 * 2 ^ (s - 1) := by
    obtain ⟨t, rfl⟩ : ∃ t, s = t + 1 := ⟨s - 1, by omega⟩
    rw [pow_succ, Nat.add_sub_cancel]
    ring
  have hdm : 2 ^ s * (n / 2 ^ s) + n % 2 ^ s = n := Nat.div_add_mod n (2 ^ s)
  have hml : n % 2 ^ s < 2 ^ s := Nat.mod_lt n hP
  have hR : round_sig 53 n =
      (if 2 ^ (s - 1) < n % 2 ^ s ∨ (n % 2 ^ s = 2 ^ (s - 1) ∧ n / 2 ^ s % 2 = 1)
        then n / 2 ^ s + 1 else n / 2 ^ s) * 2 ^ s := by
    unfold round_sig
    simp only [hs]
    rw [if_neg (by omega), Nat.add_sub_cancel]
  have hRlo : n / 2 ^ s * 2 ^ s ≤ round_sig 53 n := by
    rw [hR]
    apply Nat.mul_le_mul_right
    split_ifs <;> omega
  have hRhi : round_sig 53 n ≤ (n / 2 ^ s + 1) * 2 ^ s := by
    rw [hR]
    apply Nat.mul_le_mul_right
    split_ifs <;> omega
  refine ⟨s, hs1, ?_, ?_, ?_, ?_, ?_⟩
  · rw [hs] at hlo
    exact hlo
  · rw [hs] at hhi
    exact hhi
  · have : (n / 2 ^ s + 1) * 2 ^ s = 2 ^ s * (n / 2 ^ s) + 2 ^ s := by ring
    omega
  · intro a ha
    have h1 : a ≤ n / 2 ^ s := (Nat.le_div_iff_mul_le hP).mpr ha
    exact le_trans (Nat.mul_le_mul_right _ h1) hRlo
  · intro a h1 h2
    have hq1 : n / 2 ^ s < a := (Nat.div_lt_iff_lt_mul hP).mpr h1
    have hq2 : a < n / 2 ^ s + 2 := by
      by_contra hcon
      have h3 : (n / 2 ^ s + 2) * 2 ^ s ≤ a * 2 ^ s := Nat.mul_le_mul_right _ (by omega)
      have h4 : (n / 2 ^ s + 2) * 2 ^ s = 2 ^ s * (n / 2 ^ s) + 2 * 2 ^ s := by ring
      omega
    have ha : a = n / 2 ^ s + 1 := by omega
    have h5 : (n / 2 ^ s + 1) * 2 ^ s = 2 ^ s * (n / 2 ^ s) + 2 ^ s := by ring
    rw [ha] at h2 ⊢
    rw [hR, if_pos (Or.inl (by omega))]

theorem round_sig_small (n : Nat) (h : n < 2 ^ 53) : round_sig 53 n = n := by
  unfold round_sig
  simp only []
  rw [if_pos]
  unfold bit_length
  by_cases hn : n = 0
  · rw [if_pos hn]
    omega
  · rw [if_neg hn]
    have := (Nat.log2_lt hn).mpr h
    omega

/-- The `double` product `fraction * 2.4`, rounded and truncated, is the integer quotient
`12 * fraction / 5` for every positive `fraction` below `2^30`. -/
theorem round_times_2_4 (F : Nat) (h0 : 0 < F) (h1 : F < 1073741824) :
    round_sig 53 (F * 5404319552844595) / 2 ^ 51 = 12 * F / 5 := by
  have hE : (2 : Nat) ^ 51 = 2251799813685248 := by norm_num
  have hdm := Nat.div_add_mod (12 * F) 5
  have hj : 12 * F % 5 < 5 := Nat.mod_lt _ (by norm_num)
  generalize hk : 12 * F / 5 = k at hdm ⊢
  generalize hjj : 12 * F % 5 = j at hdm hj
  by_cases hF1 : F = 1
  · subst hF1
    rw [round_sig_small _ (by norm_num)]
    have : k = 2 := by omega
    rw [this]
    norm_num
  have hN : 2 ^ 53 ≤ F * 5404319552844595 := by
    have : (2 : Nat) ^ 53 = 9007199254740992 := by norm_num
    omega
  obtain ⟨s, hs1, hlo, hhi, hRhi, hW1, hW3⟩ := round_sig_window _ hN
  generalize round_sig 53 (F * 5404319552844595) = R at hRhi hW1 hW3 ⊢
  have hs30 : s ≤ 30 := by
    by_contra hcon
    have h2 : 2 ^ 83 ≤ 2 ^ (s + 52) := Nat.pow_le_pow_right (by norm_num) (by omega)
    have h3 : (2 : Nat) ^ 83 = 9671406556917033397649408 := by norm_num
    omega
  have hP30 : 2 ^ s ≤ 2 ^ 30 := Nat.pow_le_pow_right (by norm_num) hs30
  have h30 : (2 : Nat) ^ 30 = 1073741824 := by norm_num
  have hA : k * 2 ^ 51 = (k * 2 ^ (51 - s)) * 2 ^ s := by
    rw [Nat.mul_assoc, ← pow_add, Nat.sub_add_cancel (by omega)]
  rw [hE] at hA ⊢
  by_cases hj0 : j = 0
  · have hH : F < 5 * 2 ^ (s - 1) := by
      have h54 : 2 ^ (s + 53) = 2 ^ (s - 1) * 2 ^ 54 := by
        rw [← pow_add]
        congr 1
        omega
      have h54' : (2 : Nat) ^ 54 = 18014398509481984 := by norm_num
      rw [h54, h54'] at hhi
      by_contra hcon
      have h2 : 5 * 2 ^ (s - 1) * 18014398509481984 ≤ F * 18014398509481984 :=
        Nat.mul_le_mul_right _ (by omega)
      have h3 : 5 * 2 ^ (s - 1) * 18014398509481984 = 5 * (2 ^ (s - 1) * 18014398509481984) := by
        ring
      omega
    have hR : R = k * 2 ^ (51 - s) * 2 ^ s := by
      apply hW3
      · rw [← hA]; omega
      · rw [← hA]; omega
    rw [hR, ← hA]
    exact Nat.mul_div_cancel _ (by norm_num)
  · have h1' : k * 2251799813685248 ≤ R := by
      rw [hA]
      apply hW1
      rw [← hA]
      omega
    apply Nat.div_eq_of_lt_le
    · exact h1'
    · show R < (k + 1) * 2251799813685248
      omega

/-- The conversion `(int)(fraction * 2.4)` for a positive `fraction` below `2^30`: the
quotient `12 * fraction / 5`, converted to `int`. -/
theorem times_2_4_cast (F : Nat) (h0 : 0 < F) (h1 : F < 1073741824) :
    times_2_4 (F : Int) = double_to_int ((12 * F / 5 : Nat) : Int) := by
  unfold times_2_4
  simp only [Int.natAbs_ofNat, round_times_2_4 F h0 h1]
  rw [if_neg (show ¬ ((F : Int) < 0) by omega)]

/-- The conversion `(int)(fraction * 2.4)` is the truncated quotient `12 * fraction / 5`
while that fits in an `int`, that is for `0 < fraction <= 894784853`. -/
theorem times_2_4_eq (F : Nat) (h0 : 0 < F) (h1 : F ≤ 894784853) :
    times_2_4 (F : Int) = ((12 * F / 5 : Nat) : Int) := by
  rw [times_2_4_cast F h0 (by omega)]
  unfold double_to_int
  rw [if_pos (by omega)]

/-- The `D` case on a number with a non-zero fraction: the fraction goes to `hours`. -/
theorem duration_step_D_fraction (s : DurationScan) (hg : s.grabbed ≠ 0) (ht : s.in_time = 0)
    (hw : s.has_week = 0) (hd : s.has_day = 0) (hfr : s.fraction ≠ 0) :
    duration_step s 'D' =
      .ok { reset_number { s with
              parsed := { s.parsed with days := s.value, hours := times_2_4 s.fraction },
              has_fractional := 1 } with has_ymd := 1, has_day := 1 } := by
  have h1 : 'D' ≠ 'Y' := by decide
  have h2 : 'D' ≠ 'M' := by decide
  unfold duration_step
  simp only [h1, h2, hg, ht, hw, hd, hfr, if_true, if_false, or_self, ne_eq,
    not_true_eq_false, not_false_eq_true]

/-- The duration parser on `Pn.fD`: the digits after the mark, read as an integer, are passed
through `(int)(fraction * 2.4)` into `hours`. -/
theorem parse_duration_day_fraction_raw (n : Nat) (hn : n < 2147483648) (f : List Char)
    (hf : IsDigitStr f) (hF0 : 0 < digits_value f) (hF1 : digits_value f < 2147483648)
    (sep : Char) (hsep : sep = '.' ∨ sep = ',') :
    _parse_iso8601_duration ('P' :: (decimal n ++ (sep :: (f ++ ['D'])))) new_parsed =
      .ok { new_parsed with
            is_duration := 1, days := n,
            hours := times_2_4 ((digits_value f : Nat) : Int) } := by
  obtain ⟨hne, hdig, hval⟩ := decimal_spec n hn
  have hD : 'D' ≠ NUL := by decide
  have h1 : (1 : Int) ≠ 0 := by decide
  have hv : ((digits_value f : Nat) : Int) ≠ 0 := by
    have : digits_value f ≠ 0 := by omega
    exact_mod_cast this
  unfold _parse_iso8601_duration
  rw [List.tail_cons,
    duration_loop_fractional_number (duration_init new_parsed) rfl rfl rfl (decimal n) f hdig
      hne hf hF1 sep hsep ['D'],
    duration_loop]
  simp only [hD, if_false]
  rw [duration_step_D_fraction]
  · simp only [duration_loop]
    show Except.ok _ = Except.ok _
    congr 1
    show ({ (duration_init new_parsed).parsed with
            days := (decimal n).foldl accumulate 0,
            hours := times_2_4 ((digits_value f : Nat) : Int) } : Parsed) = _
    rw [hval]
    rfl
  · exact h1
  · rfl
  · rfl
  · rfl
  · exact hv

/-- C33 as stated fails: for the fraction digits `894784854` the value `F * 2.4` is
2147483649.6, which no `int` can hold (the conversion is undefined in C; on x86 it gives
`-2147483648`), so `hours` is not `trunc(F * 12 / 5) = 2147483649`; and for `n = 2^31` the
number of days, accumulated in an `int`, has wrapped: `P2147483648.5D` gives
`days = -2147483648`. -/
theorem parse_duration_day_fraction_overflows :
    'P' :: (decimal 1 ++ ('.' :: ("894784854".toList ++ ['D']))) = "P1.894784854D".toList ∧
    digits_value "894784854".toList = 894784854 ∧
    (12 * 894784854 / 5 : Int) = 2147483649 ∧
    _parse_iso8601_duration ('P' :: (decimal 1 ++ ('.' :: ("894784854".toList ++ ['D']))))
        new_parsed =
      .ok { new_parsed with is_duration := 1, days := 1, hours := -2147483648 } ∧
    _parse_iso8601_duration "P2147483648.5D".toList new_parsed =
      .ok { new_parsed with is_duration := 1, days := -2147483648, hours := 12 } := by
  have hF : digits_value "894784854".toList = 894784854 := by decide
  have ht : times_2_4 ((894784854 : Nat) : Int) = -2147483648 := by
    rw [times_2_4_cast 894784854 (by decide) (by decide)]
    decide
  have ht5 : times_2_4 ((5 : Nat) : Int) = 12 := by
    rw [times_2_4_eq 5 (by decide) (by decide)]
    decide
  have hs : "P2147483648.5D".toList = 'P' :: ("2147483648.5".toList ++ ['D']) := by decide
  have h1 : duration_loop "2147483648.5".toList (duration_init new_parsed) =
      .ok { duration_init new_parsed with
            value := -2147483648, grabbed := 1, in_fraction := 1, fraction_length := 1,
            fraction := ((5 : Nat) : Int) } := by rfl
  have hD : 'D' ≠ NUL := by decide
  refine ⟨by decide, hF, by decide, ?_, ?_⟩
  · rw [parse_duration_day_fraction_raw 1 (by decide) "894784854".toList (by decide)
      (by rw [hF]; decide) (by rw [hF]; decide) '.' (Or.inl rfl), hF, ht]
    rfl
  · rw [hs]
    unfold _parse_iso8601_duration
    rw [List.tail_cons, duration_loop_append _ _ _ (by decide), h1]
    dsimp only [Except.bind]
    rw [duration_loop]
    simp only [hD, if_false]
    rw [duration_step_D_fraction _ (by decide) rfl rfl rfl (by decide)]
    simp only [duration_loop, ht5]
    rfl

/-- C33, amended: for every integer `n` with `0 <= n < 2^31` and every fractional digit string
with integer value `F`, `0 < F <= 894784853` (the values for which `F * 2.4` fits in an
`int`), `_parse_iso8601_duration` applied to `Pn.FD` (or `Pn,FD`) succeeds with `days = n`,
`hours = trunc(F * 12 / 5)` and every other component 0: the fraction is converted to whole
hours only, with nothing carried to minutes, seconds or microseconds. -/
theorem parse_duration_day_fraction (n : Nat) (hn : n < 2147483648) (f : List Char)
    (hf : IsDigitStr f) (hF0 : 0 < digits_value f) (hF1 : digits_value f ≤ 894784853)
    (sep : Char) (hsep : sep = '.' ∨ sep = ',') :
    _parse_iso8601_duration ('P' :: (decimal n ++ (sep :: (f ++ ['D'])))) new_parsed =
      .ok { new_parsed with
            is_duration := 1, days := n, hours := ((12 * digits_value f / 5 : Nat) : Int) } ∧
    parse_iso8601 ('P' :: (decimal n ++ (sep :: (f ++ ['D'])))) =
      .ok (.duration 0 0 0 n ((12 * digits_value f / 5 : Nat) : Int) 0 0 0) := by
  have hd : _parse_iso8601_duration ('P' :: (decimal n ++ (sep :: (f ++ ['D'])))) new_parsed =
      .ok { new_parsed with
            is_duration := 1, days := n,
            hours := ((12 * digits_value f / 5 : Nat) : Int) } := by
    rw [parse_duration_day_fraction_raw n hn f hf hF0 (by omega) sep hsep,
      times_2_4_eq _ hF0 hF1]
  refine ⟨hd, ?_⟩
  unfold parse_iso8601
  simp only [peek_cons, if_true, hd]
  rfl

/-- Witness for `parse_duration_day_fraction`: `P1.5D` gives 1 day 12 hours, and `P1.25D`
(integer value 25 after the mark) gives 1 day 60 hours. -/
theorem parse_duration_day_fraction_witness :
    'P' :: (decimal 1 ++ ('.' :: ("5".toList ++ ['D']))) = "P1.5D".toList ∧
    'P' :: (decimal 1 ++ ('.' :: ("25".toList ++ ['D']))) = "P1.25D".toList ∧
    (12 * digits_value "5".toList / 5 : Nat) = 12 ∧
    (12 * digits_value "25".toList / 5 : Nat) = 60 ∧
    parse_iso8601 ('P' :: (decimal 1 ++ ('.' :: ("5".toList ++ ['D'])))) =
      .ok (.duration 0 0 0 ((1 : Nat) : Int)
        ((12 * digits_value "5".toList / 5 : Nat) : Int) 0 0 0) ∧
    parse_iso8601 ('P' :: (decimal 1 ++ ('.' :: ("25".toList ++ ['D'])))) =
      .ok (.duration 0 0 0 ((1 : Nat) : Int)
        ((12 * digits_value "25".toList / 5 : Nat) : Int) 0 0 0) :=
  ⟨by decide, by decide, by decide, by decide,
   (parse_duration_day_fraction 1 (by decide) "5".toList (by decide) (by decide) (by decide)
      '.' (Or.inl rfl)).2,
   (parse_duration_day_fraction 1 (by decide) "25".toList (by decide) (by decide) (by decide)
      '.' (Or.inl rfl)).2⟩

/-! ## Day numbers of consecutive days -/

/-- The day after a valid date is a valid date, in the same year or the next. -/
theorem next_day_valid (y m d : Int) (hv : ValidDate y m d) :
    ValidDate (next_day y m d).1 (next_day y m d).2.1 (next_day y m d).2.2 ∧
    y ≤ (next_day y m d).1 := by
  obtain ⟨hm1, hm2, hd1, hd2⟩ := hv
  unfold next_day
  by_cases h1 : d < DAYS_PER_MONTHS (_is_leap y) m
  · rw [if_pos h1]
    exact ⟨⟨hm1, hm2, by show 1 ≤ d + 1; omega, by show d + 1 ≤ DAYS_PER_MONTHS (_is_leap y) m; omega⟩, le_refl _⟩
  · rw [if_neg h1]
    by_cases h2 : m < 12
    · rw [if_pos h2]
      have := DAYS_PER_MONTHS_ge (_is_leap y) (m + 1) (_is_leap_01 y) (by omega) (by omega)
      exact ⟨⟨by show 1 ≤ m + 1; omega, by show m + 1 ≤ 12; omega, le_refl _,
        by show 1 ≤ DAYS_PER_MONTHS (_is_leap y) (m + 1); omega⟩, le_refl _⟩
    · rw [if_neg h2]
      have := DAYS_PER_MONTHS_ge (_is_leap (y + 1)) 1 (_is_leap_01 (y + 1)) (by omega)
        (by omega)
      exact ⟨⟨le_refl _, by show (1 : Int) ≤ 12; decide, le_refl _,
        by show 1 ≤ DAYS_PER_MONTHS (_is_leap (y + 1)) 1; omega⟩, by show y ≤ y + 1; omega⟩

/-- The day number of the day after a valid date is one more, while the years stay in
`1 .. 5879609`. -/
theorem _day_number_next_day (y m d : Int) (hv : ValidDate y m d) (hy1 : 1 ≤ y)
    (hy2 : (next_day y m d).1 ≤ 5879609) :
    _day_number (next_day y m d).1 (next_day y m d).2.1 (next_day y m d).2.2
      = _day_number y m d + 1 := by
  obtain ⟨hm1, hm2, hd1, hd2⟩ := hv
  have hl := _is_leap_01 y
  have hle := DAYS_PER_MONTHS_le (_is_leap y) m hl hm1 hm2
  have hyle : y ≤ 5879609 := by
    have := (next_day_valid y m d ⟨hm1, hm2, hd1, hd2⟩).2
    omega
  unfold next_day at hy2 ⊢
  by_cases h1 : d < DAYS_PER_MONTHS (_is_leap y) m
  · rw [if_pos h1]
    show _day_number y m (d + 1) = _
    rw [_day_number_split y m (d + 1) hy1 hyle hm1 hm2 (by omega) (by omega),
      _day_number_split y m d hy1 hyle hm1 hm2 hd1 (by omega)]
    ring
  · rw [if_neg h1] at hy2 ⊢
    have hd : d = DAYS_PER_MONTHS (_is_leap y) m := by omega
    by_cases h2 : m < 12
    · rw [if_pos h2]
      show _day_number y (m + 1) 1 = _
      rw [_day_number_split y (m + 1) 1 hy1 hyle (by omega) (by omega) (by omega) (by omega),
        _day_number_split y m d hy1 hyle hm1 hm2 hd1 (by omega), hd,
        DAYS_PER_MONTHS_closed _ m hl hm1 hm2]
      ring
    · rw [if_neg h2] at hy2 ⊢
      have hm : m = 12 := by omega
      subst hm
      have hy3 : y < 5879609 := by
        have : y + 1 ≤ 5879609 := hy2
        omega
      show _day_number (y + 1) 1 1 = _
      rw [_day_number_next_year y hy1 hy3,
        _day_number_split y 12 d hy1 hyle hm1 hm2 hd1 (by omega), hd]
      have e0 : MONTHS_OFFSETS 0 12 = 334 ∧ DAYS_PER_MONTHS 0 12 = 31 := by decide
      have e1 : MONTHS_OFFSETS 1 12 = 335 ∧ DAYS_PER_MONTHS 1 12 = 31 := by decide
      rcases hl with h | h
      · rw [h, e0.1, e0.2]
        ring
      · rw [h, e1.1, e1.2]
        ring

/-- The date `k` days after a valid date: it is valid, and its day number is `k` more, while
the years stay in `1 .. 5879609`. -/
theorem days_after_spec (k : Nat) (y m d : Int) (hv : ValidDate y m d) (hy1 : 1 ≤ y)
    (hy2 : (days_after k y m d).1 ≤ 5879609) :
    ValidDate (days_after k y m d).1 (days_after k y m d).2.1 (days_after k y m d).2.2 ∧
    y ≤ (days_after k y m d).1 ∧
    _day_number (days_after k y m d).1 (days_after k y m d).2.1 (days_after k y m d).2.2
      = _day_number y m d + k := by
  induction k with
  | zero => exact ⟨hv, le_refl _, by simp [days_after]⟩
  | succ k ih =>
    rw [days_after] at hy2 ⊢
    generalize days_after k y m d = t at ih hy2 ⊢
    have hstep : ValidDate t.1 t.2.1 t.2.2 → _ := next_day_valid t.1 t.2.1 t.2.2
    by_cases hb : t.1 ≤ 5879609
    · obtain ⟨hvt, hyt, hdn⟩ := ih hb
      obtain ⟨hvn, hyn⟩ := hstep hvt
      refine ⟨hvn, by omega, ?_⟩
      rw [_day_number_next_day t.1 t.2.1 t.2.2 hvt (by omega) hy2, hdn]
      push_cast
      ring
    · exfalso
      have hbig : 5879609 < t.1 := by omega
      unfold next_day at hy2
      split_ifs at hy2
      · exact hb hy2
      · exact hb hy2
      · have : t.1 + 1 ≤ 5879609 := hy2
        omega

/-- C36 as stated fails: 9 September 5879610 is a valid date with year at least 1 whose day
number is the largest `int`; the day number of the next day, 10 September, has wrapped to
the smallest, so it is not the day number plus 1. -/
theorem day_number_next_day_wraps :
    ValidDate 5879610 9 9 ∧ next_day 5879610 9 9 = (5879610, 9, 10) ∧
    _day_number 5879610 9 9 = 2147483647 ∧
    _day_number 5879610 9 10 ≠ _day_number 5879610 9 9 + 1 := by
  decide

/-- C36, amended: for every valid calendar date with year at least 1 whose next calendar day
(rolling over the end of the month, the end of February according to `_is_leap`, and the end
of the year) lies in a year up to 5879609, `_day_number` of the next day is `_day_number` of
the date plus 1; consequently the date reached after `k` days, if its year is at most
5879609, has day number `_day_number(date) + k`; and for `1 <= y < 5879609`,
`_day_number(y+1, 1, 1) - _day_number(y, 1, 1) = _days_in_year(y)`. -/
theorem day_number_counts_days (y m d : Int) (hv : ValidDate y m d) (hy1 : 1 ≤ y) :
    ((next_day y m d).1 ≤ 5879609 →
      _day_number (next_day y m d).1 (next_day y m d).2.1 (next_day y m d).2.2
        = _day_number y m d + 1) ∧
    (∀ k : Nat, (days_after k y m d).1 ≤ 5879609 →
      _day_number (days_after k y m d).1 (days_after k y m d).2.1 (days_after k y m d).2.2
        - _day_number y m d = k) ∧
    (y < 5879609 → _day_number (y + 1) 1 1 - _day_number y 1 1 = _days_in_year y) := by
  refine ⟨_day_number_next_day y m d hv hy1, ?_, ?_⟩
  · intro k hk
    rw [(days_after_spec k y m d hv hy1 hk).2.2]
    ring
  · intro hy2
    rw [_day_number_next_year y hy1 hy2]
    unfold _days_in_year
    have e0 : (if (0 : Int) ≠ 0 then DAYS_PER_L_YEAR else DAYS_PER_N_YEAR) = 365 := by decide
    have e1 : (if (1 : Int) ≠ 0 then DAYS_PER_L_YEAR else DAYS_PER_N_YEAR) = 366 := by decide
    rcases _is_leap_01 y with h | h
    · rw [h, e0]
      ring
    · rw [h, e1]
      ring

/-- Witness for `day_number_counts_days`: the day after 2020-02-28 is 2020-02-29, three days
after 2020-02-27 comes 2020-03-01, and 2020 has 366 days. -/
theorem day_number_counts_days_witness :
    next_day 2020 2 28 = (2020, 2, 29) ∧ next_day 2021 2 28 = (2021, 3, 1) ∧
    next_day 2021 12 31 = (2022, 1, 1) ∧ days_after 3 2020 2 27 = (2020, 3, 1) ∧
    _day_number 2020 2 29 = _day_number 2020 2 28 + 1 ∧
    _day_number 2020 3 1 - _day_number 2020 2 27 = 3 ∧
    _day_number 2021 1 1 - _day_number 2020 1 1 = _days_in_year 2020 :=
  ⟨by decide, by decide, by decide, by decide,
   (day_number_counts_days 2020 2 28 (by decide) (by decide)).1 (by decide),
   (day_number_counts_days 2020 2 27 (by decide) (by decide)).2.1 3 (by decide),
   (day_number_counts_days 2020 1 1 (by decide) (by decide)).2.2 (by decide)⟩

/-! ## `precise_diff` on timezone-naive inputs -/

/-- With offset 0 the normalisation block leaves valid time fields unchanged. -/
theorem normalize_offset_zero (h m s d : Int) (hm : 0 ≤ m) (hm2 : m ≤ 60) (hs : 0 ≤ s)
    (hs2 : s ≤ 60) (hh : 0 ≤ h) (hh2 : h ≤ 24) :
    normalize_offset h m s d 0 = (h, m, s, d) := by
  unfold normalize_offset
  have e1 : cdiv 0 SECS_PER_HOUR = 0 := by decide
  have e2 : cmod 0 SECS_PER_HOUR = 0 := by decide
  have e3 : cdiv 0 SECS_PER_MIN = 0 := by decide
  have e4 : cmod 0 SECS_PER_MIN = 0 := by decide
  have c1 : ¬ s < 0 := not_lt.mpr hs
  have c2 : ¬ s > 60 := not_lt.mpr hs2
  have c3 : ¬ m < 0 := not_lt.mpr hm
  have c4 : ¬ m > 60 := not_lt.mpr hm2
  have c5 : ¬ h < 0 := not_lt.mpr hh
  have c6 : ¬ h > 24 := not_lt.mpr hh2
  simp only [e1, e2, e3, e4, sub_zero, c1, c2, c3, c4, c5, c6, if_false]

/-- The function `precise_diff` is its first part followed by its second part. -/
theorem precise_diff_eq_fields (dt1 dt2 : PyDate) :
    precise_diff dt1 dt2 =
      diff_fields (diff_inputs dt1 dt2).sign
        (diff_inputs dt1 dt2).dt1_year (diff_inputs dt1 dt2).dt1_month
        (diff_inputs dt1 dt2).dt1_day (diff_inputs dt1 dt2).dt1_hour
        (diff_inputs dt1 dt2).dt1_minute (diff_inputs dt1 dt2).dt1_second
        (diff_inputs dt1 dt2).dt1_microsecond
        (diff_inputs dt1 dt2).dt2_year (diff_inputs dt1 dt2).dt2_month
        (diff_inputs dt1 dt2).dt2_day (diff_inputs dt1 dt2).dt2_hour
        (diff_inputs dt1 dt2).dt2_minute (diff_inputs dt1 dt2).dt2_second
        (diff_inputs dt1 dt2).dt2_microsecond (diff_inputs dt1 dt2).total_days := rfl

/-- On timezone-naive inputs of the same kind given in order, the first part of
`precise_diff` keeps the fields as passed and the sign 1. -/
theorem diff_inputs_naive_forward (a b : PyDate) (ha : ValidNaive a) (hb : ValidNaive b)
    (hk : a.is_datetime = b.is_datetime) (hle : NotLater a b) :
    diff_inputs a b =
      ⟨1, a.year, a.month, a.day,
       if a.is_datetime then a.hour else 0, if a.is_datetime then a.minute else 0,
       if a.is_datetime then a.second else 0, if a.is_datetime then a.microsecond else 0,
       b.year, b.month, b.day,
       if b.is_datetime then b.hour else 0, if b.is_datetime then b.minute else 0,
       if b.is_datetime then b.second else 0, if b.is_datetime then b.microsecond else 0,
       _day_number b.year b.month b.day - _day_number a.year a.month a.day⟩ := by
  obtain ⟨y1, m1, d1, k1, h1, mi1, s1, us1, tz1⟩ := a
  obtain ⟨y2, m2, d2, k2, h2, mi2, s2, us2, tz2⟩ := b
  obtain ⟨hy1, hy1', hv1, htz1, ht1⟩ := ha
  obtain ⟨hy2, hy2', hv2, htz2, ht2⟩ := hb
  simp only [] at hk htz1 htz2 ht1 ht2 hy1 hy1' hy2 hy2' hv1 hv2
  subst htz1 htz2 hk
  unfold NotLater DateLt time_of_day_us at hle
  simp only [] at hle
  cases k1
  · unfold diff_inputs
    simp only [Bool.false_and, Bool.and_false, Bool.false_eq_true, if_false]
    split_ifs with hP
    · exfalso
      simp only [decide_eq_true_eq] at hP
      simp only [Bool.false_eq_true, if_false] at hle
      omega
    · rfl
  · unfold diff_inputs
    obtain ⟨a1, a2, a3, a4, a5, a6, a7, a8⟩ := ht1 rfl
    obtain ⟨b1, b2, b3, b4, b5, b6, b7, b8⟩ := ht2 rfl
    simp only [_has_tzinfo, Option.isSome, Bool.and_false, Bool.false_eq_true, if_false,
      Bool.true_and, Bool.and_true, if_true,
      normalize_offset_zero h1 mi1 s1 d1 (by omega) (by omega) (by omega) (by omega) (by omega)
        (by omega),
      normalize_offset_zero h2 mi2 s2 d2 (by omega) (by omega) (by omega) (by omega) (by omega)
        (by omega), ite_self, show SECS_PER_HOUR = 3600 from rfl, show SECS_PER_MIN = 60 from rfl]
    split_ifs with hP
    · exfalso
      simp only [decide_eq_true_eq] at hP
      simp only [if_true] at hle
      omega
    · rfl

/-- The borrow steps on differences of valid time fields: the results are in their unit
ranges, and the borrows preserve the total. -/
theorem borrow_time_spec (dd hd md sd ud : Int)
    (h1 : -23 ≤ hd) (h2 : hd ≤ 23) (m1 : -59 ≤ md) (m2 : md ≤ 59)
    (s1 : -59 ≤ sd) (s2 : sd ≤ 59) (u1 : -999999 ≤ ud) (u2 : ud ≤ 999999) :
    ∃ D H M S U, borrow_time dd hd md sd ud = (D, H, M, S, U) ∧
      0 ≤ H ∧ H ≤ 23 ∧ 0 ≤ M ∧ M ≤ 59 ∧ 0 ≤ S ∧ S ≤ 59 ∧ 0 ≤ U ∧ U ≤ 999999 ∧
      (((D * 24 + H) * 60 + M) * 60 + S) * 1000000 + U =
        (((dd * 24 + hd) * 60 + md) * 60 + sd) * 1000000 + ud := by
  unfold borrow_time
  refine ⟨_, _, _, _, _, rfl, ?_⟩
  split_ifs <;> omega

/-- On timezone-naive inputs of the same kind given in reverse order, the first part of
`precise_diff` swaps the arguments and sets the sign to -1. -/
theorem diff_inputs_naive_backward (a b : PyDate) (ha : ValidNaive a) (hb : ValidNaive b)
    (hk : a.is_datetime = b.is_datetime) (hne : ¬ NotLater b a) :
    diff_inputs b a =
      ⟨-1, a.year, a.month, a.day,
       if a.is_datetime then a.hour else 0, if a.is_datetime then a.minute else 0,
       if a.is_datetime then a.second else 0, if a.is_datetime then a.microsecond else 0,
       b.year, b.month, b.day,
       if b.is_datetime then b.hour else 0, if b.is_datetime then b.minute else 0,
       if b.is_datetime then b.second else 0, if b.is_datetime then b.microsecond else 0,
       _day_number b.year b.month b.day - _day_number a.year a.month a.day⟩ := by
  obtain ⟨y1, m1, d1, k1, h1, mi1, s1, us1, tz1⟩ := a
  obtain ⟨y2, m2, d2, k2, h2, mi2, s2, us2, tz2⟩ := b
  obtain ⟨hy1, hy1', hv1, htz1, ht1⟩ := ha
  obtain ⟨hy2, hy2', hv2, htz2, ht2⟩ := hb
  simp only [] at hk htz1 htz2 ht1 ht2 hy1 hy1' hy2 hy2' hv1 hv2
  subst htz1 htz2 hk
  unfold NotLater DateLt time_of_day_us at hne
  simp only [] at hne
  cases k1
  · unfold diff_inputs
    simp only [Bool.false_and, Bool.and_false, Bool.false_eq_true, if_false]
    split_ifs with hP
    · rfl
    · exfalso
      simp only [decide_eq_true_eq] at hP
      simp only [Bool.false_eq_true, if_false] at hne
      omega
  · unfold diff_inputs
    obtain ⟨a1, a2, a3, a4, a5, a6, a7, a8⟩ := ht1 rfl
    obtain ⟨b1, b2, b3, b4, b5, b6, b7, b8⟩ := ht2 rfl
    simp only [_has_tzinfo, Option.isSome, Bool.and_false, Bool.false_eq_true, if_false,
      Bool.true_and, Bool.and_true, if_true,
      normalize_offset_zero h1 mi1 s1 d1 (by omega) (by omega) (by omega) (by omega) (by omega)
        (by omega),
      normalize_offset_zero h2 mi2 s2 d2 (by omega) (by omega) (by omega) (by omega) (by omega)
        (by omega), ite_self, show SECS_PER_HOUR = 3600 from rfl, show SECS_PER_MIN = 60 from rfl]
    split_ifs with hP
    · rfl
    · exfalso
      simp only [decide_eq_true_eq] at hP
      simp only [if_true] at hne
      omega

/-- The month lengths that `precise_diff` looks up are between 28 and 31. -/
theorem days_in_last_month_bounds (y m : Int) (h1 : 1 ≤ m) (h2 : m ≤ 12) :
    28 ≤ days_in_last_month y m ∧ days_in_last_month y m ≤ 31 := by
  unfold days_in_last_month
  split_ifs with h
  · exact ⟨DAYS_PER_MONTHS_ge _ _ (_is_leap_01 _) (by decide) (by decide),
      DAYS_PER_MONTHS_le _ _ (_is_leap_01 _) (by decide) (by decide)⟩
  · exact ⟨DAYS_PER_MONTHS_ge _ _ (_is_leap_01 _) (by omega) (by omega),
      DAYS_PER_MONTHS_le _ _ (_is_leap_01 _) (by omega) (by omega)⟩

/-- The calendar resolution in terms of the two month lengths: the partial-month branch adds
the larger of `days_in_last_month` and `dt1_day`. -/
theorem resolve_days_eq (d1 y2 m2 dd md : Int) :
    resolve_days d1 y2 m2 dd md =
      if dd < 0 then
        if dd < DAYS_PER_MONTHS (_is_leap y2) m2 - days_in_last_month y2 m2 then
          (dd + max (days_in_last_month y2 m2) d1, md - 1)
        else if dd = DAYS_PER_MONTHS (_is_leap y2) m2 - days_in_last_month y2 m2 then (0, md)
        else (dd + days_in_last_month y2 m2, md - 1)
      else (dd, md) := by
  unfold resolve_days days_in_last_month
  simp only []
  generalize DAYS_PER_MONTHS (_is_leap (if m2 = 1 then y2 - 1 else y2))
    (if m2 = 1 then 12 else m2 - 1) = L
  generalize DAYS_PER_MONTHS (_is_leap y2) m2 = M
  rcases le_total L d1 with hmx | hmx
  · rw [max_eq_right hmx]
    split_ifs <;> (try dsimp only) <;>
      (try simp only [Prod.mk.injEq, and_true, true_and, and_self]) <;> (try omega)
  · rw [max_eq_left hmx]
    split_ifs <;> (try dsimp only) <;>
      (try simp only [Prod.mk.injEq, and_true, true_and, and_self]) <;> (try omega)

/-- Range of the resolved day difference, and what happens to the month difference. -/
theorem resolve_days_bounds (d1 y2 m2 dd md : Int) (hm : 1 ≤ m2) (hm2 : m2 ≤ 12)
    (hd1 : d1 ≤ 31) (hdd : -d1 ≤ dd) (hdd2 : dd ≤ 30) :
    0 ≤ (resolve_days d1 y2 m2 dd md).1 ∧ (resolve_days d1 y2 m2 dd md).1 ≤ 30 ∧
    (0 ≤ dd → resolve_days d1 y2 m2 dd md = (dd, md)) ∧
    (dd < 0 → (resolve_days d1 y2 m2 dd md).2 = md - 1 ∨
      (resolve_days d1 y2 m2 dd md).2 = md) := by
  rw [resolve_days_eq]
  obtain ⟨l1, l2⟩ := days_in_last_month_bounds y2 m2 hm hm2
  have g1 := DAYS_PER_MONTHS_ge (_is_leap y2) m2 (_is_leap_01 _) hm hm2
  have g2 := DAYS_PER_MONTHS_le (_is_leap y2) m2 (_is_leap_01 _) hm hm2
  generalize days_in_last_month y2 m2 = L at *
  generalize DAYS_PER_MONTHS (_is_leap y2) m2 = M at *
  rcases le_total L d1 with hmx | hmx
  · rw [max_eq_right hmx]
    split_ifs <;> dsimp only <;> refine ⟨by omega, by omega, fun h => ?_, fun h => ?_⟩ <;>
      first | (exfalso; omega) | rfl | exact Or.inl rfl | exact Or.inr rfl
  · rw [max_eq_left hmx]
    split_ifs <;> dsimp only <;> refine ⟨by omega, by omega, fun h => ?_, fun h => ?_⟩ <;>
      first | (exfalso; omega) | rfl | exact Or.inl rfl | exact Or.inr rfl

/-- The second part of `precise_diff` on valid time fields: the time components are the
borrowed differences `H`, `Mi`, `S`, `U`, which are in their unit ranges and, together with the
borrowed day difference `D`, keep the total; the calendar components come from
`resolve_days` at `D`. -/
theorem diff_fields_spec (sign y1 m1 d1 h1 mi1 s1 us1 y2 m2 d2 h2 mi2 s2 us2 td : Int)
    (ht1 : ValidTime h1 mi1 s1 us1) (ht2 : ValidTime h2 mi2 s2 us2) :
    ∃ D H Mi S U : Int,
      0 ≤ H ∧ H ≤ 23 ∧ 0 ≤ Mi ∧ Mi ≤ 59 ∧ 0 ≤ S ∧ S ≤ 59 ∧ 0 ≤ U ∧ U ≤ 999999 ∧
      (((D * 24 + H) * 60 + Mi) * 60 + S) * 1000000 + U =
        (d2 - d1) * 86400000000 +
          ((h2 * 3600 + mi2 * 60 + s2) * 1000000 + us2) -
          ((h1 * 3600 + mi1 * 60 + s1) * 1000000 + us1) ∧
      diff_fields sign y1 m1 d1 h1 mi1 s1 us1 y2 m2 d2 h2 mi2 s2 us2 td =
        ⟨(if (resolve_days d1 y2 m2 D (m2 - m1)).2 < 0 then y2 - y1 - 1 else y2 - y1) * sign,
         (if (resolve_days d1 y2 m2 D (m2 - m1)).2 < 0
            then (resolve_days d1 y2 m2 D (m2 - m1)).2 + 12
            else (resolve_days d1 y2 m2 D (m2 - m1)).2) * sign,
         (resolve_days d1 y2 m2 D (m2 - m1)).1 * sign,
         H * sign, Mi * sign, S * sign, U * sign, td * sign⟩ := by
  obtain ⟨a1, a2, a3, a4, a5, a6, a7, a8⟩ := ht1
  obtain ⟨b1, b2, b3, b4, b5, b6, b7, b8⟩ := ht2
  obtain ⟨D, H, Mi, S, U, hb, r1, r2, r3, r4, r5, r6, r7, r8, hsum⟩ :=
    borrow_time_spec (d2 - d1) (h2 - h1) (mi2 - mi1) (s2 - s1) (us2 - us1)
      (by omega) (by omega) (by omega) (by omega) (by omega) (by omega) (by omega) (by omega)
  refine ⟨D, H, Mi, S, U, r1, r2, r3, r4, r5, r6, r7, r8, by omega, ?_⟩
  unfold diff_fields
  simp only [hb]

/-- The time fields that `precise_diff` reads from a timezone-naive input are valid. -/
theorem ValidNaive_time (a : PyDate) (ha : ValidNaive a) :
    ValidTime (if a.is_datetime then a.hour else 0) (if a.is_datetime then a.minute else 0)
      (if a.is_datetime then a.second else 0) (if a.is_datetime then a.microsecond else 0) ∧
    time_of_day_us a =
      ((if a.is_datetime then a.hour else 0) * 3600 + (if a.is_datetime then a.minute else 0) * 60
        + (if a.is_datetime then a.second else 0)) * 1000000
        + (if a.is_datetime then a.microsecond else 0) := by
  obtain ⟨y1, m1, d1, k1, h1, mi1, s1, us1, tz1⟩ := a
  obtain ⟨hy1, hy1', hv1, htz1, ht1⟩ := ha
  unfold time_of_day_us
  cases k1
  · refine ⟨?_, rfl⟩
    show ValidTime 0 0 0 0
    decide
  · exact ⟨ht1 rfl, rfl⟩

/-- The function `precise_diff` on timezone-naive inputs of the same kind given in order: the
time components are in their unit ranges and, with the borrowed day difference `D`, add up
to the elapsed time within the month; the calendar components come from `resolve_days`. -/
theorem precise_diff_naive_forward (a b : PyDate) (ha : ValidNaive a) (hb : ValidNaive b)
    (hk : a.is_datetime = b.is_datetime) (hle : NotLater a b) :
    ∃ D H Mi S U : Int,
      0 ≤ H ∧ H ≤ 23 ∧ 0 ≤ Mi ∧ Mi ≤ 59 ∧ 0 ≤ S ∧ S ≤ 59 ∧ 0 ≤ U ∧ U ≤ 999999 ∧
      (((D * 24 + H) * 60 + Mi) * 60 + S) * 1000000 + U =
        (b.day - a.day) * 86400000000 + time_of_day_us b - time_of_day_us a ∧
      precise_diff a b =
        ⟨(if (resolve_days a.day b.year b.month D (b.month - a.month)).2 < 0
            then b.year - a.year - 1 else b.year - a.year),
         (if (resolve_days a.day b.year b.month D (b.month - a.month)).2 < 0
            then (resolve_days a.day b.year b.month D (b.month - a.month)).2 + 12
            else (resolve_days a.day b.year b.month D (b.month - a.month)).2),
         (resolve_days a.day b.year b.month D (b.month - a.month)).1,
         H, Mi, S, U,
         _day_number b.year b.month b.day - _day_number a.year a.month a.day⟩ := by
  obtain ⟨ta, ea⟩ := ValidNaive_time a ha
  obtain ⟨tb, eb⟩ := ValidNaive_time b hb
  obtain ⟨D, H, Mi, S, U, r1, r2, r3, r4, r5, r6, r7, r8, hsum, hd⟩ :=
    diff_fields_spec 1 a.year a.month a.day _ _ _ _ b.year b.month b.day _ _ _ _
      (_day_number b.year b.month b.day - _day_number a.year a.month a.day) ta tb
  refine ⟨D, H, Mi, S, U, r1, r2, r3, r4, r5, r6, r7, r8, by rw [ea, eb]; omega, ?_⟩
  rw [precise_diff_eq_fields, diff_inputs_naive_forward a b ha hb hk hle]
  dsimp only
  rw [hd]
  simp only [mul_one]

/-- The function `precise_diff` on timezone-naive inputs of the same kind given in reverse
order: the components of the ordered pair, each multiplied by -1. -/
theorem precise_diff_naive_backward (a b : PyDate) (ha : ValidNaive a) (hb : ValidNaive b)
    (hk : a.is_datetime = b.is_datetime) (hne : ¬ NotLater b a) :
    ∃ D H Mi S U : Int,
      0 ≤ H ∧ H ≤ 23 ∧ 0 ≤ Mi ∧ Mi ≤ 59 ∧ 0 ≤ S ∧ S ≤ 59 ∧ 0 ≤ U ∧ U ≤ 999999 ∧
      (((D * 24 + H) * 60 + Mi) * 60 + S) * 1000000 + U =
        (b.day - a.day) * 86400000000 + time_of_day_us b - time_of_day_us a ∧
      precise_diff b a =
        ⟨-(if (resolve_days a.day b.year b.month D (b.month - a.month)).2 < 0
            then b.year - a.year - 1 else b.year - a.year),
         -(if (resolve_days a.day b.year b.month D (b.month - a.month)).2 < 0
            then (resolve_days a.day b.year b.month D (b.month - a.month)).2 + 12
            else (resolve_days a.day b.year b.month D (b.month - a.month)).2),
         -(resolve_days a.day b.year b.month D (b.month - a.month)).1,
         -H, -Mi, -S, -U,
         -(_day_number b.year b.month b.day - _day_number a.year a.month a.day)⟩ := by
  obtain ⟨ta, ea⟩ := ValidNaive_time a ha
  obtain ⟨tb, eb⟩ := ValidNaive_time b hb
  obtain ⟨D, H, Mi, S, U, r1, r2, r3, r4, r5, r6, r7, r8, hsum, hd⟩ :=
    diff_fields_spec (-1) a.year a.month a.day _ _ _ _ b.year b.month b.day _ _ _ _
      (_day_number b.year b.month b.day - _day_number a.year a.month a.day) ta tb
  refine ⟨D, H, Mi, S, U, r1, r2, r3, r4, r5, r6, r7, r8, by rw [ea, eb]; omega, ?_⟩
  rw [precise_diff_eq_fields, diff_inputs_naive_backward a b ha hb hk hne]
  dsimp only
  rw [hd]
  simp only [mul_neg, mul_one]

/-- The time of day of a valid timezone-naive input is within one day. -/
theorem time_of_day_us_bounds (a : PyDate) (ha : ValidNaive a) :
    0 ≤ time_of_day_us a ∧ time_of_day_us a < 86400000000 := by
  obtain ⟨⟨t1, t2, t3, t4, t5, t6, t7, t8⟩, e⟩ := ValidNaive_time a ha
  rw [e]
  constructor <;> omega

/-- Ranges of the calendar components that `precise_diff` derives from a borrowed day
difference `D`, for valid dates in calendar order. -/
theorem calendar_components_bounds (y1 m1 d1 y2 m2 d2 D : Int)
    (hv1 : ValidDate y1 m1 d1) (hv2 : ValidDate y2 m2 d2)
    (hD : D = d2 - d1 ∨ D = d2 - d1 - 1)
    (hord : y1 < y2 ∨ (y1 = y2 ∧ (m1 < m2 ∨ (m1 = m2 ∧ 0 ≤ D)))) :
    0 ≤ (if (resolve_days d1 y2 m2 D (m2 - m1)).2 < 0 then y2 - y1 - 1 else y2 - y1) ∧
    0 ≤ (if (resolve_days d1 y2 m2 D (m2 - m1)).2 < 0
          then (resolve_days d1 y2 m2 D (m2 - m1)).2 + 12
          else (resolve_days d1 y2 m2 D (m2 - m1)).2) ∧
    (if (resolve_days d1 y2 m2 D (m2 - m1)).2 < 0
          then (resolve_days d1 y2 m2 D (m2 - m1)).2 + 12
          else (resolve_days d1 y2 m2 D (m2 - m1)).2) ≤ 11 ∧
    0 ≤ (resolve_days d1 y2 m2 D (m2 - m1)).1 ∧ (resolve_days d1 y2 m2 D (m2 - m1)).1 ≤ 30 := by
  obtain ⟨hm1, hm1', hd1, hd1'⟩ := hv1
  obtain ⟨hm2, hm2', hd2, hd2'⟩ := hv2
  have g1 := DAYS_PER_MONTHS_le (_is_leap y1) m1 (_is_leap_01 _) hm1 hm1'
  have g2 := DAYS_PER_MONTHS_le (_is_leap y2) m2 (_is_leap_01 _) hm2 hm2'
  obtain ⟨b1, b2, b3, b4⟩ :=
    resolve_days_bounds d1 y2 m2 D (m2 - m1) hm2 hm2' (by omega) (by omega) (by omega)
  generalize resolve_days d1 y2 m2 D (m2 - m1) = r at *
  obtain ⟨r1, r2⟩ := r
  simp only [Prod.mk.injEq] at b1 b2 b3 b4 ⊢
  split_ifs <;> omega

/-! ## Claims on the components of `precise_diff` for timezone-naive inputs -/

/-- C37: for every pair of valid inputs `a`, `b` of `precise_diff` that are both dates or both
timezone-naive date-times (years 1 to 9999), with `a` not later than `b`, every component of
`precise_diff a b` is non-negative and within its unit range (years at least 0, months 0 to 11,
days 0 to 30, hours 0 to 23, minutes and seconds 0 to 59, microseconds 0 to 999999, and
`total_days` at least 0), and every component of `precise_diff b a` is at most 0. -/
theorem precise_diff_component_ranges (a b : PyDate) (ha : ValidNaive a) (hb : ValidNaive b)
    (hk : a.is_datetime = b.is_datetime) (hle : NotLater a b) :
    (0 ≤ (precise_diff a b).years ∧
     0 ≤ (precise_diff a b).months ∧ (precise_diff a b).months ≤ 11 ∧
     0 ≤ (precise_diff a b).days ∧ (precise_diff a b).days ≤ 30 ∧
     0 ≤ (precise_diff a b).hours ∧ (precise_diff a b).hours ≤ 23 ∧
     0 ≤ (precise_diff a b).minutes ∧ (precise_diff a b).minutes ≤ 59 ∧
     0 ≤ (precise_diff a b).seconds ∧ (precise_diff a b).seconds ≤ 59 ∧
     0 ≤ (precise_diff a b).microseconds ∧ (precise_diff a b).microseconds ≤ 999999 ∧
     0 ≤ (precise_diff a b).total_days) ∧
    ((precise_diff b a).years ≤ 0 ∧ (precise_diff b a).months ≤ 0 ∧
     (precise_diff b a).days ≤ 0 ∧ (precise_diff b a).hours ≤ 0 ∧
     (precise_diff b a).minutes ≤ 0 ∧ (precise_diff b a).seconds ≤ 0 ∧
     (precise_diff b a).microseconds ≤ 0 ∧ (precise_diff b a).total_days ≤ 0) := by
  obtain ⟨ta0, ta1⟩ := time_of_day_us_bounds a ha
  obtain ⟨tb0, tb1⟩ := time_of_day_us_bounds b hb
  have hva : ValidDate a.year a.month a.day := ha.2.2.1
  have hvb : ValidDate b.year b.month b.day := hb.2.2.1
  have hya : 1 ≤ a.year := ha.1
  have hya' : a.year ≤ 9999 := ha.2.1
  have hyb : 1 ≤ b.year := hb.1
  have hyb' : b.year ≤ 9999 := hb.2.1
  have htd : _day_number a.year a.month a.day ≤ _day_number b.year b.month b.day := by
    rcases hle with h | ⟨h1, h2, h3, _⟩
    · exact le_of_lt (_day_number_lt_of_DateLt _ _ _ _ _ _ hya (by omega) hva hvb h)
    · rw [h1, h2, h3]
  have hle2 := hle
  unfold NotLater DateLt at hle2
  constructor
  · obtain ⟨D, H, Mi, S, U, r1, r2, r3, r4, r5, r6, r7, r8, hsum, hpd⟩ :=
      precise_diff_naive_forward a b ha hb hk hle
    obtain ⟨c1, c2, c3, c4, c5⟩ :=
      calendar_components_bounds a.year a.month a.day b.year b.month b.day D hva hvb
        (by omega) (by omega)
    rw [hpd]
    dsimp only
    exact ⟨c1, c2, c3, c4, c5, r1, r2, r3, r4, r5, r6, r7, r8, by omega⟩
  · by_cases hne : NotLater b a
    · have hne2 := hne
      unfold NotLater DateLt at hne2
      obtain ⟨D, H, Mi, S, U, r1, r2, r3, r4, r5, r6, r7, r8, hsum, hpd⟩ :=
        precise_diff_naive_forward b a hb ha hk.symm hne
      have hD : D = 0 := by omega
      have e1 : a.year = b.year := by omega
      have e2 : a.month = b.month := by omega
      have e3 : a.day = b.day := by omega
      subst hD
      have er : resolve_days b.day a.year a.month 0 (a.month - b.month) = (0, 0) := by
        unfold resolve_days
        rw [if_neg (by decide), e2, sub_self]
      rw [hpd, er]
      dsimp only
      rw [if_neg (by decide), if_neg (by decide), e1, e2, e3]
      refine ⟨?_, ?_, ?_, ?_, ?_, ?_, ?_, ?_⟩ <;> omega
    · obtain ⟨D, H, Mi, S, U, r1, r2, r3, r4, r5, r6, r7, r8, hsum, hpd⟩ :=
        precise_diff_naive_backward a b ha hb hk hne
      obtain ⟨c1, c2, c3, c4, c5⟩ :=
        calendar_components_bounds a.year a.month a.day b.year b.month b.day D hva hvb
          (by omega) (by omega)
      rw [hpd]
      dsimp only
      refine ⟨?_, ?_, ?_, ?_, ?_, ?_, ?_, ?_⟩ <;> omega

/-- Witness for `precise_diff_component_ranges`: from 2021-01-31 22:30 to
2021-03-01 10:00:00.5 and back. -/
theorem precise_diff_component_ranges_witness :
    ValidNaive (PyDate.datetime 2021 1 31 22 30 0 0 none) ∧
    ValidNaive (PyDate.datetime 2021 3 1 10 0 0 500000 none) ∧
    NotLater (PyDate.datetime 2021 1 31 22 30 0 0 none)
      (PyDate.datetime 2021 3 1 10 0 0 500000 none) ∧
    precise_diff (PyDate.datetime 2021 1 31 22 30 0 0 none)
        (PyDate.datetime 2021 3 1 10 0 0 500000 none)
      = ⟨0, 1, 0, 11, 30, 0, 500000, 29⟩ ∧
    precise_diff (PyDate.datetime 2021 3 1 10 0 0 500000 none)
        (PyDate.datetime 2021 1 31 22 30 0 0 none)
      = ⟨0, -1, 0, -11, -30, 0, -500000, -29⟩ ∧
    (precise_diff (PyDate.datetime 2021 1 31 22 30 0 0 none)
        (PyDate.datetime 2021 3 1 10 0 0 500000 none)).days ≤ 30 ∧
    (precise_diff (PyDate.datetime 2021 3 1 10 0 0 500000 none)
        (PyDate.datetime 2021 1 31 22 30 0 0 none)).hours ≤ 0 :=
  ⟨by decide, by decide, by decide, by decide, by decide,
   (precise_diff_component_ranges (PyDate.datetime 2021 1 31 22 30 0 0 none)
      (PyDate.datetime 2021 3 1 10 0 0 500000 none)
      (by decide) (by decide) rfl (by decide)).1.2.2.2.2.1,
   (precise_diff_component_ranges (PyDate.datetime 2021 1 31 22 30 0 0 none)
      (PyDate.datetime 2021 3 1 10 0 0 500000 none)
      (by decide) (by decide) rfl (by decide)).2.2.2.2.1⟩

/-- C38: for every pair of timezone-naive inputs `a`, `b` of the same kind (in particular two
naive date-times) in the same year and month with `a` not later than `b`, `precise_diff a b`
has years = 0 and months = 0, and its components add up to the elapsed time:
`((days*24 + hours)*60 + minutes)*60 + seconds`, in microseconds, plus `microseconds` is the
number of days between the two dates in microseconds plus the difference of the times of
day. -/
theorem precise_diff_same_month_elapsed (a b : PyDate) (ha : ValidNaive a) (hb : ValidNaive b)
    (hk : a.is_datetime = b.is_datetime) (hy : a.year = b.year) (hm : a.month = b.month)
    (hle : NotLater a b) :
    (precise_diff a b).years = 0 ∧ (precise_diff a b).months = 0 ∧
    ((((precise_diff a b).days * 24 + (precise_diff a b).hours) * 60
        + (precise_diff a b).minutes) * 60 + (precise_diff a b).seconds) * 1000000
        + (precise_diff a b).microseconds =
      (_day_number b.year b.month b.day - _day_number a.year a.month a.day) * 86400000000
        + (time_of_day_us b - time_of_day_us a) := by
  obtain ⟨ta0, ta1⟩ := time_of_day_us_bounds a ha
  obtain ⟨tb0, tb1⟩ := time_of_day_us_bounds b hb
  obtain ⟨hma, hma', hda, hda'⟩ : ValidDate a.year a.month a.day := ha.2.2.1
  obtain ⟨hmb, hmb', hdb, hdb'⟩ : ValidDate b.year b.month b.day := hb.2.2.1
  have ga := DAYS_PER_MONTHS_le (_is_leap a.year) a.month (_is_leap_01 _) hma hma'
  have gb := DAYS_PER_MONTHS_le (_is_leap b.year) b.month (_is_leap_01 _) hmb hmb'
  have hya : 1 ≤ a.year := ha.1
  have hya' : a.year ≤ 9999 := ha.2.1
  have hdn : _day_number b.year b.month b.day - _day_number a.year a.month a.day =
      b.day - a.day := by
    rw [_day_number_eq b.year b.month b.day (by omega) (by omega) hmb hmb' hdb (by omega),
      _day_number_eq a.year a.month a.day hya (by omega) hma hma' hda (by omega), hy, hm]
    ring
  have hle2 := hle
  unfold NotLater DateLt at hle2
  obtain ⟨D, H, Mi, S, U, r1, r2, r3, r4, r5, r6, r7, r8, hsum, hpd⟩ :=
    precise_diff_naive_forward a b ha hb hk hle
  have hD : 0 ≤ D := by omega
  have er : resolve_days a.day b.year b.month D (b.month - a.month) = (D, 0) := by
    unfold resolve_days
    rw [if_neg (by omega), hm, sub_self]
  rw [hpd, er, hdn]
  dsimp only
  rw [if_neg (by decide), if_neg (by decide), hy, sub_self]
  refine ⟨rfl, rfl, ?_⟩
  omega

/-- Witness for `precise_diff_same_month_elapsed`: from 2021-05-03 22:30:15.25 to
2021-05-20 10:00 there are 16 days 11:29:44.75, which is 17 days less 45015.25 seconds. -/
theorem precise_diff_same_month_elapsed_witness :
    ValidNaive (PyDate.datetime 2021 5 3 22 30 15 250000 none) ∧
    ValidNaive (PyDate.datetime 2021 5 20 10 0 0 0 none) ∧
    NotLater (PyDate.datetime 2021 5 3 22 30 15 250000 none)
      (PyDate.datetime 2021 5 20 10 0 0 0 none) ∧
    precise_diff (PyDate.datetime 2021 5 3 22 30 15 250000 none)
        (PyDate.datetime 2021 5 20 10 0 0 0 none)
      = ⟨0, 0, 16, 11, 29, 44, 750000, 17⟩ ∧
    _day_number 2021 5 20 - _day_number 2021 5 3 = 17 ∧
    time_of_day_us (PyDate.datetime 2021 5 20 10 0 0 0 none)
      - time_of_day_us (PyDate.datetime 2021 5 3 22 30 15 250000 none) = -45015250000 ∧
    (precise_diff (PyDate.datetime 2021 5 3 22 30 15 250000 none)
        (PyDate.datetime 2021 5 20 10 0 0 0 none)).months = 0 :=
  ⟨by decide, by decide, by decide, by decide, by decide, by decide,
   (precise_diff_same_month_elapsed (PyDate.datetime 2021 5 3 22 30 15 250000 none)
      (PyDate.datetime 2021 5 20 10 0 0 0 none)
      (by decide) (by decide) rfl rfl rfl (by decide)).2.1⟩

/-- Counterexample to C34 as stated: the partial-month branch adds the larger, not the smaller,
of the length of the previous month and the earlier day.  From 2021-01-15 to 2021-03-10 the
day difference is -5, February has 28 days and the result has 23 days (the smaller value
would give 10); from 2021-01-31 to 2021-03-01 the day difference is -30 and the result has
1 day (the smaller value would give -2). -/
theorem precise_diff_partial_month_adds_larger :
    days_in_last_month 2021 3 = 28 ∧ DAYS_PER_MONTHS (_is_leap 2021) 3 = 31 ∧
    resolve_days 15 2021 3 (-5) 2 = (23, 1) ∧ (-5 : Int) + min 28 15 = 10 ∧
    precise_diff (PyDate.date 2021 1 15) (PyDate.date 2021 3 10) = ⟨0, 1, 23, 0, 0, 0, 0, 54⟩ ∧
    resolve_days 31 2021 3 (-30) 2 = (1, 1) ∧ (-30 : Int) + min 28 31 = -2 ∧
    precise_diff (PyDate.date 2021 1 31) (PyDate.date 2021 3 1) = ⟨0, 1, 1, 0, 0, 0, 0, 29⟩ := by
  decide

/-- C34 (amended): in `precise_diff`, when the day difference after time borrowing is negative
and less than `days_in_month - days_in_last_month` (the partial-month case), the day
difference is increased by the larger of `days_in_last_month` and the earlier day, and the
month difference is decremented by one.  First for the statements themselves, on all values;
then for the result on timezone-naive inputs `a` not later than `b` of the same kind, where
the day difference after borrowing is `b.day - a.day`, less 1 when the time of day of `b` is
before that of `a`. -/
theorem precise_diff_partial_month (dt1_day dt2_year dt2_month day_diff month_diff : Int)
    (h0 : day_diff < 0)
    (h1 : day_diff <
      DAYS_PER_MONTHS (_is_leap dt2_year) dt2_month - days_in_last_month dt2_year dt2_month)
    (a b : PyDate) (ha : ValidNaive a) (hb : ValidNaive b)
    (hk : a.is_datetime = b.is_datetime) (hle : NotLater a b)
    (hd0 : b.day - a.day - (if time_of_day_us b < time_of_day_us a then 1 else 0) < 0)
    (hd1 : b.day - a.day - (if time_of_day_us b < time_of_day_us a then 1 else 0) <
      DAYS_PER_MONTHS (_is_leap b.year) b.month - days_in_last_month b.year b.month) :
    resolve_days dt1_day dt2_year dt2_month day_diff month_diff =
      (day_diff + max (days_in_last_month dt2_year dt2_month) dt1_day, month_diff - 1) ∧
    (precise_diff a b).days =
      b.day - a.day - (if time_of_day_us b < time_of_day_us a then 1 else 0)
        + max (days_in_last_month b.year b.month) a.day ∧
    (precise_diff a b).months =
      (if b.month - a.month - 1 < 0 then b.month - a.month - 1 + 12
       else b.month - a.month - 1) := by
  refine ⟨by rw [resolve_days_eq, if_pos h0, if_pos h1], ?_⟩
  obtain ⟨ta0, ta1⟩ := time_of_day_us_bounds a ha
  obtain ⟨tb0, tb1⟩ := time_of_day_us_bounds b hb
  obtain ⟨D, H, Mi, S, U, r1, r2, r3, r4, r5, r6, r7, r8, hsum, hpd⟩ :=
    precise_diff_naive_forward a b ha hb hk hle
  have hD : D = b.day - a.day - (if time_of_day_us b < time_of_day_us a then 1 else 0) := by
    split_ifs <;> omega
  rw [← hD] at hd0 hd1 ⊢
  rw [hpd, resolve_days_eq, if_pos hd0, if_pos hd1]
  exact ⟨rfl, rfl⟩

/-- Witness for `precise_diff_partial_month`: from 2021-01-15 to 2021-03-10. -/
theorem precise_diff_partial_month_witness :
    resolve_days 15 2021 3 (-5) 2 = ((-5 : Int) + max (days_in_last_month 2021 3) 15, 2 - 1) ∧
    (precise_diff (PyDate.date 2021 1 15) (PyDate.date 2021 3 10)).days = 23 ∧
    (10 : Int) - 15 - 0 + max (days_in_last_month 2021 3) 15 = 23 :=
  ⟨(precise_diff_partial_month 15 2021 3 (-5) 2 (by decide) (by decide)
      (PyDate.date 2021 1 15) (PyDate.date 2021 3 10) (by decide) (by decide) rfl (by decide)
      (by decide) (by decide)).1,
   by decide, by decide⟩

/-! ## Digits at the end of a duration text -/

/-- The loop over a run of digits succeeds and leaves the result struct untouched. -/
theorem duration_loop_digits_parsed (g : List Char) (s : DurationScan) (hg : IsDigitStr g) :
    ∃ s1, duration_loop g s = .ok s1 ∧ s1.parsed = s.parsed := by
  induction g generalizing s with
  | nil => exact ⟨s, rfl, rfl⟩
  | cons d ds ih =>
    have hd : is_digit d = true := hg d (List.mem_cons_self _ _)
    have hds : IsDigitStr ds := fun c hc => hg c (List.mem_cons_of_mem _ hc)
    have h0 := (is_digit_ne_designator d hd).1
    rw [duration_loop, if_neg h0]
    by_cases hf : s.in_fraction = 0
    · simp only [duration_step_digit s d hd hf]
      obtain ⟨s1, h1, h2⟩ := ih { s with value := accumulate s.value d, grabbed := 1 } hds
      exact ⟨s1, h1, h2⟩
    · simp only [duration_step_fraction_digit s d hd hf]
      obtain ⟨s1, h1, h2⟩ := ih { s with fraction := accumulate s.fraction d,
                                          fraction_length := s.fraction_length + 1 } hds
      exact ⟨s1, h1, h2⟩

/-- Digits appended to a text on which the loop succeeds do not change the result struct. -/
theorem duration_loop_append_digits (t g : List Char) (s s1 : DurationScan)
    (hg : IsDigitStr g) (h : duration_loop t s = .ok s1) :
    ∃ s2, duration_loop (t ++ g) s = .ok s2 ∧ s2.parsed = s1.parsed := by
  induction t generalizing s with
  | nil =>
    have e : s = s1 := Except.ok.inj h
    subst e
    exact duration_loop_digits_parsed g s hg
  | cons c cs ih =>
    by_cases hc : c = NUL
    · rw [duration_loop, if_pos hc] at h
      have e : s = s1 := Except.ok.inj h
      subst e
      exact ⟨s, by rw [List.cons_append, duration_loop, if_pos hc], rfl⟩
    · obtain ⟨s', hstep, hloop⟩ := duration_loop_cons_ok c cs s s1 hc h
      obtain ⟨s2, h2, h3⟩ := ih s' hloop
      refine ⟨s2, ?_, h3⟩
      rw [List.cons_append, duration_loop, if_neg hc]
      simp only [hstep]
      exact h2

/-- C39: digits that are not followed by a unit designator are ignored by the duration parser:
for every text `s` that starts with `P` and is accepted by `_parse_iso8601_duration` (in
particular one that ends in a unit designator, is just `P`, or ends in `T`) and every digit
string `g`, the text `s` followed by `g` is also accepted, with the same result struct, and
`parse_iso8601` returns the same eight duration components for both. -/
theorem parse_duration_ignores_trailing_digits (s g : List Char) (P : Parsed)
    (hs : peek s = 'P') (hacc : _parse_iso8601_duration s new_parsed = .ok P)
    (hg : IsDigitStr g) :
    _parse_iso8601_duration (s ++ g) new_parsed = .ok P ∧
    parse_iso8601 (s ++ g) = parse_iso8601 s := by
  have hne : s ≠ [] := by
    intro h
    rw [h] at hs
    exact absurd hs (by decide)
  have hd : _parse_iso8601_duration (s ++ g) new_parsed = .ok P := by
    unfold _parse_iso8601_duration at hacc ⊢
    rw [tail_append s g hne]
    rcases hl : duration_loop s.tail (duration_init new_parsed) with e | s1
    · simp only [hl] at hacc
      cases hacc
    · simp only [hl] at hacc
      obtain ⟨s2, h2, h3⟩ := duration_loop_append_digits s.tail g _ s1 hg hl
      simp only [h2]
      rw [h3]
      exact hacc
  refine ⟨hd, ?_⟩
  unfold parse_iso8601
  simp only [peek_append s g hne, hs, if_true, hd, hacc]

/-- Witness for `parse_duration_ignores_trailing_digits`: `P` and `P5` are both accepted as the
all-zero duration, and `P1Y2M3` gives the components of `P1Y2M`. -/
theorem parse_duration_ignores_trailing_digits_witness :
    parse_iso8601 "P".toList = .ok (.duration 0 0 0 0 0 0 0 0) ∧
    parse_iso8601 ("P".toList ++ "5".toList) = parse_iso8601 "P".toList ∧
    parse_iso8601 ("P1Y2M".toList ++ "3".toList) = parse_iso8601 "P1Y2M".toList ∧
    parse_iso8601 "P1Y2M3".toList = .ok (.duration 1 2 0 0 0 0 0 0) :=
  ⟨by rfl,
   (parse_duration_ignores_trailing_digits "P".toList "5".toList
      { new_parsed with is_duration := 1 } (by decide) (by rfl) (by decide)).2,
   (parse_duration_ignores_trailing_digits "P1Y2M".toList "3".toList
      { new_parsed with is_duration := 1, years := 1, months := 2 } (by decide) (by rfl)
      (by decide)).2,
   by rfl⟩

end Pendulum
